import Mathlib

/-! # ASPEED I2C bus driver (`drivers/i2c/busses/i2c-ast.c`)

A shallow embedding of the transfer engine of the driver: the arm routines of
the four transfer modes, the completion routines, the interrupt handler, the
bus recovery code, the submit path, the slave receive ring with the entry point
of its consumer and the clock selection, as state-passing functions over a
record that mirrors `struct ast_i2c_dev`; the SPI clock divisor of
`arch/arm/plat-aspeed/dev-spi-fb.c` is embedded next to them.

Conventions of the embedding.

* The build modelled has `CONFIG_AST_I2C_SLAVE_RDWR` and
  `CONFIG_AST_I2C_SLAVE_MODE` set and `CONFIG_AST_I2C_SLAVE_EEPROM` unset; the
  board options, the SoC generation, `CONFIG_ARCH_AST2400` and
  `CONFIG_AST1010` are fields of `Config`.
* Registers are a map from register names to the value a read returns.  A write
  is appended to the log `writes`; it changes the value read back for the
  registers that are plain storage, and in the interrupt-status register, which
  is write-one-to-clear, it clears the bits written as 1.  The values of the
  status registers are chosen by the hardware: they are latched from an `Irq`
  when an interrupt is taken and from a `WaitResp` when a wait inside the
  recovery code returns.
* A wait for completion in the submit path runs the interrupt handler on the
  interrupts the hardware raises until `complete` has been called; a wait with
  no completing interrupt is a timeout.
* `int` is `Int`, unsigned fields are `Nat` reduced modulo their width where
  the code can wrap.
-/

set_option autoImplicit false

namespace AstI2c

/-! ## Constants declared in the driver itself -/

def I2C_S_BUF_SIZE : Nat := 4096
def I2C_S_RX_BUF_NUM : Nat := 20
def BUFF_FULL : Nat := 0xff00
def BUFF_ONGOING : Nat := 1
def AST_LOCKUP_DETECTED : Nat := 0x1 <<< 15

/-- Bit numbers of `adap.bus_status`, the anonymous enum of the driver. -/
def BUS_LOCK_RECOVER_ERROR : Nat := 0
def BUS_LOCK_RECOVER_TIMEOUT : Nat := 1
def BUS_LOCK_RECOVER_SUCCESS : Nat := 2
def BUS_LOCK_PRESERVE : Nat := 3
def SLAVE_DEAD_RECOVER_ERROR : Nat := 4
def SLAVE_DEAD_RECOVER_TIMEOUT : Nat := 5
def SLAVE_DEAD_RECOVER_SUCCESS : Nat := 6
def SLAVE_DEAD_PRESERVE : Nat := 7
def UNDEFINED_CASE : Nat := 8

/-! ## Constants of headers that are not part of the sources -/

/-- Modelled from the spec: the named registers of the register interface
(function-control, AC timing 1 and 2, interrupt-control, interrupt-status,
command, device address, buffer-control, byte-data, DMA base and DMA length).
Their offsets are declared in `plat/regs-iic.h`, which is not among the
sources; only the identity of a register matters here. -/
inductive Reg where
  | I2C_FUN_CTRL_REG
  | I2C_AC_TIMING_REG1
  | I2C_AC_TIMING_REG2
  | I2C_INTR_CTRL_REG
  | I2C_INTR_STS_REG
  | I2C_CMD_REG
  | I2C_DEV_ADDR_REG
  | I2C_BUF_CTRL_REG
  | I2C_BYTE_BUF_REG
  | I2C_DMA_BASE_REG
  | I2C_DMA_LEN_REG
  deriving DecidableEq, Repr

open Reg

/-- Modelled from the spec: bits of the function-control register
(`plat/regs-iic.h`, not among the sources): master enable. -/
def AST_I2CD_MASTER_EN : Nat := 0x1
/-- Modelled from the spec: function-control bit, slave enable. -/
def AST_I2CD_SLAVE_EN : Nat := 0x1 <<< 1
/-- Modelled from the spec: function-control bit, master high speed. -/
def AST_I2CD_M_HIGH_SPEED_EN : Nat := 0x1 <<< 6
/-- Modelled from the spec: function-control bit, master SDA drive 1T. -/
def AST_I2CD_M_SDA_DRIVE_1T_EN : Nat := 0x1 <<< 7
/-- Modelled from the spec: function-control bit, SDA drive 1T. -/
def AST_I2CD_SDA_DRIVE_1T_EN : Nat := 0x1 <<< 8
/-- Modelled from the spec: function-control field, buffer page selection. -/
def AST_I2CD_BUFF_SEL_MASK : Nat := 0x7 <<< 20
/-- Modelled from the spec: function-control field, buffer page selection. -/
def AST_I2CD_BUFF_SEL (x : Nat) : Nat := x <<< 20

/-- Modelled from the spec: AC timing fields used by the FBTTN board code. -/
def AST_I2CD_CLK_TO_BASE_DIV : Nat := 0x1 <<< 8
/-- Modelled from the spec: AC timing 2 field, timeout. -/
def AST_I2CD_tTIMEOUT : Nat := 0x1
/-- Modelled from the spec: AC timing 2 value, no timeout control. -/
def AST_NO_TIMEOUT_CTRL : Nat := 0x0

/-- Modelled from the spec: interrupt-control enable bits
(`plat/regs-iic.h`, not among the sources). -/
def AST_I2CD_SDA_DL_TO_INTR_EN : Nat := 0x1 <<< 14
/-- Modelled from the spec: interrupt-control bit. -/
def AST_I2CD_BUS_RECOVER_INTR_EN : Nat := 0x1 <<< 13
/-- Modelled from the spec: interrupt-control bit. -/
def AST_I2CD_SMBUS_ALT_INTR_EN : Nat := 0x1 <<< 12
/-- Modelled from the spec: interrupt-control bit. -/
def AST_I2CD_SCL_TO_INTR_EN : Nat := 0x1 <<< 6
/-- Modelled from the spec: interrupt-control bit. -/
def AST_I2CD_ABNORMAL_INTR_EN : Nat := 0x1 <<< 5
/-- Modelled from the spec: interrupt-control bit. -/
def AST_I2CD_NORMAL_STOP_INTR_EN : Nat := 0x1 <<< 4
/-- Modelled from the spec: interrupt-control bit. -/
def AST_I2CD_ARBIT_LOSS_INTR_EN : Nat := 0x1 <<< 3
/-- Modelled from the spec: interrupt-control bit. -/
def AST_I2CD_RX_DOWN_INTR_EN : Nat := 0x1 <<< 2
/-- Modelled from the spec: interrupt-control bit. -/
def AST_I2CD_TX_NAK_INTR_EN : Nat := 0x1 <<< 1
/-- Modelled from the spec: interrupt-control bit. -/
def AST_I2CD_TX_ACK_INTR_EN : Nat := 0x1

/-- Modelled from the spec: interrupt-status bits (`plat/regs-iic.h`, not
among the sources); every named condition is one bit of its own. -/
def AST_I2CD_INTR_STS_SDA_DL_TO : Nat := 0x1 <<< 14
/-- Modelled from the spec: interrupt-status bit, bus recovery done. -/
def AST_I2CD_INTR_STS_BUS_RECOVER : Nat := 0x1 <<< 13
/-- Modelled from the spec: interrupt-status bit, SMBus alert. -/
def AST_I2CD_INTR_STS_SMBUS_ALT : Nat := 0x1 <<< 12
/-- Modelled from the spec: interrupt-status bit. -/
def AST_I2CD_INTR_STS_SMBUS_ARP_ADDR : Nat := 0x1 <<< 11
/-- Modelled from the spec: interrupt-status bit. -/
def AST_I2CD_INTR_STS_SMBUS_DEV_ALT : Nat := 0x1 <<< 10
/-- Modelled from the spec: interrupt-status bit. -/
def AST_I2CD_INTR_STS_SMBUS_DEF_ADDR : Nat := 0x1 <<< 9
/-- Modelled from the spec: interrupt-status bit, general call address. -/
def AST_I2CD_INTR_STS_GCALL_ADDR : Nat := 0x1 <<< 8
/-- Modelled from the spec: interrupt-status bit, slave address match. -/
def AST_I2CD_INTR_STS_SLAVE_MATCH : Nat := 0x1 <<< 7
/-- Modelled from the spec: interrupt-status bit, clock-low timeout. -/
def AST_I2CD_INTR_STS_SCL_TO : Nat := 0x1 <<< 6
/-- Modelled from the spec: interrupt-status bit, abnormal condition. -/
def AST_I2CD_INTR_STS_ABNORMAL : Nat := 0x1 <<< 5
/-- Modelled from the spec: interrupt-status bit, normal stop. -/
def AST_I2CD_INTR_STS_NORMAL_STOP : Nat := 0x1 <<< 4
/-- Modelled from the spec: interrupt-status bit, arbitration loss. -/
def AST_I2CD_INTR_STS_ARBIT_LOSS : Nat := 0x1 <<< 3
/-- Modelled from the spec: interrupt-status bit, receive done. -/
def AST_I2CD_INTR_STS_RX_DOWN : Nat := 0x1 <<< 2
/-- Modelled from the spec: interrupt-status bit, transmit NACK. -/
def AST_I2CD_INTR_STS_TX_NAK : Nat := 0x1 <<< 1
/-- Modelled from the spec: interrupt-status bit, transmit ACK. -/
def AST_I2CD_INTR_STS_TX_ACK : Nat := 0x1

/-- Modelled from the spec: command/status register, line and busy status
(`plat/regs-iic.h`, not among the sources; the positions are those printed by
the debug message of `ast_i2c_xfer`: SCL bit 18, SDA bit 17, busy bit 16). -/
def AST_I2CD_SCL_LINE_STS : Nat := 0x1 <<< 18
/-- Modelled from the spec: command/status bit, SDA line level. -/
def AST_I2CD_SDA_LINE_STS : Nat := 0x1 <<< 17
/-- Modelled from the spec: command/status bit, bus busy. -/
def AST_I2CD_BUS_BUSY_STS : Nat := 0x1 <<< 16
/-- Modelled from the spec: command bit, hardware bus recovery. -/
def AST_I2CD_BUS_RECOVER_CMD_EN : Nat := 0x1 <<< 11
/-- Modelled from the spec: command bit, slave alert. -/
def AST_I2CD_S_ALT_EN : Nat := 0x1 <<< 10
/-- Modelled from the spec: command bit, receive by DMA. -/
def AST_I2CD_RX_DMA_ENABLE : Nat := 0x1 <<< 9
/-- Modelled from the spec: command bit, transmit by DMA. -/
def AST_I2CD_TX_DMA_ENABLE : Nat := 0x1 <<< 8
/-- Modelled from the spec: command bit, receive into the pool buffer. -/
def AST_I2CD_RX_BUFF_ENABLE : Nat := 0x1 <<< 7
/-- Modelled from the spec: command bit, transmit from the pool buffer. -/
def AST_I2CD_TX_BUFF_ENABLE : Nat := 0x1 <<< 6
/-- Modelled from the spec: command bit, master STOP. -/
def AST_I2CD_M_STOP_CMD : Nat := 0x1 <<< 5
/-- Modelled from the spec: command bit, last receive (NACK the byte). -/
def AST_I2CD_M_S_RX_CMD_LAST : Nat := 0x1 <<< 4
/-- Modelled from the spec: command bit, master receive. -/
def AST_I2CD_M_RX_CMD : Nat := 0x1 <<< 3
/-- Modelled from the spec: command bit, slave transmit. -/
def AST_I2CD_S_TX_CMD : Nat := 0x1 <<< 2
/-- Modelled from the spec: command bit, master transmit. -/
def AST_I2CD_M_TX_CMD : Nat := 0x1 <<< 1
/-- Modelled from the spec: command bit, master START. -/
def AST_I2CD_M_START_CMD : Nat := 0x1
/-- Modelled from the spec: idle value of the 4-bit transaction state. -/
def AST_I2CD_IDLE : Nat := 0x0

/-- Modelled from the spec: byte-data register, received byte field. -/
def AST_I2CD_RX_BYTE_BUFFER : Nat := 0xff <<< 8

/-- Modelled from the spec: buffer-control register accessors
(`plat/regs-iic.h`, not among the sources). -/
def AST_I2CD_RX_BUF_ADDR_GET (x : Nat) : Nat := (x >>> 24) &&& 0xff
/-- Modelled from the spec: buffer-control field, receive end. -/
def AST_I2CD_RX_BUF_END_ADDR_SET (x : Nat) : Nat := (x <<< 16) % 2 ^ 32
/-- Modelled from the spec: buffer-control field, transmit end. -/
def AST_I2CD_TX_DATA_BUF_END_SET (x : Nat) : Nat := (x &&& 0xff) <<< 8
/-- Modelled from the spec: buffer-control field, transmit count. -/
def AST_I2CD_TX_DATA_BUF_GET (x : Nat) : Nat := (x >>> 8) &&& 0xff
/-- Modelled from the spec: buffer-control field, buffer base. -/
def AST_I2CD_BUF_BASE_ADDR_SET (x : Nat) : Nat := x &&& 0x3f

/-- Modelled from the spec: message flags of `linux/i2c.h` (read direction,
receive-length-prefixed, ignore-NACK, no-start), not among the sources. -/
def I2C_M_RD : Nat := 0x0001
/-- Modelled from the spec: block read, length in the first received byte. -/
def I2C_M_RECV_LEN : Nat := 0x0400
/-- Modelled from the spec: ignore a NACK of the remote device. -/
def I2C_M_IGNORE_NAK : Nat := 0x1000
/-- Modelled from the spec: no START and no address for this message. -/
def I2C_M_NOSTART : Nat := 0x4000

/-- Modelled from the spec: error numbers of `linux/errno.h`. -/
def EAGAIN : Int := 11
/-- Modelled from the spec: error number, connection timed out. -/
def ETIMEDOUT : Int := 110
/-- Modelled from the spec: error number, remote I/O error. -/
def EREMOTEIO : Int := 121

/-- Complement of a mask in a 32-bit word, the C `~m` of a `u32`. -/
def not32 (m : Nat) : Nat := 0xFFFFFFFF ^^^ m

/-- Conversion of an `int` to `u32`. -/
def u32 (x : Int) : Nat := (x % 2 ^ 32).toNat

/-- Increment of a `u16` counter. -/
def inc16 (x : Nat) : Nat := (x + 1) % 2 ^ 16

/-! ## Data model -/

/-- Transfer mode of `master_xfer_mode` and `slave_xfer_mode`
(`BYTE_XFER`, `BUFF_XFER`, `DEC_DMA_XFER`, `INC_DMA_XFER`). -/
inductive XferMode where
  | BYTE_XFER | BUFF_XFER | DEC_DMA_XFER | INC_DMA_XFER
  deriving DecidableEq, Repr

/-- Configured mode of the platform data (`master_dma`, `slave_dma`). -/
inductive DmaMode where
  | BYTE_MODE | BUFF_MODE | DEC_DMA_MODE | INC_DMA_MODE
  deriving DecidableEq, Repr

/-- The arm routine a `do_master_xfer` / `do_slave_xfer` pointer holds. -/
inductive XferFn where
  | byte | pool | dec_dma | inc_dma
  deriving DecidableEq, Repr

/-- Slave events (`I2C_SLAVE_EVENT_*`). -/
inductive SlaveEvent where
  | START_READ | START_WRITE | READ | WRITE | NACK | STOP
  deriving DecidableEq, Repr

/-- Board options that change the code. `fby2` stands for `CONFIG_FBY2` or
`CONFIG_MINILAKETB`, `fbtp` for `CONFIG_FBTP` or `CONFIG_PWNEPTUNE`. -/
inductive Board where
  | generic | fbttn | yosemite | fby2 | fbtp
  deriving DecidableEq, Repr

/-- SoC generation (`AST_SOC_G4`, `AST_SOC_G5`, or neither). -/
inductive Soc where
  | other | g4 | g5
  deriving DecidableEq, Repr

/-- Build options and platform data (`struct ast_i2c_driver_data`). -/
structure Config where
  board : Board := Board.generic
  soc : Soc := Soc.other
  arch_ast2400 : Bool := false
  ast1010 : Bool := false
  bus_clk : Nat := 100000
  clk : Nat := 24000000
  master_dma : DmaMode := DmaMode.BYTE_MODE
  slave_dma : DmaMode := DmaMode.BYTE_MODE
  AST_I2C_PAGE_SIZE : Nat := 256
  AST_I2C_DMA_SIZE : Nat := 4096
  deriving Repr

/-- One message, `struct i2c_msg`. `buf` is the caller's buffer. -/
structure i2c_msg where
  addr : Nat := 0
  flags : Nat := 0
  len : Nat := 0
  buf : List Nat := []
  deriving DecidableEq, Repr

/-- One page of the buffer pool, `struct buf_page`; `mem` is the memory at
`page_addr`, as 32-bit words. -/
structure buf_page where
  page_no : Nat := 0
  page_size : Nat := 0
  page_addr_point : Nat := 0
  mem : List Nat := []
  deriving DecidableEq, Repr

/-- Target of the `slave_msgs` pointer: a slot of the receive ring or the
transmit message. -/
inductive SlaveRef where
  | rx (i : Nat)
  | tx
  deriving DecidableEq, Repr

/-- A call of the page allocator that took effect: a page handed out by
`request_pool_buff_page`, or a page passed to `free_pool_buff_page`. -/
inductive PoolEvent where
  | got (page_no : Nat)
  | freed (page_no : Nat)
  deriving DecidableEq, Repr

/-- The controller instance, `struct ast_i2c_dev`, together with the registers
(`regs`, `writes`), the fields of `adap` the driver uses and the calls made to
the page allocator (`pool_log`). `master_msgs` holds the message the pointer
refers to, `none` for `NULL`. -/
structure ast_i2c_dev where
  regs : Reg → Nat := fun _ => 0
  writes : List (Reg × Nat) := []
  bus_id : Nat := 0
  state : Nat := 0
  req_page : buf_page := {}
  dma_buf : List Nat := []
  dma_addr : Nat := 0
  xfer_last : Int := 0
  master_msgs : Option i2c_msg := none
  master_xfer_len : Int := 0
  master_xfer_cnt : Int := 0
  master_xfer_mode : XferMode := XferMode.BYTE_XFER
  cmd_complete : Nat := 0
  cmd_err : Nat := 0
  blk_r_flag : Nat := 0
  do_master_xfer : XferFn := XferFn.byte
  slave_operation : Nat := 0
  slave_event : SlaveEvent := SlaveEvent.STOP
  slave_msgs : SlaveRef := SlaveRef.rx 0
  slave_xfer_len : Int := 0
  slave_xfer_cnt : Int := 0
  slave_xfer_mode : XferMode := XferMode.BYTE_XFER
  do_slave_xfer : XferFn := XferFn.byte
  slave_rx_msg : List i2c_msg := []
  slave_tx_msg : i2c_msg := {}
  slave_rx_in : Nat := 0
  slave_rx_out : Nat := 0
  func_ctrl_reg : Nat := 0
  master_xfer_first : Nat := 0
  bus_master_reset_cnt : Nat := 0
  bus_slave_recovery_cnt : Nat := 0
  data_ready : Nat := 0
  bus_status : Nat := 0
  retries : Int := 3
  pool_log : List PoolEvent := []

/-- What the hardware answers to a wait inside the recovery code: the value
`wait_for_completion_timeout` returns (0 for a timeout), the error bits the
interrupt handler accumulated during the wait, and the command/status register
as read after the wait. -/
structure WaitResp where
  ret : Nat := 1
  cmd_err : Nat := 0
  cmd : Nat := 0
  deriving DecidableEq, Repr

/-- Answers of the hardware to one run of the recovery code: to the STOP
command of the bus-lock path and to each attempt of the slave reset. -/
structure RecoverEnv where
  stop : WaitResp := {}
  slave : List WaitResp := []
  deriving DecidableEq, Repr

/-! ## Register access -/

/-- The registers whose read value is the value last written. -/
def Reg.isStorage : Reg → Bool
  | I2C_FUN_CTRL_REG => true
  | I2C_AC_TIMING_REG1 => true
  | I2C_AC_TIMING_REG2 => true
  | I2C_INTR_CTRL_REG => true
  | I2C_DEV_ADDR_REG => true
  | I2C_DMA_BASE_REG => true
  | _ => false

/-- A register write. A storage register takes the value; in the
interrupt-status register the bits written as 1 are cleared; the other
registers are driven by the hardware. Every write is logged. -/
def ast_i2c_write (s : ast_i2c_dev) (val : Nat) (reg : Reg) : ast_i2c_dev :=
  { s with
    regs :=
      if reg.isStorage then Function.update s.regs reg val
      else if reg = I2C_INTR_STS_REG then
        Function.update s.regs reg (s.regs reg &&& not32 val)
      else s.regs
    writes := s.writes ++ [(reg, val)] }

def ast_i2c_read (s : ast_i2c_dev) (reg : Reg) : Nat := s.regs reg

/-- Calls of `complete(&cmd_complete)` and `init_completion`. -/
def complete (s : ast_i2c_dev) : ast_i2c_dev :=
  { s with cmd_complete := s.cmd_complete + 1 }

def init_completion (s : ast_i2c_dev) : ast_i2c_dev :=
  { s with cmd_complete := 0 }

/-- The message `slave_msgs` points to. -/
def slave_msg (s : ast_i2c_dev) : i2c_msg :=
  match s.slave_msgs with
  | SlaveRef.rx i => s.slave_rx_msg.getD i {}
  | SlaveRef.tx => s.slave_tx_msg

/-- Store through the `slave_msgs` pointer. -/
def set_slave_msg (s : ast_i2c_dev) (m : i2c_msg) : ast_i2c_dev :=
  match s.slave_msgs with
  | SlaveRef.rx i => { s with slave_rx_msg := s.slave_rx_msg.set i m }
  | SlaveRef.tx => { s with slave_tx_msg := m }

/-- Byte `i` of a byte buffer; an index outside the buffer reads 0. -/
def byteAt (buf : List Nat) (i : Int) : Nat := buf.getD i.toNat 0

/-- Store of byte `v` at index `i` of a byte buffer. -/
def setByte (buf : List Nat) (i : Int) (v : Nat) : List Nat := buf.set i.toNat v

/-! ## Clock and controller initialisation -/

/-- The halving loop of `select_i2c_clock`:
`for (div = 0; divider_ratio >= 16; div++)`. The first argument bounds the
number of iterations. -/
def clock_halving : Nat → Nat → Nat → Nat → Nat × Nat × Nat
  | 0, divider_ratio, inc, div => (divider_ratio, inc, div)
  | fuel + 1, divider_ratio, inc, div =>
    if divider_ratio ≥ 16 then
      clock_halving fuel (divider_ratio >>> 1) (inc ||| (divider_ratio &&& 1)) (div + 1)
    else (divider_ratio, inc, div)

def select_i2c_clock (cfg : Config) : Nat :=
  if cfg.board = Board.fbttn ∧ cfg.bus_clk = 1000000 then 0x77799300
  else if cfg.board = Board.yosemite ∧ cfg.bus_clk = 1000000 then 0x77744302
  else if cfg.board = Board.fby2 ∧ cfg.bus_clk = 1000000 then 0xFFF5E700
  else if cfg.board = Board.fby2 ∧ cfg.bus_clk = 400000 then 0xFFF68302
  else if cfg.board = Board.fbtp ∧ cfg.bus_clk = 1000000 then 0x77744302
  else if cfg.board = Board.fbtp ∧ cfg.bus_clk = 400000 then 0xFFF68302
  else if cfg.board = Board.fbtp ∧ cfg.bus_clk = 100000 then 0xFFFFE303
  else
    let clk := cfg.clk
    let divider_ratio := clk / cfg.bus_clk
    let r := clock_halving divider_ratio divider_ratio 0 0
    let divider_ratio := r.1 + r.2.1
    let div := r.2.2
    let SCL_Low := ((divider_ratio >>> 1) + 2 ^ 32 - 1) % 2 ^ 32
    let SCL_High := (divider_ratio + 2 * 2 ^ 32 - SCL_Low - 2) % 2 ^ 32
    0x77700300 ||| ((SCL_High <<< 16) % 2 ^ 32) ||| ((SCL_Low <<< 12) % 2 ^ 32) ||| div

def ast_i2c_dev_init (cfg : Config) (s : ast_i2c_dev) : ast_i2c_dev :=
  let s := ast_i2c_write s 0 I2C_FUN_CTRL_REG
  let s := { s with slave_msgs := SlaveRef.rx 0 }
  let s := ast_i2c_write s (ast_i2c_read s I2C_FUN_CTRL_REG ||| AST_I2CD_MASTER_EN)
    I2C_FUN_CTRL_REG
  let s :=
    if cfg.arch_ast2400 then
      if cfg.board ≠ Board.yosemite ∧ cfg.bus_clk / 1000 > 400 then
        let s := ast_i2c_write s
          (ast_i2c_read s I2C_FUN_CTRL_REG ||| AST_I2CD_M_HIGH_SPEED_EN |||
            AST_I2CD_M_SDA_DRIVE_1T_EN ||| AST_I2CD_SDA_DRIVE_1T_EN) I2C_FUN_CTRL_REG
        let s := ast_i2c_write s 0x3 I2C_AC_TIMING_REG2
        ast_i2c_write s (select_i2c_clock cfg) I2C_AC_TIMING_REG1
      else
        let s := ast_i2c_write s (select_i2c_clock cfg) I2C_AC_TIMING_REG1
        ast_i2c_write s AST_NO_TIMEOUT_CTRL I2C_AC_TIMING_REG2
    else
      let s :=
        if cfg.board ≠ Board.fby2 ∧ cfg.bus_clk / 1000 > 400 then
          ast_i2c_write s
            (ast_i2c_read s I2C_FUN_CTRL_REG ||| AST_I2CD_M_SDA_DRIVE_1T_EN |||
              AST_I2CD_SDA_DRIVE_1T_EN) I2C_FUN_CTRL_REG
        else s
      let s := ast_i2c_write s (select_i2c_clock cfg) I2C_AC_TIMING_REG1
      ast_i2c_write s AST_NO_TIMEOUT_CTRL I2C_AC_TIMING_REG2
  let s := ast_i2c_write s 0xfffffff I2C_INTR_STS_REG
  let s := ast_i2c_write s
    (AST_I2CD_SDA_DL_TO_INTR_EN ||| AST_I2CD_BUS_RECOVER_INTR_EN |||
      AST_I2CD_SMBUS_ALT_INTR_EN ||| AST_I2CD_SCL_TO_INTR_EN |||
      AST_I2CD_ABNORMAL_INTR_EN ||| AST_I2CD_NORMAL_STOP_INTR_EN |||
      AST_I2CD_ARBIT_LOSS_INTR_EN ||| AST_I2CD_RX_DOWN_INTR_EN |||
      AST_I2CD_TX_NAK_INTR_EN ||| AST_I2CD_TX_ACK_INTR_EN) I2C_INTR_CTRL_REG
  let s :=
    if cfg.board = Board.fbttn ∧ s.bus_id = 12 then
      let s := ast_i2c_write s (ast_i2c_read s I2C_FUN_CTRL_REG ||| (0x1 <<< 17))
        I2C_FUN_CTRL_REG
      let s := ast_i2c_write s
        ((ast_i2c_read s I2C_AC_TIMING_REG1 ||| (AST_I2CD_CLK_TO_BASE_DIV <<< 1)) &&&
          not32 AST_I2CD_CLK_TO_BASE_DIV) I2C_AC_TIMING_REG1
      ast_i2c_write s (AST_I2CD_tTIMEOUT <<< 1) I2C_AC_TIMING_REG2
    else s
  let s := init_completion s
  { s with func_ctrl_reg := ast_i2c_read s I2C_FUN_CTRL_REG }

/-! ## Slave receive ring -/

/-- The receive slots of `ast_i2c_slave_buff_init`: `I2C_S_RX_BUF_NUM + 1`
empty messages with zeroed buffers of `I2C_S_BUF_SIZE` bytes. -/
def ast_i2c_slave_buff_init (s : ast_i2c_dev) : ast_i2c_dev :=
  { s with
    slave_tx_msg := { s.slave_tx_msg with
      len := I2C_S_BUF_SIZE, buf := List.replicate I2C_S_BUF_SIZE 0 }
    slave_rx_msg := List.replicate (I2C_S_RX_BUF_NUM + 1)
      { addr := (0xFFFF ^^^ BUFF_ONGOING), flags := 0, len := I2C_S_BUF_SIZE,
        buf := List.replicate I2C_S_BUF_SIZE 0 }
    slave_rx_in := 0
    slave_rx_out := 0
    data_ready := 0 }

def ast_i2c_slave_rdwr_xfer (s : ast_i2c_dev) : ast_i2c_dev :=
  match s.slave_event with
  | SlaveEvent.START_WRITE =>
    let slot := s.slave_rx_msg.getD s.slave_rx_in {}
    let s :=
      if slot.flags ≠ 0 then
        let s := { s with slave_rx_out := (s.slave_rx_in + 1) % I2C_S_RX_BUF_NUM }
        let slot := { slot with flags := 0 }
        let s := { s with slave_rx_msg := s.slave_rx_msg.set s.slave_rx_in slot }
        if s.data_ready > 0 then { s with data_ready := s.data_ready - 1 } else s
      else s
    let slot := s.slave_rx_msg.getD s.slave_rx_in {}
    let slot := { slot with addr := BUFF_ONGOING }
    let s := { s with slave_rx_msg := s.slave_rx_msg.set s.slave_rx_in slot }
    { s with slave_msgs := SlaveRef.rx s.slave_rx_in }
  | SlaveEvent.START_READ => { s with slave_msgs := SlaveRef.tx }
  | SlaveEvent.WRITE => { s with slave_msgs := SlaveRef.tx }
  | SlaveEvent.READ => { s with slave_msgs := SlaveRef.tx }
  | SlaveEvent.NACK => { s with slave_msgs := SlaveRef.tx }
  | SlaveEvent.STOP =>
    let m := slave_msg s
    let s :=
      if m.flags &&& I2C_M_RD = 0 ∧ m.addr = BUFF_ONGOING then
        let s := set_slave_msg s { m with flags := BUFF_FULL, addr := 0 }
        let s := { s with slave_rx_in := (s.slave_rx_in + 1) % I2C_S_RX_BUF_NUM }
        if s.data_ready < I2C_S_RX_BUF_NUM then { s with data_ready := s.data_ready + 1 }
        else s
      else s
    { s with slave_msgs := SlaveRef.tx }

/-! ## Bus recovery -/

/-- The state after a wait inside the recovery code returned: the error bits
of the handler and the command/status register are those of the answer. -/
def recover_wait (r : WaitResp) (s : ast_i2c_dev) : ast_i2c_dev :=
  { s with
    cmd_err := r.cmd_err
    cmd_complete := 0
    regs := Function.update s.regs I2C_CMD_REG r.cmd }

/-- The retry loop of `ast_i2c_slave_reset`, from attempt `i` on; the first
argument is the number of attempts left (`10 - i`). The result is the return
value of the function (`-1` as `u8` is 255). -/
def slave_reset_loop (cfg : Config) (tmp_func_ctrl_reg : Nat) :
    Nat → List WaitResp → ast_i2c_dev → Nat × ast_i2c_dev
  | 0, _, s =>
    let s := { s with func_ctrl_reg := tmp_func_ctrl_reg }
    let s := { s with bus_status := s.bus_status ||| (0x1 <<< SLAVE_DEAD_RECOVER_ERROR) }
    (255, s)
  | n + 1, resps, s =>
    let s := ast_i2c_dev_init cfg s
    let s := { s with bus_slave_recovery_cnt := inc16 s.bus_slave_recovery_cnt }
    let s := init_completion s
    let s := { s with cmd_err := 0 }
    let s := ast_i2c_write s AST_I2CD_BUS_RECOVER_CMD_EN I2C_CMD_REG
    let s := recover_wait (resps.headD {}) s
    if s.cmd_err ≠ 0 ∧ s.cmd_err ≠ AST_I2CD_INTR_STS_NORMAL_STOP then
      let s := { s with func_ctrl_reg := tmp_func_ctrl_reg }
      let s := { s with bus_status := s.bus_status ||| (0x1 <<< SLAVE_DEAD_RECOVER_ERROR) }
      (255, s)
    else
      let sts := ast_i2c_read s I2C_CMD_REG
      if sts &&& AST_I2CD_SDA_LINE_STS ≠ 0 then
        let s := { s with func_ctrl_reg := tmp_func_ctrl_reg }
        let s := { s with
          bus_status := s.bus_status ||| (0x1 <<< SLAVE_DEAD_RECOVER_SUCCESS) }
        (0, s)
      else slave_reset_loop cfg tmp_func_ctrl_reg n resps.tail s

def ast_i2c_slave_reset (cfg : Config) (resps : List WaitResp) (s : ast_i2c_dev) :
    Nat × ast_i2c_dev :=
  slave_reset_loop cfg s.func_ctrl_reg 10 resps s

def ast_i2c_bus_error_recover (cfg : Config) (env : RecoverEnv) (s : ast_i2c_dev) :
    Nat × ast_i2c_dev :=
  let sts := ast_i2c_read s I2C_CMD_REG
  if sts &&& AST_I2CD_SDA_LINE_STS ≠ 0 ∧ sts &&& AST_I2CD_SCL_LINE_STS ≠ 0 then
    (255, s)
  else if sts &&& AST_I2CD_SDA_LINE_STS ≠ 0 ∧ ¬ (sts &&& AST_I2CD_SCL_LINE_STS ≠ 0) then
    let s := init_completion s
    let s := { s with cmd_err := 0 }
    let s := ast_i2c_write s AST_I2CD_M_STOP_CMD I2C_CMD_REG
    let ret := env.stop.ret
    let s := recover_wait env.stop s
    if s.cmd_err ≠ 0 ∧ s.cmd_err ≠ AST_I2CD_INTR_STS_NORMAL_STOP then
      (255, { s with bus_status := s.bus_status ||| (0x1 <<< BUS_LOCK_RECOVER_ERROR) })
    else if ret = 0 then
      (255, { s with bus_status := s.bus_status ||| (0x1 <<< BUS_LOCK_RECOVER_TIMEOUT) })
    else
      (0, { s with bus_status := s.bus_status ||| (0x1 <<< BUS_LOCK_RECOVER_SUCCESS) })
  else if ¬ (sts &&& AST_I2CD_SDA_LINE_STS ≠ 0) then
    let r := ast_i2c_slave_reset cfg env.slave s
    if r.1 ≠ 0 then (r.1, r.2) else (0, r.2)
  else
    (255, { s with bus_status := s.bus_status ||| (0x1 <<< UNDEFINED_CASE) })

def ast_i2c_bus_reset (cfg : Config) (env : RecoverEnv) (s : ast_i2c_dev) : ast_i2c_dev :=
  let ctrl_reg1 := ast_i2c_read s I2C_FUN_CTRL_REG
  let s := { s with bus_master_reset_cnt := inc16 s.bus_master_reset_cnt }
  let s :=
    if ctrl_reg1 &&& AST_I2CD_MASTER_EN ≠ 0 ∧ ¬ (ctrl_reg1 &&& AST_I2CD_SLAVE_EN ≠ 0) then
      (ast_i2c_bus_error_recover cfg env s).2
    else s
  let s := ast_i2c_write s
    (s.func_ctrl_reg &&& not32 (AST_I2CD_SLAVE_EN ||| AST_I2CD_MASTER_EN)) I2C_FUN_CTRL_REG
  ast_i2c_write s s.func_ctrl_reg I2C_FUN_CTRL_REG

/-! ## Arm routines of the four transfer modes -/

/-- The copy loop of the DMA arm routines,
`for (i = start; i < len; i++) dma_buf[i] = buf[cnt + i]`; the first argument
is the number of iterations, the second the first index. -/
def dma_fill (buf : List Nat) (cnt : Int) : Nat → Nat → List Nat → List Nat
  | 0, _, dma_buf => dma_buf
  | k + 1, i, dma_buf => dma_fill buf cnt k (i + 1) (dma_buf.set i (byteAt buf (cnt + i)))

/-- The packing loop of the pool arm routine,
`for (i = start; i < len; i++) { if (i % 4 == 0) tx_buf[i / 4] = 0;
tx_buf[i / 4] |= buf[cnt + i] << ((i % 4) * 8); }`; the first argument is the
number of iterations, the second the first index. -/
def pool_fill (buf : List Nat) (cnt : Int) : Nat → Nat → List Nat → List Nat
  | 0, _, tx_buf => tx_buf
  | k + 1, i, tx_buf =>
    let tx_buf := if i % 4 = 0 then tx_buf.set (i / 4) 0 else tx_buf
    let tx_buf := tx_buf.set (i / 4)
      ((tx_buf.getD (i / 4) 0 ||| (byteAt buf (cnt + i) <<< ((i % 4) * 8))) % 2 ^ 32)
    pool_fill buf cnt k (i + 1) tx_buf

/-- Read-modify-write of the interrupt-control register that sets `bit`. -/
def intr_ctrl_set (s : ast_i2c_dev) (bit : Nat) : ast_i2c_dev :=
  ast_i2c_write s (ast_i2c_read s I2C_INTR_CTRL_REG ||| bit) I2C_INTR_CTRL_REG

/-- Read-modify-write of the interrupt-control register that clears `bit`. -/
def intr_ctrl_clear (s : ast_i2c_dev) (bit : Nat) : ast_i2c_dev :=
  ast_i2c_write s (ast_i2c_read s I2C_INTR_CTRL_REG &&& not32 bit) I2C_INTR_CTRL_REG

/-- The last branch of every arm routine, "should send next msg". -/
def arm_complete (s : ast_i2c_dev) : ast_i2c_dev :=
  complete { s with cmd_err := 0, master_xfer_first := 0 }

def ast_i2c_do_dec_dma_xfer (cfg : Config) (s : ast_i2c_dev) : ast_i2c_dev :=
  let s := { s with
    master_xfer_mode := XferMode.DEC_DMA_XFER, slave_xfer_mode := XferMode.DEC_DMA_XFER }
  if s.slave_operation = 1 then
    let sm := slave_msg s
    if sm.flags &&& I2C_M_RD ≠ 0 then
      let s := { s with slave_xfer_len :=
        if sm.len > cfg.AST_I2C_DMA_SIZE then (cfg.AST_I2C_DMA_SIZE : Int) else sm.len }
      let s := { s with dma_buf := dma_fill sm.buf s.slave_xfer_cnt s.slave_xfer_len.toNat 0 s.dma_buf }
      let s := ast_i2c_write s s.dma_addr I2C_DMA_BASE_REG
      let s := ast_i2c_write s (u32 ((cfg.AST_I2C_DMA_SIZE : Int) - 1)) I2C_DMA_LEN_REG
      ast_i2c_write s (AST_I2CD_TX_DMA_ENABLE ||| AST_I2CD_S_TX_CMD) I2C_CMD_REG
    else
      let s := ast_i2c_write s s.dma_addr I2C_DMA_BASE_REG
      let s := ast_i2c_write s (u32 ((cfg.AST_I2C_DMA_SIZE : Int) - 1)) I2C_DMA_LEN_REG
      ast_i2c_write s AST_I2CD_RX_DMA_ENABLE I2C_CMD_REG
  else
    match s.master_msgs with
    | none => s
    | some m =>
      if s.master_xfer_cnt = -1 then
        if m.flags &&& I2C_M_RD ≠ 0 then
          let cmd := AST_I2CD_M_START_CMD ||| AST_I2CD_M_TX_CMD
          let s := ast_i2c_write s ((m.addr <<< 1) ||| 0x1) I2C_BYTE_BUF_REG
          let s := { s with master_xfer_len := 1 }
          let s := intr_ctrl_set s AST_I2CD_TX_ACK_INTR_EN
          ast_i2c_write s cmd I2C_CMD_REG
        else
          let cmd := AST_I2CD_M_START_CMD ||| AST_I2CD_M_TX_CMD ||| AST_I2CD_TX_DMA_ENABLE
          let s := { s with dma_buf := s.dma_buf.set 0 ((m.addr <<< 1) % 256) }
          let s := { s with master_xfer_len :=
            if (m.len : Int) + 1 > cfg.AST_I2C_DMA_SIZE then (cfg.AST_I2C_DMA_SIZE : Int)
            else (m.len : Int) + 1 }
          let s := { s with dma_buf := dma_fill m.buf s.master_xfer_cnt (s.master_xfer_len - 1).toNat 1 s.dma_buf }
          let cmd := if s.xfer_last = 1 then cmd ||| AST_I2CD_M_STOP_CMD else cmd
          let s :=
            if s.xfer_last = 1 then intr_ctrl_clear s AST_I2CD_TX_ACK_INTR_EN
            else intr_ctrl_set s AST_I2CD_TX_ACK_INTR_EN
          let s := ast_i2c_write s s.dma_addr I2C_DMA_BASE_REG
          let s := ast_i2c_write s (u32 (s.master_xfer_len - 1)) I2C_DMA_LEN_REG
          ast_i2c_write s cmd I2C_CMD_REG
      else if s.master_xfer_cnt < m.len then
        if m.flags &&& I2C_M_RD ≠ 0 then
          let cmd := AST_I2CD_M_RX_CMD ||| AST_I2CD_RX_DMA_ENABLE
          let r : ast_i2c_dev × Nat :=
            if (m.len : Int) - s.master_xfer_cnt > cfg.AST_I2C_DMA_SIZE then
              let s := { s with master_xfer_len := (cfg.AST_I2C_DMA_SIZE : Int) }
              (intr_ctrl_set s AST_I2CD_RX_DOWN_INTR_EN, cmd)
            else
              let s := { s with master_xfer_len := (m.len : Int) - s.master_xfer_cnt }
              if m.flags &&& I2C_M_RECV_LEN ≠ 0 ∧ s.blk_r_flag = 0 then
                (intr_ctrl_set s AST_I2CD_RX_DOWN_INTR_EN, cmd)
              else if cfg.ast1010 then
                if s.master_xfer_len = 1 ∧ s.xfer_last = 1 then
                  let cmd := cmd ||| AST_I2CD_M_STOP_CMD ||| AST_I2CD_M_S_RX_CMD_LAST
                  let cmd := cmd &&& not32 AST_I2CD_RX_DMA_ENABLE
                  let s := { s with master_xfer_mode := XferMode.BYTE_XFER }
                  (intr_ctrl_clear s AST_I2CD_RX_DOWN_INTR_EN, cmd)
                else if s.master_xfer_len > 1 then
                  let s := { s with master_xfer_len := s.master_xfer_len - 1 }
                  (intr_ctrl_set s AST_I2CD_RX_DOWN_INTR_EN, cmd)
                else (s, cmd)
              else
                let r : ast_i2c_dev × Nat :=
                  if s.xfer_last = 1 then
                    (intr_ctrl_clear s AST_I2CD_RX_DOWN_INTR_EN, cmd ||| AST_I2CD_M_STOP_CMD)
                  else (intr_ctrl_set s AST_I2CD_RX_DOWN_INTR_EN, cmd)
                (r.1, r.2 ||| AST_I2CD_M_S_RX_CMD_LAST)
          let s := r.1
          let cmd := r.2
          let s := ast_i2c_write s s.dma_addr I2C_DMA_BASE_REG
          let s := ast_i2c_write s (u32 (s.master_xfer_len - 1)) I2C_DMA_LEN_REG
          ast_i2c_write s cmd I2C_CMD_REG
        else
          let cmd := AST_I2CD_M_TX_CMD ||| AST_I2CD_TX_DMA_ENABLE
          let r : ast_i2c_dev × Nat :=
            if (m.len : Int) - s.master_xfer_cnt > cfg.AST_I2C_DMA_SIZE then
              let s := { s with master_xfer_len := (cfg.AST_I2C_DMA_SIZE : Int) }
              (intr_ctrl_set s AST_I2CD_TX_ACK_INTR_EN, cmd)
            else
              let s := { s with master_xfer_len := (m.len : Int) - s.master_xfer_cnt }
              if s.xfer_last = 1 then
                (intr_ctrl_clear s AST_I2CD_TX_ACK_INTR_EN, cmd ||| AST_I2CD_M_STOP_CMD)
              else (intr_ctrl_set s AST_I2CD_TX_ACK_INTR_EN, cmd)
          let s := r.1
          let cmd := r.2
          let s := { s with dma_buf := dma_fill m.buf s.master_xfer_cnt s.master_xfer_len.toNat 0 s.dma_buf }
          let s := ast_i2c_write s s.dma_addr I2C_DMA_BASE_REG
          let s := ast_i2c_write s (u32 (s.master_xfer_len - 1)) I2C_DMA_LEN_REG
          ast_i2c_write s cmd I2C_CMD_REG
      else arm_complete s

def ast_i2c_do_inc_dma_xfer (cfg : Config) (s : ast_i2c_dev) : ast_i2c_dev :=
  let s := { s with
    master_xfer_mode := XferMode.INC_DMA_XFER, slave_xfer_mode := XferMode.INC_DMA_XFER }
  if s.slave_operation = 1 then
    let sm := slave_msg s
    if sm.flags &&& I2C_M_RD ≠ 0 then
      let s := { s with slave_xfer_len :=
        if sm.len > cfg.AST_I2C_DMA_SIZE then (cfg.AST_I2C_DMA_SIZE : Int) else sm.len }
      let s := { s with dma_buf := dma_fill sm.buf s.slave_xfer_cnt s.slave_xfer_len.toNat 0 s.dma_buf }
      let s := ast_i2c_write s s.dma_addr I2C_DMA_BASE_REG
      let s := ast_i2c_write s (u32 s.slave_xfer_len) I2C_DMA_LEN_REG
      ast_i2c_write s (AST_I2CD_TX_DMA_ENABLE ||| AST_I2CD_S_TX_CMD) I2C_CMD_REG
    else
      let s := { s with slave_xfer_len :=
        if sm.len > cfg.AST_I2C_DMA_SIZE then (cfg.AST_I2C_DMA_SIZE : Int) else sm.len }
      let s := ast_i2c_write s s.dma_addr I2C_DMA_BASE_REG
      let s := ast_i2c_write s (u32 s.slave_xfer_len) I2C_DMA_LEN_REG
      ast_i2c_write s AST_I2CD_RX_DMA_ENABLE I2C_CMD_REG
  else
    match s.master_msgs with
    | none => s
    | some m =>
      if s.master_xfer_cnt = -1 then
        let r : ast_i2c_dev × Nat :=
          if m.flags &&& I2C_M_RD ≠ 0 then
            let cmd := AST_I2CD_M_START_CMD ||| AST_I2CD_M_TX_CMD
            let s := ast_i2c_write s ((m.addr <<< 1) ||| 0x1) I2C_BYTE_BUF_REG
            let s := { s with master_xfer_len := 1 }
            (intr_ctrl_set s AST_I2CD_TX_ACK_INTR_EN, cmd)
          else
            let cmd := AST_I2CD_M_START_CMD ||| AST_I2CD_M_TX_CMD ||| AST_I2CD_TX_DMA_ENABLE
            let s := { s with dma_buf := s.dma_buf.set 0 ((m.addr <<< 1) % 256) }
            let s := { s with master_xfer_len :=
              if (m.len : Int) + 1 > cfg.AST_I2C_DMA_SIZE then (cfg.AST_I2C_DMA_SIZE : Int)
              else (m.len : Int) + 1 }
            let s := { s with dma_buf := dma_fill m.buf s.master_xfer_cnt (s.master_xfer_len - 1).toNat 1 s.dma_buf }
            let cmd := if s.xfer_last = 1 then cmd ||| AST_I2CD_M_STOP_CMD else cmd
            let s :=
              if s.xfer_last = 1 then intr_ctrl_clear s AST_I2CD_TX_ACK_INTR_EN
              else intr_ctrl_set s AST_I2CD_TX_ACK_INTR_EN
            let s := ast_i2c_write s s.dma_addr I2C_DMA_BASE_REG
            (ast_i2c_write s (u32 s.master_xfer_len) I2C_DMA_LEN_REG, cmd)
        let s := r.1
        let cmd := r.2
        let s := { s with func_ctrl_reg := ast_i2c_read s I2C_FUN_CTRL_REG }
        let s := ast_i2c_write s
          (ast_i2c_read s I2C_FUN_CTRL_REG &&& not32 AST_I2CD_SLAVE_EN) I2C_FUN_CTRL_REG
        ast_i2c_write s cmd I2C_CMD_REG
      else if s.master_xfer_cnt < m.len then
        if m.flags &&& I2C_M_RD ≠ 0 then
          let cmd := AST_I2CD_M_RX_CMD ||| AST_I2CD_RX_DMA_ENABLE
          let r : ast_i2c_dev × Nat :=
            if (m.len : Int) - s.master_xfer_cnt > cfg.AST_I2C_DMA_SIZE then
              let s := { s with master_xfer_len := (cfg.AST_I2C_DMA_SIZE : Int) }
              (intr_ctrl_set s AST_I2CD_RX_DOWN_INTR_EN, cmd)
            else
              let s := { s with master_xfer_len := (m.len : Int) - s.master_xfer_cnt }
              if m.flags &&& I2C_M_RECV_LEN ≠ 0 ∧ s.blk_r_flag = 0 then
                (intr_ctrl_set s AST_I2CD_RX_DOWN_INTR_EN, cmd)
              else
                let r : ast_i2c_dev × Nat :=
                  if s.xfer_last = 1 then
                    (intr_ctrl_clear s AST_I2CD_RX_DOWN_INTR_EN, cmd ||| AST_I2CD_M_STOP_CMD)
                  else (intr_ctrl_set s AST_I2CD_RX_DOWN_INTR_EN, cmd)
                (r.1, r.2 ||| AST_I2CD_M_S_RX_CMD_LAST)
          let s := r.1
          let cmd := r.2
          let s := ast_i2c_write s s.dma_addr I2C_DMA_BASE_REG
          let s := ast_i2c_write s (u32 s.master_xfer_len) I2C_DMA_LEN_REG
          ast_i2c_write s cmd I2C_CMD_REG
        else
          let cmd := AST_I2CD_M_TX_CMD ||| AST_I2CD_TX_DMA_ENABLE
          let r : ast_i2c_dev × Nat :=
            if (m.len : Int) - s.master_xfer_cnt > cfg.AST_I2C_DMA_SIZE then
              let s := { s with master_xfer_len := (cfg.AST_I2C_DMA_SIZE : Int) }
              (intr_ctrl_set s AST_I2CD_TX_ACK_INTR_EN, cmd)
            else
              let s := { s with master_xfer_len := (m.len : Int) - s.master_xfer_cnt }
              if s.xfer_last = 1 then
                (intr_ctrl_clear s AST_I2CD_TX_ACK_INTR_EN, cmd ||| AST_I2CD_M_STOP_CMD)
              else (intr_ctrl_set s AST_I2CD_TX_ACK_INTR_EN, cmd)
          let s := r.1
          let cmd := r.2
          let s := { s with dma_buf := dma_fill m.buf s.master_xfer_cnt s.master_xfer_len.toNat 0 s.dma_buf }
          let s := ast_i2c_write s s.dma_addr I2C_DMA_BASE_REG
          let s := ast_i2c_write s (u32 s.master_xfer_len) I2C_DMA_LEN_REG
          ast_i2c_write s cmd I2C_CMD_REG
      else arm_complete s

/-- Store of the words `tx_buf` into the memory of the requested page. -/
def set_page_mem (s : ast_i2c_dev) (tx_buf : List Nat) : ast_i2c_dev :=
  { s with req_page := { s.req_page with mem := tx_buf } }

def ast_i2c_do_pool_xfer (cfg : Config) (s : ast_i2c_dev) : ast_i2c_dev :=
  let s :=
    if cfg.soc = Soc.g4 then
      ast_i2c_write s
        ((ast_i2c_read s I2C_FUN_CTRL_REG &&& not32 AST_I2CD_BUFF_SEL_MASK) |||
          AST_I2CD_BUFF_SEL s.req_page.page_no) I2C_FUN_CTRL_REG
    else s
  if s.slave_operation = 1 then
    let sm := slave_msg s
    if sm.flags &&& I2C_M_RD ≠ 0 then
      let s := { s with slave_xfer_len :=
        if sm.len > s.req_page.page_size then (s.req_page.page_size : Int) else sm.len }
      let s := set_page_mem s
        (pool_fill sm.buf s.slave_xfer_cnt s.slave_xfer_len.toNat 0 s.req_page.mem)
      let s := ast_i2c_write s
        (AST_I2CD_TX_DATA_BUF_END_SET (u32 (s.slave_xfer_len - 1)) |||
          AST_I2CD_BUF_BASE_ADDR_SET s.req_page.page_addr_point) I2C_BUF_CTRL_REG
      ast_i2c_write s (AST_I2CD_TX_BUFF_ENABLE ||| AST_I2CD_S_TX_CMD) I2C_CMD_REG
    else
      let s := ast_i2c_write s
        (AST_I2CD_RX_BUF_END_ADDR_SET (u32 ((s.req_page.page_size : Int) - 1)) |||
          AST_I2CD_BUF_BASE_ADDR_SET s.req_page.page_addr_point) I2C_BUF_CTRL_REG
      ast_i2c_write s AST_I2CD_RX_BUFF_ENABLE I2C_CMD_REG
  else
    match s.master_msgs with
    | none => s
    | some m =>
      if s.master_xfer_cnt = -1 then
        if m.flags &&& I2C_M_RD ≠ 0 then
          let cmd := AST_I2CD_M_START_CMD ||| AST_I2CD_M_TX_CMD
          let s := ast_i2c_write s ((m.addr <<< 1) ||| 0x1) I2C_BYTE_BUF_REG
          let s := { s with master_xfer_len := 1 }
          let s := intr_ctrl_set s AST_I2CD_TX_ACK_INTR_EN
          ast_i2c_write s cmd I2C_CMD_REG
        else
          let cmd := AST_I2CD_M_START_CMD ||| AST_I2CD_M_TX_CMD ||| AST_I2CD_TX_BUFF_ENABLE
          let s := set_page_mem s (s.req_page.mem.set 0 (m.addr <<< 1))
          let s := { s with master_xfer_len :=
            if (m.len : Int) + 1 > s.req_page.page_size then (s.req_page.page_size : Int)
            else (m.len : Int) + 1 }
          let s := set_page_mem s
            (pool_fill m.buf s.master_xfer_cnt (s.master_xfer_len - 1).toNat 1 s.req_page.mem)
          let s := ast_i2c_write s
            (AST_I2CD_TX_DATA_BUF_END_SET (u32 (s.master_xfer_len - 1)) |||
              AST_I2CD_BUF_BASE_ADDR_SET s.req_page.page_addr_point) I2C_BUF_CTRL_REG
          ast_i2c_write s cmd I2C_CMD_REG
      else if s.master_xfer_cnt < m.len then
        if m.flags &&& I2C_M_RD ≠ 0 then
          let cmd := AST_I2CD_M_RX_CMD ||| AST_I2CD_RX_BUFF_ENABLE
          let r : ast_i2c_dev × Nat :=
            if (m.len : Int) - s.master_xfer_cnt > s.req_page.page_size then
              let s := { s with master_xfer_len := (s.req_page.page_size : Int) }
              (intr_ctrl_set s AST_I2CD_RX_DOWN_INTR_EN, cmd)
            else
              let s := { s with master_xfer_len := (m.len : Int) - s.master_xfer_cnt }
              if m.flags &&& I2C_M_RECV_LEN ≠ 0 ∧ s.blk_r_flag = 0 then
                (intr_ctrl_set s AST_I2CD_RX_DOWN_INTR_EN, cmd)
              else
                let r : ast_i2c_dev × Nat :=
                  if s.xfer_last = 1 then
                    (intr_ctrl_clear s AST_I2CD_RX_DOWN_INTR_EN, cmd ||| AST_I2CD_M_STOP_CMD)
                  else (intr_ctrl_set s AST_I2CD_RX_DOWN_INTR_EN, cmd)
                (r.1, r.2 ||| AST_I2CD_M_S_RX_CMD_LAST)
          let s := r.1
          let cmd := r.2
          let s := ast_i2c_write s
            (AST_I2CD_RX_BUF_END_ADDR_SET (u32 (s.master_xfer_len - 1)) |||
              AST_I2CD_BUF_BASE_ADDR_SET s.req_page.page_addr_point) I2C_BUF_CTRL_REG
          ast_i2c_write s cmd I2C_CMD_REG
        else
          let cmd := AST_I2CD_M_TX_CMD ||| AST_I2CD_TX_BUFF_ENABLE
          let r : ast_i2c_dev × Nat :=
            if (m.len : Int) - s.master_xfer_cnt > s.req_page.page_size then
              let s := { s with master_xfer_len := (s.req_page.page_size : Int) }
              (intr_ctrl_set s AST_I2CD_TX_ACK_INTR_EN, cmd)
            else
              let s := { s with master_xfer_len := (m.len : Int) - s.master_xfer_cnt }
              if s.xfer_last = 1 then
                (intr_ctrl_clear s AST_I2CD_TX_ACK_INTR_EN, cmd ||| AST_I2CD_M_STOP_CMD)
              else (intr_ctrl_set s AST_I2CD_TX_ACK_INTR_EN, cmd)
          let s := r.1
          let cmd := r.2
          let s := set_page_mem s
            (pool_fill m.buf s.master_xfer_cnt s.master_xfer_len.toNat 0 s.req_page.mem)
          let s := ast_i2c_write s
            (AST_I2CD_TX_DATA_BUF_END_SET (u32 (s.master_xfer_len - 1)) |||
              AST_I2CD_BUF_BASE_ADDR_SET s.req_page.page_addr_point) I2C_BUF_CTRL_REG
          ast_i2c_write s cmd I2C_CMD_REG
      else arm_complete s

def ast_i2c_do_byte_xfer (s : ast_i2c_dev) : ast_i2c_dev :=
  if s.slave_operation = 1 then
    let sm := slave_msg s
    if sm.flags &&& I2C_M_RD ≠ 0 then
      let s := ast_i2c_write s (byteAt sm.buf s.slave_xfer_cnt) I2C_BYTE_BUF_REG
      ast_i2c_write s AST_I2CD_S_TX_CMD I2C_CMD_REG
    else s
  else
    match s.master_msgs with
    | none => s
    | some m =>
      if s.master_xfer_cnt = -1 then
        let s :=
          if m.flags &&& I2C_M_RD ≠ 0 then
            ast_i2c_write s ((m.addr <<< 1) ||| 0x1) I2C_BYTE_BUF_REG
          else ast_i2c_write s (m.addr <<< 1) I2C_BYTE_BUF_REG
        let s := intr_ctrl_set s AST_I2CD_TX_ACK_INTR_EN
        ast_i2c_write s (AST_I2CD_M_TX_CMD ||| AST_I2CD_M_START_CMD) I2C_CMD_REG
      else if s.master_xfer_cnt < m.len then
        if m.flags &&& I2C_M_RD ≠ 0 then
          let cmd := AST_I2CD_M_RX_CMD
          let r : ast_i2c_dev × Nat :=
            if m.flags &&& I2C_M_RECV_LEN ≠ 0 ∧ s.master_xfer_cnt = 0 then
              (intr_ctrl_set s AST_I2CD_RX_DOWN_INTR_EN, cmd)
            else if s.xfer_last = 1 ∧ s.master_xfer_cnt + 1 = m.len then
              (intr_ctrl_clear s AST_I2CD_RX_DOWN_INTR_EN,
                cmd ||| AST_I2CD_M_S_RX_CMD_LAST ||| AST_I2CD_M_STOP_CMD)
            else (intr_ctrl_set s AST_I2CD_RX_DOWN_INTR_EN, cmd)
          ast_i2c_write r.1 r.2 I2C_CMD_REG
        else
          let s := ast_i2c_write s (byteAt m.buf s.master_xfer_cnt) I2C_BYTE_BUF_REG
          ast_i2c_write s AST_I2CD_M_TX_CMD I2C_CMD_REG
      else arm_complete s

/-- Call through a `do_master_xfer` / `do_slave_xfer` pointer. -/
def call_xfer (cfg : Config) (f : XferFn) (s : ast_i2c_dev) : ast_i2c_dev :=
  match f with
  | XferFn.byte => ast_i2c_do_byte_xfer s
  | XferFn.pool => ast_i2c_do_pool_xfer cfg s
  | XferFn.dec_dma => ast_i2c_do_dec_dma_xfer cfg s
  | XferFn.inc_dma => ast_i2c_do_inc_dma_xfer cfg s

/-! ## Interrupts -/

/-- Return value of the interrupt handler. -/
inductive irqreturn where
  | IRQ_NONE | IRQ_HANDLED
  deriving DecidableEq, Repr

/-- One interrupt as the hardware presents it: the group status register
`reg_gr`, the values the status registers read during the handler, the words
(`pool`) or bytes (`dma`) the hardware left in the receive memory, the answer
of the page allocator should the handler ask for a page, and the answers to
the waits of a bus reset should the handler force one. -/
structure Irq where
  isr_sts : Nat := 0
  cmd : Nat := 0
  sts : Nat := 0
  byte_buf : Nat := 0
  buf_ctrl : Nat := 0
  dma_len : Nat := 0
  pool : Option (List Nat) := none
  dma : Option (List Nat) := none
  page : Option buf_page := none
  recov : RecoverEnv := {}
  deriving DecidableEq, Repr

/-- The state in which the handler starts: the status registers and the
receive memory hold what the hardware presents. -/
def take_irq (ev : Irq) (s : ast_i2c_dev) : ast_i2c_dev :=
  { s with
    regs := fun r =>
      match r with
      | I2C_CMD_REG => ev.cmd
      | I2C_INTR_STS_REG => ev.sts
      | I2C_BYTE_BUF_REG => ev.byte_buf
      | I2C_BUF_CTRL_REG => ev.buf_ctrl
      | I2C_DMA_LEN_REG => ev.dma_len
      | r => s.regs r
    req_page :=
      match ev.pool with
      | some w => { s.req_page with mem := w }
      | none => s.req_page
    dma_buf := ev.dma.getD s.dma_buf }

/-- Byte `i` of the page memory read through a `u8 *`. -/
def pool_byte (mem : List Nat) (i : Nat) : Nat :=
  (mem.getD (i / 4) 0 >>> ((i % 4) * 8)) &&& 0xff

/-- The copy loop of the completion routines,
`for (i = 0; i < xfer_len; i++) buf[cnt + i] = src[i]`; the first argument is
the number of iterations, the second the first index. -/
def rx_copy (src : Nat → Nat) (cnt : Int) : Nat → Nat → List Nat → List Nat
  | 0, _, buf => buf
  | k + 1, i, buf => rx_copy src cnt k (i + 1) (setByte buf (cnt + i) (src i))

/-- Calls of the page allocator: `request_pool_buff_page` with the answer
`page` of the allocator (`none`: no page, a non-zero result). -/
def request_pool_buff_page (page : Option buf_page) (s : ast_i2c_dev) : ast_i2c_dev :=
  match page with
  | some pg => { s with req_page := pg, pool_log := s.pool_log ++ [PoolEvent.got pg.page_no] }
  | none => s

def free_pool_buff_page (s : ast_i2c_dev) : ast_i2c_dev :=
  { s with pool_log := s.pool_log ++ [PoolEvent.freed s.req_page.page_no] }

/-- The block-read length extension of `ast_i2c_master_xfer_done`:
`if ((flags & I2C_M_RECV_LEN) && blk_r_flag == 0) { len += v; blk_r_flag = 1; }`
on the current message `m`; `len` is a `u16`. -/
def recv_len_extend (m : i2c_msg) (blk_r_flag : Nat) (v : Nat) : i2c_msg × Nat :=
  if m.flags &&& I2C_M_RECV_LEN ≠ 0 ∧ blk_r_flag = 0 then
    ({ m with len := (m.len + v) % 2 ^ 16 }, 1)
  else (m, blk_r_flag)

/-- The first part of `ast_i2c_master_xfer_done`, up to the label `next_xfer`:
the extracted chunk length `xfer_len` together with the state in which received
bytes have been copied into the message `m`. -/
def master_extract (cfg : Config) (m : i2c_msg) (s : ast_i2c_dev) : Nat × ast_i2c_dev :=
  if m.flags &&& I2C_M_RD ≠ 0 then
    if s.master_xfer_cnt = -1 then (1, s)
    else
      match s.master_xfer_mode with
      | XferMode.BYTE_XFER =>
        let v := (ast_i2c_read s I2C_BYTE_BUF_REG &&& AST_I2CD_RX_BYTE_BUFFER) >>> 8
        let e := recv_len_extend m s.blk_r_flag v
        let m := e.1
        let s := { s with blk_r_flag := e.2 }
        let m := { m with buf := setByte m.buf s.master_xfer_cnt v }
        (1, { s with master_msgs := some m })
      | XferMode.BUFF_XFER =>
        let xfer_len := AST_I2CD_RX_BUF_ADDR_GET (ast_i2c_read s I2C_BUF_CTRL_REG)
        let xfer_len :=
          if cfg.soc ≠ Soc.g5 ∧ xfer_len = 0 then cfg.AST_I2C_PAGE_SIZE else xfer_len
        let m := { m with buf := rx_copy (pool_byte s.req_page.mem) s.master_xfer_cnt xfer_len 0 m.buf }
        let e := recv_len_extend m s.blk_r_flag (pool_byte s.req_page.mem 0)
        (xfer_len, { s with master_msgs := some e.1, blk_r_flag := e.2 })
      | XferMode.DEC_DMA_XFER =>
        let xfer_len := ast_i2c_read s I2C_DMA_LEN_REG
        let xfer_len :=
          if xfer_len = 0 then u32 s.master_xfer_len
          else u32 (s.master_xfer_len - xfer_len - 1)
        let m := { m with buf := rx_copy (fun i => s.dma_buf.getD i 0) s.master_xfer_cnt xfer_len 0 m.buf }
        let e := recv_len_extend m s.blk_r_flag (s.dma_buf.getD 0 0)
        (xfer_len, { s with master_msgs := some e.1, blk_r_flag := e.2 })
      | XferMode.INC_DMA_XFER =>
        let xfer_len := ast_i2c_read s I2C_DMA_LEN_REG
        let xfer_len :=
          if xfer_len = 0 then u32 s.master_xfer_len
          else u32 (s.master_xfer_len - xfer_len)
        let m := { m with buf := rx_copy (fun i => s.dma_buf.getD i 0) s.master_xfer_cnt xfer_len 0 m.buf }
        let e := recv_len_extend m s.blk_r_flag (s.dma_buf.getD 0 0)
        (xfer_len, { s with master_msgs := some e.1, blk_r_flag := e.2 })
  else
    match s.master_xfer_mode with
    | XferMode.BYTE_XFER => (1, s)
    | XferMode.BUFF_XFER =>
      ((AST_I2CD_TX_DATA_BUF_GET (ast_i2c_read s I2C_BUF_CTRL_REG) + 1) % 2 ^ 32, s)
    | XferMode.DEC_DMA_XFER =>
      let xfer_len := ast_i2c_read s I2C_DMA_LEN_REG
      (if xfer_len = 0 then u32 s.master_xfer_len
        else u32 (s.master_xfer_len - xfer_len - 1), s)
    | XferMode.INC_DMA_XFER =>
      (u32 (s.master_xfer_len - ast_i2c_read s I2C_DMA_LEN_REG), s)

/-- The label `unlock_out` of `ast_i2c_master_xfer_done` when `do_master_flag`
is 0: the function-control register is restored. -/
def restore_func_ctrl (s : ast_i2c_dev) : ast_i2c_dev :=
  ast_i2c_write s s.func_ctrl_reg I2C_FUN_CTRL_REG

def ast_i2c_master_xfer_done (cfg : Config) (env : RecoverEnv) (s : ast_i2c_dev) :
    ast_i2c_dev :=
  match s.master_msgs with
  | none => restore_func_ctrl s
  | some m =>
    let e := master_extract cfg m s
    let xfer_len := e.1
    let s := e.2
    if xfer_len ≠ u32 s.master_xfer_len then
      let s := ast_i2c_bus_reset cfg env s
      let s := { s with cmd_err := 1 }
      let s := { s with master_xfer_first := 0 }
      let s := complete s
      restore_func_ctrl s
    else
      let s := { s with master_xfer_cnt := s.master_xfer_cnt + s.master_xfer_len }
      let len : Int := ((s.master_msgs.getD m).len : Nat)
      if s.master_xfer_cnt ≠ len then
        let s := { s with master_xfer_first := 0 }
        call_xfer cfg s.do_master_xfer s
      else
        let flags := (s.master_msgs.getD m).flags
        let s :=
          if s.master_xfer_mode = XferMode.BYTE_XFER ∨
              s.master_xfer_mode = XferMode.BUFF_XFER then
            if s.xfer_last = 1 ∧ ¬ (flags &&& I2C_M_RD ≠ 0) then
              ast_i2c_write s AST_I2CD_M_STOP_CMD I2C_CMD_REG
            else s
          else s
        let s := { s with cmd_err := 0 }
        let s := { s with master_xfer_first := 0 }
        let s := complete s
        restore_func_ctrl s

/-- The first part of `ast_i2c_slave_xfer_done`: the extracted length
`xfer_len` and the state in which received bytes have been stored through
`slave_msgs`. -/
def slave_extract (cfg : Config) (s : ast_i2c_dev) : Nat × ast_i2c_dev :=
  let sm := slave_msg s
  if sm.flags &&& I2C_M_RD ≠ 0 then
    match s.slave_xfer_mode with
    | XferMode.BYTE_XFER => (1, s)
    | XferMode.BUFF_XFER =>
      ((AST_I2CD_TX_DATA_BUF_GET (ast_i2c_read s I2C_BUF_CTRL_REG) + 1) % 2 ^ 32, s)
    | XferMode.DEC_DMA_XFER =>
      let xfer_len := ast_i2c_read s I2C_DMA_LEN_REG
      (if xfer_len = 0 then u32 s.slave_xfer_len
        else u32 (s.slave_xfer_len - xfer_len - 1), s)
    | XferMode.INC_DMA_XFER =>
      (u32 (s.slave_xfer_len - ast_i2c_read s I2C_DMA_LEN_REG), s)
  else
    match s.slave_xfer_mode with
    | XferMode.BYTE_XFER =>
      if s.slave_event = SlaveEvent.STOP then
        let sm := { sm with buf := setByte sm.buf s.slave_xfer_cnt 0 }
        let sm := { sm with len := (s.slave_xfer_cnt % 2 ^ 16).toNat }
        (1, set_slave_msg s sm)
      else
        let v := (ast_i2c_read s I2C_BYTE_BUF_REG >>> 8) % 256
        (1, set_slave_msg s { sm with buf := setByte sm.buf s.slave_xfer_cnt v })
    | XferMode.BUFF_XFER =>
      let xfer_len := AST_I2CD_RX_BUF_ADDR_GET (ast_i2c_read s I2C_BUF_CTRL_REG)
      let xfer_len :=
        if cfg.soc ≠ Soc.g5 ∧ xfer_len = 0 then cfg.AST_I2C_PAGE_SIZE else xfer_len
      let s := { s with slave_xfer_len := (xfer_len : Int) }
      (xfer_len, set_slave_msg s { sm with buf := rx_copy (pool_byte s.req_page.mem) s.slave_xfer_cnt xfer_len 0 sm.buf })
    | XferMode.DEC_DMA_XFER =>
      let xfer_len := ast_i2c_read s I2C_DMA_LEN_REG
      let xfer_len :=
        if xfer_len = 0 then u32 s.slave_xfer_len
        else u32 (s.slave_xfer_len - xfer_len - 1)
      (xfer_len, set_slave_msg s { sm with buf := rx_copy (fun i => s.dma_buf.getD i 0) s.slave_xfer_cnt xfer_len 0 sm.buf })
    | XferMode.INC_DMA_XFER =>
      let xfer_len := ast_i2c_read s I2C_DMA_LEN_REG
      let xfer_len :=
        if xfer_len = 0 then u32 s.slave_xfer_len
        else u32 (s.slave_xfer_len - xfer_len)
      (xfer_len, set_slave_msg s { sm with buf := rx_copy (fun i => s.dma_buf.getD i 0) s.slave_xfer_cnt xfer_len 0 sm.buf })

def ast_i2c_slave_xfer_done (cfg : Config) (env : RecoverEnv) (s : ast_i2c_dev) :
    ast_i2c_dev :=
  let e := slave_extract cfg s
  let xfer_len := e.1
  let s := e.2
  let s :=
    if xfer_len ≠ u32 s.slave_xfer_len then s
    else { s with slave_xfer_cnt := s.slave_xfer_cnt + s.slave_xfer_len }
  let s :=
    if s.slave_event = SlaveEvent.NACK ∨ s.slave_event = SlaveEvent.STOP then
      let s := ast_i2c_slave_rdwr_xfer s
      { s with slave_xfer_cnt := 0 }
    else
      let s :=
        if s.slave_xfer_cnt = ((slave_msg s).len : Int) then
          let s := ast_i2c_slave_rdwr_xfer s
          { s with slave_xfer_cnt := 0 }
        else s
      call_xfer cfg s.do_slave_xfer s
  let s := { s with state := (ast_i2c_read s I2C_CMD_REG >>> 19) &&& 0xf }
  let s :=
    if AST_I2CD_IDLE = s.state then
      let s := { s with slave_operation := 0 }
      if s.slave_xfer_mode = XferMode.BUFF_XFER then free_pool_buff_page s else s
    else if s.slave_event = SlaveEvent.STOP then { s with slave_operation := 0 }
    else s
  if s.slave_xfer_cnt ≥ (I2C_S_BUF_SIZE : Int) then ast_i2c_bus_reset cfg env s else s

def ast_i2c_slave_addr_match (cfg : Config) (page : Option buf_page) (s : ast_i2c_dev) :
    ast_i2c_dev :=
  let s :=
    if s.master_xfer_first = 1 then
      let cmd32 := ast_i2c_read s I2C_CMD_REG
      let s :=
        if cmd32 &&& 0x03 ≠ 0 then ast_i2c_write s (cmd32 &&& not32 0x143) I2C_CMD_REG
        else s
      let s := { s with cmd_err := s.cmd_err ||| AST_I2CD_INTR_STS_ARBIT_LOSS }
      let s := { s with master_xfer_first := 0 }
      let s := complete s
      ast_i2c_write s s.func_ctrl_reg I2C_FUN_CTRL_REG
    else s
  let s := { s with slave_operation := 1 }
  let s := { s with slave_xfer_cnt := 0 }
  let addr_byte := (ast_i2c_read s I2C_BYTE_BUF_REG >>> 8) % 256
  let sm := slave_msg s
  let s := set_slave_msg s { sm with buf := setByte sm.buf 0 addr_byte }
  let s := { s with slave_event :=
    if addr_byte &&& 1 ≠ 0 then SlaveEvent.START_READ else SlaveEvent.START_WRITE }
  let s := ast_i2c_slave_rdwr_xfer s
  let sm := slave_msg s
  let s := set_slave_msg s { sm with buf := setByte sm.buf 0 addr_byte }
  let s := { s with slave_xfer_cnt := 1 }
  let sm := slave_msg s
  let s := set_slave_msg s { sm with len := 0 }
  let s :=
    match cfg.slave_dma with
    | DmaMode.BYTE_MODE =>
      { s with do_slave_xfer := XferFn.byte, slave_xfer_mode := XferMode.BYTE_XFER,
               slave_xfer_len := 1 }
    | DmaMode.DEC_DMA_MODE =>
      { s with do_slave_xfer := XferFn.dec_dma, slave_xfer_mode := XferMode.DEC_DMA_XFER }
    | DmaMode.INC_DMA_MODE =>
      { s with do_slave_xfer := XferFn.inc_dma, slave_xfer_mode := XferMode.INC_DMA_XFER }
    | DmaMode.BUFF_MODE =>
      match page with
      | some _ =>
        let s := request_pool_buff_page page s
        { s with do_slave_xfer := XferFn.pool, slave_xfer_mode := XferMode.BUFF_XFER }
      | none =>
        { s with do_slave_xfer := XferFn.byte, slave_xfer_mode := XferMode.BYTE_XFER,
                 slave_xfer_len := 1 }
  call_xfer cfg s.do_slave_xfer s

/-- Write of `bits` to the interrupt-status register (the bits are cleared). -/
def clear_sts (s : ast_i2c_dev) (bits : Nat) : ast_i2c_dev :=
  ast_i2c_write s bits I2C_INTR_STS_REG

/-- The `default:` label of the `switch (sts)` of `i2c_ast_handler`. -/
def handler_default (cfg : Config) (ev : Irq) (sts : Nat) (s : ast_i2c_dev) : ast_i2c_dev :=
  let r : ast_i2c_dev × Nat :=
    if sts &&& AST_I2CD_INTR_STS_ARBIT_LOSS ≠ 0 then
      let s := clear_sts s AST_I2CD_INTR_STS_ARBIT_LOSS
      let s := { s with cmd_err := s.cmd_err ||| AST_I2CD_INTR_STS_ARBIT_LOSS }
      (complete s, sts &&& not32 AST_I2CD_INTR_STS_ARBIT_LOSS)
    else (s, sts)
  let r : ast_i2c_dev × Nat :=
    if r.2 &&& AST_I2CD_INTR_STS_TX_ACK ≠ 0 then
      let s := clear_sts r.1 AST_I2CD_INTR_STS_TX_ACK
      (ast_i2c_master_xfer_done cfg ev.recov s, r.2 &&& not32 AST_I2CD_INTR_STS_TX_ACK)
    else r
  let r : ast_i2c_dev × Nat :=
    if r.2 &&& AST_I2CD_INTR_STS_NORMAL_STOP ≠ 0 then
      let s := clear_sts r.1 AST_I2CD_INTR_STS_TX_ACK
      let s := { s with cmd_err := s.cmd_err ||| AST_I2CD_INTR_STS_NORMAL_STOP }
      (complete s, r.2 &&& not32 AST_I2CD_INTR_STS_NORMAL_STOP)
    else r
  let r : ast_i2c_dev × Nat :=
    if r.2 &&& AST_I2CD_INTR_STS_SLAVE_MATCH ≠ 0 then
      let s := ast_i2c_slave_addr_match cfg ev.page r.1
      (clear_sts s AST_I2CD_INTR_STS_SLAVE_MATCH, r.2 &&& not32 AST_I2CD_INTR_STS_SLAVE_MATCH)
    else r
  let s := clear_sts r.1 r.2
  ast_i2c_write s s.func_ctrl_reg I2C_FUN_CTRL_REG

/-- The hack of the FBTTN board after a slave receive, `ast_i2c_bus_recovery`. -/
def ast_i2c_bus_recovery (cfg : Config) (env : RecoverEnv) (reg : Nat) (s : ast_i2c_dev) :
    ast_i2c_dev :=
  let tmp_reg := ast_i2c_read s I2C_INTR_STS_REG
  if tmp_reg &&& reg = reg then ast_i2c_bus_reset cfg env s else s

/-- The `switch (sts)` of `i2c_ast_handler`; the case labels are tried in the
order of the source. -/
def handler_switch (cfg : Config) (ev : Irq) (sts : Nat) (s : ast_i2c_dev) : ast_i2c_dev :=
  if sts = AST_I2CD_INTR_STS_TX_ACK then
    if s.slave_operation = 1 then
      let s := { s with slave_event := SlaveEvent.READ }
      let s := ast_i2c_slave_xfer_done cfg ev.recov s
      clear_sts s AST_I2CD_INTR_STS_TX_ACK
    else
      let s := clear_sts s AST_I2CD_INTR_STS_TX_ACK
      ast_i2c_master_xfer_done cfg ev.recov s
  else if sts = AST_I2CD_INTR_STS_TX_ACK ||| AST_I2CD_INTR_STS_NORMAL_STOP then
    if s.xfer_last = 1 ∧ s.slave_operation = 0 then
      let s := clear_sts s (AST_I2CD_INTR_STS_TX_ACK ||| AST_I2CD_INTR_STS_NORMAL_STOP)
      let s := intr_ctrl_set s AST_I2CD_TX_ACK_INTR_EN
      ast_i2c_master_xfer_done cfg ev.recov s
    else
      let s := clear_sts s (AST_I2CD_INTR_STS_TX_ACK ||| AST_I2CD_INTR_STS_NORMAL_STOP)
      let new_val := ast_i2c_read s I2C_INTR_CTRL_REG ||| AST_I2CD_NORMAL_STOP_INTR_EN |||
        AST_I2CD_TX_ACK_INTR_EN
      let s := ast_i2c_write s new_val I2C_INTR_CTRL_REG
      let s := { s with cmd_err := s.cmd_err ||| AST_LOCKUP_DETECTED }
      complete s
  else if sts = AST_I2CD_INTR_STS_TX_NAK then
    if s.slave_operation = 1 then
      let s := { s with slave_event := SlaveEvent.NACK }
      let s := ast_i2c_slave_xfer_done cfg ev.recov s
      clear_sts s AST_I2CD_INTR_STS_TX_NAK
    else
      let s := ast_i2c_write s AST_I2CD_M_STOP_CMD I2C_CMD_REG
      let s := clear_sts s AST_I2CD_INTR_STS_TX_NAK
      let s :=
        match s.master_msgs with
        | some m =>
          if m.flags &&& I2C_M_IGNORE_NAK ≠ 0 then s
          else { s with cmd_err := s.cmd_err ||| AST_I2CD_INTR_STS_TX_NAK }
        | none => { s with cmd_err := s.cmd_err ||| AST_I2CD_INTR_STS_TX_NAK }
      let s := { s with master_xfer_first := 0 }
      let s := complete s
      ast_i2c_write s s.func_ctrl_reg I2C_FUN_CTRL_REG
  else if sts = AST_I2CD_INTR_STS_TX_NAK ||| AST_I2CD_INTR_STS_NORMAL_STOP then
    if s.slave_operation = 1 then
      let s := { s with slave_operation := 0 }
      let s := clear_sts s (AST_I2CD_INTR_STS_TX_NAK ||| AST_I2CD_INTR_STS_NORMAL_STOP)
      let s := { s with cmd_err :=
        s.cmd_err ||| (AST_I2CD_INTR_STS_TX_NAK ||| AST_I2CD_INTR_STS_NORMAL_STOP) }
      complete s
    else
      let s := clear_sts s (AST_I2CD_INTR_STS_TX_NAK ||| AST_I2CD_INTR_STS_NORMAL_STOP)
      let s := { s with cmd_err :=
        s.cmd_err ||| (AST_I2CD_INTR_STS_TX_NAK ||| AST_I2CD_INTR_STS_NORMAL_STOP) }
      let s := { s with master_xfer_first := 0 }
      let s := complete s
      ast_i2c_write s s.func_ctrl_reg I2C_FUN_CTRL_REG
  else if sts = AST_I2CD_INTR_STS_RX_DOWN ||| AST_I2CD_INTR_STS_SLAVE_MATCH then
    let s := ast_i2c_slave_addr_match cfg ev.page s
    clear_sts s (AST_I2CD_INTR_STS_RX_DOWN ||| AST_I2CD_INTR_STS_SLAVE_MATCH)
  else if sts = AST_I2CD_INTR_STS_RX_DOWN then
    if s.slave_operation = 1 then
      let s := { s with slave_event := SlaveEvent.WRITE }
      let s := ast_i2c_slave_xfer_done cfg ev.recov s
      let s := clear_sts s AST_I2CD_INTR_STS_RX_DOWN
      if cfg.board = Board.fbttn then
        ast_i2c_bus_recovery cfg ev.recov AST_I2CD_INTR_STS_RX_DOWN s
      else s
    else
      let s := clear_sts s AST_I2CD_INTR_STS_RX_DOWN
      ast_i2c_master_xfer_done cfg ev.recov s
  else if sts = AST_I2CD_INTR_STS_NORMAL_STOP ∨
      sts = AST_I2CD_INTR_STS_NORMAL_STOP ||| AST_I2CD_INTR_STS_SLAVE_MATCH ∨
      sts = AST_I2CD_INTR_STS_NORMAL_STOP ||| AST_I2CD_INTR_STS_RX_DOWN |||
        AST_I2CD_INTR_STS_SLAVE_MATCH then
    if s.slave_operation = 1 then
      let s := { s with slave_event := SlaveEvent.STOP }
      let s := ast_i2c_slave_xfer_done cfg ev.recov s
      clear_sts s AST_I2CD_INTR_STS_NORMAL_STOP
    else
      let s := clear_sts s AST_I2CD_INTR_STS_NORMAL_STOP
      let s := { s with cmd_err := s.cmd_err ||| AST_I2CD_INTR_STS_NORMAL_STOP }
      let s := { s with master_xfer_first := 0 }
      complete s
  else if sts = AST_I2CD_INTR_STS_RX_DOWN ||| AST_I2CD_INTR_STS_NORMAL_STOP then
    if s.slave_operation = 0 then
      let s := clear_sts s (AST_I2CD_INTR_STS_RX_DOWN ||| AST_I2CD_INTR_STS_NORMAL_STOP)
      let s := intr_ctrl_set s AST_I2CD_RX_DOWN_INTR_EN
      ast_i2c_master_xfer_done cfg ev.recov s
    else
      let s := { s with slave_event := SlaveEvent.STOP }
      let s := ast_i2c_slave_xfer_done cfg ev.recov s
      let s := clear_sts s (AST_I2CD_INTR_STS_RX_DOWN ||| AST_I2CD_INTR_STS_NORMAL_STOP)
      let s := intr_ctrl_set s AST_I2CD_RX_DOWN_INTR_EN
      ast_i2c_master_xfer_done cfg ev.recov s
  else if sts = AST_I2CD_INTR_STS_ARBIT_LOSS ∨
      sts = AST_I2CD_INTR_STS_ARBIT_LOSS ||| AST_I2CD_INTR_STS_SLAVE_MATCH ∨
      sts = AST_I2CD_INTR_STS_ARBIT_LOSS ||| AST_I2CD_INTR_STS_RX_DOWN |||
        AST_I2CD_INTR_STS_SLAVE_MATCH then
    let s := clear_sts s AST_I2CD_INTR_STS_ARBIT_LOSS
    let s := { s with cmd_err := s.cmd_err ||| AST_I2CD_INTR_STS_ARBIT_LOSS }
    let s := { s with master_xfer_first := 0 }
    let s := complete s
    ast_i2c_write s s.func_ctrl_reg I2C_FUN_CTRL_REG
  else if sts = AST_I2CD_INTR_STS_GCALL_ADDR then
    let s := { s with cmd_err := s.cmd_err ||| AST_I2CD_INTR_STS_GCALL_ADDR }
    complete s
  else if sts = AST_I2CD_INTR_STS_SMBUS_DEF_ADDR then s
  else if sts = AST_I2CD_INTR_STS_SMBUS_DEV_ALT then s
  else if sts = AST_I2CD_INTR_STS_SMBUS_ARP_ADDR then s
  else if sts = AST_I2CD_INTR_STS_SDA_DL_TO then
    let s := clear_sts s AST_I2CD_INTR_STS_SDA_DL_TO
    let s := { s with cmd_err := s.cmd_err ||| AST_I2CD_INTR_STS_SDA_DL_TO }
    complete s
  else if sts = AST_I2CD_INTR_STS_BUS_RECOVER then
    let s := clear_sts s AST_I2CD_INTR_STS_BUS_RECOVER
    complete s
  else handler_default cfg ev sts s

def i2c_ast_handler (cfg : Config) (ev : Irq) (s : ast_i2c_dev) : irqreturn × ast_i2c_dev :=
  let isr_sts := ev.isr_sts
  if isr_sts &&& (1 <<< s.bus_id) = 0 then (irqreturn.IRQ_NONE, s)
  else
    let s := take_irq ev s
    let s := { s with state := (ast_i2c_read s I2C_CMD_REG >>> 19) &&& 0xf }
    let sts := ast_i2c_read s I2C_INTR_STS_REG
    let r : ast_i2c_dev × Nat :=
      if AST_I2CD_INTR_STS_SMBUS_ALT &&& sts ≠ 0 then
        let s := intr_ctrl_clear s AST_I2CD_SMBUS_ALT_INTR_EN
        let s := clear_sts s AST_I2CD_INTR_STS_SMBUS_ALT
        (s, sts &&& not32 AST_I2CD_SMBUS_ALT_INTR_EN)
      else (s, sts)
    let s := r.1
    let sts := r.2
    if AST_I2CD_INTR_STS_ABNORMAL &&& sts ≠ 0 then
      let s := clear_sts s AST_I2CD_INTR_STS_ABNORMAL
      let s := { s with cmd_err := s.cmd_err ||| AST_I2CD_INTR_STS_ABNORMAL }
      let s := { s with master_xfer_first := 0 }
      let s := complete s
      let s :=
        if sts &&& AST_I2CD_INTR_STS_TX_ACK ≠ 0 then clear_sts s AST_I2CD_INTR_STS_TX_ACK
        else if sts &&& AST_I2CD_INTR_STS_TX_NAK ≠ 0 then
          clear_sts s AST_I2CD_INTR_STS_TX_NAK
        else s
      (irqreturn.IRQ_HANDLED, ast_i2c_write s s.func_ctrl_reg I2C_FUN_CTRL_REG)
    else if AST_I2CD_INTR_STS_SCL_TO &&& sts ≠ 0 then
      let s := clear_sts s AST_I2CD_INTR_STS_SCL_TO
      let s := { s with cmd_err := s.cmd_err ||| AST_I2CD_INTR_STS_SCL_TO }
      let s := complete s
      (irqreturn.IRQ_HANDLED, ast_i2c_bus_reset cfg ev.recov s)
    else
      let stop_slave := AST_I2CD_INTR_STS_NORMAL_STOP &&& sts ≠ 0 ∧ s.slave_operation = 1
      let r : ast_i2c_dev × Nat :=
        if stop_slave then
          let s := { s with slave_event := SlaveEvent.STOP }
          let s := ast_i2c_slave_xfer_done cfg ev.recov s
          let s := clear_sts s AST_I2CD_INTR_STS_NORMAL_STOP
          (s, sts &&& not32 AST_I2CD_INTR_STS_NORMAL_STOP)
        else (s, sts)
      if stop_slave ∧ r.2 = 0 then (irqreturn.IRQ_HANDLED, r.1)
      else (irqreturn.IRQ_HANDLED, handler_switch cfg ev r.2 r.1)

/-! ## Submit path -/

/-- What the hardware does while the submit path waits for one message: the
interrupts it raises, the jiffies left (less one) when the completion is seen,
the command/status register as read after a timeout, and the answers to the
waits of a bus reset forced after the wait. -/
structure Wait where
  irqs : List Irq := []
  left : Nat := 0
  cmd : Nat := 0
  recov : RecoverEnv := {}
  deriving DecidableEq, Repr

/-- The environment of one call of `ast_i2c_do_msgs_xfer`: the answer of the
page allocator and, per message, what happens during its wait. -/
structure XferEnv where
  page : Option buf_page := none
  waits : List Wait := []
  deriving DecidableEq, Repr

/-- The handler runs on the interrupts raised during a wait, one after the
other, until `complete` has been called. -/
def wait_irqs (cfg : Config) : List Irq → ast_i2c_dev → ast_i2c_dev
  | [], s => s
  | ev :: rest, s =>
    if s.cmd_complete > 0 then s else wait_irqs cfg rest (i2c_ast_handler cfg ev s).2

/-- The call `wait_for_completion_timeout(&cmd_complete, timeout)` of the
submit path: the jiffies left if the completion was signalled, 0 after a
timeout. -/
def wait_for_completion_timeout (cfg : Config) (w : Wait) (s : ast_i2c_dev) :
    Int × ast_i2c_dev :=
  let s := wait_irqs cfg w.irqs s
  if s.cmd_complete > 0 then ((w.left : Int) + 1, { s with cmd_complete := s.cmd_complete - 1 })
  else (0, { s with regs := Function.update s.regs I2C_CMD_REG w.cmd })

/-- Result of the message loop of `ast_i2c_do_msgs_xfer`: whether the loop was
left by `goto stop`, the value of `ret`, the caller's messages and the state. -/
structure LoopResult where
  stopped : Bool
  ret : Int
  msgs : List i2c_msg
  dev : ast_i2c_dev

/-- The body of the loop of `ast_i2c_do_msgs_xfer` for message `m` of index `i`
up to the wait: the progress fields are reset and the first chunk is armed. -/
def msg_arm (cfg : Config) (num : Int) (i : Nat) (m : i2c_msg) (s : ast_i2c_dev) :
    ast_i2c_dev :=
  let s := { s with blk_r_flag := 0 }
  let s := { s with master_msgs := some m }
  let s := { s with xfer_last := if num = (i : Int) + 1 then 1 else 0 }
  let s := { s with blk_r_flag := 0 }
  let s := init_completion s
  let s := { s with cmd_err := 0 }
  let s := { s with master_xfer_cnt := if m.flags &&& I2C_M_NOSTART ≠ 0 then 0 else -1 }
  let s := call_xfer cfg s.do_master_xfer s
  { s with master_xfer_first := 1 }

/-- The loop `for (i = 0; i < num; i++)` of `ast_i2c_do_msgs_xfer` from index
`i` on; the first argument is the number of iterations left. The message the
pointer `master_msgs` referred to is stored back into the caller's array when
the pointer is cleared. -/
def msgs_loop (cfg : Config) (num : Int) :
    Nat → Nat → List Wait → Int → List i2c_msg → ast_i2c_dev → LoopResult
  | 0, _, _, ret, msgs, s => { stopped := false, ret := ret, msgs := msgs, dev := s }
  | k + 1, i, waits, _, msgs, s =>
    let s := msg_arm cfg num i (msgs.getD i {}) s
    let w := waits.headD {}
    let r := wait_for_completion_timeout cfg w s
    let ret := r.1
    let s := r.2
    let msgs :=
      match s.master_msgs with
      | some m => msgs.set i m
      | none => msgs
    let s := { s with master_msgs := none }
    if ret = 0 then
      let s := { s with state := (ast_i2c_read s I2C_CMD_REG >>> 19) &&& 0xf }
      let s := ast_i2c_bus_reset cfg w.recov s
      let s := { s with master_xfer_first := 0 }
      { stopped := true, ret := -ETIMEDOUT, msgs := msgs, dev := s }
    else if s.cmd_err ≠ 0 ∧ s.cmd_err ≠ AST_I2CD_INTR_STS_NORMAL_STOP then
      let s :=
        if s.cmd_err &&& AST_LOCKUP_DETECTED ≠ 0 then ast_i2c_bus_reset cfg w.recov s
        else s
      let s := { s with master_xfer_first := 0 }
      { stopped := true, ret := -EAGAIN, msgs := msgs, dev := s }
    else msgs_loop cfg num k (i + 1) waits.tail ret msgs s

/-- The selection of the arm routine at the head of `ast_i2c_do_msgs_xfer`. -/
def select_master_mode (cfg : Config) (page : Option buf_page) (s : ast_i2c_dev) :
    ast_i2c_dev :=
  match cfg.master_dma with
  | DmaMode.BYTE_MODE =>
    { s with do_master_xfer := XferFn.byte, master_xfer_mode := XferMode.BYTE_XFER,
             master_xfer_len := 1 }
  | DmaMode.DEC_DMA_MODE =>
    { s with do_master_xfer := XferFn.dec_dma, master_xfer_mode := XferMode.DEC_DMA_XFER }
  | DmaMode.INC_DMA_MODE =>
    { s with do_master_xfer := XferFn.inc_dma, master_xfer_mode := XferMode.INC_DMA_XFER }
  | DmaMode.BUFF_MODE =>
    match page with
    | some _ =>
      let s := request_pool_buff_page page s
      { s with do_master_xfer := XferFn.pool, master_xfer_mode := XferMode.BUFF_XFER }
    | none =>
      { s with do_master_xfer := XferFn.byte, master_xfer_mode := XferMode.BYTE_XFER,
               master_xfer_len := 1 }

def ast_i2c_do_msgs_xfer (cfg : Config) (env : XferEnv) (msgs : List i2c_msg) (num : Int)
    (s : ast_i2c_dev) : Int × List i2c_msg × ast_i2c_dev :=
  if s.slave_operation = 1 then (-1, msgs, s)
  else
    let s := select_master_mode cfg env.page s
    let s := { s with master_xfer_first := 0 }
    let r := msgs_loop cfg num num.toNat 0 env.waits 1 msgs s
    let q : Int × ast_i2c_dev :=
      if r.stopped then (r.ret, r.dev)
      else
        let s : ast_i2c_dev := { r.dev with master_xfer_first := 0 }
        if s.cmd_err = 0 ∨ s.cmd_err = AST_I2CD_INTR_STS_NORMAL_STOP then (num, s)
        else (r.ret, s)
    let s := q.2
    let s := if s.master_xfer_mode = XferMode.BUFF_XFER then free_pool_buff_page s else s
    (q.1, r.msgs, s)

/-- The polling loop of `ast_i2c_wait_bus_not_busy`, `while (timeout > 0)`; the
first argument is `timeout`, the list holds the command/status and the
interrupt-status register as read at each poll. The result is the final value
of `timeout` with the state. -/
def wait_bus_loop : Nat → List (Nat × Nat) → ast_i2c_dev → Nat × ast_i2c_dev
  | 0, _, s => (0, s)
  | timeout + 1, polls, s =>
    let p := polls.headD (0, 0)
    let regs := Function.update (Function.update s.regs I2C_CMD_REG p.1) I2C_INTR_STS_REG p.2
    let s := { s with regs := regs }
    if ast_i2c_read s I2C_CMD_REG &&& AST_I2CD_BUS_BUSY_STS = 0 ∧
        ast_i2c_read s I2C_INTR_STS_REG &&&
          (AST_I2CD_INTR_STS_RX_DOWN ||| AST_I2CD_INTR_STS_NORMAL_STOP) = 0 then
      (timeout + 1, { s with slave_operation := 0 })
    else wait_bus_loop timeout polls.tail s

def ast_i2c_wait_bus_not_busy (cfg : Config) (polls : List (Nat × Nat)) (env : RecoverEnv)
    (s : ast_i2c_dev) : Int × ast_i2c_dev :=
  let r := wait_bus_loop 10 polls s
  if r.1 ≤ 0 then (0, ast_i2c_bus_reset cfg env r.2) else (0, r.2)

/-- The environment of one call of `ast_i2c_xfer`: the polls of the busy
check, the answers to the waits of the bus reset it may force, and the
environment of each attempt. -/
structure EntryEnv where
  polls : List (Nat × Nat) := []
  recov : RecoverEnv := {}
  attempts : List XferEnv := []
  deriving DecidableEq, Repr

/-- The loop `for (i = adap->retries; i >= 0; i--)` of `ast_i2c_xfer` from `i`
on; the first argument is the number of iterations left. Leaving the loop by
its condition gives `-EREMOTEIO`. -/
def xfer_loop (cfg : Config) (num : Int) :
    Nat → Int → List XferEnv → List i2c_msg → ast_i2c_dev → Int × List i2c_msg × ast_i2c_dev
  | 0, _, _, msgs, s => (- EREMOTEIO, msgs, s)
  | k + 1, i, envs, msgs, s =>
    let r := ast_i2c_do_msgs_xfer cfg (envs.headD {}) msgs num s
    if i ≤ 0 ∨ r.1 ≠ -EAGAIN then r
    else xfer_loop cfg num k (i - 1) envs.tail r.2.1 r.2.2

def ast_i2c_xfer (cfg : Config) (env : EntryEnv) (msgs : List i2c_msg) (num : Int)
    (s : ast_i2c_dev) : Int × List i2c_msg × ast_i2c_dev :=
  let r := ast_i2c_wait_bus_not_busy cfg env.polls env.recov s
  if r.1 ≠ 0 then (r.1, msgs, r.2)
  else xfer_loop cfg num (s.retries + 1).toNat s.retries env.attempts msgs r.2

/-! ## Observations used by the statements -/

/-- The values written to register `reg`, in order. -/
def writes_to (reg : Reg) (l : List (Reg × Nat)) : List Nat :=
  (l.filter (fun p => p.1 = reg)).map (fun p => p.2)

/-- An interrupt of bus `bus_id` whose interrupt status reads exactly `sts`. -/
def Irq.isFor (ev : Irq) (bus_id sts : Nat) : Prop :=
  ev.isr_sts &&& (1 <<< bus_id) ≠ 0 ∧ ev.sts = sts

instance (ev : Irq) (bus_id sts : Nat) : Decidable (ev.isFor bus_id sts) := by
  unfold Irq.isFor
  exact inferInstance

/-! ## Invariants used by the proofs -/

/-- Byte mode, master write of message `m` in progress: the counter is `c`, no
completion is pending and no error is recorded. -/
@[mk_iff]
structure ByteTx (m : i2c_msg) (c : Int) (s : ast_i2c_dev) : Prop where
  slave : s.slave_operation ≠ 1
  msg : s.master_msgs = some m
  wr : m.flags &&& I2C_M_RD = 0
  mode : s.master_xfer_mode = XferMode.BYTE_XFER
  fn : s.do_master_xfer = XferFn.byte
  len : s.master_xfer_len = 1
  cnt : s.master_xfer_cnt = c
  done : s.cmd_complete = 0
  err : s.cmd_err = 0

/-- Fields that the master path leaves alone while a message makes progress. -/
@[mk_iff]
structure Frame (s t : ast_i2c_dev) : Prop where
  bus_id : t.bus_id = s.bus_id
  reset : t.bus_master_reset_cnt = s.bus_master_reset_cnt
  recov : t.bus_slave_recovery_cnt = s.bus_slave_recovery_cnt
  pool : t.pool_log = s.pool_log
  last : t.xfer_last = s.xfer_last
  retries : t.retries = s.retries

/-! ## Concrete inputs of the witnesses -/

/-- An acknowledge interrupt of bus 0. -/
def ack_irq : Irq := { isr_sts := 1, sts := AST_I2CD_INTR_STS_TX_ACK }

/-- A NACK interrupt of bus 0. -/
def nak_irq : Irq := { isr_sts := 1, sts := AST_I2CD_INTR_STS_TX_NAK }

/-- The chunk the pool page holds after an arm: its first `master_xfer_len`
bytes, the words unpacked lowest byte first. -/
def loaded_chunk (s : ast_i2c_dev) : List Nat :=
  (List.range s.master_xfer_len.toNat).map (pool_byte s.req_page.mem)

/-- The hardware reports the armed transmit chunk as fully transferred: the
count the completion routine extracts from the buffer-control register is the
armed length. -/
def Irq.reportsTx (ev : Irq) (s : ast_i2c_dev) : Prop :=
  (AST_I2CD_TX_DATA_BUF_GET ev.buf_ctrl + 1) % 2 ^ 32 = u32 s.master_xfer_len

/-- The interrupt by which the hardware acknowledges an armed transmit chunk
in master role: the status reads TX_ACK, or, for a chunk of the last message
(`xfer_last = 1`), TX_ACK together with NORMAL_STOP, which is how a chunk armed
with the stop command and the acknowledge interrupt disabled completes. -/
def Irq.acksTx (ev : Irq) (s : ast_i2c_dev) : Prop :=
  ev.isFor s.bus_id AST_I2CD_INTR_STS_TX_ACK ∨
    (s.xfer_last = 1 ∧ s.slave_operation = 0 ∧
      ev.isFor s.bus_id (AST_I2CD_INTR_STS_TX_ACK ||| AST_I2CD_INTR_STS_NORMAL_STOP))

instance (ev : Irq) (s : ast_i2c_dev) : Decidable (ev.acksTx s) := by
  unfold Irq.acksTx
  exact inferInstance

/-- Until the completion is signalled, every interrupt taken during the wait is
a transmit acknowledge of this bus (`Irq.acksTx`) that leaves the page alone
and reports the armed chunk as fully transferred. -/
def FullTxRun (cfg : Config) : List Irq → ast_i2c_dev → Prop
  | [], _ => True
  | ev :: rest, s =>
    s.cmd_complete > 0 ∨
      (ev.acksTx s ∧ ev.pool = none ∧ ev.reportsTx s ∧
        FullTxRun cfg rest (i2c_ast_handler cfg ev s).2)

/-- The chunks found in the pool page while a wait runs: the chunk armed when
the wait starts and the chunk armed by each interrupt, up to the completion. -/
def chunk_trace (cfg : Config) : List Irq → ast_i2c_dev → List (List Nat)
  | [], s => if s.cmd_complete > 0 then [] else [loaded_chunk s]
  | ev :: rest, s =>
    if s.cmd_complete > 0 then []
    else loaded_chunk s :: chunk_trace cfg rest (i2c_ast_handler cfg ev s).2

/-- Pool mode, master write of message `m` in progress on a page of `P` bytes:
the counter is `c`, a chunk of `l` bytes with content `ch` is armed, no
completion is pending. -/
@[mk_iff]
structure PoolTx (m : i2c_msg) (P : Nat) (c : Int) (l : Nat) (ch : List Nat)
    (s : ast_i2c_dev) : Prop where
  slave : s.slave_operation ≠ 1
  msg : s.master_msgs = some m
  wr : m.flags &&& I2C_M_RD = 0
  mode : s.master_xfer_mode = XferMode.BUFF_XFER
  fn : s.do_master_xfer = XferFn.pool
  len : s.master_xfer_len = (l : Int)
  cnt : s.master_xfer_cnt = c
  done : s.cmd_complete = 0
  size : s.req_page.page_size = P
  mem : P ≤ 4 * s.req_page.mem.length
  chunk : loaded_chunk s = ch

/-- One iteration of the packing loop. -/
def pool_fill_step (b i : Nat) (tx_buf : List Nat) : List Nat :=
  let tx_buf := if i % 4 = 0 then tx_buf.set (i / 4) 0 else tx_buf
  tx_buf.set (i / 4) ((tx_buf.getD (i / 4) 0 ||| (b <<< ((i % 4) * 8))) % 2 ^ 32)

/-- The state in which the handler examines the status of an interrupt it has
taken: the hardware view is latched and `state` is read from the
command/status register. -/
def irq_entry (ev : Irq) (s : ast_i2c_dev) : ast_i2c_dev :=
  let s := take_irq ev s
  { s with state := (ast_i2c_read s I2C_CMD_REG >>> 19) &&& 0xf }

/-- The state in which the wait for the first message `m` of a sequence of
`num` messages starts, when the sequence is submitted in state `s` and the page
allocator answers `page`: the arm routine is selected and the first chunk of
`m` is armed. -/
def submit_arm (cfg : Config) (page : Option buf_page) (num : Int) (m : i2c_msg)
    (s : ast_i2c_dev) : ast_i2c_dev :=
  msg_arm cfg num 0 m { select_master_mode cfg page s with master_xfer_first := 0 }

instance (ev : Irq) (s : ast_i2c_dev) : Decidable (ev.reportsTx s) := by
  unfold Irq.reportsTx
  exact inferInstance

/-- Decision procedure for `FullTxRun`. -/
def FullTxRun.dec (cfg : Config) :
    (irqs : List Irq) → (s : ast_i2c_dev) → Decidable (FullTxRun cfg irqs s)
  | [], _ => isTrue trivial
  | ev :: rest, s =>
    have := FullTxRun.dec cfg rest (i2c_ast_handler cfg ev s).2
    by unfold FullTxRun; exact inferInstance

instance (cfg : Config) (irqs : List Irq) (s : ast_i2c_dev) :
    Decidable (FullTxRun cfg irqs s) := FullTxRun.dec cfg irqs s

/-- An acknowledge interrupt of bus 0 that reports a transmit chunk of `n + 1`
bytes as transferred. -/
def ack_tx_irq (n : Nat) : Irq :=
  { isr_sts := 1, sts := AST_I2CD_INTR_STS_TX_ACK, buf_ctrl := n <<< 8 }

/-- The interrupt of bus 0 that ends a transmit chunk armed with the stop
command: TX_ACK with NORMAL_STOP, reporting `n + 1` bytes as transferred. -/
def ack_stop_tx_irq (n : Nat) : Irq :=
  { isr_sts := 1, sts := AST_I2CD_INTR_STS_TX_ACK ||| AST_I2CD_INTR_STS_NORMAL_STOP,
    buf_ctrl := n <<< 8 }

/-- A pool page of 2 bytes. -/
def page2 : buf_page := { page_no := 0, page_size := 2, page_addr_point := 0, mem := [0] }

/-- The hardware reports `n` bytes received into the pool page: the length the
completion routine extracts from the buffer-control register is `n`. -/
def Irq.reportsRx (cfg : Config) (ev : Irq) (n : Nat) : Prop :=
  (if cfg.soc ≠ Soc.g5 ∧ AST_I2CD_RX_BUF_ADDR_GET ev.buf_ctrl = 0 then cfg.AST_I2C_PAGE_SIZE
    else AST_I2CD_RX_BUF_ADDR_GET ev.buf_ctrl) = n

instance (cfg : Config) (ev : Irq) (n : Nat) : Decidable (ev.reportsRx cfg n) := by
  unfold Irq.reportsRx
  exact inferInstance

/-- Pool mode, master read of message `m` in progress: the counter is `c`, a
chunk of `l` bytes is armed, no completion is pending and no error recorded. -/
@[mk_iff]
structure PoolRx (m : i2c_msg) (P base : Nat) (c : Int) (l : Int) (s : ast_i2c_dev) :
    Prop where
  slave : s.slave_operation = 0
  msg : s.master_msgs = some m
  mode : s.master_xfer_mode = XferMode.BUFF_XFER
  fn : s.do_master_xfer = XferFn.pool
  len : s.master_xfer_len = l
  cnt : s.master_xfer_cnt = c
  done : s.cmd_complete = 0
  err : s.cmd_err = 0
  size : s.req_page.page_size = P
  base : s.req_page.page_addr_point = base
  last : s.xfer_last = 1
  blk : s.blk_r_flag = 0

/-- A receive-done interrupt of bus 0, with the stop of the last message, that
reports `n` bytes and leaves the words `w` in the pool page. -/
def rx_stop_irq (n : Nat) (w : List Nat) : Irq :=
  { isr_sts := 1, sts := AST_I2CD_INTR_STS_RX_DOWN ||| AST_I2CD_INTR_STS_NORMAL_STOP,
    buf_ctrl := n <<< 24, pool := some w }

/-- The bus is found idle at the first poll of the busy check. -/
def IdleAtEntry (env : EntryEnv) : Prop :=
  (env.polls.headD (0, 0)).1 &&& AST_I2CD_BUS_BUSY_STS = 0 ∧
  (env.polls.headD (0, 0)).2 &&&
    (AST_I2CD_INTR_STS_RX_DOWN ||| AST_I2CD_INTR_STS_NORMAL_STOP) = 0

instance (env : EntryEnv) : Decidable (IdleAtEntry env) := by
  unfold IdleAtEntry
  exact inferInstance

/-- The message loop of `ast_i2c_do_msgs_xfer` over the first `k` messages of
a call. -/
def loop_upto (cfg : Config) (env : XferEnv) (msgs : List i2c_msg) (num : Int)
    (s : ast_i2c_dev) (k : Nat) : LoopResult :=
  msgs_loop cfg num k 0 env.waits 1 msgs
    { select_master_mode cfg env.page s with master_xfer_first := 0 }

/-- The state in which the wait for message `k` of a call starts, when the
first `k` messages went through the loop: message `k` is armed. -/
def armed_msg (cfg : Config) (env : XferEnv) (msgs : List i2c_msg) (num : Int)
    (s : ast_i2c_dev) (k : Nat) : ast_i2c_dev :=
  let p := loop_upto cfg env msgs num s k
  msg_arm cfg num k (p.msgs.getD k {}) p.dev

/-- The environment of the wait for message `k`. -/
def wait_env (env : XferEnv) (k : Nat) : Wait := (env.waits.drop k).headD {}

/-- The wait for message `k` of a call whose first `k` messages went through
the loop: the value of `wait_for_completion_timeout` and the state it leaves. -/
def wait_of_msg (cfg : Config) (env : XferEnv) (msgs : List i2c_msg) (num : Int)
    (s : ast_i2c_dev) (k : Nat) : Int × ast_i2c_dev :=
  wait_for_completion_timeout cfg (wait_env env k) (armed_msg cfg env msgs num s k)

/-- The exit of `ast_i2c_do_msgs_xfer` after a wait that timed out in state
`s` with the environment `w`: the pointer is cleared, `state` is read, the bus
is reset once, and the page is freed in pool mode. -/
def timeout_exit (cfg : Config) (w : Wait) (s : ast_i2c_dev) : ast_i2c_dev :=
  let s := { s with master_msgs := none }
  let s := { s with state := (ast_i2c_read s I2C_CMD_REG >>> 19) &&& 0xf }
  let s := ast_i2c_bus_reset cfg w.recov s
  let s := { s with master_xfer_first := 0 }
  if s.master_xfer_mode = XferMode.BUFF_XFER then free_pool_buff_page s else s

/-- From state `s` to state `t` the only commands written to the
command register are those of the bus recovery: a stop or a bus-recover
command. No transfer command (start, transmit, receive) is among them. -/
def OnlyRecoveryCmds (s t : ast_i2c_dev) : Prop :=
  ∃ l : List Nat, writes_to I2C_CMD_REG t.writes = writes_to I2C_CMD_REG s.writes ++ l ∧
    ∀ v ∈ l, v = AST_I2CD_M_STOP_CMD ∨ v = AST_I2CD_BUS_RECOVER_CMD_EN

/-- Two pool pages of 16 bytes, numbers 0 and 1. -/
def page_a : buf_page :=
  { page_no := 0, page_size := 16, page_addr_point := 0, mem := List.replicate 4 0 }

def page_b : buf_page :=
  { page_no := 1, page_size := 16, page_addr_point := 4, mem := List.replicate 4 0 }

/-- An address-match interrupt of bus 0 (receive done with slave match, the
address byte 0x20 in the byte-data register) at which the page allocator hands
out `page_b`. -/
def slave_match_irq : Irq :=
  { isr_sts := 1, sts := AST_I2CD_INTR_STS_RX_DOWN ||| AST_I2CD_INTR_STS_SLAVE_MATCH,
    byte_buf := 0x20 <<< 8, page := some page_b }

/-- An abnormal-condition interrupt of bus 0. -/
def abnormal_irq : Irq := { isr_sts := 1, sts := AST_I2CD_INTR_STS_ABNORMAL }

/-- The bus is found busy at each of the 10 polls of the busy check. -/
def BusyAtEntry (env : EntryEnv) : Prop :=
  ∀ j < 10, ¬ ((env.polls.getD j (0, 0)).1 &&& AST_I2CD_BUS_BUSY_STS = 0 ∧
    (env.polls.getD j (0, 0)).2 &&&
      (AST_I2CD_INTR_STS_RX_DOWN ||| AST_I2CD_INTR_STS_NORMAL_STOP) = 0)

instance (env : EntryEnv) : Decidable (BusyAtEntry env) := by
  unfold BusyAtEntry
  exact inferInstance

/-- A 1-byte write to address 0x50. -/
def write1 : i2c_msg := { addr := 0x50, len := 1, buf := [7] }

/-- Ten polls that find the bus busy. -/
def busy_polls : List (Nat × Nat) := List.replicate 10 (AST_I2CD_BUS_BUSY_STS, 0)

/-- The byte the hardware presents in the receive field of the byte-data
register at an interrupt. -/
def Irq.rxByte (ev : Irq) : Nat := (ev.byte_buf &&& AST_I2CD_RX_BYTE_BUFFER) >>> 8

/-- A receive-done interrupt of bus `bus_id`, alone or together with the
stop. -/
def Irq.isRxFor (ev : Irq) (bus_id : Nat) : Prop :=
  ev.isFor bus_id AST_I2CD_INTR_STS_RX_DOWN ∨
  ev.isFor bus_id (AST_I2CD_INTR_STS_RX_DOWN ||| AST_I2CD_INTR_STS_NORMAL_STOP)

instance (ev : Irq) (bus_id : Nat) : Decidable (ev.isRxFor bus_id) := by
  unfold Irq.isRxFor
  exact inferInstance

/-- Byte mode, master read in progress of a message with address `a`, flags
`f` and current length `L`: the counter is `c`, the block-read gate is `blk`,
no completion is pending and no error recorded. The buffer content is left
open. -/
@[mk_iff]
structure ByteRx (a f L : Nat) (c : Int) (blk : Nat) (s : ast_i2c_dev) : Prop where
  slave : s.slave_operation = 0
  msg : ∃ b, s.master_msgs = some { addr := a, flags := f, len := L, buf := b }
  rd : f &&& I2C_M_RD ≠ 0
  mode : s.master_xfer_mode = XferMode.BYTE_XFER
  fn : s.do_master_xfer = XferFn.byte
  len : s.master_xfer_len = 1
  cnt : s.master_xfer_cnt = c
  done : s.cmd_complete = 0
  err : s.cmd_err = 0
  gate : s.blk_r_flag = blk

/-- A receive-done interrupt of bus 0 that presents the byte `v`. -/
def rx_byte_irq (v : Nat) : Irq :=
  { isr_sts := 1, sts := AST_I2CD_INTR_STS_RX_DOWN, byte_buf := v <<< 8 }

/-- A receive-done interrupt of bus 0, raised with the stop, that presents the
byte `v`. -/
def rx_last_irq (v : Nat) : Irq :=
  { isr_sts := 1, sts := AST_I2CD_INTR_STS_RX_DOWN ||| AST_I2CD_INTR_STS_NORMAL_STOP,
    byte_buf := v <<< 8 }

/-- A clock-low-timeout interrupt of bus 0 at which SDA reads high and SCL
low. -/
def scl_to_irq : Irq :=
  { isr_sts := 1, sts := AST_I2CD_INTR_STS_SCL_TO, cmd := AST_I2CD_SDA_LINE_STS }

/-- An interrupt of bus 0 with arbitration loss and transmit acknowledge
latched together. -/
def arb_ack_irq : Irq :=
  { isr_sts := 1, sts := AST_I2CD_INTR_STS_ARBIT_LOSS ||| AST_I2CD_INTR_STS_TX_ACK }

/-- An interrupt of bus 0 with arbitration loss and normal stop latched
together. -/
def arb_stop_irq : Irq :=
  { isr_sts := 1, sts := AST_I2CD_INTR_STS_ARBIT_LOSS ||| AST_I2CD_INTR_STS_NORMAL_STOP }

/-- The wait of a recovery attempt ended with a command error (the test
`cmd_err && cmd_err != AST_I2CD_INTR_STS_NORMAL_STOP`). -/
def WaitResp.failed (r : WaitResp) : Prop :=
  r.cmd_err ≠ 0 ∧ r.cmd_err ≠ AST_I2CD_INTR_STS_NORMAL_STOP

instance (r : WaitResp) : Decidable r.failed := by
  unfold WaitResp.failed
  exact inferInstance

/-- SDA reads high after the wait of a recovery attempt. -/
def WaitResp.sdaHigh (r : WaitResp) : Prop := r.cmd &&& AST_I2CD_SDA_LINE_STS ≠ 0

instance (r : WaitResp) : Decidable r.sdaHigh := by
  unfold WaitResp.sdaHigh
  exact inferInstance

/-- The first `n` recovery attempts end without command error and leave SDA
low. -/
def StuckLow (resps : List WaitResp) (n : Nat) : Prop :=
  ∀ i < n, ¬ (resps.getD i {}).failed ∧ ¬ (resps.getD i {}).sdaHigh

instance (resps : List WaitResp) (n : Nat) : Decidable (StuckLow resps n) := by
  unfold StuckLow
  exact inferInstance

/-- SDA stays low after two recovery attempts and reads high after the
third. -/
def freed_at_3 : List WaitResp := [{}, {}, { cmd := AST_I2CD_SDA_LINE_STS }]

/-- A poll of the busy check that finds the bus idle: the bus-busy bit of the
command/status register is clear and neither receive-done nor normal-stop is
pending in the interrupt status. -/
def PollIdle (p : Nat × Nat) : Prop :=
  p.1 &&& AST_I2CD_BUS_BUSY_STS = 0 ∧
  p.2 &&& (AST_I2CD_INTR_STS_RX_DOWN ||| AST_I2CD_INTR_STS_NORMAL_STOP) = 0

instance (p : Nat × Nat) : Decidable (PollIdle p) := by
  unfold PollIdle
  exact inferInstance

/-! ## SPI clock divisor (`arch/arm/plat-aspeed/dev-spi-fb.c`) -/

/-- The table `SPI_DIV` of `ast_spi_calculate_divisor`: entry `i - 1` is the
register encoding of the divider `i`. -/
def SPI_DIV : List Nat := [15, 7, 14, 6, 13, 5, 12, 4, 11, 3, 10, 2, 9, 1, 8, 0]

/-- The loop `for (i = 1; i < 17; i++)` of `ast_spi_calculate_divisor` from `i`
on; the first argument is the number of iterations left. The result is the
final value of `spi_cdvr`, which starts at 0. -/
def spi_div_loop (max_speed_hz hclk : Nat) : Nat → Nat → Nat
  | 0, _ => 0
  | k + 1, i => if max_speed_hz ≥ hclk / i then SPI_DIV.getD (i - 1) 0
                else spi_div_loop max_speed_hz hclk k (i + 1)

/-- The function `ast_spi_calculate_divisor`; `hclk` is the value of
`ast_get_ahbclk()`. -/
def ast_spi_calculate_divisor (hclk max_speed_hz : Nat) : Nat :=
  spi_div_loop max_speed_hz hclk 16 1

/-- None of the hard-coded timing words of `select_i2c_clock` applies: the
general formula is used. -/
def Config.noOverride (cfg : Config) : Prop :=
  ¬ (cfg.board = Board.fbttn ∧ cfg.bus_clk = 1000000) ∧
  ¬ (cfg.board = Board.yosemite ∧ cfg.bus_clk = 1000000) ∧
  ¬ (cfg.board = Board.fby2 ∧ cfg.bus_clk = 1000000) ∧
  ¬ (cfg.board = Board.fby2 ∧ cfg.bus_clk = 400000) ∧
  ¬ (cfg.board = Board.fbtp ∧ cfg.bus_clk = 1000000) ∧
  ¬ (cfg.board = Board.fbtp ∧ cfg.bus_clk = 400000) ∧
  ¬ (cfg.board = Board.fbtp ∧ cfg.bus_clk = 100000)

instance (cfg : Config) : Decidable cfg.noOverride := by
  unfold Config.noOverride
  exact inferInstance

/-- The local `SCL_Low` of `select_i2c_clock`, `(divider_ratio >> 1) - 1` in
`u32`. -/
def SCL_Low (divider_ratio : Nat) : Nat := ((divider_ratio >>> 1) + 2 ^ 32 - 1) % 2 ^ 32

/-- The local `SCL_High` of `select_i2c_clock`, `divider_ratio - SCL_Low - 2`
in `u32`. -/
def SCL_High (divider_ratio : Nat) : Nat :=
  (divider_ratio + 2 * 2 ^ 32 - SCL_Low divider_ratio - 2) % 2 ^ 32

/-- The value of `divider_ratio` after `divider_ratio += inc`, from which the
periods are derived. -/
def final_ratio (cfg : Config) : Nat :=
  (clock_halving (cfg.clk / cfg.bus_clk) (cfg.clk / cfg.bus_clk) 0 0).1 +
    (clock_halving (cfg.clk / cfg.bus_clk) (cfg.clk / cfg.bus_clk) 0 0).2.1

/-- The halving count `div` at the end of the loop. -/
def final_div (cfg : Config) : Nat :=
  (clock_halving (cfg.clk / cfg.bus_clk) (cfg.clk / cfg.bus_clk) 0 0).2.2

/-- An input clock below twice the bus frequency. -/
def slow_clock : Config := { clk := 150000, bus_clk := 100000 }

/-- The test of `ast_i2c_bus_reset` on a function-control value: master mode
enabled and slave mode not enabled. -/
def MasterOnly (ctrl : Nat) : Prop :=
  ctrl &&& AST_I2CD_MASTER_EN ≠ 0 ∧ ¬ (ctrl &&& AST_I2CD_SLAVE_EN ≠ 0)

instance (ctrl : Nat) : Decidable (MasterOnly ctrl) := by
  unfold MasterOnly
  exact inferInstance

/-- The timing registers hold the values `ast_i2c_dev_init` programs for this
platform and bus. The initialisation is the only writer of these registers. -/
def TimingProgrammed (cfg : Config) (s : ast_i2c_dev) : Prop :=
  s.regs I2C_AC_TIMING_REG1 = (ast_i2c_dev_init cfg s).regs I2C_AC_TIMING_REG1 ∧
  s.regs I2C_AC_TIMING_REG2 = (ast_i2c_dev_init cfg s).regs I2C_AC_TIMING_REG2

instance (cfg : Config) (s : ast_i2c_dev) : Decidable (TimingProgrammed cfg s) := by
  unfold TimingProgrammed
  exact inferInstance

/-- The second of two bus resets in succession with no traffic in between:
the lines read as they did at the first reset and the hardware gives the same
answers. -/
def second_reset (cfg : Config) (env : RecoverEnv) (s : ast_i2c_dev) : ast_i2c_dev :=
  ast_i2c_bus_reset cfg env
    { ast_i2c_bus_reset cfg env s with
      regs := Function.update (ast_i2c_bus_reset cfg env s).regs I2C_CMD_REG
        (s.regs I2C_CMD_REG) }

/-! ## Slave entry point of the consumer -/

/-- Modelled from the spec: message flag of the vendor `linux/i2c.h` that asks
the slave entry point to enable or disable slave mode, not among the
sources. -/
def I2C_S_EN : Nat := 0x0800
/-- Modelled from the spec: message flag of the vendor `linux/i2c.h` that asks
the slave entry point to assert or deassert the alert. -/
def I2C_S_ALT : Nat := 0x1000

def ast_slave_issue_alert (s : ast_i2c_dev) (enable : Nat) : ast_i2c_dev :=
  if s.bus_id > 3 then s
  else if enable ≠ 0 then
    ast_i2c_write s (ast_i2c_read s I2C_CMD_REG ||| AST_I2CD_S_ALT_EN) I2C_CMD_REG
  else ast_i2c_write s (ast_i2c_read s I2C_CMD_REG &&& not32 AST_I2CD_S_ALT_EN) I2C_CMD_REG

def ast_slave_mode_enable (s : ast_i2c_dev) (msgs : i2c_msg) : ast_i2c_dev :=
  if byteAt msgs.buf 0 = 1 then
    let s := ast_i2c_write s msgs.addr I2C_DEV_ADDR_REG
    let s := { s with func_ctrl_reg := s.func_ctrl_reg ||| AST_I2CD_SLAVE_EN }
    ast_i2c_write s (ast_i2c_read s I2C_FUN_CTRL_REG ||| AST_I2CD_SLAVE_EN) I2C_FUN_CTRL_REG
  else
    let s := { s with func_ctrl_reg := s.func_ctrl_reg &&& not32 AST_I2CD_SLAVE_EN }
    ast_i2c_write s (ast_i2c_read s I2C_FUN_CTRL_REG &&& not32 AST_I2CD_SLAVE_EN)
      I2C_FUN_CTRL_REG

/-- The call `memcpy(dst, src, n)` on byte buffers: the first `n` bytes of
`dst` become those of `src`. -/
def memcpy (dst src : List Nat) (n : Nat) : List Nat := src.take n ++ dst.drop n

/-- The function `ast_i2c_slave_xfer`: the return value, the caller's message
and the state. -/
def ast_i2c_slave_xfer (msgs : i2c_msg) (s : ast_i2c_dev) : Int × i2c_msg × ast_i2c_dev :=
  if msgs.flags = 0 then
    let slot := s.slave_rx_msg.getD s.slave_rx_out {}
    if slot.flags = BUFF_FULL then
      let msgs := { msgs with buf := memcpy msgs.buf slot.buf slot.len }
      let msgs := { msgs with len := slot.len }
      let s := { s with
        slave_rx_msg := s.slave_rx_msg.set s.slave_rx_out { slot with flags := 0, len := 0 } }
      let s := { s with slave_rx_out := (s.slave_rx_out + 1) % I2C_S_RX_BUF_NUM }
      let s := if s.data_ready > 0 then { s with data_ready := s.data_ready - 1 } else s
      (0, msgs, s)
    else (-1, { msgs with len := 0 }, s)
  else if msgs.flags = I2C_M_RD then
    (0, { msgs with buf := memcpy msgs.buf s.slave_tx_msg.buf I2C_S_BUF_SIZE }, s)
  else if msgs.flags = I2C_S_EN then
    if msgs.addr < 0x1 ∨ msgs.addr > 0xff then (-1, msgs, s)
    else (0, msgs, ast_slave_mode_enable s msgs)
  else if msgs.flags = I2C_S_ALT then
    if byteAt msgs.buf 0 = 1 then (0, msgs, ast_slave_issue_alert s 1)
    else (0, msgs, ast_slave_issue_alert s 0)
  else (0, msgs, s)

/-! ## Observations of the slave receive ring -/

/-- Slot `i` of the receive ring. -/
def slot (s : ast_i2c_dev) (i : Nat) : i2c_msg := s.slave_rx_msg.getD i {}

/-- What can happen at the receive ring: an event passed to
`ast_i2c_slave_rdwr_xfer`, a store of received bytes and their count through
the `slave_msgs` pointer by the completion routine, or a read of the consumer
through `ast_i2c_slave_xfer` with flags 0. -/
inductive RingOp where
  | event (e : SlaveEvent)
  | store (buf : List Nat) (len : Nat)
  | read (msgs : i2c_msg)
  deriving DecidableEq, Repr

def ring_step (s : ast_i2c_dev) : RingOp → ast_i2c_dev
  | RingOp.event e => ast_i2c_slave_rdwr_xfer { s with slave_event := e }
  | RingOp.store buf len => set_slave_msg s { slave_msg s with buf := buf, len := len }
  | RingOp.read msgs => (ast_i2c_slave_xfer { msgs with flags := 0 } s).2.2

def ring_run (ops : List RingOp) (s : ast_i2c_dev) : ast_i2c_dev := ops.foldl ring_step s

/-- The number of slots marked full. -/
def full_count (s : ast_i2c_dev) : Nat :=
  s.slave_rx_msg.countP (fun m => decide (m.flags = BUFF_FULL))

/-- The invariant of the receive ring: 21 slots; both cursors below 20; the
data-ready counter at most 20; the full slots are the cyclic run of
`data_ready` slots that starts at `slave_rx_out` and ends before
`slave_rx_in`; a slot is marked full or empty; only the slot at `slave_rx_in`
can be marked as being written, and then it is empty; the transmit message is
not marked as being written. -/
@[mk_iff]
structure RingInv (s : ast_i2c_dev) : Prop where
  len : s.slave_rx_msg.length = I2C_S_RX_BUF_NUM + 1
  rin : s.slave_rx_in < I2C_S_RX_BUF_NUM
  rout : s.slave_rx_out < I2C_S_RX_BUF_NUM
  ready : s.data_ready ≤ I2C_S_RX_BUF_NUM
  run : (s.slave_rx_out + s.data_ready) % I2C_S_RX_BUF_NUM = s.slave_rx_in
  full : ∀ i < I2C_S_RX_BUF_NUM + 1, (slot s i).flags = BUFF_FULL ↔
    (i < I2C_S_RX_BUF_NUM ∧
      (i + I2C_S_RX_BUF_NUM - s.slave_rx_out) % I2C_S_RX_BUF_NUM < s.data_ready)
  flags : ∀ i < I2C_S_RX_BUF_NUM + 1, (slot s i).flags = 0 ∨ (slot s i).flags = BUFF_FULL
  ongoing : ∀ i < I2C_S_RX_BUF_NUM + 1, (slot s i).addr = BUFF_ONGOING →
    i = s.slave_rx_in ∧ (slot s i).flags = 0
  tx : s.slave_tx_msg.addr ≠ BUFF_ONGOING

/-- The unread messages of the ring, oldest first: bytes and count of the
`data_ready` slots from `slave_rx_out` on. -/
def ring_queue (s : ast_i2c_dev) : List (List Nat × Nat) :=
  (List.range s.data_ready).map
    (fun k => ((slot s ((s.slave_rx_out + k) % I2C_S_RX_BUF_NUM)).buf,
               (slot s ((s.slave_rx_out + k) % I2C_S_RX_BUF_NUM)).len))

/-- A slave write is in progress at the ring: `slave_msgs` points to the slot
at `slave_rx_in`, which is marked as being written. -/
def WriteOpen (s : ast_i2c_dev) : Prop :=
  s.slave_msgs = SlaveRef.rx s.slave_rx_in ∧ (slot s s.slave_rx_in).addr = BUFF_ONGOING

/-- A transaction at the ring: a slave write that delivers `len` bytes `buf`
and is finalised by a stop, or a read of the consumer. -/
inductive RingTx where
  | write (buf : List Nat) (len : Nat)
  | read (msgs : i2c_msg)
  deriving DecidableEq, Repr

/-- The ring operations of a transaction: a write is a start-of-write event,
the store of the bytes and a stop event. -/
def RingTx.ops : RingTx → List RingOp
  | RingTx.write buf len =>
    [RingOp.event SlaveEvent.START_WRITE, RingOp.store buf len, RingOp.event SlaveEvent.STOP]
  | RingTx.read msgs => [RingOp.read msgs]

/-- What the reads of a sequence of transactions return, in order: the return
value and the caller's message. -/
def ring_reads : List RingTx → ast_i2c_dev → List (Int × i2c_msg)
  | [], _ => []
  | RingTx.write buf len :: rest, s => ring_reads rest (ring_run (RingTx.write buf len).ops s)
  | RingTx.read msgs :: rest, s =>
    ((ast_i2c_slave_xfer { msgs with flags := 0 } s).1,
      (ast_i2c_slave_xfer { msgs with flags := 0 } s).2.1) ::
      ring_reads rest (ast_i2c_slave_xfer { msgs with flags := 0 } s).2.2

/-- The state after a sequence of transactions. -/
def ring_after (txs : List RingTx) (s : ast_i2c_dev) : ast_i2c_dev :=
  ring_run (txs.map RingTx.ops).flatten s

/-- The queue of the specification after a sequence of transactions: a write
appends its message, after dropping the oldest one when 20 are waiting; a read
removes the oldest message. -/
def fifo_queue_spec : List RingTx → List (List Nat × Nat) → List (List Nat × Nat)
  | [], q => q
  | RingTx.write buf len :: rest, q =>
    fifo_queue_spec rest ((if q.length = 20 then q.tail else q) ++ [(buf, len)])
  | RingTx.read _ :: rest, q => fifo_queue_spec rest q.tail

/-- The reads of the specification: a read returns 0 with the bytes and the
count of the oldest message of the queue, and -1 with count 0 when the queue
is empty. -/
def fifo_reads_spec : List RingTx → List (List Nat × Nat) → List (Int × i2c_msg)
  | [], _ => []
  | RingTx.write buf len :: rest, q =>
    fifo_reads_spec rest ((if q.length = 20 then q.tail else q) ++ [(buf, len)])
  | RingTx.read msgs :: rest, q =>
    match q with
    | [] => (-1, { msgs with flags := 0, len := 0 }) :: fifo_reads_spec rest []
    | (b, n) :: q' =>
      (0, { msgs with flags := 0, buf := memcpy msgs.buf b n, len := n }) ::
        fifo_reads_spec rest q'

/-! ## Observations of the slave receive path -/

/-- The byte the completion routines of the slave take from the byte-buffer
register, `(u8)(ast_i2c_read(i2c_dev, I2C_BYTE_BUF_REG) >> 8)`. -/
def Irq.slaveByte (ev : Irq) : Nat := (ev.byte_buf >>> 8) % 256

/-- The handler run on a sequence of interrupts. -/
def handle_irqs (cfg : Config) (irqs : List Irq) (s : ast_i2c_dev) : ast_i2c_dev :=
  irqs.foldl (fun s ev => (i2c_ast_handler cfg ev s).2) s

/-- The state of a slave write received in byte mode on bus `b` of which the
bytes `bytes` have arrived: the write is open at the slot at `slave_rx_in` of
an empty ring, the slot holds the bytes, its count is 0, and the byte counter
is the number of bytes. -/
@[mk_iff]
structure SlaveRx (b : Nat) (bytes : List Nat) (s : ast_i2c_dev) : Prop where
  ptr : s.slave_msgs = SlaveRef.rx s.slave_rx_in
  hin : s.slave_rx_in < s.slave_rx_msg.length
  out : s.slave_rx_out = s.slave_rx_in
  ready : s.data_ready = 0
  addr : (slot s s.slave_rx_in).addr = BUFF_ONGOING
  flags : (slot s s.slave_rx_in).flags = 0
  mlen : (slot s s.slave_rx_in).len = 0
  op : s.slave_operation = 1
  mode : s.slave_xfer_mode = XferMode.BYTE_XFER
  fn : s.do_slave_xfer = XferFn.byte
  xl : s.slave_xfer_len = 1
  cnt : s.slave_xfer_cnt = (bytes.length : Int)
  bus : s.bus_id = b
  buf : (slot s s.slave_rx_in).buf.take bytes.length = bytes
  blen : I2C_S_BUF_SIZE ≤ (slot s s.slave_rx_in).buf.length
  pos : 0 < bytes.length

/-- A receive-done interrupt of bus 0 during a slave write that presents the
byte `v`; the controller reports a state other than idle. -/
def slave_rx_irq (v : Nat) : Irq :=
  { isr_sts := 1, sts := AST_I2CD_INTR_STS_RX_DOWN, byte_buf := v <<< 8, cmd := 1 <<< 19 }

/-- A receive-done interrupt of bus 0 that delivers the byte `v` while the
state field of the command register reads idle. -/
def idle_rx_irq (v : Nat) : Irq :=
  { isr_sts := 1, sts := AST_I2CD_INTR_STS_RX_DOWN, byte_buf := v <<< 8, cmd := 0 }

/-- A stop interrupt of bus 0. -/
def stop_irq : Irq := { isr_sts := 1, sts := AST_I2CD_INTR_STS_NORMAL_STOP }

/-- The interrupts of a slave write of bus 0 to address byte 0x20 that delivers
the bytes `ds`: address match, one receive-done interrupt per byte, stop. -/
def slave_write_irqs (ds : List Nat) : List Irq :=
  { slave_match_irq with page := none } :: ds.map slave_rx_irq ++ [stop_irq]

/-! ## Observations of the arm routines -/

/-- The values written to register `reg` on the way from state `s` to state
`t`. -/
def new_writes (reg : Reg) (s t : ast_i2c_dev) : List Nat :=
  (writes_to reg t.writes).drop (writes_to reg s.writes).length

/-- The commands `l` written by an arm routine called in state `s` for the
master message `m` obey the rule of the START and STOP bits: a command has the
START bit exactly when the byte counter is -1, it has the STOP bit only when
the message is the last one, and with the counter at -1 or below the length of
the message exactly one command is written. -/
def CmdRule (s : ast_i2c_dev) (m : i2c_msg) (l : List Nat) : Prop :=
  (∀ cmd ∈ l, (cmd &&& AST_I2CD_M_START_CMD ≠ 0 ↔ s.master_xfer_cnt = -1) ∧
    (cmd &&& AST_I2CD_M_STOP_CMD ≠ 0 → s.xfer_last = 1)) ∧
  ((s.master_xfer_cnt = -1 ∨ s.master_xfer_cnt < m.len) → l.length = 1)

instance (s : ast_i2c_dev) (m : i2c_msg) (l : List Nat) : Decidable (CmdRule s m l) := by
  unfold CmdRule
  exact inferInstance

/-- A write message of one byte with the no-start flag. -/
def nostart1 : i2c_msg := { addr := 0x50, flags := I2C_M_NOSTART, len := 1, buf := [7] }

/-! ## Observations of the progress of a master message -/

/-- The largest chunk the arm routine behind `do_master_xfer` arms: 1 byte, one
pool page, or one DMA window. -/
def chunk_max (cfg : Config) (s : ast_i2c_dev) : Int :=
  match s.do_master_xfer with
  | XferFn.byte => 1
  | XferFn.pool => s.req_page.page_size
  | XferFn.dec_dma => cfg.AST_I2C_DMA_SIZE
  | XferFn.inc_dma => cfg.AST_I2C_DMA_SIZE

/-- A chunk of the master message `m` is armed: master role, the byte counter
is at least -1, the armed chunk length is at least 1, at most the maximum of
the mode and at most the bytes outstanding. -/
def ChunkInv (cfg : Config) (m : i2c_msg) (s : ast_i2c_dev) : Prop :=
  s.slave_operation ≠ 1 ∧ s.master_msgs = some m ∧ -1 ≤ s.master_xfer_cnt ∧
  1 ≤ s.master_xfer_len ∧ s.master_xfer_len ≤ chunk_max cfg s ∧
  s.master_xfer_cnt + s.master_xfer_len ≤ (m.len : Int)

instance (cfg : Config) (m : i2c_msg) (s : ast_i2c_dev) : Decidable (ChunkInv cfg m s) := by
  unfold ChunkInv
  exact inferInstance

/-- The message after the first part of `ast_i2c_master_xfer_done`: received
bytes are stored and, on a block read, the length is extended. -/
def msg_after (cfg : Config) (m : i2c_msg) (s : ast_i2c_dev) : i2c_msg :=
  (master_extract cfg m s).2.master_msgs.getD m

/-- What an arm routine called in state `t` for a message in progress leaves
behind in `u`: a chunk is armed, the counter, the completion and the error
accumulator are as before. -/
def ArmPost (cfg : Config) (m : i2c_msg) (t u : ast_i2c_dev) : Prop :=
  ChunkInv cfg m u ∧ u.master_xfer_cnt = t.master_xfer_cnt ∧
  u.cmd_complete = t.cmd_complete ∧ u.cmd_err = t.cmd_err ∧
  u.do_master_xfer = t.do_master_xfer

/-- The state in which the one-byte write message `write1`, submitted alone in
byte mode, has its first chunk (the address byte) armed. -/
def chunk_armed : ast_i2c_dev := msg_arm {} 1 0 write1 { master_xfer_len := 1 }

/-- The interrupt by which a NACK of the remote device is reported in master
role: the status reads TX_NAK, or TX_NAK together with NORMAL_STOP. -/
def Irq.naks (ev : Irq) (s : ast_i2c_dev) : Prop :=
  ev.isFor s.bus_id AST_I2CD_INTR_STS_TX_NAK ∨
    ev.isFor s.bus_id (AST_I2CD_INTR_STS_TX_NAK ||| AST_I2CD_INTR_STS_NORMAL_STOP)

instance (ev : Irq) (s : ast_i2c_dev) : Decidable (ev.naks s) := by
  unfold Irq.naks
  exact inferInstance

/-- The hardware reports the armed chunk as fully transferred: the length the
completion routine extracts at the interrupt is the armed length. -/
def Irq.reportsChunk (cfg : Config) (ev : Irq) (s : ast_i2c_dev) : Prop :=
  match s.master_msgs with
  | some m => (master_extract cfg m (irq_entry ev s)).1 = u32 s.master_xfer_len
  | none => True

instance (cfg : Config) (ev : Irq) (s : ast_i2c_dev) : Decidable (ev.reportsChunk cfg s) := by
  unfold Irq.reportsChunk
  cases s.master_msgs <;> exact inferInstance

/-- The remote device NACKs during a wait that starts in state `s`: the
interrupts before the NACK acknowledge chunks reported as fully transferred,
and the message is still in progress when each of them and the NACK arrive. -/
def NackedRun (cfg : Config) : List Irq → ast_i2c_dev → Prop
  | [], _ => False
  | ev :: rest, s =>
    s.cmd_complete = 0 ∧
      (ev.naks s ∨
        (ev.acksTx s ∧ ev.reportsChunk cfg s ∧ NackedRun cfg rest (i2c_ast_handler cfg ev s).2))

/-- Decision procedure for `NackedRun`. -/
def NackedRun.dec (cfg : Config) :
    (irqs : List Irq) → (s : ast_i2c_dev) → Decidable (NackedRun cfg irqs s)
  | [], _ => isFalse (fun h => h)
  | ev :: rest, s =>
    have := NackedRun.dec cfg rest (i2c_ast_handler cfg ev s).2
    by unfold NackedRun; exact inferInstance

instance (cfg : Config) (irqs : List Irq) (s : ast_i2c_dev) :
    Decidable (NackedRun cfg irqs s) := NackedRun.dec cfg irqs s

/-- The remote device NACKs in each of the first `k` attempts of the retry loop
of `ast_i2c_xfer` at the single message `m`, the first attempt starting in
state `s`. -/
def AllNacked (cfg : Config) (m : i2c_msg) : Nat → List XferEnv → ast_i2c_dev → Prop
  | 0, _, _ => True
  | k + 1, envs, s =>
    NackedRun cfg ((envs.headD {}).waits.headD {}).irqs
        (submit_arm cfg (envs.headD {}).page 1 m s) ∧
      AllNacked cfg m k envs.tail (ast_i2c_do_msgs_xfer cfg (envs.headD {}) [m] 1 s).2.2

/-- Decision procedure for `AllNacked`. -/
def AllNacked.dec (cfg : Config) (m : i2c_msg) :
    (k : Nat) → (envs : List XferEnv) → (s : ast_i2c_dev) → Decidable (AllNacked cfg m k envs s)
  | 0, _, _ => isTrue trivial
  | k + 1, envs, s =>
    have := AllNacked.dec cfg m k envs.tail
      (ast_i2c_do_msgs_xfer cfg (envs.headD {}) [m] 1 s).2.2
    by unfold AllNacked; exact inferInstance

instance (cfg : Config) (m : i2c_msg) (k : Nat) (envs : List XferEnv) (s : ast_i2c_dev) :
    Decidable (AllNacked cfg m k envs s) := AllNacked.dec cfg m k envs s

/-- A write of 4 bytes to address 0x50. -/
def write4 : i2c_msg := { addr := 0x50, flags := 0, len := 4, buf := [1, 2, 3, 4] }

/-- An attempt in byte mode in which the address and the first byte are
acknowledged and the second byte is NACKed. -/
def nacked_attempt : XferEnv := { waits := [{ irqs := [ack_irq, ack_irq, nak_irq] }] }

/-- An attempt in byte mode in which the address and 4 bytes are
acknowledged. -/
def acked_attempt : XferEnv :=
  { waits := [{ irqs := [ack_irq, ack_irq, ack_irq, ack_irq, ack_irq] }] }

/-- A NACK interrupt of bus 0 whose status carries the normal stop as well, as
raised when the NACKed chunk was armed with the stop command. -/
def nak_stop_irq : Irq :=
  { isr_sts := 1, sts := AST_I2CD_INTR_STS_TX_NAK ||| AST_I2CD_INTR_STS_NORMAL_STOP }

/-- A write of 3 bytes to address 0x50 with the ignore-NACK flag. -/
def ignore_nak3 : i2c_msg :=
  { addr := 0x50, flags := I2C_M_IGNORE_NAK, len := 3, buf := [1, 2, 3] }

/-- The status on which `i2c_ast_handler` switches: the alert bit is handled
before the switch and masked out of the status. -/
def switch_sts (ev : Irq) : Nat :=
  if AST_I2CD_INTR_STS_SMBUS_ALT &&& ev.sts ≠ 0 then ev.sts &&& not32 AST_I2CD_SMBUS_ALT_INTR_EN
  else ev.sts

/-- The state in which `i2c_ast_handler` reaches its switch: the interrupt is
latched and an alert has been disabled and cleared. -/
def switch_entry (ev : Irq) (s : ast_i2c_dev) : ast_i2c_dev :=
  if AST_I2CD_INTR_STS_SMBUS_ALT &&& ev.sts ≠ 0 then
    clear_sts (intr_ctrl_clear (irq_entry ev s) AST_I2CD_SMBUS_ALT_INTR_EN)
      AST_I2CD_INTR_STS_SMBUS_ALT
  else irq_entry ev s

/-- State `u` is state `t` for the master side: the message, its counters and
mode, the registers, the write log, the completion, the error accumulator and
the pending slave event are the same. -/
@[mk_iff]
structure MasterSame (t u : ast_i2c_dev) : Prop where
  msgs : u.master_msgs = t.master_msgs
  cnt : u.master_xfer_cnt = t.master_xfer_cnt
  mode : u.master_xfer_mode = t.master_xfer_mode
  len : u.master_xfer_len = t.master_xfer_len
  regs : u.regs = t.regs
  writes : u.writes = t.writes
  reset : u.bus_master_reset_cnt = t.bus_master_reset_cnt
  done : u.cmd_complete = t.cmd_complete
  err : u.cmd_err = t.cmd_err
  last : u.xfer_last = t.xfer_last
  event : u.slave_event = t.slave_event

/-- The interrupt ends a slave transaction: the status on which the handler
switches has NORMAL_STOP and the slave flag is set; the handler runs the slave
completion routine before the switch and takes the bit out of the status. -/
def Irq.stopsSlave (ev : Irq) (s : ast_i2c_dev) : Prop :=
  AST_I2CD_INTR_STS_NORMAL_STOP &&& switch_sts ev ≠ 0 ∧ s.slave_operation = 1

instance (ev : Irq) (s : ast_i2c_dev) : Decidable (ev.stopsSlave s) := by
  unfold Irq.stopsSlave
  exact inferInstance

/-- An interrupt of the bus at which the handler runs
`ast_i2c_master_xfer_done`: neither the abnormal nor the clock-timeout bit is
set, and either the stop of a slave transaction is handled first and what is
left of the status is RX_DOWN or has the TX_ACK bit (the slave flag is cleared
by then); or the status is RX_DOWN outside a slave transaction, or RX_DOWN with
NORMAL_STOP, or has the TX_ACK bit: the case TX_ACK (outside a slave
transaction), the case TX_ACK | NORMAL_STOP (on the last message of a master
transfer) and every combination with TX_ACK that the switch does not
enumerate, handled by the sweep of the default label. -/
def Irq.runsDone (ev : Irq) (s : ast_i2c_dev) : Prop :=
  ev.isr_sts &&& (1 <<< s.bus_id) ≠ 0 ∧
  AST_I2CD_INTR_STS_ABNORMAL &&& switch_sts ev = 0 ∧
  AST_I2CD_INTR_STS_SCL_TO &&& switch_sts ev = 0 ∧
  ((ev.stopsSlave s ∧
      (switch_sts ev &&& not32 AST_I2CD_INTR_STS_NORMAL_STOP = AST_I2CD_INTR_STS_RX_DOWN ∨
        (switch_sts ev &&& not32 AST_I2CD_INTR_STS_NORMAL_STOP) &&&
          AST_I2CD_INTR_STS_TX_ACK ≠ 0)) ∨
    (¬ ev.stopsSlave s ∧
      ((switch_sts ev = AST_I2CD_INTR_STS_RX_DOWN ∧ s.slave_operation ≠ 1) ∨
        switch_sts ev = AST_I2CD_INTR_STS_RX_DOWN ||| AST_I2CD_INTR_STS_NORMAL_STOP ∨
        (switch_sts ev &&& AST_I2CD_INTR_STS_TX_ACK ≠ 0 ∧
          (switch_sts ev = AST_I2CD_INTR_STS_TX_ACK → s.slave_operation ≠ 1) ∧
          (switch_sts ev = AST_I2CD_INTR_STS_TX_ACK ||| AST_I2CD_INTR_STS_NORMAL_STOP →
            s.xfer_last = 1 ∧ s.slave_operation = 0)))))

instance (ev : Irq) (s : ast_i2c_dev) : Decidable (ev.runsDone s) := by
  unfold Irq.runsDone
  exact inferInstance

/-- From state `s` to state `t` no command written to the command register
starts, transmits or receives in master role. -/
def NoTransferCmd (s t : ast_i2c_dev) : Prop :=
  ∃ l : List Nat, writes_to I2C_CMD_REG t.writes = writes_to I2C_CMD_REG s.writes ++ l ∧
    ∀ v ∈ l, v &&& (AST_I2CD_M_START_CMD ||| AST_I2CD_M_TX_CMD ||| AST_I2CD_M_RX_CMD) = 0

/-- Fields of the master side that the slave side leaves alone: the reset
counter, the byte counter, the completion and the error accumulator; and no
transfer command of the master is written. -/
@[mk_iff]
structure MasterKept (s t : ast_i2c_dev) : Prop where
  reset : t.bus_master_reset_cnt = s.bus_master_reset_cnt
  cnt : t.master_xfer_cnt = s.master_xfer_cnt
  done : t.cmd_complete = s.cmd_complete
  err : t.cmd_err = s.cmd_err
  cmds : NoTransferCmd s t

/-- State `d` is state `s` as far as the extraction of the completion routine
and the observations of the master side go: same message, counter, mode, armed
length, length registers, reset counter and commands; the completion count has
not gone down. -/
@[mk_iff]
structure SameXfer (s d : ast_i2c_dev) : Prop where
  msgs : d.master_msgs = s.master_msgs
  cnt : d.master_xfer_cnt = s.master_xfer_cnt
  mode : d.master_xfer_mode = s.master_xfer_mode
  len : d.master_xfer_len = s.master_xfer_len
  buf_ctrl : d.regs I2C_BUF_CTRL_REG = s.regs I2C_BUF_CTRL_REG
  dma_len : d.regs I2C_DMA_LEN_REG = s.regs I2C_DMA_LEN_REG
  reset : d.bus_master_reset_cnt = s.bus_master_reset_cnt
  cmds : writes_to I2C_CMD_REG d.writes = writes_to I2C_CMD_REG s.writes
  done : s.cmd_complete ≤ d.cmd_complete

/-! ## Theorems -/

theorem Frame.refl (s : ast_i2c_dev) : Frame s s := ⟨rfl, rfl, rfl, rfl, rfl, rfl⟩

theorem Frame.trans {s t u : ast_i2c_dev} (a : Frame s t) (b : Frame t u) : Frame s u :=
  ⟨b.1.trans a.1, b.2.trans a.2, b.3.trans a.3, b.4.trans a.4, b.5.trans a.5, b.6.trans a.6⟩

theorem wait_irqs_append (cfg : Config) (pre rest : List Irq) (s : ast_i2c_dev)
    (h : (wait_irqs cfg pre s).cmd_complete = 0) :
    wait_irqs cfg (pre ++ rest) s = wait_irqs cfg rest (wait_irqs cfg pre s) := by
  induction pre generalizing s with
  | nil => rfl
  | cons ev pre ih =>
    by_cases hc : s.cmd_complete > 0
    · simp [wait_irqs, hc] at h
      omega
    · simp only [List.cons_append, wait_irqs, hc, if_false] at h ⊢
      exact ih _ h

theorem byte_ack_next (cfg : Config) (ev : Irq) (m : i2c_msg) (c : Int) (s : ast_i2c_dev)
    (hev : ev.isFor s.bus_id AST_I2CD_INTR_STS_TX_ACK)
    (h : ByteTx m c s) (hc0 : -1 ≤ c) (hc : c + 1 < m.len) :
    ByteTx m (c + 1) (i2c_ast_handler cfg ev s).2 ∧
    Frame s (i2c_ast_handler cfg ev s).2 ∧
    writes_to I2C_BYTE_BUF_REG (i2c_ast_handler cfg ev s).2.writes =
      writes_to I2C_BYTE_BUF_REG s.writes ++ [byteAt m.buf (c + 1)] := by
  obtain ⟨h1, h2, hwr, h3, h4, h5, h6, h7, h8⟩ := h
  obtain ⟨e1, e2⟩ := hev
  have hne : c + 1 ≠ (m.len : Int) := by omega
  have hne2 : ¬ (c + 1 = -1) := by omega
  simp [i2c_ast_handler, e1, e2, take_irq, ast_i2c_read, AST_I2CD_INTR_STS_TX_ACK,
    AST_I2CD_INTR_STS_SMBUS_ALT, AST_I2CD_INTR_STS_ABNORMAL, AST_I2CD_INTR_STS_SCL_TO,
    AST_I2CD_INTR_STS_NORMAL_STOP, handler_switch, h1, clear_sts, ast_i2c_write,
    ast_i2c_master_xfer_done, h2, master_extract, hwr, h3, h5, u32, h6, hne, call_xfer, h4,
    ast_i2c_do_byte_xfer, hne2, hc, writes_to, Reg.isStorage]
  exact ⟨⟨h1, rfl, hwr, rfl, rfl, rfl, rfl, h7, h8⟩, ⟨rfl, rfl, rfl, rfl, rfl, rfl⟩⟩

theorem byte_ack_run (cfg : Config) (m : i2c_msg) (acks : List Irq) :
    ∀ (c : Int) (s : ast_i2c_dev), ByteTx m c s → -1 ≤ c → c + acks.length < m.len →
    (∀ ev ∈ acks, ev.isFor s.bus_id AST_I2CD_INTR_STS_TX_ACK) →
    ByteTx m (c + acks.length) (wait_irqs cfg acks s) ∧
    Frame s (wait_irqs cfg acks s) ∧
    writes_to I2C_BYTE_BUF_REG (wait_irqs cfg acks s).writes =
      writes_to I2C_BYTE_BUF_REG s.writes ++
        (List.range acks.length).map (fun (i : Nat) => byteAt m.buf (c + 1 + (i : Int))) := by
  induction acks with
  | nil =>
    intro c s h _ _ _
    simpa [wait_irqs] using ⟨h, Frame.refl s⟩
  | cons ev acks ih =>
    intro c s h hc0 hlen hall
    have hlen' : c + 1 + (acks.length : Int) < m.len := by
      simp only [List.length_cons, Nat.cast_add, Nat.cast_one] at hlen
      omega
    have hstep := byte_ack_next cfg ev m c s (hall ev (List.mem_cons_self _ _)) h hc0
      (by omega)
    obtain ⟨hb, hf, hw⟩ := hstep
    have hrest := ih (c + 1) _ hb (by omega) hlen'
      (fun e he => by rw [hf.bus_id]; exact hall e (List.mem_cons_of_mem _ he))
    have hd : ¬ (s.cmd_complete > 0) := by rw [h.done]; decide
    simp only [wait_irqs, hd, if_false]
    obtain ⟨r1, r2, r3⟩ := hrest
    refine ⟨?_, hf.trans r2, ?_⟩
    · have : c + ((ev :: acks).length : Int) = c + 1 + acks.length := by
        simp only [List.length_cons, Nat.cast_add, Nat.cast_one]; ring
      rw [this]; exact r1
    · rw [r3, hw, List.length_cons, List.range_succ_eq_map, List.map_cons, List.map_map,
        List.append_assoc]
      simp only [List.singleton_append, Nat.cast_zero, add_zero, List.cons.injEq, true_and,
        List.append_cancel_left_eq]
      apply List.map_congr_left
      intro i _
      simp only [Function.comp, Nat.cast_succ]
      congr 1
      ring


theorem byte_ack_last (cfg : Config) (ev : Irq) (m : i2c_msg) (c : Int) (s : ast_i2c_dev)
    (hev : ev.isFor s.bus_id AST_I2CD_INTR_STS_TX_ACK)
    (h : ByteTx m c s) (hc : c + 1 = m.len) :
    (i2c_ast_handler cfg ev s).2.cmd_complete = 1 ∧
    (i2c_ast_handler cfg ev s).2.cmd_err = 0 ∧
    (i2c_ast_handler cfg ev s).2.master_msgs = some m ∧
    (i2c_ast_handler cfg ev s).2.master_xfer_mode = XferMode.BYTE_XFER ∧
    (i2c_ast_handler cfg ev s).2.master_xfer_cnt = m.len ∧
    Frame s (i2c_ast_handler cfg ev s).2 ∧
    writes_to I2C_BYTE_BUF_REG (i2c_ast_handler cfg ev s).2.writes =
      writes_to I2C_BYTE_BUF_REG s.writes := by
  obtain ⟨h1, h2, hwr, h3, h4, h5, h6, h7, h8⟩ := h
  obtain ⟨e1, e2⟩ := hev
  simp [i2c_ast_handler, e1, e2, take_irq, ast_i2c_read, AST_I2CD_INTR_STS_TX_ACK,
    AST_I2CD_INTR_STS_SMBUS_ALT, AST_I2CD_INTR_STS_ABNORMAL, AST_I2CD_INTR_STS_SCL_TO,
    AST_I2CD_INTR_STS_NORMAL_STOP, handler_switch, h1, clear_sts, ast_i2c_write,
    ast_i2c_master_xfer_done, h2, master_extract, hwr, h3, h5, u32, h6, hc,
    writes_to, Reg.isStorage, restore_func_ctrl, complete, h7]
  split <;> simp_all [frame_iff]

theorem msg_arm_byte (cfg : Config) (num : Int) (i : Nat) (m : i2c_msg) (s : ast_i2c_dev)
    (hs : s.slave_operation ≠ 1) (hwr : m.flags &&& I2C_M_RD = 0)
    (hst : m.flags &&& I2C_M_NOSTART = 0)
    (hfn : s.do_master_xfer = XferFn.byte) (hmode : s.master_xfer_mode = XferMode.BYTE_XFER)
    (hlen : s.master_xfer_len = 1) :
    ByteTx m (-1) (msg_arm cfg num i m s) ∧
    Frame { s with xfer_last := if num = (i : Int) + 1 then 1 else 0 } (msg_arm cfg num i m s) ∧
    writes_to I2C_BYTE_BUF_REG (msg_arm cfg num i m s).writes =
      writes_to I2C_BYTE_BUF_REG s.writes ++ [m.addr <<< 1] := by
  simp [msg_arm, call_xfer, hfn, ast_i2c_do_byte_xfer, hs, init_completion, hst, hwr,
    intr_ctrl_set, ast_i2c_write, ast_i2c_read, writes_to, Reg.isStorage, byteTx_iff,
    frame_iff, hmode, hlen]


/-- A byte-mode write whose address and bytes are all acknowledged. -/
theorem byte_write_wait (cfg : Config) (m : i2c_msg) (s : ast_i2c_dev) (irqs : List Irq)
    (h : ByteTx m (-1) s) (hlen : irqs.length = m.len + 1)
    (hack : ∀ ev ∈ irqs, ev.isFor s.bus_id AST_I2CD_INTR_STS_TX_ACK) :
    (wait_irqs cfg irqs s).cmd_complete = 1 ∧
    (wait_irqs cfg irqs s).cmd_err = 0 ∧
    (wait_irqs cfg irqs s).master_msgs = some m ∧
    (wait_irqs cfg irqs s).master_xfer_mode = XferMode.BYTE_XFER ∧
    (wait_irqs cfg irqs s).master_xfer_cnt = m.len ∧
    Frame s (wait_irqs cfg irqs s) ∧
    writes_to I2C_BYTE_BUF_REG (wait_irqs cfg irqs s).writes =
      writes_to I2C_BYTE_BUF_REG s.writes ++
        (List.range m.len).map (fun (i : Nat) => byteAt m.buf (i : Int)) := by
  have hne : irqs ≠ [] := by
    intro h0
    simp [h0] at hlen
  obtain ⟨init, last, rfl⟩ : ∃ init last, irqs = init ++ [last] :=
    ⟨irqs.dropLast, irqs.getLast hne, (List.dropLast_append_getLast hne).symm⟩
  have hil : init.length = m.len := by simpa using hlen
  have hrun := byte_ack_run cfg m init (-1) s h (le_refl _) (by omega)
    (fun e he => hack e (List.mem_append_left _ he))
  obtain ⟨r1, r2, r3⟩ := hrun
  have happ := wait_irqs_append cfg init [last] s r1.done
  have hlast := byte_ack_last cfg last m _ _
    (by rw [r2.bus_id]; exact hack last (List.mem_append_right _ (List.mem_singleton_self _)))
    r1 (by omega)
  have hd : ¬ ((wait_irqs cfg init s).cmd_complete > 0) := by rw [r1.done]; decide
  have hone : wait_irqs cfg [last] (wait_irqs cfg init s) =
      (i2c_ast_handler cfg last (wait_irqs cfg init s)).2 := by
    simp only [wait_irqs, hd, if_false]
  rw [happ, hone]
  obtain ⟨l1, l2, l3, l4, l5, l6, l7⟩ := hlast
  refine ⟨l1, l2, l3, l4, l5, r2.trans l6, ?_⟩
  rw [l7, r3, hil]
  simp

/-- C1: a byte-mode write to address `a` with payload `b`, submitted alone and
acknowledged byte by byte, puts exactly `a << 1` followed by the payload on the
byte-data register, and the submit returns 1. -/
theorem C1_byte_write_stream (cfg : Config) (s : ast_i2c_dev) (a f : Nat) (b : List Nat)
    (w : Wait) (page : Option buf_page)
    (hcfg : cfg.master_dma = DmaMode.BYTE_MODE)
    (hs : s.slave_operation ≠ 1)
    (hwr : f &&& I2C_M_RD = 0) (hst : f &&& I2C_M_NOSTART = 0)
    (hlen : w.irqs.length = b.length + 1)
    (hack : ∀ ev ∈ w.irqs, ev.isFor s.bus_id AST_I2CD_INTR_STS_TX_ACK) :
    (ast_i2c_do_msgs_xfer cfg { page := page, waits := [w] }
      [{ addr := a, flags := f, len := b.length, buf := b }] 1 s).1 = 1 ∧
    writes_to I2C_BYTE_BUF_REG (ast_i2c_do_msgs_xfer cfg { page := page, waits := [w] }
      [{ addr := a, flags := f, len := b.length, buf := b }] 1 s).2.2.writes =
      writes_to I2C_BYTE_BUF_REG s.writes ++ (a <<< 1) :: b := by
  set m : i2c_msg := { addr := a, flags := f, len := b.length, buf := b } with hm
  set s1 : ast_i2c_dev := { select_master_mode cfg page s with master_xfer_first := 0 } with hs1
  have harm := msg_arm_byte cfg 1 0 m s1 (by simpa [hs1, select_master_mode, hcfg] using hs)
    hwr hst (by simp [hs1, select_master_mode, hcfg]) (by simp [hs1, select_master_mode, hcfg])
    (by simp [hs1, select_master_mode, hcfg])
  obtain ⟨a1, a2, a3⟩ := harm
  have hbus : (msg_arm cfg 1 0 m s1).bus_id = s.bus_id := by
    rw [a2.bus_id]; simp [hs1, select_master_mode, hcfg]
  have hwait := byte_write_wait cfg m _ w.irqs a1 hlen (by rw [hbus]; exact hack)
  obtain ⟨w1, w2, w3, w4, w5, w6, w7⟩ := hwait
  have hw0 : writes_to I2C_BYTE_BUF_REG s1.writes = writes_to I2C_BYTE_BUF_REG s.writes := by
    simp [hs1, select_master_mode, hcfg]
  have hbytes : (List.range b.length).map (fun (i : Nat) => byteAt b (i : Int)) = b := by
    apply List.ext_getElem (by simp)
    intro i h1 h2
    simp [byteAt, List.getElem?_eq_getElem h2]
  have hleft : ¬ ((w.left : Int) + 1 = 0) := by omega
  simp only [ast_i2c_do_msgs_xfer, hs, if_false, ← hs1, Int.toNat_one, msgs_loop, List.headD_cons,
    List.getD_cons_zero, ← hm, wait_for_completion_timeout, w1, Nat.lt_one_iff, one_ne_zero,
    gt_iff_lt, Nat.lt_irrefl, zero_lt_one, if_true, hleft, w2, ne_eq, not_true_eq_false, false_and,
    true_or, w4]
  simp [w7, a3, hw0, hm, hbytes]

/-- C1 at address 0x50 with three payload bytes: the byte-data register
receives 0xA0 and the payload, and the submit returns 1. -/
theorem C1_byte_write_stream_witness :
    (ast_i2c_do_msgs_xfer {} { page := none, waits := [{ irqs := List.replicate 4 ack_irq }] }
      [{ addr := 0x50, flags := 0, len := 3, buf := [0x11, 0x22, 0x33] }] 1 {}).1 = 1 ∧
    writes_to I2C_BYTE_BUF_REG
      (ast_i2c_do_msgs_xfer {} { page := none, waits := [{ irqs := List.replicate 4 ack_irq }] }
        [{ addr := 0x50, flags := 0, len := 3, buf := [0x11, 0x22, 0x33] }] 1 {}).2.2.writes =
      [0xA0, 0x11, 0x22, 0x33] :=
  C1_byte_write_stream {} {} 0x50 0 [0x11, 0x22, 0x33] { irqs := List.replicate 4 ack_irq } none
    rfl (by decide) (by decide) (by decide) (by decide) (by decide)

theorem byte_or_shift (w b k : Nat) (hw : w < 2 ^ (8 * k)) :
    (w ||| (b <<< (k * 8))) = w + b * 2 ^ (8 * k) := by
  rw [Nat.mul_comm k 8, Nat.shiftLeft_eq, Nat.lor_comm, Nat.mul_comm b, Nat.add_comm]
  exact (Nat.mul_add_lt_is_or hw b).symm

theorem pool_word_lt (w b k : Nat) (hk : k < 4) (hw : w < 2 ^ (8 * k)) (hb : b < 256) :
    (w ||| (b <<< (k * 8))) < 2 ^ (8 * (k + 1)) := by
  rw [byte_or_shift w b k hw]
  interval_cases k <;> simp at hw ⊢ <;> omega

theorem pool_word_get_new (w b k : Nat) (hk : k < 4) (hw : w < 2 ^ (8 * k)) (hb : b < 256) :
    ((w ||| (b <<< (k * 8))) >>> (k * 8)) &&& 0xff = b := by
  rw [byte_or_shift w b k hw, Nat.shiftRight_eq_div_pow,
    show (0xff : Nat) = 2 ^ 8 - 1 from rfl, Nat.and_pow_two_sub_one_eq_mod]
  interval_cases k <;> simp at hw ⊢ <;> omega

theorem pool_word_get_old (w b k j : Nat) (hk : k < 4) (hj : j < k) (hw : w < 2 ^ (8 * k)) :
    ((w ||| (b <<< (k * 8))) >>> (j * 8)) &&& 0xff = (w >>> (j * 8)) &&& 0xff := by
  rw [byte_or_shift w b k hw, Nat.shiftRight_eq_div_pow, Nat.shiftRight_eq_div_pow,
    show (0xff : Nat) = 2 ^ 8 - 1 from rfl, Nat.and_pow_two_sub_one_eq_mod,
    Nat.and_pow_two_sub_one_eq_mod]
  interval_cases k <;> interval_cases j <;> simp at hw ⊢ <;> omega

theorem getD_set_word (mem : List Nat) (i j v : Nat) (hi : i < mem.length) :
    (mem.set i v).getD j 0 = if j = i then v else mem.getD j 0 := by
  simp only [List.getD_eq_getElem?_getD, List.getElem?_set]
  by_cases h : i = j
  · subst h; simp [hi]
  · simp [h, Ne.symm h]

theorem pool_fill_succ (buf : List Nat) (cnt : Int) (k i : Nat) (mem : List Nat) :
    pool_fill buf cnt (k + 1) i mem =
      pool_fill buf cnt k (i + 1) (pool_fill_step (byteAt buf (cnt + i)) i mem) := rfl

theorem pool_fill_step_spec (b i : Nat) (mem : List Nat) (hb : b < 256)
    (hi : i < 4 * mem.length)
    (hw : i % 4 ≠ 0 → mem.getD (i / 4) 0 < 2 ^ (8 * (i % 4))) :
    (pool_fill_step b i mem).length = mem.length ∧
    (∀ j, j < i → pool_byte (pool_fill_step b i mem) j = pool_byte mem j) ∧
    pool_byte (pool_fill_step b i mem) i = b ∧
    ((i + 1) % 4 ≠ 0 →
      (pool_fill_step b i mem).getD ((i + 1) / 4) 0 < 2 ^ (8 * ((i + 1) % 4))) := by
  have hq : i / 4 < mem.length := by omega
  have hk : i % 4 < 4 := Nat.mod_lt _ (by decide)
  -- the word before the OR
  set w0 : Nat := if i % 4 = 0 then 0 else mem.getD (i / 4) 0 with hw0
  have hw0lt : w0 < 2 ^ (8 * (i % 4)) := by
    by_cases h0 : i % 4 = 0
    · simp [hw0, h0]
    · simp only [hw0, h0, if_false]; exact hw h0
  have hnew : (w0 ||| (b <<< ((i % 4) * 8))) % 2 ^ 32 = w0 ||| (b <<< ((i % 4) * 8)) := by
    apply Nat.mod_eq_of_lt
    have h1 := pool_word_lt w0 b (i % 4) hk hw0lt hb
    have h2 : (2 : Nat) ^ (8 * (i % 4 + 1)) ≤ 2 ^ 32 :=
      Nat.pow_le_pow_right (by decide) (by omega)
    omega
  have hget : ∀ j, (pool_fill_step b i mem).getD j 0 =
      if j = i / 4 then w0 ||| (b <<< ((i % 4) * 8)) else mem.getD j 0 := by
    intro j
    by_cases h0 : i % 4 = 0
    · simp only [pool_fill_step, h0, if_true]
      rw [getD_set_word _ _ _ _ (by simpa using hq), getD_set_word _ _ _ _ hq,
        getD_set_word _ _ _ _ hq]
      simp only [if_true, hw0, h0, ← hnew]
      by_cases hj : j = i / 4
      · simp [hj, hw0, h0]
        omega
      · simp [hj]
    · simp only [pool_fill_step, h0, if_false]
      rw [getD_set_word _ _ _ _ hq]
      by_cases hj : j = i / 4
      · rw [hw0] at hnew
        simp only [h0, if_false] at hnew
        simp only [hj, if_true, hw0, h0, if_false, hnew]
      · simp [hj]
  refine ⟨?_, ?_, ?_, ?_⟩
  · unfold pool_fill_step
    split <;> simp
  · intro j hj
    unfold pool_byte
    rw [hget]
    by_cases hjq : j / 4 = i / 4
    · have hjk : j % 4 < i % 4 := by omega
      have hne : i % 4 ≠ 0 := by omega
      simp only [hjq, if_true]
      rw [pool_word_get_old w0 b (i % 4) (j % 4) hk hjk hw0lt]
      simp [hw0, hne]
    · simp [hjq]
  · unfold pool_byte
    rw [hget]
    simp only [if_true]
    exact pool_word_get_new w0 b (i % 4) hk hw0lt hb
  · intro hne
    rw [hget]
    have h1 : (i + 1) / 4 = i / 4 := by omega
    have h2 : (i + 1) % 4 = i % 4 + 1 := by omega
    simp only [h1, if_true, h2]
    exact pool_word_lt w0 b (i % 4) hk hw0lt hb

theorem pool_fill_spec (buf : List Nat) (cnt : Int)
    (hB : ∀ j : Nat, byteAt buf (cnt + j) < 256) :
    ∀ (k i : Nat) (mem : List Nat), i + k ≤ 4 * mem.length →
      (i % 4 ≠ 0 → mem.getD (i / 4) 0 < 2 ^ (8 * (i % 4))) →
      (pool_fill buf cnt k i mem).length = mem.length ∧
      (∀ j, j < i → pool_byte (pool_fill buf cnt k i mem) j = pool_byte mem j) ∧
      (∀ j, i ≤ j → j < i + k →
        pool_byte (pool_fill buf cnt k i mem) j = byteAt buf (cnt + j)) := by
  intro k
  induction k with
  | zero =>
    intro i mem _ _
    refine ⟨rfl, fun _ _ => rfl, ?_⟩
    intro j h1 h2
    omega
  | succ k ih =>
    intro i mem hlen hw
    rw [pool_fill_succ]
    obtain ⟨s1, s2, s3, s4⟩ := pool_fill_step_spec (byteAt buf (cnt + i)) i mem (hB i)
      (by omega) hw
    obtain ⟨r1, r2, r3⟩ := ih (i + 1) _ (by rw [s1]; omega) s4
    refine ⟨r1.trans s1, ?_, ?_⟩
    · intro j hj
      rw [r2 j (by omega), s2 j hj]
    · intro j h1 h2
      by_cases hji : j = i
      · subst hji
        rw [r2 j (by omega), s3]
      · exact r3 j (by omega) (by omega)

theorem u32_natCast (l : Nat) (h : l < 2 ^ 32) : u32 (l : Int) = l := by
  unfold u32
  have : ((l : Int) % 2 ^ 32) = (l : Int) := Int.emod_eq_of_lt (by omega) (by exact_mod_cast h)
  rw [this]; simp

/-- The chunk a fill from index 0 leaves in the page. -/
theorem loaded_after_fill (buf : List Nat) (c l : Nat) (mem : List Nat)
    (hb : ∀ x ∈ buf, x < 256) (hl : l ≤ 4 * mem.length) (hc : c + l ≤ buf.length) :
    (List.range l).map (pool_byte (pool_fill buf (c : Int) l 0 mem)) = (buf.drop c).take l := by
  have hB : ∀ j : Nat, byteAt buf ((c : Int) + j) < 256 := by
    intro j
    unfold byteAt
    have : ((c : Int) + j).toNat = c + j := by omega
    rw [this, List.getD_eq_getElem?_getD]
    by_cases h : c + j < buf.length
    · rw [List.getElem?_eq_getElem h]
      exact hb _ (List.getElem_mem _)
    · rw [List.getElem?_eq_none (by omega)]
      decide
  obtain ⟨_, _, h3⟩ := pool_fill_spec buf c hB l 0 mem (by omega) (by simp)
  apply List.ext_getElem
  · simp; omega
  · intro i h1 h2
    simp only [List.length_map, List.length_range] at h1
    simp only [List.getElem_map, List.getElem_range, List.getElem_take, List.getElem_drop]
    rw [h3 i (by omega) (by omega)]
    unfold byteAt
    have : ((c : Int) + i).toNat = c + i := by omega
    rw [this, List.getD_eq_getElem?_getD, List.getElem?_eq_getElem (by omega)]
    rfl


theorem handler_ack_master (cfg : Config) (ev : Irq) (s : ast_i2c_dev)
    (hev : ev.isFor s.bus_id AST_I2CD_INTR_STS_TX_ACK) (hs : s.slave_operation ≠ 1) :
    (i2c_ast_handler cfg ev s).2 =
      ast_i2c_master_xfer_done cfg ev.recov
        (clear_sts (irq_entry ev s) AST_I2CD_INTR_STS_TX_ACK) := by
  obtain ⟨e1, e2⟩ := hev
  simp [i2c_ast_handler, e1, e2, take_irq, ast_i2c_read, AST_I2CD_INTR_STS_TX_ACK,
    AST_I2CD_INTR_STS_SMBUS_ALT, AST_I2CD_INTR_STS_ABNORMAL, AST_I2CD_INTR_STS_SCL_TO,
    AST_I2CD_INTR_STS_NORMAL_STOP, handler_switch, hs, irq_entry]

theorem pool_fill_length (buf : List Nat) (cnt : Int) :
    ∀ (k i : Nat) (mem : List Nat), (pool_fill buf cnt k i mem).length = mem.length := by
  intro k
  induction k with
  | zero => intro i mem; rfl
  | succ k ih =>
    intro i mem
    rw [pool_fill_succ, ih]
    unfold pool_fill_step
    split <;> simp

theorem pool_arm_next (cfg : Config) (t : ast_i2c_dev) (m : i2c_msg) (P c' : Nat)
    (h1 : t.slave_operation ≠ 1) (h2 : t.master_msgs = some m) (hwr : m.flags &&& I2C_M_RD = 0)
    (h3 : t.master_xfer_mode = XferMode.BUFF_XFER) (h4 : t.do_master_xfer = XferFn.pool)
    (h6 : t.master_xfer_cnt = c') (h7 : t.cmd_complete = 0)
    (h8 : t.req_page.page_size = P) (h9 : P ≤ 4 * t.req_page.mem.length)
    (hb : ∀ x ∈ m.buf, x < 256) (hlen : m.len = m.buf.length) (hnext : c' < m.len) :
    PoolTx m P c' (min (m.len - c') P) ((m.buf.drop c').take (min (m.len - c') P))
      (ast_i2c_do_pool_xfer cfg t) ∧
    Frame t (ast_i2c_do_pool_xfer cfg t) := by
  have hne2 : ¬ ((c' : Int) = -1) := by omega
  have hlt : (c' : Int) < (m.len : Int) := by omega
  by_cases hg : cfg.soc = Soc.g4 <;> by_cases hbig : (P : Int) < (m.len : Int) - c' <;>
    by_cases hx : t.xfer_last = 1 <;>
    simp [ast_i2c_do_pool_xfer, hg, h1, h2, hwr, h6, hne2, hlt, hbig, hx, h8, intr_ctrl_set,
      intr_ctrl_clear, ast_i2c_write, ast_i2c_read, Reg.isStorage, set_page_mem, poolTx_iff,
      frame_iff, h3, h4, h7, loaded_chunk]
  all_goals
    refine ⟨by omega, by rw [pool_fill_length]; exact h9, ?_⟩
    rw [loaded_after_fill m.buf c' _ _ hb (by omega) (by omega)]
    congr 1
    omega

theorem xfer_done_tx_next (cfg : Config) (env : RecoverEnv) (t : ast_i2c_dev) (m : i2c_msg)
    (h2 : t.master_msgs = some m) (hwr : m.flags &&& I2C_M_RD = 0)
    (hx : (master_extract cfg m t).1 = u32 t.master_xfer_len)
    (hne : t.master_xfer_cnt + t.master_xfer_len ≠ (m.len : Int)) :
    ast_i2c_master_xfer_done cfg env t =
      call_xfer cfg t.do_master_xfer
        { t with master_xfer_cnt := t.master_xfer_cnt + t.master_xfer_len,
                 master_xfer_first := 0 } := by
  have hs : (master_extract cfg m t).2 = t := by
    simp only [master_extract, hwr, ne_eq, not_true_eq_false, if_false]
    cases t.master_xfer_mode <;> rfl
  simp [ast_i2c_master_xfer_done, h2, hs, hx, hne]

theorem call_xfer_pool (cfg : Config) (f : XferFn) (t : ast_i2c_dev) (h : f = XferFn.pool) :
    call_xfer cfg f t = ast_i2c_do_pool_xfer cfg t := by
  subst h; rfl

theorem frame_entry (ev : Irq) (s : ast_i2c_dev) (bits : Nat) :
    Frame s (clear_sts (irq_entry ev s) bits) :=
  ⟨rfl, rfl, rfl, rfl, rfl, rfl⟩

theorem frame_cnt (t : ast_i2c_dev) (c : Int) :
    Frame t { t with master_xfer_cnt := c, master_xfer_first := 0 } :=
  ⟨rfl, rfl, rfl, rfl, rfl, rfl⟩

/-- Pool mode: the completion routine, entered with the armed chunk reported as
transferred and bytes left to send, arms the next chunk. -/
theorem pool_done_next (cfg : Config) (env : RecoverEnv) (t : ast_i2c_dev) (m : i2c_msg)
    (P : Nat) (c : Int) (l c' : Nat)
    (h1 : t.slave_operation ≠ 1) (h2 : t.master_msgs = some m) (hwr : m.flags &&& I2C_M_RD = 0)
    (h3 : t.master_xfer_mode = XferMode.BUFF_XFER) (h4 : t.do_master_xfer = XferFn.pool)
    (h5 : t.master_xfer_len = (l : Int)) (h6 : t.master_xfer_cnt = c)
    (h7 : t.cmd_complete = 0) (h8 : t.req_page.page_size = P)
    (h9 : P ≤ 4 * t.req_page.mem.length)
    (hrep : (AST_I2CD_TX_DATA_BUF_GET (t.regs I2C_BUF_CTRL_REG) + 1) % 2 ^ 32 =
      u32 t.master_xfer_len)
    (hb : ∀ x ∈ m.buf, x < 256) (hlen : m.len = m.buf.length)
    (hc' : c + l = c') (hnext : c' < m.len) :
    PoolTx m P c' (min (m.len - c') P) ((m.buf.drop c').take (min (m.len - c') P))
      (ast_i2c_master_xfer_done cfg env t) ∧
    Frame t (ast_i2c_master_xfer_done cfg env t) := by
  have hx : (master_extract cfg m t).1 = u32 t.master_xfer_len := by
    rw [← hrep]
    simp [master_extract, hwr, h3, ast_i2c_read]
  have hne : t.master_xfer_cnt + t.master_xfer_len ≠ (m.len : Int) := by
    rw [h6, h5]; omega
  have e : ast_i2c_master_xfer_done cfg env t = ast_i2c_do_pool_xfer cfg
      { t with master_xfer_cnt := t.master_xfer_cnt + t.master_xfer_len,
               master_xfer_first := 0 } :=
    (xfer_done_tx_next cfg env t m h2 hwr hx hne).trans (call_xfer_pool cfg _ _ h4)
  have harm := pool_arm_next cfg
    { t with master_xfer_cnt := t.master_xfer_cnt + t.master_xfer_len, master_xfer_first := 0 }
    m P c' h1 h2 hwr h3 h4 (by show t.master_xfer_cnt + t.master_xfer_len = c'; rw [h6, h5, hc'])
    h7 h8 h9 hb hlen hnext
  rw [e]
  exact ⟨harm.1, (frame_cnt t _).trans harm.2⟩

/-- The case TX_ACK | NORMAL_STOP of the handler, in master role on the last
message: the status is cleared, the acknowledge interrupt is enabled again and
the completion routine runs. -/
theorem handler_ack_stop_master (cfg : Config) (ev : Irq) (s : ast_i2c_dev)
    (hev : ev.isFor s.bus_id (AST_I2CD_INTR_STS_TX_ACK ||| AST_I2CD_INTR_STS_NORMAL_STOP))
    (hl : s.xfer_last = 1) (hs : s.slave_operation = 0) :
    (i2c_ast_handler cfg ev s).2 =
      ast_i2c_master_xfer_done cfg ev.recov
        (intr_ctrl_set (clear_sts (irq_entry ev s)
          (AST_I2CD_INTR_STS_TX_ACK ||| AST_I2CD_INTR_STS_NORMAL_STOP))
          AST_I2CD_TX_ACK_INTR_EN) := by
  obtain ⟨e1, e2⟩ := hev
  simp +decide [i2c_ast_handler, e1, e2, take_irq, ast_i2c_read, AST_I2CD_INTR_STS_TX_ACK,
    AST_I2CD_INTR_STS_SMBUS_ALT, AST_I2CD_INTR_STS_ABNORMAL, AST_I2CD_INTR_STS_SCL_TO,
    AST_I2CD_INTR_STS_NORMAL_STOP, AST_I2CD_INTR_STS_RX_DOWN, AST_I2CD_INTR_STS_SLAVE_MATCH,
    handler_switch, hs, hl, irq_entry]

theorem frame_entry_set (ev : Irq) (s : ast_i2c_dev) (bits en : Nat) :
    Frame s (intr_ctrl_set (clear_sts (irq_entry ev s) bits) en) :=
  ⟨rfl, rfl, rfl, rfl, rfl, rfl⟩

theorem pool_ack_next (cfg : Config) (ev : Irq) (m : i2c_msg) (P : Nat) (c : Int) (l : Nat)
    (ch : List Nat) (s : ast_i2c_dev) (c' : Nat)
    (hev : ev.acksTx s) (hpool : ev.pool = none)
    (hrep : ev.reportsTx s) (h : PoolTx m P c l ch s)
    (hb : ∀ x ∈ m.buf, x < 256) (hlen : m.len = m.buf.length)
    (hc' : c + l = c') (hnext : c' < m.len) :
    PoolTx m P c' (min (m.len - c') P) ((m.buf.drop c').take (min (m.len - c') P))
      (i2c_ast_handler cfg ev s).2 ∧
    Frame s (i2c_ast_handler cfg ev s).2 := by
  rcases hev with hev | ⟨hl, hs0, hev⟩
  · rw [handler_ack_master cfg ev s hev h.slave]
    obtain ⟨h1, h2, hwr, h3, h4, h5, h6, h7, h8, h9, h10⟩ := h
    have hd := pool_done_next cfg ev.recov (clear_sts (irq_entry ev s) AST_I2CD_INTR_STS_TX_ACK)
      m P c l c' h1 h2 hwr h3 h4 h5 h6 h7
      (by simpa [clear_sts, irq_entry, take_irq, ast_i2c_write, hpool] using h8)
      (by simpa [clear_sts, irq_entry, take_irq, ast_i2c_write, hpool] using h9)
      (by simpa [clear_sts, irq_entry, take_irq, ast_i2c_write, Reg.isStorage, Irq.reportsTx]
        using hrep)
      hb hlen hc' hnext
    exact ⟨hd.1, (frame_entry ev s _).trans hd.2⟩
  · rw [handler_ack_stop_master cfg ev s hev hl hs0]
    obtain ⟨h1, h2, hwr, h3, h4, h5, h6, h7, h8, h9, h10⟩ := h
    have hd := pool_done_next cfg ev.recov
      (intr_ctrl_set (clear_sts (irq_entry ev s)
        (AST_I2CD_INTR_STS_TX_ACK ||| AST_I2CD_INTR_STS_NORMAL_STOP)) AST_I2CD_TX_ACK_INTR_EN)
      m P c l c' h1 h2 hwr h3 h4 h5 h6 h7
      (by simpa [intr_ctrl_set, clear_sts, irq_entry, take_irq, ast_i2c_write, hpool] using h8)
      (by simpa [intr_ctrl_set, clear_sts, irq_entry, take_irq, ast_i2c_write, hpool] using h9)
      (by simpa [intr_ctrl_set, ast_i2c_read, clear_sts, irq_entry, take_irq, ast_i2c_write,
        Reg.isStorage, Irq.reportsTx] using hrep)
      hb hlen hc' hnext
    exact ⟨hd.1, (frame_entry_set ev s _ _).trans hd.2⟩


/-- The chunk the first arm of a write leaves in the page: the address byte and
the first payload bytes. -/
theorem loaded_after_first_fill (buf : List Nat) (a l : Nat) (mem : List Nat)
    (ha : a < 128) (hb : ∀ x ∈ buf, x < 256) (hl1 : 1 ≤ l) (hl : l ≤ 4 * mem.length)
    (hc : l ≤ buf.length + 1) :
    (List.range l).map (pool_byte (pool_fill buf (-1) (l - 1) 1 (mem.set 0 (a <<< 1)))) =
      (a <<< 1) :: buf.take (l - 1) := by
  have hB : ∀ j : Nat, byteAt buf ((-1 : Int) + j) < 256 := by
    intro j
    unfold byteAt
    rw [List.getD_eq_getElem?_getD]
    by_cases h : ((-1 : Int) + j).toNat < buf.length
    · rw [List.getElem?_eq_getElem h]
      exact hb _ (List.getElem_mem _)
    · rw [List.getElem?_eq_none (by omega)]
      decide
  have ha2 : a <<< 1 < 256 := by rw [Nat.shiftLeft_eq]; omega
  have hm1 : 0 < mem.length := by omega
  obtain ⟨_, h2, h3⟩ := pool_fill_spec buf (-1) hB (l - 1) 1 (mem.set 0 (a <<< 1))
    (by simp; omega)
    (by intro _; rw [getD_set_word _ _ _ _ hm1]; simpa using ha2)
  have h0 : pool_byte (mem.set 0 (a <<< 1)) 0 = a <<< 1 := by
    unfold pool_byte
    rw [getD_set_word _ _ _ _ hm1]
    simp only [Nat.zero_div, if_true, Nat.zero_mod, Nat.zero_mul, Nat.shiftRight_zero]
    rw [show (0xff : Nat) = 2 ^ 8 - 1 from rfl, Nat.and_pow_two_sub_one_eq_mod]
    exact Nat.mod_eq_of_lt ha2
  apply List.ext_getElem
  · simp; omega
  · intro i h1 _
    simp only [List.length_map, List.length_range] at h1
    simp only [List.getElem_map, List.getElem_range]
    cases i with
    | zero => rw [h2 0 (by omega), h0]; rfl
    | succ i =>
      rw [h3 (i + 1) (by omega) (by omega)]
      simp only [List.getElem_cons_succ, List.getElem_take]
      unfold byteAt
      have : ((-1 : Int) + ((i + 1 : Nat) : Int)).toNat = i := by omega
      rw [this, List.getD_eq_getElem?_getD, List.getElem?_eq_getElem (by omega)]
      rfl

theorem pool_arm_first (cfg : Config) (t : ast_i2c_dev) (m : i2c_msg) (P : Nat)
    (h1 : t.slave_operation ≠ 1) (h2 : t.master_msgs = some m) (hwr : m.flags &&& I2C_M_RD = 0)
    (h3 : t.master_xfer_mode = XferMode.BUFF_XFER) (h4 : t.do_master_xfer = XferFn.pool)
    (h6 : t.master_xfer_cnt = -1) (h7 : t.cmd_complete = 0)
    (h8 : t.req_page.page_size = P) (h9 : P ≤ 4 * t.req_page.mem.length) (hP : 1 ≤ P)
    (ha : m.addr < 128) (hb : ∀ x ∈ m.buf, x < 256) (hlen : m.len = m.buf.length) :
    PoolTx m P (-1) (min (m.len + 1) P) ((m.addr <<< 1) :: m.buf.take (min (m.len + 1) P - 1))
      (ast_i2c_do_pool_xfer cfg t) ∧
    Frame t (ast_i2c_do_pool_xfer cfg t) := by
  by_cases hg : cfg.soc = Soc.g4 <;> by_cases hbig : (P : Int) < (m.len : Int) + 1 <;>
    simp [ast_i2c_do_pool_xfer, hg, h1, h2, hwr, h6, hbig, h8, ast_i2c_write, ast_i2c_read,
      Reg.isStorage, set_page_mem, poolTx_iff, frame_iff, h3, h4, h7, loaded_chunk]
  all_goals
    refine ⟨by omega, by rw [pool_fill_length]; simpa using h9, ?_⟩
  · have e : (m.len + 1) ⊓ P = P := by omega
    rw [e]
    exact loaded_after_first_fill m.buf m.addr P _ ha hb hP h9 (by omega)
  · have e : (m.len + 1) ⊓ P = m.len + 1 := by omega
    rw [e]
    have := loaded_after_first_fill m.buf m.addr (m.len + 1) t.req_page.mem ha hb (by omega)
      (by omega) (by omega)
    simpa using this
  · have e : (m.len + 1) ⊓ P = P := by omega
    rw [e]
    exact loaded_after_first_fill m.buf m.addr P _ ha hb hP h9 (by omega)
  · have e : (m.len + 1) ⊓ P = m.len + 1 := by omega
    rw [e]
    have := loaded_after_first_fill m.buf m.addr (m.len + 1) t.req_page.mem ha hb (by omega)
      (by omega) (by omega)
    simpa using this


/-- A write whose last chunk is reported as transferred: the completion routine
signals the completion without error and the counter reaches the length. -/
theorem xfer_done_tx_last (cfg : Config) (env : RecoverEnv) (t : ast_i2c_dev) (m : i2c_msg)
    (h2 : t.master_msgs = some m) (hwr : m.flags &&& I2C_M_RD = 0)
    (hx : (master_extract cfg m t).1 = u32 t.master_xfer_len)
    (he : t.master_xfer_cnt + t.master_xfer_len = (m.len : Int)) :
    (ast_i2c_master_xfer_done cfg env t).cmd_complete = t.cmd_complete + 1 ∧
    (ast_i2c_master_xfer_done cfg env t).cmd_err = 0 ∧
    (ast_i2c_master_xfer_done cfg env t).master_xfer_cnt = m.len ∧
    (ast_i2c_master_xfer_done cfg env t).master_msgs = some m ∧
    (ast_i2c_master_xfer_done cfg env t).master_xfer_mode = t.master_xfer_mode ∧
    (ast_i2c_master_xfer_done cfg env t).req_page = t.req_page ∧
    Frame t (ast_i2c_master_xfer_done cfg env t) ∧
    writes_to I2C_BYTE_BUF_REG (ast_i2c_master_xfer_done cfg env t).writes =
      writes_to I2C_BYTE_BUF_REG t.writes := by
  have hs : (master_extract cfg m t).2 = t := by
    simp only [master_extract, hwr, ne_eq, not_true_eq_false, if_false]
    cases t.master_xfer_mode <;> rfl
  simp only [ast_i2c_master_xfer_done, h2, hs, hx, ne_eq, not_true_eq_false, if_false,
    Option.getD_some, he, hwr, not_false_eq_true, and_true]
  by_cases hm : t.master_xfer_mode = XferMode.BYTE_XFER ∨ t.master_xfer_mode = XferMode.BUFF_XFER
    <;> by_cases hl : t.xfer_last = 1 <;>
    simp [hm, hl, restore_func_ctrl, complete, ast_i2c_write, frame_iff, writes_to, h2]

theorem pool_ack_last (cfg : Config) (ev : Irq) (m : i2c_msg) (P : Nat) (c : Int) (l : Nat)
    (ch : List Nat) (s : ast_i2c_dev)
    (hev : ev.acksTx s)
    (hrep : ev.reportsTx s) (h : PoolTx m P c l ch s) (hc : c + l = m.len) :
    (i2c_ast_handler cfg ev s).2.cmd_complete = 1 ∧
    (i2c_ast_handler cfg ev s).2.cmd_err = 0 ∧
    (i2c_ast_handler cfg ev s).2.master_xfer_cnt = m.len ∧
    (i2c_ast_handler cfg ev s).2.master_xfer_mode = XferMode.BUFF_XFER ∧
    Frame s (i2c_ast_handler cfg ev s).2 := by
  rcases hev with hev | ⟨hl, hs0, hev⟩
  · rw [handler_ack_master cfg ev s hev h.slave]
    obtain ⟨h1, h2, hwr, h3, h4, h5, h6, h7, h8, h9, h10⟩ := h
    have hd := xfer_done_tx_last cfg ev.recov
      (clear_sts (irq_entry ev s) AST_I2CD_INTR_STS_TX_ACK) m h2 hwr
      (by
        have : (master_extract cfg m (clear_sts (irq_entry ev s) AST_I2CD_INTR_STS_TX_ACK)).1 =
            (AST_I2CD_TX_DATA_BUF_GET ev.buf_ctrl + 1) % 2 ^ 32 := by
          simp [master_extract, hwr, clear_sts, irq_entry, take_irq, ast_i2c_write, ast_i2c_read,
            Reg.isStorage, h3]
        rw [this]
        exact hrep)
      (by show s.master_xfer_cnt + s.master_xfer_len = m.len; rw [h6, h5, hc])
    obtain ⟨d1, d2, d3, _, d5, _, d7, _⟩ := hd
    refine ⟨?_, d2, d3, d5.trans h3, (frame_entry ev s _).trans d7⟩
    rw [d1]
    show s.cmd_complete + 1 = 1
    rw [h7]
  · rw [handler_ack_stop_master cfg ev s hev hl hs0]
    obtain ⟨h1, h2, hwr, h3, h4, h5, h6, h7, h8, h9, h10⟩ := h
    have hd := xfer_done_tx_last cfg ev.recov
      (intr_ctrl_set (clear_sts (irq_entry ev s)
        (AST_I2CD_INTR_STS_TX_ACK ||| AST_I2CD_INTR_STS_NORMAL_STOP)) AST_I2CD_TX_ACK_INTR_EN)
      m h2 hwr
      (by
        have : (master_extract cfg m (intr_ctrl_set (clear_sts (irq_entry ev s)
            (AST_I2CD_INTR_STS_TX_ACK ||| AST_I2CD_INTR_STS_NORMAL_STOP))
            AST_I2CD_TX_ACK_INTR_EN)).1 =
            (AST_I2CD_TX_DATA_BUF_GET ev.buf_ctrl + 1) % 2 ^ 32 := by
          simp [master_extract, hwr, intr_ctrl_set, clear_sts, irq_entry, take_irq,
            ast_i2c_write, ast_i2c_read, Reg.isStorage, h3]
        rw [this]
        exact hrep)
      (by show s.master_xfer_cnt + s.master_xfer_len = m.len; rw [h6, h5, hc])
    obtain ⟨d1, d2, d3, _, d5, _, d7, _⟩ := hd
    refine ⟨?_, d2, d3, d5.trans h3, (frame_entry_set ev s _ _).trans d7⟩
    rw [d1]
    show s.cmd_complete + 1 = 1
    rw [h7]

theorem wait_irqs_done (cfg : Config) (irqs : List Irq) (s : ast_i2c_dev)
    (h : 0 < s.cmd_complete) : wait_irqs cfg irqs s = s := by
  cases irqs with
  | nil => rfl
  | cons ev rest => simp [wait_irqs, h]

theorem chunk_trace_done (cfg : Config) (irqs : List Irq) (s : ast_i2c_dev)
    (h : 0 < s.cmd_complete) : chunk_trace cfg irqs s = [] := by
  cases irqs with
  | nil => simp [chunk_trace, h]
  | cons ev rest => simp [chunk_trace, h]

/-- Pool mode: the chunks armed from a state on, up to the completion, are the
armed chunk followed by the rest of the payload. -/
theorem pool_run (cfg : Config) (m : i2c_msg) (P : Nat)
    (hb : ∀ x ∈ m.buf, x < 256) (hlen : m.len = m.buf.length) (irqs : List Irq) :
    ∀ (c : Int) (l p : Nat) (ch : List Nat) (s : ast_i2c_dev), PoolTx m P c l ch s →
      c + l = p → p ≤ m.len → FullTxRun cfg irqs s → 0 < (wait_irqs cfg irqs s).cmd_complete →
      (chunk_trace cfg irqs s).flatten = ch ++ m.buf.drop p ∧
      (wait_irqs cfg irqs s).master_xfer_cnt = m.len ∧
      (wait_irqs cfg irqs s).cmd_err = 0 ∧
      (wait_irqs cfg irqs s).cmd_complete = 1 ∧
      (wait_irqs cfg irqs s).master_xfer_mode = XferMode.BUFF_XFER ∧
      Frame s (wait_irqs cfg irqs s) := by
  induction irqs with
  | nil =>
    intro c l p ch s h _ _ _ hdone
    simp only [wait_irqs] at hdone
    rw [h.done] at hdone
    omega
  | cons ev rest ih =>
    intro c l p ch s h hp hple hrun _hdone
    have hd : ¬ (s.cmd_complete > 0) := by rw [h.done]; decide
    simp only [FullTxRun, hd, false_or] at hrun
    obtain ⟨hev, hpool, hrep, hrest⟩ := hrun
    simp only [wait_irqs, chunk_trace, hd, if_false, List.flatten_cons] at _hdone ⊢
    by_cases hlast : p = m.len
    · obtain ⟨l1, l2, l3, l4, l5⟩ := pool_ack_last cfg ev m P c l ch s hev hrep h
        (by rw [hp, hlast])
      have hpos : 0 < (i2c_ast_handler cfg ev s).2.cmd_complete := by rw [l1]; decide
      rw [wait_irqs_done cfg rest _ hpos, chunk_trace_done cfg rest _ hpos, h.chunk, hlast, hlen]
      simp only [List.flatten_nil, List.append_nil, List.drop_length]
      exact ⟨trivial, by rw [l3, hlen], l2, l1, l4, l5⟩
    · obtain ⟨n1, n2⟩ := pool_ack_next cfg ev m P c l ch s p hev hpool hrep h hb hlen hp
        (by omega)
      have hih := ih (p : Int) (min (m.len - p) P) (p + min (m.len - p) P) _ _ n1
        (by push_cast; rfl) (by omega) hrest _hdone
      obtain ⟨i1, i2, i3, i4, i5, i6⟩ := hih
      refine ⟨?_, i2, i3, i4, i5, n2.trans i6⟩
      rw [i1, h.chunk, ← List.drop_drop, List.take_append_drop]

/-- Pool mode: with one interrupt for each chunk still to be sent, the
completion is signalled. -/
theorem pool_run_done (cfg : Config) (m : i2c_msg) (P : Nat) (hP : 1 ≤ P)
    (hb : ∀ x ∈ m.buf, x < 256) (hlen : m.len = m.buf.length) (irqs : List Irq) :
    ∀ (c : Int) (l p : Nat) (ch : List Nat) (s : ast_i2c_dev), PoolTx m P c l ch s →
      c + l = p → p ≤ m.len → FullTxRun cfg irqs s →
      (m.len - p + P - 1) / P + 1 ≤ irqs.length →
      0 < (wait_irqs cfg irqs s).cmd_complete := by
  induction irqs with
  | nil =>
    intro c l p ch s _ _ _ _ hn
    simp at hn
  | cons ev rest ih =>
    intro c l p ch s h hp hple hrun hn
    have hd : ¬ (s.cmd_complete > 0) := by rw [h.done]; decide
    simp only [FullTxRun, hd, false_or] at hrun
    obtain ⟨hev, hpool, hrep, hrest⟩ := hrun
    simp only [wait_irqs, hd, if_false]
    by_cases hlast : p = m.len
    · obtain ⟨l1, _, _, _, _⟩ := pool_ack_last cfg ev m P c l ch s hev hrep h
        (by rw [hp, hlast])
      have hpos : 0 < (i2c_ast_handler cfg ev s).2.cmd_complete := by rw [l1]; decide
      rw [wait_irqs_done cfg rest _ hpos]
      exact hpos
    · obtain ⟨n1, _⟩ := pool_ack_next cfg ev m P c l ch s p hev hpool hrep h hb hlen hp
        (by omega)
      refine ih (p : Int) (min (m.len - p) P) (p + min (m.len - p) P) _ _ n1
        (by push_cast; rfl) (by omega) hrest ?_
      simp only [List.length_cons] at hn
      have hlt : p < m.len := by omega
      by_cases hbig : P ≤ m.len - p
      · have e1 : min (m.len - p) P = P := by omega
        have e2 : m.len - p + P - 1 = (m.len - (p + P) + P - 1) + P := by omega
        rw [e2, Nat.add_div_right _ (by omega : 0 < P)] at hn
        rw [e1]
        omega
      · have e1 : min (m.len - p) P = m.len - p := by omega
        have e3 : (m.len - (p + (m.len - p)) + P - 1) / P = 0 := by
          apply Nat.div_eq_of_lt
          omega
        have e4 : 1 ≤ (m.len - p + P - 1) / P := by
          apply (Nat.le_div_iff_mul_le (by omega : 0 < P)).2
          omega
        rw [e1, e3]
        omega

theorem submit_arm_pool (cfg : Config) (pg : buf_page) (num : Int) (m : i2c_msg)
    (s : ast_i2c_dev) (hcfg : cfg.master_dma = DmaMode.BUFF_MODE)
    (hs : s.slave_operation ≠ 1) (hwr : m.flags &&& I2C_M_RD = 0)
    (hst : m.flags &&& I2C_M_NOSTART = 0) (hP : 1 ≤ pg.page_size)
    (hmem : pg.page_size ≤ 4 * pg.mem.length)
    (ha : m.addr < 128) (hb : ∀ x ∈ m.buf, x < 256) (hlen : m.len = m.buf.length) :
    PoolTx m pg.page_size (-1) (min (m.len + 1) pg.page_size)
      ((m.addr <<< 1) :: m.buf.take (min (m.len + 1) pg.page_size - 1))
      (submit_arm cfg (some pg) num m s) ∧
    (submit_arm cfg (some pg) num m s).bus_id = s.bus_id := by
  have harm := pool_arm_first cfg
    { s with
      req_page := pg, pool_log := s.pool_log ++ [PoolEvent.got pg.page_no],
      do_master_xfer := XferFn.pool, master_xfer_mode := XferMode.BUFF_XFER,
      blk_r_flag := 0, master_msgs := some m, xfer_last := if num = ((0 : Nat) : Int) + 1 then 1 else 0,
      cmd_complete := 0, cmd_err := 0, master_xfer_cnt := -1, master_xfer_first := 0 }
    m pg.page_size hs rfl hwr rfl rfl rfl rfl rfl hmem hP ha hb hlen
  have e : submit_arm cfg (some pg) num m s =
      { ast_i2c_do_pool_xfer cfg
        { s with
          req_page := pg, pool_log := s.pool_log ++ [PoolEvent.got pg.page_no],
          do_master_xfer := XferFn.pool, master_xfer_mode := XferMode.BUFF_XFER,
          blk_r_flag := 0, master_msgs := some m,
          xfer_last := if num = ((0 : Nat) : Int) + 1 then 1 else 0,
          cmd_complete := 0, cmd_err := 0, master_xfer_cnt := -1, master_xfer_first := 0 } with
        master_xfer_first := 1 } := by
    simp [submit_arm, msg_arm, select_master_mode, hcfg, request_pool_buff_page, init_completion,
      hst, call_xfer]
  rw [e]
  obtain ⟨h1, h2⟩ := harm
  rw [poolTx_iff] at h1 ⊢
  rw [frame_iff] at h2
  exact ⟨h1, h2.1⟩

theorem rx_copy_length (src : Nat → Nat) (cnt : Int) (k i : Nat) (buf : List Nat) :
    (rx_copy src cnt k i buf).length = buf.length := by
  induction k generalizing i buf with
  | zero => rfl
  | succ k ih => simp [rx_copy, ih, setByte]

/-- The copy loop started at buffer offset 0 replaces the bytes of the indices
it runs over by the source bytes and leaves the others. -/
theorem rx_copy_spec (src : Nat → Nat) (k i : Nat) (buf : List Nat) (h : i + k ≤ buf.length) :
    rx_copy src 0 k i buf =
      buf.take i ++ (List.range' i k).map src ++ buf.drop (i + k) := by
  induction k generalizing i buf with
  | zero => simp [rx_copy]
  | succ k ih =>
    have hi : i < buf.length := by omega
    rw [rx_copy, ih (i + 1) _ (by simp [setByte]; omega)]
    simp only [setByte, zero_add, Int.toNat_ofNat, List.range'_succ, List.map_cons]
    rw [List.set_eq_take_append_cons_drop, if_pos hi]
    have e1 : List.take (i + 1) (List.take i buf ++ src i :: List.drop (i + 1) buf) =
        List.take i buf ++ [src i] := by
      rw [List.take_append_eq_append_take]
      simp [List.length_take, Nat.min_eq_left (Nat.le_of_lt hi)]
    have e2 : List.drop (i + 1 + k) (List.take i buf ++ src i :: List.drop (i + 1) buf) =
        List.drop (i + (k + 1)) buf := by
      have hl : (List.take i buf).length = i := by simp; omega
      rw [List.drop_append_eq_append_drop, hl]
      have e3 : i + 1 + k - i = k + 1 := by omega
      rw [e3, List.drop_eq_nil_of_le (by rw [hl]; omega)]
      simp only [List.nil_append, List.drop_succ_cons, List.drop_drop]
      congr 1
      omega
    rw [e1, e2]
    simp

theorem rx_copy_zero (src : Nat → Nat) (n : Nat) (buf : List Nat) (h : n ≤ buf.length) :
    rx_copy src 0 n 0 buf = (List.range n).map src ++ buf.drop n := by
  rw [rx_copy_spec src n 0 buf (by omega)]
  simp [List.range_eq_range']


theorem pool_rd_arm_first (cfg : Config) (t : ast_i2c_dev) (m : i2c_msg)
    (h1 : t.slave_operation = 0) (h2 : t.master_msgs = some m)
    (hrd : m.flags &&& I2C_M_RD ≠ 0)
    (h3 : t.master_xfer_mode = XferMode.BUFF_XFER) (h4 : t.do_master_xfer = XferFn.pool)
    (h6 : t.master_xfer_cnt = -1) (h7 : t.cmd_complete = 0) (h8 : t.cmd_err = 0)
    (h9 : t.xfer_last = 1) (h10 : t.blk_r_flag = 0) :
    PoolRx m t.req_page.page_size t.req_page.page_addr_point (-1) 1
      (ast_i2c_do_pool_xfer cfg t) ∧
    (ast_i2c_do_pool_xfer cfg t).bus_id = t.bus_id ∧
    writes_to I2C_BYTE_BUF_REG (ast_i2c_do_pool_xfer cfg t).writes =
      writes_to I2C_BYTE_BUF_REG t.writes ++ [(m.addr <<< 1) ||| 1] ∧
    writes_to I2C_CMD_REG (ast_i2c_do_pool_xfer cfg t).writes =
      writes_to I2C_CMD_REG t.writes ++ [AST_I2CD_M_START_CMD ||| AST_I2CD_M_TX_CMD] ∧
    writes_to I2C_BUF_CTRL_REG (ast_i2c_do_pool_xfer cfg t).writes =
      writes_to I2C_BUF_CTRL_REG t.writes := by
  by_cases hg : cfg.soc = Soc.g4 <;>
    simp [ast_i2c_do_pool_xfer, hg, h1, h2, hrd, h6, ast_i2c_write, ast_i2c_read,
      Reg.isStorage, poolRx_iff, h3, h4, h7, h8, h9, h10, intr_ctrl_set, writes_to]

theorem submit_arm_rd (cfg : Config) (pg : buf_page) (m : i2c_msg)
    (s : ast_i2c_dev) (hcfg : cfg.master_dma = DmaMode.BUFF_MODE)
    (hs : s.slave_operation = 0) (hrd : m.flags &&& I2C_M_RD ≠ 0)
    (hst : m.flags &&& I2C_M_NOSTART = 0) :
    PoolRx m pg.page_size pg.page_addr_point (-1) 1 (submit_arm cfg (some pg) 1 m s) ∧
    (submit_arm cfg (some pg) 1 m s).bus_id = s.bus_id ∧
    writes_to I2C_BYTE_BUF_REG (submit_arm cfg (some pg) 1 m s).writes =
      writes_to I2C_BYTE_BUF_REG s.writes ++ [(m.addr <<< 1) ||| 1] ∧
    writes_to I2C_CMD_REG (submit_arm cfg (some pg) 1 m s).writes =
      writes_to I2C_CMD_REG s.writes ++ [AST_I2CD_M_START_CMD ||| AST_I2CD_M_TX_CMD] ∧
    writes_to I2C_BUF_CTRL_REG (submit_arm cfg (some pg) 1 m s).writes =
      writes_to I2C_BUF_CTRL_REG s.writes := by
  have harm := pool_rd_arm_first cfg
    { s with
      req_page := pg, pool_log := s.pool_log ++ [PoolEvent.got pg.page_no],
      do_master_xfer := XferFn.pool, master_xfer_mode := XferMode.BUFF_XFER,
      blk_r_flag := 0, master_msgs := some m, xfer_last := 1,
      cmd_complete := 0, cmd_err := 0, master_xfer_cnt := -1, master_xfer_first := 0 }
    m hs rfl hrd rfl rfl rfl rfl rfl rfl rfl
  have e : submit_arm cfg (some pg) 1 m s =
      { ast_i2c_do_pool_xfer cfg
        { s with
          req_page := pg, pool_log := s.pool_log ++ [PoolEvent.got pg.page_no],
          do_master_xfer := XferFn.pool, master_xfer_mode := XferMode.BUFF_XFER,
          blk_r_flag := 0, master_msgs := some m, xfer_last := 1,
          cmd_complete := 0, cmd_err := 0, master_xfer_cnt := -1, master_xfer_first := 0 } with
        master_xfer_first := 1 } := by
    simp [submit_arm, msg_arm, select_master_mode, hcfg, request_pool_buff_page, init_completion,
      hst, call_xfer]
  rw [e]
  obtain ⟨h1, h2, h3, h4, h5⟩ := harm
  rw [poolRx_iff] at h1 ⊢
  exact ⟨h1, h2, h3, h4, h5⟩

/-- Pool mode, read: after the acknowledge of the address the completion
routine arms the receive of the whole message, of `m.len ≤ P` bytes. -/
theorem pool_rd_ack (cfg : Config) (env : RecoverEnv) (t : ast_i2c_dev) (m : i2c_msg)
    (P base : Nat) (h : PoolRx m P base (-1) 1 t) (hrd : m.flags &&& I2C_M_RD ≠ 0)
    (hrl : m.flags &&& I2C_M_RECV_LEN = 0) (h1 : 1 ≤ m.len) (hP : m.len ≤ P)
    (h16 : m.len < 2 ^ 16) :
    PoolRx m P base 0 m.len (ast_i2c_master_xfer_done cfg env t) ∧
    (ast_i2c_master_xfer_done cfg env t).bus_id = t.bus_id ∧
    writes_to I2C_BUF_CTRL_REG (ast_i2c_master_xfer_done cfg env t).writes =
      writes_to I2C_BUF_CTRL_REG t.writes ++
        [AST_I2CD_RX_BUF_END_ADDR_SET (m.len - 1) ||| AST_I2CD_BUF_BASE_ADDR_SET base] := by
  obtain ⟨p1, p2, p3, p4, p5, p6, p7, p8, p9, p10, p11, p12⟩ := h
  have hu : u32 ((m.len : Int) - 1) = m.len - 1 := by
    unfold u32
    have : ((m.len : Int) - 1) % 2 ^ 32 = (m.len : Int) - 1 :=
      Int.emod_eq_of_lt (by omega) (by omega)
    rw [this]
    omega
  have hne : ¬ ((0 : Int) = (m.len : Int)) := by omega
  have hle : ¬ ((P : Int) < (m.len : Int)) := by omega
  have hlt : (0 : Int) < (m.len : Int) := by omega
  by_cases hg : cfg.soc = Soc.g4 <;>
    simp [ast_i2c_master_xfer_done, p2, master_extract, hrd, p6, p5, u32, call_xfer, p4, hne,
      ast_i2c_do_pool_xfer, hg, p1, hlt, p9, hle, hrl, p11, p12, intr_ctrl_clear,
      ast_i2c_write, ast_i2c_read, Reg.isStorage, poolRx_iff, p3, p7, p8, p10, writes_to]
  all_goals
    have hu2 : (((m.len : Int) - 1) % 4294967296).toNat = m.len - 1 := by simpa [u32] using hu
    rw [hu2]


theorem handler_rx_stop_master (cfg : Config) (ev : Irq) (s : ast_i2c_dev)
    (hev : ev.isFor s.bus_id (AST_I2CD_INTR_STS_RX_DOWN ||| AST_I2CD_INTR_STS_NORMAL_STOP))
    (hs : s.slave_operation = 0) :
    (i2c_ast_handler cfg ev s).2 =
      ast_i2c_master_xfer_done cfg ev.recov
        (intr_ctrl_set (clear_sts (irq_entry ev s)
          (AST_I2CD_INTR_STS_RX_DOWN ||| AST_I2CD_INTR_STS_NORMAL_STOP))
          AST_I2CD_RX_DOWN_INTR_EN) := by
  obtain ⟨e1, e2⟩ := hev
  simp +decide [i2c_ast_handler, e1, e2, take_irq, ast_i2c_read, AST_I2CD_INTR_STS_TX_ACK,
    AST_I2CD_INTR_STS_SMBUS_ALT, AST_I2CD_INTR_STS_ABNORMAL, AST_I2CD_INTR_STS_SCL_TO,
    AST_I2CD_INTR_STS_NORMAL_STOP, AST_I2CD_INTR_STS_RX_DOWN, AST_I2CD_INTR_STS_TX_NAK,
    AST_I2CD_INTR_STS_SLAVE_MATCH, handler_switch, hs, irq_entry]

/-- Pool mode, read: when the hardware reports the armed `m.len` bytes as
received, the completion routine copies them from the page into the message
buffer and signals the completion without error. -/
theorem pool_rd_done (cfg : Config) (env : RecoverEnv) (t : ast_i2c_dev) (m : i2c_msg)
    (P base : Nat) (h : PoolRx m P base 0 m.len t) (hrd : m.flags &&& I2C_M_RD ≠ 0)
    (hrl : m.flags &&& I2C_M_RECV_LEN = 0) (h16 : m.len < 2 ^ 16)
    (hrep : (if cfg.soc ≠ Soc.g5 ∧ AST_I2CD_RX_BUF_ADDR_GET (ast_i2c_read t I2C_BUF_CTRL_REG) = 0
      then cfg.AST_I2C_PAGE_SIZE
      else AST_I2CD_RX_BUF_ADDR_GET (ast_i2c_read t I2C_BUF_CTRL_REG)) = m.len) :
    (ast_i2c_master_xfer_done cfg env t).cmd_complete = 1 ∧
    (ast_i2c_master_xfer_done cfg env t).cmd_err = 0 ∧
    (ast_i2c_master_xfer_done cfg env t).master_xfer_mode = XferMode.BUFF_XFER ∧
    (ast_i2c_master_xfer_done cfg env t).master_msgs =
      some { m with buf := rx_copy (pool_byte t.req_page.mem) 0 m.len 0 m.buf } := by
  obtain ⟨p1, p2, p3, p4, p5, p6, p7, p8, p9, p10, p11, p12⟩ := h
  have hu : u32 (m.len : Int) = m.len := by
    unfold u32
    have : ((m.len : Int)) % 2 ^ 32 = (m.len : Int) :=
      Int.emod_eq_of_lt (by omega) (by omega)
    rw [this]
    omega
  have hx : (master_extract cfg m t).1 = m.len := by
    simp only [master_extract, hrd, ne_eq, not_false_eq_true, if_true, p6, p3]
    simpa using hrep
  have hs : (master_extract cfg m t).2 =
      { t with master_msgs :=
                 some { m with buf := rx_copy (pool_byte t.req_page.mem) 0 m.len 0 m.buf } } := by
    simp only [master_extract, hrd, ne_eq, not_false_eq_true, if_true, p6, p3]
    simp [recv_len_extend, hrl, hrep, p12]
  simp [ast_i2c_master_xfer_done, p2, hx, hs, p5, hu, p6, p3, p11, hrd, complete,
    restore_func_ctrl, ast_i2c_write, p7]

/-- The submit of a single message whose wait ends with a completion: the
result in terms of the state `a` the wait ends in. -/
theorem do_msgs_one (cfg : Config) (page : Option buf_page) (w : Wait) (m : i2c_msg)
    (s a : ast_i2c_dev) (hs : s.slave_operation ≠ 1)
    (ha : wait_irqs cfg w.irqs (submit_arm cfg page 1 m s) = a)
    (hdone : 0 < a.cmd_complete) :
    ast_i2c_do_msgs_xfer cfg { page := page, waits := [w] } [m] 1 s =
      let msgs := [a.master_msgs.getD m]
      let a1 : ast_i2c_dev :=
        { a with cmd_complete := a.cmd_complete - 1, master_msgs := none }
      if a.cmd_err ≠ 0 ∧ a.cmd_err ≠ AST_I2CD_INTR_STS_NORMAL_STOP then
        let a2 : ast_i2c_dev :=
          if a.cmd_err &&& AST_LOCKUP_DETECTED ≠ 0 then ast_i2c_bus_reset cfg w.recov a1 else a1
        let a3 : ast_i2c_dev := { a2 with master_xfer_first := 0 }
        (- EAGAIN, msgs,
          if a3.master_xfer_mode = XferMode.BUFF_XFER then free_pool_buff_page a3 else a3)
      else
        let a3 : ast_i2c_dev := { a1 with master_xfer_first := 0 }
        (1, msgs,
          if a3.master_xfer_mode = XferMode.BUFF_XFER then free_pool_buff_page a3 else a3) := by
  have e : msg_arm cfg 1 0 m { select_master_mode cfg page s with master_xfer_first := 0 } =
      submit_arm cfg page 1 m s := rfl
  have hleft : ¬ ((w.left : Int) + 1 = 0) := by omega
  simp only [ast_i2c_do_msgs_xfer, hs, if_false, Int.toNat_one, msgs_loop, List.getD_cons_zero,
    List.headD_cons, e, wait_for_completion_timeout, ha, gt_iff_lt, hdone, if_true, hleft]
  by_cases h1 : a.cmd_err ≠ 0 ∧ a.cmd_err ≠ AST_I2CD_INTR_STS_NORMAL_STOP
  · rw [if_pos h1, if_pos h1]
    cases hm : a.master_msgs <;> simp
  · rw [if_neg h1, if_neg h1]
    have h2 : a.cmd_err = 0 ∨ a.cmd_err = AST_I2CD_INTR_STS_NORMAL_STOP := by
      by_contra hc
      exact h1 ⟨fun h => hc (Or.inl h), fun h => hc (Or.inr h)⟩
    cases hm : a.master_msgs <;> simp [h2]


theorem poolRx_entry (ev : Irq) (s : ast_i2c_dev) (bits : Nat) (m : i2c_msg) (P base : Nat)
    (c l : Int) (h : PoolRx m P base c l s) :
    PoolRx m P base c l (clear_sts (irq_entry ev s) bits) ∧
    (clear_sts (irq_entry ev s) bits).bus_id = s.bus_id ∧
    ast_i2c_read (clear_sts (irq_entry ev s) bits) I2C_BUF_CTRL_REG = ev.buf_ctrl ∧
    writes_to I2C_BUF_CTRL_REG (clear_sts (irq_entry ev s) bits).writes =
      writes_to I2C_BUF_CTRL_REG s.writes ∧
    (∀ w, ev.pool = some w → (clear_sts (irq_entry ev s) bits).req_page.mem = w) := by
  obtain ⟨p1, p2, p3, p4, p5, p6, p7, p8, p9, p10, p11, p12⟩ := h
  cases hp : ev.pool <;>
    simp [clear_sts, irq_entry, take_irq, ast_i2c_write, ast_i2c_read, Reg.isStorage, poolRx_iff,
      p1, p2, p3, p4, p5, p6, p7, p8, p9, p10, p11, p12, hp, writes_to]

theorem poolRx_intr_set (s : ast_i2c_dev) (bit : Nat) (m : i2c_msg) (P base : Nat)
    (c l : Int) (h : PoolRx m P base c l s) :
    PoolRx m P base c l (intr_ctrl_set s bit) ∧
    ast_i2c_read (intr_ctrl_set s bit) I2C_BUF_CTRL_REG = ast_i2c_read s I2C_BUF_CTRL_REG ∧
    (intr_ctrl_set s bit).req_page = s.req_page := by
  obtain ⟨p1, p2, p3, p4, p5, p6, p7, p8, p9, p10, p11, p12⟩ := h
  simp [intr_ctrl_set, ast_i2c_write, ast_i2c_read, Reg.isStorage, poolRx_iff,
    p1, p2, p3, p4, p5, p6, p7, p8, p9, p10, p11, p12]

/-- The busy check of the entry point when the first poll finds the bus idle:
no reset is forced and the slave flag is cleared. -/
theorem wait_bus_idle (cfg : Config) (env : EntryEnv) (s : ast_i2c_dev)
    (h : IdleAtEntry env) :
    (ast_i2c_wait_bus_not_busy cfg env.polls env.recov s).1 = 0 ∧
    (ast_i2c_wait_bus_not_busy cfg env.polls env.recov s).2.slave_operation = 0 ∧
    Frame s (ast_i2c_wait_bus_not_busy cfg env.polls env.recov s).2 := by
  obtain ⟨h1, h2⟩ := h
  have e : wait_bus_loop 10 env.polls s =
      (10, { s with
        regs := Function.update (Function.update s.regs I2C_CMD_REG (env.polls.headD (0, 0)).1)
          I2C_INTR_STS_REG (env.polls.headD (0, 0)).2
        slave_operation := 0 }) := by
    rw [show (10 : Nat) = 9 + 1 from rfl, wait_bus_loop]
    generalize env.polls.headD (0, 0) = p at h1 h2
    simp [ast_i2c_read, h1, h2]
  simp [ast_i2c_wait_bus_not_busy, e, frame_iff]

/-- A message loop of at least one iteration that is not left by `goto stop`
ends with an error accumulator that is clear or holds only the stop bit. -/
theorem msgs_loop_ok_err (cfg : Config) (num : Int) :
    ∀ (k i : Nat) (waits : List Wait) (ret : Int) (msgs : List i2c_msg) (s : ast_i2c_dev),
    (msgs_loop cfg num (k + 1) i waits ret msgs s).stopped = false →
    (msgs_loop cfg num (k + 1) i waits ret msgs s).dev.cmd_err = 0 ∨
    (msgs_loop cfg num (k + 1) i waits ret msgs s).dev.cmd_err =
      AST_I2CD_INTR_STS_NORMAL_STOP := by
  intro k
  induction k with
  | zero =>
    intro i waits ret msgs s
    rw [msgs_loop]
    generalize wait_for_completion_timeout cfg (waits.headD {})
      (msg_arm cfg num i (msgs.getD i {}) s) = r
    by_cases h1 : r.1 = 0
    · simp [h1]
    · by_cases h2 : r.2.cmd_err ≠ 0 ∧ r.2.cmd_err ≠ AST_I2CD_INTR_STS_NORMAL_STOP
      · simp [h1, h2]
      · intro _
        simp only [h1, h2, if_false, msgs_loop]
        by_contra hc
        exact h2 ⟨fun e => hc (Or.inl e), fun e => hc (Or.inr e)⟩
  | succ k ih =>
    intro i waits ret msgs s
    rw [msgs_loop]
    generalize wait_for_completion_timeout cfg (waits.headD {})
      (msg_arm cfg num i (msgs.getD i {}) s) = r
    by_cases h1 : r.1 = 0
    · simp [h1]
    · by_cases h2 : r.2.cmd_err ≠ 0 ∧ r.2.cmd_err ≠ AST_I2CD_INTR_STS_NORMAL_STOP
      · simp [h1, h2]
      · simp only [h1, h2, if_false]
        exact ih _ _ _ _ _

/-- With at least one message, a call whose loop is not left by `goto stop`
returns `num`, whatever the error accumulator held before the call. -/
theorem do_msgs_count (cfg : Config) (env : XferEnv) (msgs : List i2c_msg) (num : Int)
    (s : ast_i2c_dev) (hs : s.slave_operation ≠ 1) (hnum : 1 ≤ num)
    (hok : (msgs_loop cfg num num.toNat 0 env.waits 1 msgs
      { select_master_mode cfg env.page s with master_xfer_first := 0 }).stopped = false) :
    (ast_i2c_do_msgs_xfer cfg env msgs num s).1 = num := by
  obtain ⟨k, hk⟩ : ∃ k : Nat, num.toNat = k + 1 := ⟨num.toNat - 1, by omega⟩
  rw [hk] at hok
  have herr := msgs_loop_ok_err cfg num k 0 env.waits 1 msgs _ hok
  simp only [ast_i2c_do_msgs_xfer, hs, if_false, hk, hok, Bool.false_eq_true]
  simp [herr]

/-- C5, the failing input: with no message (`num = 0`) and an error bit left in
`cmd_err` by an earlier transfer, `ast_i2c_do_msgs_xfer` returns 1, the initial
value of `ret`, and not `num = 0`; with a clear `cmd_err` it returns 0. -/
theorem C5_zero_msgs_stale_err :
    (ast_i2c_do_msgs_xfer {} {} [] 0 { cmd_err := AST_I2CD_INTR_STS_TX_NAK }).1 = 1 ∧
    (ast_i2c_do_msgs_xfer {} {} [] 0 {}).1 = 0 := by
  decide

theorem write_reset_cnt (s : ast_i2c_dev) (v : Nat) (r : Reg) :
    (ast_i2c_write s v r).bus_master_reset_cnt = s.bus_master_reset_cnt := rfl

theorem dev_init_reset_cnt (cfg : Config) (s : ast_i2c_dev) :
    (ast_i2c_dev_init cfg s).bus_master_reset_cnt = s.bus_master_reset_cnt := by
  simp only [ast_i2c_dev_init, init_completion, apply_ite ast_i2c_dev.bus_master_reset_cnt,
    write_reset_cnt, ite_self]

theorem slave_reset_loop_reset_cnt (cfg : Config) (t : Nat) :
    ∀ (n : Nat) (resps : List WaitResp) (s : ast_i2c_dev),
    (slave_reset_loop cfg t n resps s).2.bus_master_reset_cnt = s.bus_master_reset_cnt := by
  intro n
  induction n with
  | zero => intro resps s; rfl
  | succ n ih =>
    intro resps s
    rw [slave_reset_loop]
    simp only [apply_ite Prod.snd, apply_ite ast_i2c_dev.bus_master_reset_cnt, ih, recover_wait,
      init_completion, write_reset_cnt, dev_init_reset_cnt, ite_self]

theorem bus_error_recover_reset_cnt (cfg : Config) (env : RecoverEnv) (s : ast_i2c_dev) :
    (ast_i2c_bus_error_recover cfg env s).2.bus_master_reset_cnt = s.bus_master_reset_cnt := by
  simp only [ast_i2c_bus_error_recover, apply_ite Prod.snd,
    apply_ite ast_i2c_dev.bus_master_reset_cnt, recover_wait, init_completion, write_reset_cnt,
    ast_i2c_slave_reset, slave_reset_loop_reset_cnt, ite_self]

/-- One call of `ast_i2c_bus_reset` advances the `u16` counter
`bus_master_reset_cnt` by one. -/
theorem bus_reset_cnt (cfg : Config) (env : RecoverEnv) (s : ast_i2c_dev) :
    (ast_i2c_bus_reset cfg env s).bus_master_reset_cnt = inc16 s.bus_master_reset_cnt := by
  simp only [ast_i2c_bus_reset, apply_ite ast_i2c_dev.bus_master_reset_cnt, write_reset_cnt,
    bus_error_recover_reset_cnt, ite_self]

/-- The message loop over `k + n` messages is the loop over the first `k`
followed, unless it was left by `goto stop`, by the loop over the other `n`. -/
theorem msgs_loop_add (cfg : Config) (num : Int) (n : Nat) :
    ∀ (k i : Nat) (waits : List Wait) (ret : Int) (msgs : List i2c_msg) (s : ast_i2c_dev),
    msgs_loop cfg num (k + n) i waits ret msgs s =
      if (msgs_loop cfg num k i waits ret msgs s).stopped then
        msgs_loop cfg num k i waits ret msgs s
      else
        msgs_loop cfg num n (i + k) (waits.drop k)
          (msgs_loop cfg num k i waits ret msgs s).ret
          (msgs_loop cfg num k i waits ret msgs s).msgs
          (msgs_loop cfg num k i waits ret msgs s).dev := by
  intro k
  induction k with
  | zero =>
    intro i waits ret msgs s
    simp [msgs_loop]
  | succ k ih =>
    intro i waits ret msgs s
    rw [Nat.succ_add, msgs_loop, msgs_loop]
    generalize wait_for_completion_timeout cfg (waits.headD {})
      (msg_arm cfg num i (msgs.getD i {}) s) = r
    by_cases h1 : r.1 = 0
    · simp [h1]
    · by_cases h2 : r.2.cmd_err ≠ 0 ∧ r.2.cmd_err ≠ AST_I2CD_INTR_STS_NORMAL_STOP
      · simp [h1, h2]
      · simp only [h1, h2, if_false]
        rw [ih]
        have e1 : i + 1 + k = i + (k + 1) := by omega
        have e2 : List.drop k waits.tail = List.drop (k + 1) waits := by
          cases waits <;> simp
        rw [e1, e2]


/-- C6 as stated fails when the counter is at its maximum: a wait that times
out with `bus_master_reset_cnt = 65535` returns `-ETIMEDOUT` and leaves the
`u16` counter at 0, not at 65536. -/
theorem C6_reset_cnt_wraps :
    (ast_i2c_do_msgs_xfer {} { waits := [{}] } [{ addr := 0x50, len := 1, buf := [7] }] 1
      { bus_master_reset_cnt := 65535 }).1 = -ETIMEDOUT ∧
    (ast_i2c_do_msgs_xfer {} { waits := [{}] } [{ addr := 0x50, len := 1, buf := [7] }] 1
      { bus_master_reset_cnt := 65535 }).2.2.bus_master_reset_cnt = 0 ∧
    ¬ ((ast_i2c_do_msgs_xfer {} { waits := [{}] } [{ addr := 0x50, len := 1, buf := [7] }] 1
      { bus_master_reset_cnt := 65535 }).2.2.bus_master_reset_cnt = 65535 + 1) := by
  decide

/-- C6, amended: when the first `k` messages of a call pass the loop and the
wait for message `k` times out, `ast_i2c_do_msgs_xfer` returns `-ETIMEDOUT`,
its final state is the one bus reset of the state in which the wait ended (no
message after `k` is armed), and `bus_master_reset_cnt` is the value it had
when the wait ended plus one, modulo `2 ^ 16`. -/
theorem C6_timeout_resets_once (cfg : Config) (env : XferEnv) (msgs : List i2c_msg) (num : Int)
    (s : ast_i2c_dev) (k : Nat)
    (hs : s.slave_operation ≠ 1) (hk : (k : Int) < num)
    (hpre : (loop_upto cfg env msgs num s k).stopped = false)
    (hto : (wait_of_msg cfg env msgs num s k).1 = 0) :
    (ast_i2c_do_msgs_xfer cfg env msgs num s).1 = -ETIMEDOUT ∧
    (ast_i2c_do_msgs_xfer cfg env msgs num s).2.2 =
      timeout_exit cfg (wait_env env k) (wait_of_msg cfg env msgs num s k).2 ∧
    (ast_i2c_do_msgs_xfer cfg env msgs num s).2.2.bus_master_reset_cnt =
      inc16 (wait_of_msg cfg env msgs num s k).2.bus_master_reset_cnt := by
  obtain ⟨n, hn⟩ : ∃ n : Nat, num.toNat = k + (n + 1) := ⟨num.toNat - k - 1, by omega⟩
  have h2 : (ast_i2c_do_msgs_xfer cfg env msgs num s).1 = -ETIMEDOUT ∧
      (ast_i2c_do_msgs_xfer cfg env msgs num s).2.2 =
        timeout_exit cfg (wait_env env k) (wait_of_msg cfg env msgs num s k).2 := by
    simp only [wait_of_msg, wait_env, armed_msg, loop_upto] at hpre hto ⊢
    simp only [ast_i2c_do_msgs_xfer, hs, if_false, hn, msgs_loop_add cfg num (n + 1) k, hpre,
      Bool.false_eq_true, zero_add]
    rw [msgs_loop]
    simp only [hto, if_true, timeout_exit]
    exact ⟨trivial, trivial⟩
  refine ⟨h2.1, h2.2, ?_⟩
  rw [h2.2]
  simp only [timeout_exit, free_pool_buff_page, apply_ite ast_i2c_dev.bus_master_reset_cnt,
    bus_reset_cnt, ite_self]

/-- C6 for two byte-mode writes of which the first is acknowledged and the
second gets no interrupt: the call returns -110 and the reset counter goes
from 0 to 1. -/
theorem C6_timeout_resets_once_witness :
    (ast_i2c_do_msgs_xfer {} { waits := [{ irqs := [ack_irq, ack_irq] }, {}] }
      [{ addr := 0x50, len := 1, buf := [7] }, { addr := 0x51, len := 1, buf := [9] }] 2 {}).1 =
      -110 ∧
    (ast_i2c_do_msgs_xfer {} { waits := [{ irqs := [ack_irq, ack_irq] }, {}] }
      [{ addr := 0x50, len := 1, buf := [7] }, { addr := 0x51, len := 1, buf := [9] }] 2
      {}).2.2.bus_master_reset_cnt = 1 := by
  have h := C6_timeout_resets_once {} { waits := [{ irqs := [ack_irq, ack_irq] }, {}] }
    [{ addr := 0x50, len := 1, buf := [7] }, { addr := 0x51, len := 1, buf := [9] }] 2 {} 1
    (by decide) (by decide) (by decide) (by decide)
  exact ⟨h.1, h.2.2⟩

theorem writes_to_write (reg : Reg) (s : ast_i2c_dev) (v : Nat) (r : Reg) :
    writes_to reg (ast_i2c_write s v r).writes =
      writes_to reg s.writes ++ (if r = reg then [v] else []) := by
  by_cases h : r = reg <;> simp [writes_to, ast_i2c_write, h]

theorem onlyRecoveryCmds_trans {s t u : ast_i2c_dev} (a : OnlyRecoveryCmds s t)
    (b : OnlyRecoveryCmds t u) : OnlyRecoveryCmds s u := by
  obtain ⟨l1, e1, h1⟩ := a
  obtain ⟨l2, e2, h2⟩ := b
  refine ⟨l1 ++ l2, by rw [e2, e1, List.append_assoc], ?_⟩
  intro v hv
  rcases List.mem_append.1 hv with h | h
  · exact h1 v h
  · exact h2 v h

theorem onlyRecoveryCmds_of_eq {s t : ast_i2c_dev}
    (h : writes_to I2C_CMD_REG t.writes = writes_to I2C_CMD_REG s.writes) :
    OnlyRecoveryCmds s t :=
  ⟨[], by simp [h], by simp⟩

theorem dev_init_cmds (cfg : Config) (s : ast_i2c_dev) :
    writes_to I2C_CMD_REG (ast_i2c_dev_init cfg s).writes = writes_to I2C_CMD_REG s.writes := by
  simp only [ast_i2c_dev_init, init_completion, apply_ite ast_i2c_dev.writes,
    apply_ite (writes_to I2C_CMD_REG), writes_to_write, reduceCtorEq, if_false,
    List.append_nil, ite_self]

theorem dev_init_xfer_cnt (cfg : Config) (s : ast_i2c_dev) :
    (ast_i2c_dev_init cfg s).master_xfer_cnt = s.master_xfer_cnt := by
  simp only [ast_i2c_dev_init, init_completion, apply_ite ast_i2c_dev.master_xfer_cnt,
    show ∀ (s : ast_i2c_dev) (v : Nat) (r : Reg),
      (ast_i2c_write s v r).master_xfer_cnt = s.master_xfer_cnt from fun _ _ _ => rfl, ite_self]

theorem slave_reset_loop_frame (cfg : Config) (t : Nat) :
    ∀ (n : Nat) (resps : List WaitResp) (s : ast_i2c_dev),
    (slave_reset_loop cfg t n resps s).2.master_xfer_cnt = s.master_xfer_cnt ∧
    (s.cmd_complete = 0 → (slave_reset_loop cfg t n resps s).2.cmd_complete = 0) ∧
    OnlyRecoveryCmds s (slave_reset_loop cfg t n resps s).2 := by
  intro n
  induction n with
  | zero =>
    intro resps s
    exact ⟨rfl, fun h => h, onlyRecoveryCmds_of_eq rfl⟩
  | succ n ih =>
    intro resps s
    have hstep : OnlyRecoveryCmds s
        (recover_wait (resps.headD {})
          (ast_i2c_write
            { init_completion { ast_i2c_dev_init cfg s with
                bus_slave_recovery_cnt := inc16 (ast_i2c_dev_init cfg s).bus_slave_recovery_cnt }
              with cmd_err := 0 }
            AST_I2CD_BUS_RECOVER_CMD_EN I2C_CMD_REG)) := by
      refine ⟨[AST_I2CD_BUS_RECOVER_CMD_EN], ?_, by simp⟩
      simp only [recover_wait, writes_to_write, if_true, init_completion]
      rw [dev_init_cmds]
    rw [slave_reset_loop]
    simp only []
    split_ifs with h1 h2
    · refine ⟨?_, fun _ => rfl, ?_⟩
      · simp [recover_wait, ast_i2c_write, init_completion, dev_init_xfer_cnt]
      · exact onlyRecoveryCmds_trans hstep (onlyRecoveryCmds_of_eq rfl)
    · refine ⟨?_, fun _ => rfl, ?_⟩
      · simp [recover_wait, ast_i2c_write, init_completion, dev_init_xfer_cnt]
      · exact onlyRecoveryCmds_trans hstep (onlyRecoveryCmds_of_eq rfl)
    · obtain ⟨i1, i2, i3⟩ := ih resps.tail
        (recover_wait (resps.headD {})
          (ast_i2c_write
            { init_completion { ast_i2c_dev_init cfg s with
                bus_slave_recovery_cnt := inc16 (ast_i2c_dev_init cfg s).bus_slave_recovery_cnt }
              with cmd_err := 0 }
            AST_I2CD_BUS_RECOVER_CMD_EN I2C_CMD_REG))
      refine ⟨?_, fun _ => i2 rfl, onlyRecoveryCmds_trans hstep i3⟩
      rw [i1]
      simp [recover_wait, ast_i2c_write, init_completion, dev_init_xfer_cnt]


theorem bus_error_recover_frame (cfg : Config) (env : RecoverEnv) (s : ast_i2c_dev) :
    (ast_i2c_bus_error_recover cfg env s).2.master_xfer_cnt = s.master_xfer_cnt ∧
    (s.cmd_complete = 0 → (ast_i2c_bus_error_recover cfg env s).2.cmd_complete = 0) ∧
    OnlyRecoveryCmds s (ast_i2c_bus_error_recover cfg env s).2 := by
  obtain ⟨i1, i2, i3⟩ := slave_reset_loop_frame cfg s.func_ctrl_reg 10 env.slave s
  have hstop : OnlyRecoveryCmds s
      (recover_wait env.stop
        (ast_i2c_write { init_completion s with cmd_err := 0 } AST_I2CD_M_STOP_CMD
          I2C_CMD_REG)) :=
    ⟨[AST_I2CD_M_STOP_CMD], by simp [recover_wait, writes_to_write, init_completion],
      by simp⟩
  unfold ast_i2c_bus_error_recover
  simp only [ast_i2c_slave_reset]
  split_ifs
  all_goals
    first
    | exact ⟨rfl, fun h => h, onlyRecoveryCmds_of_eq rfl⟩
    | exact ⟨rfl, fun _ => rfl, onlyRecoveryCmds_trans hstop (onlyRecoveryCmds_of_eq rfl)⟩
    | exact ⟨i1, i2, i3⟩

/-- What `ast_i2c_bus_reset` leaves alone: the byte counter, a cleared
completion, and the command register but for recovery commands. -/
theorem bus_reset_frame (cfg : Config) (env : RecoverEnv) (s : ast_i2c_dev) :
    (ast_i2c_bus_reset cfg env s).master_xfer_cnt = s.master_xfer_cnt ∧
    (s.cmd_complete = 0 → (ast_i2c_bus_reset cfg env s).cmd_complete = 0) ∧
    OnlyRecoveryCmds s (ast_i2c_bus_reset cfg env s) := by
  obtain ⟨i1, i2, i3⟩ := bus_error_recover_frame cfg env
    { s with bus_master_reset_cnt := inc16 s.bus_master_reset_cnt }
  unfold ast_i2c_bus_reset
  simp only []
  split_ifs
  · refine ⟨i1, i2, ?_⟩
    refine @onlyRecoveryCmds_trans s (ast_i2c_bus_error_recover cfg env
      { s with bus_master_reset_cnt := inc16 s.bus_master_reset_cnt }).2 _ ?_ ?_
    · obtain ⟨l, e, h⟩ := i3
      exact ⟨l, e, h⟩
    · exact onlyRecoveryCmds_of_eq (by simp [writes_to_write])
  · exact ⟨rfl, fun h => h, onlyRecoveryCmds_of_eq (by simp [writes_to_write])⟩


theorem master_extract_frame (cfg : Config) (m : i2c_msg) (t : ast_i2c_dev) :
    (master_extract cfg m t).2.bus_master_reset_cnt = t.bus_master_reset_cnt ∧
    (master_extract cfg m t).2.master_xfer_cnt = t.master_xfer_cnt ∧
    (master_extract cfg m t).2.cmd_complete = t.cmd_complete ∧
    (master_extract cfg m t).2.writes = t.writes := by
  unfold master_extract
  split_ifs
  · exact ⟨rfl, rfl, rfl, rfl⟩
  · cases t.master_xfer_mode <;> exact ⟨rfl, rfl, rfl, rfl⟩
  · cases t.master_xfer_mode <;> exact ⟨rfl, rfl, rfl, rfl⟩

/-- The completion routine entered with an extracted chunk length that differs
from the armed length: one bus reset, the error accumulator set to 1, the byte
counter kept, the completion signalled, and no transfer command written. -/
theorem xfer_done_mismatch (cfg : Config) (env : RecoverEnv) (t : ast_i2c_dev) (m : i2c_msg)
    (h2 : t.master_msgs = some m)
    (hmis : (master_extract cfg m t).1 ≠ u32 (master_extract cfg m t).2.master_xfer_len) :
    (ast_i2c_master_xfer_done cfg env t).bus_master_reset_cnt =
      inc16 t.bus_master_reset_cnt ∧
    (ast_i2c_master_xfer_done cfg env t).cmd_err = 1 ∧
    (ast_i2c_master_xfer_done cfg env t).master_xfer_cnt = t.master_xfer_cnt ∧
    (t.cmd_complete = 0 → (ast_i2c_master_xfer_done cfg env t).cmd_complete = 1) ∧
    OnlyRecoveryCmds t (ast_i2c_master_xfer_done cfg env t) := by
  obtain ⟨x1, x2, x3, x4⟩ := master_extract_frame cfg m t
  obtain ⟨b1, b2, b3⟩ := bus_reset_frame cfg env (master_extract cfg m t).2
  have e : ast_i2c_master_xfer_done cfg env t =
      restore_func_ctrl (complete
        { ast_i2c_bus_reset cfg env (master_extract cfg m t).2 with
          cmd_err := 1, master_xfer_first := 0 }) := by
    simp only [ast_i2c_master_xfer_done, h2, hmis, ne_eq, not_false_eq_true, if_true]
  rw [e]
  refine ⟨?_, rfl, ?_, ?_, ?_⟩
  · simp only [restore_func_ctrl, complete, write_reset_cnt, bus_reset_cnt, x1]
  · simp only [restore_func_ctrl, complete, ast_i2c_write, b1, x2]
  · intro h0
    simp only [restore_func_ctrl, complete, ast_i2c_write, b2 (by rw [x3, h0])]
  · obtain ⟨l, el, hl⟩ := b3
    refine ⟨l, ?_, hl⟩
    simp only [restore_func_ctrl, complete, writes_to_write, reduceCtorEq, if_false,
      List.append_nil, el, x4]

theorem handler_rx_master (cfg : Config) (ev : Irq) (s : ast_i2c_dev)
    (hev : ev.isFor s.bus_id AST_I2CD_INTR_STS_RX_DOWN) (hs : s.slave_operation ≠ 1) :
    (i2c_ast_handler cfg ev s).2 =
      ast_i2c_master_xfer_done cfg ev.recov
        (clear_sts (irq_entry ev s) AST_I2CD_INTR_STS_RX_DOWN) := by
  obtain ⟨e1, e2⟩ := hev
  simp +decide [i2c_ast_handler, e1, e2, take_irq, ast_i2c_read, AST_I2CD_INTR_STS_TX_ACK,
    AST_I2CD_INTR_STS_SMBUS_ALT, AST_I2CD_INTR_STS_ABNORMAL, AST_I2CD_INTR_STS_SCL_TO,
    AST_I2CD_INTR_STS_NORMAL_STOP, AST_I2CD_INTR_STS_RX_DOWN, AST_I2CD_INTR_STS_TX_NAK,
    AST_I2CD_INTR_STS_SLAVE_MATCH, handler_switch, hs, irq_entry]

/-- A call in which the first `k` messages pass the loop and the wait for
message `k` ends with a completion and an error recorded returns `-EAGAIN`. -/
theorem do_msgs_abort (cfg : Config) (env : XferEnv) (msgs : List i2c_msg) (num : Int)
    (s : ast_i2c_dev) (k : Nat)
    (hs : s.slave_operation ≠ 1) (hk : (k : Int) < num)
    (hpre : (loop_upto cfg env msgs num s k).stopped = false)
    (hdone : 0 < (wait_irqs cfg (wait_env env k).irqs
      (armed_msg cfg env msgs num s k)).cmd_complete)
    (h0 : (wait_irqs cfg (wait_env env k).irqs (armed_msg cfg env msgs num s k)).cmd_err ≠ 0)
    (h1 : (wait_irqs cfg (wait_env env k).irqs (armed_msg cfg env msgs num s k)).cmd_err ≠
      AST_I2CD_INTR_STS_NORMAL_STOP) :
    (ast_i2c_do_msgs_xfer cfg env msgs num s).1 = -EAGAIN := by
  obtain ⟨n, hn⟩ : ∃ n : Nat, num.toNat = k + (n + 1) := ⟨num.toNat - k - 1, by omega⟩
  have hleft : ¬ (((wait_env env k).left : Int) + 1 = 0) := by omega
  simp only [wait_env, armed_msg, loop_upto] at hpre hdone h0 h1 hleft
  simp only [ast_i2c_do_msgs_xfer, hs, if_false, hn, msgs_loop_add cfg num (n + 1) k, hpre,
    Bool.false_eq_true, zero_add]
  rw [msgs_loop]
  simp only [wait_for_completion_timeout, gt_iff_lt, hdone, if_true, hleft, if_false, h0, h1,
    ne_eq, not_false_eq_true, and_self]


/-- C8, the failing input: master and slave side both in pool mode; the call
obtains page 0, and the only interrupt of its wait is an address match, at
which the slave side obtains page 1 through the same `req_page` pointer. The
call returns `-EAGAIN` having released page 1; page 0, the page it obtained, is
never released. -/
theorem C8_page_lost_on_slave_match :
    (ast_i2c_do_msgs_xfer { master_dma := DmaMode.BUFF_MODE, slave_dma := DmaMode.BUFF_MODE }
      { page := some page_a, waits := [{ irqs := [slave_match_irq] }] }
      [{ addr := 0x50, len := 1, buf := [7] }] 1 {}).1 = -EAGAIN ∧
    (ast_i2c_do_msgs_xfer { master_dma := DmaMode.BUFF_MODE, slave_dma := DmaMode.BUFF_MODE }
      { page := some page_a, waits := [{ irqs := [slave_match_irq] }] }
      [{ addr := 0x50, len := 1, buf := [7] }] 1 {}).2.2.pool_log =
      [PoolEvent.got 0, PoolEvent.got 1, PoolEvent.freed 1] := by
  decide

/-- The busy check always returns 0, so the entry point always enters its
retry loop. -/
theorem xfer_entry (cfg : Config) (env : EntryEnv) (msgs : List i2c_msg) (num : Int)
    (s : ast_i2c_dev) :
    ast_i2c_xfer cfg env msgs num s =
      xfer_loop cfg num (s.retries + 1).toNat s.retries env.attempts msgs
        (ast_i2c_wait_bus_not_busy cfg env.polls env.recov s).2 := by
  have h : (ast_i2c_wait_bus_not_busy cfg env.polls env.recov s).1 = 0 := by
    unfold ast_i2c_wait_bus_not_busy
    simp only []
    split_ifs <;> rfl
  simp only [ast_i2c_xfer, h, ne_eq, not_true_eq_false, if_false]

/-- The return code of one attempt by failure class: `-1` when a slave
transaction owns the controller, `-ETIMEDOUT` when the wait for message `k`
times out, `-EAGAIN` when that wait ends with any error recorded. -/
theorem attempt_codes (cfg : Config) (e : XferEnv) (msgs : List i2c_msg) (num : Int)
    (s : ast_i2c_dev) (k : Nat) :
    (s.slave_operation = 1 → (ast_i2c_do_msgs_xfer cfg e msgs num s).1 = -1) ∧
    (s.slave_operation ≠ 1 → (k : Int) < num →
      (loop_upto cfg e msgs num s k).stopped = false →
      (wait_of_msg cfg e msgs num s k).1 = 0 →
      (ast_i2c_do_msgs_xfer cfg e msgs num s).1 = -ETIMEDOUT) ∧
    (s.slave_operation ≠ 1 → (k : Int) < num →
      (loop_upto cfg e msgs num s k).stopped = false →
      0 < (wait_irqs cfg (wait_env e k).irqs (armed_msg cfg e msgs num s k)).cmd_complete →
      (wait_irqs cfg (wait_env e k).irqs (armed_msg cfg e msgs num s k)).cmd_err ≠ 0 →
      (wait_irqs cfg (wait_env e k).irqs (armed_msg cfg e msgs num s k)).cmd_err ≠
        AST_I2CD_INTR_STS_NORMAL_STOP →
      (ast_i2c_do_msgs_xfer cfg e msgs num s).1 = -EAGAIN) := by
  refine ⟨?_, ?_, ?_⟩
  · intro h
    simp [ast_i2c_do_msgs_xfer, h]
  · intro hs hk hpre hto
    obtain ⟨n, hn⟩ : ∃ n : Nat, num.toNat = k + (n + 1) := ⟨num.toNat - k - 1, by omega⟩
    simp only [wait_of_msg, wait_env, armed_msg, loop_upto] at hpre hto
    simp only [ast_i2c_do_msgs_xfer, hs, if_false, hn, msgs_loop_add cfg num (n + 1) k, hpre,
      Bool.false_eq_true, zero_add]
    rw [msgs_loop]
    simp only [hto, if_true]
  · intro hs hk hpre hdone h0 h1
    exact do_msgs_abort cfg e msgs num s k hs hk hpre hdone h0 h1

/-- One pass of the retry loop with retries left: the sequence is attempted
again exactly when the attempt returned `-EAGAIN`. -/
theorem xfer_loop_step (cfg : Config) (num : Int) (n : Nat) (i : Int) (envs : List XferEnv)
    (msgs : List i2c_msg) (s : ast_i2c_dev) (hi : 0 < i) :
    xfer_loop cfg num (n + 1) i envs msgs s =
      if (ast_i2c_do_msgs_xfer cfg (envs.headD {}) msgs num s).1 = -EAGAIN then
        xfer_loop cfg num n (i - 1) envs.tail
          (ast_i2c_do_msgs_xfer cfg (envs.headD {}) msgs num s).2.1
          (ast_i2c_do_msgs_xfer cfg (envs.headD {}) msgs num s).2.2
      else ast_i2c_do_msgs_xfer cfg (envs.headD {}) msgs num s := by
  have hi2 : ¬ (i ≤ 0) := by omega
  rw [xfer_loop]
  by_cases h : (ast_i2c_do_msgs_xfer cfg (envs.headD {}) msgs num s).1 = -EAGAIN
  · simp only [hi2, h, ne_eq, not_true_eq_false, or_self, if_false, if_true]
  · simp only [hi2, h, ne_eq, not_false_eq_true, or_true, if_true, if_false]


/-- C9 as stated fails: the first attempt ends with an abnormal-condition
interrupt, a hard bus fault, and returns `-EAGAIN`; the entry point attempts
the sequence again (two start commands are written) and returns 1. -/
theorem C9_abnormal_is_retried :
    (ast_i2c_do_msgs_xfer {} { waits := [{ irqs := [abnormal_irq] }] }
      [{ addr := 0x50, len := 1, buf := [7] }] 1 {}).1 = -EAGAIN ∧
    (ast_i2c_xfer {}
      { attempts := [{ waits := [{ irqs := [abnormal_irq] }] },
                     { waits := [{ irqs := [ack_irq, ack_irq] }] }] }
      [{ addr := 0x50, len := 1, buf := [7] }] 1 {}).1 = 1 ∧
    (writes_to I2C_CMD_REG (ast_i2c_xfer {}
      { attempts := [{ waits := [{ irqs := [abnormal_irq] }] },
                     { waits := [{ irqs := [ack_irq, ack_irq] }] }] }
      [{ addr := 0x50, len := 1, buf := [7] }] 1 {}).2.2.writes).count
        (AST_I2CD_M_TX_CMD ||| AST_I2CD_M_START_CMD) = 2 := by
  decide

/-- C9, amended: the entry point runs its retry loop on the state the busy
check leaves; in a pass with retries left the sequence is attempted again
exactly when the attempt returned `-EAGAIN`; an attempt returns `-EAGAIN`
whenever the wait for one of its messages ends with any error recorded in
`cmd_err` (NACK, byte-count mismatch, abnormal condition, lock-up alike), while
an attempt whose wait times out returns `-ETIMEDOUT` and an attempt refused for
a slave transaction returns `-1`, neither of which is `-EAGAIN`. -/
theorem C9_retry_after_eagain (cfg : Config) (env : EntryEnv) (num : Int) (n : Nat) (i : Int)
    (envs : List XferEnv) (msgs : List i2c_msg) (s : ast_i2c_dev) (k : Nat) (hi : 0 < i) :
    ast_i2c_xfer cfg env msgs num s =
      xfer_loop cfg num (s.retries + 1).toNat s.retries env.attempts msgs
        (ast_i2c_wait_bus_not_busy cfg env.polls env.recov s).2 ∧
    xfer_loop cfg num (n + 1) i envs msgs s =
      (if (ast_i2c_do_msgs_xfer cfg (envs.headD {}) msgs num s).1 = -EAGAIN then
        xfer_loop cfg num n (i - 1) envs.tail
          (ast_i2c_do_msgs_xfer cfg (envs.headD {}) msgs num s).2.1
          (ast_i2c_do_msgs_xfer cfg (envs.headD {}) msgs num s).2.2
      else ast_i2c_do_msgs_xfer cfg (envs.headD {}) msgs num s) ∧
    (s.slave_operation ≠ 1 → (k : Int) < num →
      (loop_upto cfg (envs.headD {}) msgs num s k).stopped = false →
      0 < (wait_irqs cfg (wait_env (envs.headD {}) k).irqs
        (armed_msg cfg (envs.headD {}) msgs num s k)).cmd_complete →
      (wait_irqs cfg (wait_env (envs.headD {}) k).irqs
        (armed_msg cfg (envs.headD {}) msgs num s k)).cmd_err ≠ 0 →
      (wait_irqs cfg (wait_env (envs.headD {}) k).irqs
        (armed_msg cfg (envs.headD {}) msgs num s k)).cmd_err ≠
          AST_I2CD_INTR_STS_NORMAL_STOP →
      (ast_i2c_do_msgs_xfer cfg (envs.headD {}) msgs num s).1 = -EAGAIN) ∧
    (s.slave_operation ≠ 1 → (k : Int) < num →
      (loop_upto cfg (envs.headD {}) msgs num s k).stopped = false →
      (wait_of_msg cfg (envs.headD {}) msgs num s k).1 = 0 →
      (ast_i2c_do_msgs_xfer cfg (envs.headD {}) msgs num s).1 = -ETIMEDOUT) ∧
    (s.slave_operation = 1 →
      (ast_i2c_do_msgs_xfer cfg (envs.headD {}) msgs num s).1 = -1) ∧
    -ETIMEDOUT ≠ -EAGAIN ∧ (-1 : Int) ≠ -EAGAIN := by
  obtain ⟨c1, c2, c3⟩ := attempt_codes cfg (envs.headD {}) msgs num s k
  exact ⟨xfer_entry cfg env msgs num s, xfer_loop_step cfg num n i envs msgs s hi, c3, c2, c1,
    by decide, by decide⟩

/-- C9 on the first of four passes: an attempt that ends with an
abnormal-condition interrupt returns -11, and the loop goes on with the next
attempt. -/
theorem C9_retry_after_eagain_witness :
    (ast_i2c_do_msgs_xfer {} { waits := [{ irqs := [abnormal_irq] }] }
      [{ addr := 0x50, len := 1, buf := [7] }] 1 {}).1 = -11 ∧
    xfer_loop {} 1 4 3
      [{ waits := [{ irqs := [abnormal_irq] }] }, { waits := [{ irqs := [ack_irq, ack_irq] }] }]
      [{ addr := 0x50, len := 1, buf := [7] }] {} =
      xfer_loop {} 1 3 2 [{ waits := [{ irqs := [ack_irq, ack_irq] }] }]
        (ast_i2c_do_msgs_xfer {} { waits := [{ irqs := [abnormal_irq] }] }
          [{ addr := 0x50, len := 1, buf := [7] }] 1 {}).2.1
        (ast_i2c_do_msgs_xfer {} { waits := [{ irqs := [abnormal_irq] }] }
          [{ addr := 0x50, len := 1, buf := [7] }] 1 {}).2.2 := by
  have h := C9_retry_after_eagain {} {} 1 3 3
    [{ waits := [{ irqs := [abnormal_irq] }] }, { waits := [{ irqs := [ack_irq, ack_irq] }] }]
    [{ addr := 0x50, len := 1, buf := [7] }] {} 0 (by decide)
  have h3 := h.2.2.1 (by decide) (by decide) (by decide) (by decide) (by decide) (by decide)
  refine ⟨h3, ?_⟩
  rw [h.2.1, if_pos h3]
  rfl

/-- C10 as stated fails: a call whose attempts are all NACKed and a call whose
attempts all end with an abnormal-condition interrupt return the same code,
-11. -/
theorem C10_nack_and_fault_same_code :
    (ast_i2c_xfer {}
      { attempts := List.replicate 4 { waits := [{ irqs := [ack_irq, nak_irq] }] } }
      [{ addr := 0x50, len := 1, buf := [7] }] 1 {}).1 = -11 ∧
    (ast_i2c_xfer {}
      { attempts := List.replicate 4 { waits := [{ irqs := [ack_irq, abnormal_irq] }] } }
      [{ addr := 0x50, len := 1, buf := [7] }] 1 {}).1 = -11 := by
  decide

/-- With `i + 1` passes for `i` retries, the retry loop returns what one of
its attempts returned. -/
theorem xfer_loop_last (cfg : Config) (num : Int) :
    ∀ (n : Nat) (i : Int) (envs : List XferEnv) (msgs : List i2c_msg) (s : ast_i2c_dev),
    i = (n : Int) →
    ∃ e0 msgs0 s0, xfer_loop cfg num (n + 1) i envs msgs s =
      ast_i2c_do_msgs_xfer cfg e0 msgs0 num s0 := by
  intro n
  induction n with
  | zero =>
    intro i envs msgs s hi
    have h0 : i ≤ 0 := by simp [hi]
    exact ⟨envs.headD {}, msgs, s, by simp only [xfer_loop, h0, true_or, if_true]⟩
  | succ n ih =>
    intro i envs msgs s hi
    by_cases h : i ≤ 0 ∨ (ast_i2c_do_msgs_xfer cfg (envs.headD {}) msgs num s).1 ≠ -EAGAIN
    · exact ⟨envs.headD {}, msgs, s, by rw [xfer_loop]; simp only [h, if_true]⟩
    · obtain ⟨e0, msgs0, s0, h0⟩ := ih (i - 1) envs.tail
        (ast_i2c_do_msgs_xfer cfg (envs.headD {}) msgs num s).2.1
        (ast_i2c_do_msgs_xfer cfg (envs.headD {}) msgs num s).2.2
        (by rw [hi]; push_cast; ring)
      exact ⟨e0, msgs0, s0, by rw [xfer_loop]; simp only [h, if_false]; exact h0⟩

/-- C10, amended: the entry point returns what one of its attempts returned,
and an attempt returns `-ETIMEDOUT` for a wait timeout, `-EAGAIN` for any error
recorded in `cmd_err` (a remote NACK and a hardware fault alike) and `-1` when
a slave transaction owns the controller; these three codes are pairwise
distinct. -/
theorem C10_three_codes (cfg : Config) (env : EntryEnv) (msgs : List i2c_msg) (num : Int)
    (s : ast_i2c_dev) (e : XferEnv) (msgs1 : List i2c_msg) (s1 : ast_i2c_dev) (k : Nat)
    (hr : 0 ≤ s.retries) :
    (∃ e0 msgs0 s0, ast_i2c_xfer cfg env msgs num s =
      ast_i2c_do_msgs_xfer cfg e0 msgs0 num s0) ∧
    (s1.slave_operation ≠ 1 → (k : Int) < num →
      (loop_upto cfg e msgs1 num s1 k).stopped = false →
      (wait_of_msg cfg e msgs1 num s1 k).1 = 0 →
      (ast_i2c_do_msgs_xfer cfg e msgs1 num s1).1 = -ETIMEDOUT) ∧
    (s1.slave_operation ≠ 1 → (k : Int) < num →
      (loop_upto cfg e msgs1 num s1 k).stopped = false →
      0 < (wait_irqs cfg (wait_env e k).irqs (armed_msg cfg e msgs1 num s1 k)).cmd_complete →
      (wait_irqs cfg (wait_env e k).irqs (armed_msg cfg e msgs1 num s1 k)).cmd_err ≠ 0 →
      (wait_irqs cfg (wait_env e k).irqs (armed_msg cfg e msgs1 num s1 k)).cmd_err ≠
        AST_I2CD_INTR_STS_NORMAL_STOP →
      (ast_i2c_do_msgs_xfer cfg e msgs1 num s1).1 = -EAGAIN) ∧
    (s1.slave_operation = 1 → (ast_i2c_do_msgs_xfer cfg e msgs1 num s1).1 = -1) ∧
    -ETIMEDOUT ≠ -EAGAIN ∧ -ETIMEDOUT ≠ (-1 : Int) ∧ -EAGAIN ≠ (-1 : Int) := by
  obtain ⟨c1, c2, c3⟩ := attempt_codes cfg e msgs1 num s1 k
  obtain ⟨n, hn⟩ : ∃ n : Nat, s.retries = (n : Int) := ⟨s.retries.toNat, by omega⟩
  have hn1 : (s.retries + 1).toNat = n + 1 := by omega
  refine ⟨?_, c2, c3, c1, by decide, by decide, by decide⟩
  rw [xfer_entry, hn1]
  exact xfer_loop_last cfg num n s.retries env.attempts msgs _ hn

/-- C10 on concrete attempts at a 1-byte write: a wait without interrupt gives
-110, a NACK gives -11, an abnormal-condition interrupt gives -11 as well, and
a pending slave transaction gives -1. -/
theorem C10_three_codes_witness :
    (ast_i2c_do_msgs_xfer {} { waits := [{}] }
      [{ addr := 0x50, len := 1, buf := [7] }] 1 {}).1 = -110 ∧
    (ast_i2c_do_msgs_xfer {} { waits := [{ irqs := [ack_irq, nak_irq] }] }
      [{ addr := 0x50, len := 1, buf := [7] }] 1 {}).1 = -11 ∧
    (ast_i2c_do_msgs_xfer {} { waits := [{ irqs := [abnormal_irq] }] }
      [{ addr := 0x50, len := 1, buf := [7] }] 1 {}).1 = -11 ∧
    (ast_i2c_do_msgs_xfer {} { waits := [{}] }
      [{ addr := 0x50, len := 1, buf := [7] }] 1 { slave_operation := 1 }).1 = -1 :=
  ⟨(C10_three_codes {} {} [] 1 {} { waits := [{}] }
      [{ addr := 0x50, len := 1, buf := [7] }] {} 0 (by decide)).2.1
      (by decide) (by decide) (by decide) (by decide),
   (C10_three_codes {} {} [] 1 {} { waits := [{ irqs := [ack_irq, nak_irq] }] }
      [{ addr := 0x50, len := 1, buf := [7] }] {} 0 (by decide)).2.2.1
      (by decide) (by decide) (by decide) (by decide) (by decide) (by decide),
   (C10_three_codes {} {} [] 1 {} { waits := [{ irqs := [abnormal_irq] }] }
      [{ addr := 0x50, len := 1, buf := [7] }] {} 0 (by decide)).2.2.1
      (by decide) (by decide) (by decide) (by decide) (by decide) (by decide),
   (C10_three_codes {} {} [] 1 {} { waits := [{}] }
      [{ addr := 0x50, len := 1, buf := [7] }] { slave_operation := 1 } 0 (by decide)).2.2.2.1
      (by decide)⟩

theorem write_slave_op (s : ast_i2c_dev) (v : Nat) (r : Reg) :
    (ast_i2c_write s v r).slave_operation = s.slave_operation := rfl

theorem dev_init_slave_op (cfg : Config) (s : ast_i2c_dev) :
    (ast_i2c_dev_init cfg s).slave_operation = s.slave_operation := by
  simp only [ast_i2c_dev_init, init_completion, apply_ite ast_i2c_dev.slave_operation,
    write_slave_op, ite_self]

theorem slave_reset_loop_slave_op (cfg : Config) (t : Nat) :
    ∀ (n : Nat) (resps : List WaitResp) (s : ast_i2c_dev),
    (slave_reset_loop cfg t n resps s).2.slave_operation = s.slave_operation := by
  intro n
  induction n with
  | zero => intro resps s; rfl
  | succ n ih =>
    intro resps s
    rw [slave_reset_loop]
    simp only [apply_ite Prod.snd, apply_ite ast_i2c_dev.slave_operation, ih, recover_wait,
      init_completion, write_slave_op, dev_init_slave_op, ite_self]

theorem bus_error_recover_slave_op (cfg : Config) (env : RecoverEnv) (s : ast_i2c_dev) :
    (ast_i2c_bus_error_recover cfg env s).2.slave_operation = s.slave_operation := by
  simp only [ast_i2c_bus_error_recover, apply_ite Prod.snd,
    apply_ite ast_i2c_dev.slave_operation, recover_wait, init_completion, write_slave_op,
    ast_i2c_slave_reset, slave_reset_loop_slave_op, ite_self]

/-- A bus reset leaves the slave flag alone. -/
theorem bus_reset_slave_op (cfg : Config) (env : RecoverEnv) (s : ast_i2c_dev) :
    (ast_i2c_bus_reset cfg env s).slave_operation = s.slave_operation := by
  simp only [ast_i2c_bus_reset, apply_ite ast_i2c_dev.slave_operation, write_slave_op,
    bus_error_recover_slave_op, ite_self]

/-- The polling loop when every poll finds the bus busy: the count runs down
to 0 and only the status registers change. -/
theorem wait_bus_loop_busy :
    ∀ (n : Nat) (polls : List (Nat × Nat)) (s : ast_i2c_dev),
    (∀ j < n, ¬ ((polls.getD j (0, 0)).1 &&& AST_I2CD_BUS_BUSY_STS = 0 ∧
      (polls.getD j (0, 0)).2 &&&
        (AST_I2CD_INTR_STS_RX_DOWN ||| AST_I2CD_INTR_STS_NORMAL_STOP) = 0)) →
    (wait_bus_loop n polls s).1 = 0 ∧
    (wait_bus_loop n polls s).2.slave_operation = s.slave_operation ∧
    (wait_bus_loop n polls s).2.bus_master_reset_cnt = s.bus_master_reset_cnt := by
  intro n
  induction n with
  | zero => intro polls s _; exact ⟨rfl, rfl, rfl⟩
  | succ n ih =>
    intro polls s h
    have h0 := h 0 (Nat.succ_pos n)
    have hhead : polls.headD (0, 0) = polls.getD 0 (0, 0) := by cases polls <;> rfl
    rw [wait_bus_loop]
    simp only [ast_i2c_read, Function.update_same, hhead, ne_eq, reduceCtorEq,
      not_false_eq_true, Function.update_noteq, h0, if_false]
    obtain ⟨i1, i2, i3⟩ := ih polls.tail
      { s with regs := Function.update (Function.update s.regs I2C_CMD_REG
        (polls.getD 0 (0, 0)).1) I2C_INTR_STS_REG (polls.getD 0 (0, 0)).2 }
      (fun j hj => by
        have := h (j + 1) (Nat.succ_lt_succ hj)
        cases polls with
        | nil => simp at this
        | cons p ps => simpa using this)
    exact ⟨i1, i2, i3⟩


/-- C11 as stated fails at the entry point. With the slave flag set and the
bus idle, the busy check clears the flag and the transfer is carried out (the
result is 1); with the bus busy at all 10 polls the call is refused with -1,
but only after a bus reset (the reset counter is 1 and registers were
written). -/
theorem C11_entry_clears_or_resets :
    (ast_i2c_xfer {} { attempts := [{ waits := [{ irqs := [ack_irq, ack_irq] }] }] }
      [write1] 1 { slave_operation := 1 }).1 = 1 ∧
    (ast_i2c_xfer {} { polls := busy_polls } [write1] 1 { slave_operation := 1 }).1 = -1 ∧
    (ast_i2c_xfer {} { polls := busy_polls } [write1] 1
      { slave_operation := 1 }).2.2.bus_master_reset_cnt = 1 ∧
    (ast_i2c_xfer {} { polls := busy_polls } [write1] 1
      { slave_operation := 1 }).2.2.writes.length = 2 := by
  decide

/-- C11, amended: with the slave flag set, `ast_i2c_do_msgs_xfer` returns -1
and leaves the whole state as it was (no register written, no page requested,
no progress field changed). At the entry point the busy check comes first:
when it finds the bus idle it clears the flag, and when the bus is busy at all
10 polls it resets the bus before the call is refused with -1. -/
theorem C11_slave_busy_refused (cfg : Config) (xenv : XferEnv) (env : EntryEnv)
    (msgs : List i2c_msg) (num : Int) (s : ast_i2c_dev) (hs : s.slave_operation = 1) :
    ast_i2c_do_msgs_xfer cfg xenv msgs num s = (-1, msgs, s) ∧
    (IdleAtEntry env →
      (ast_i2c_wait_bus_not_busy cfg env.polls env.recov s).2.slave_operation = 0) ∧
    (BusyAtEntry env → 0 ≤ s.retries →
      (ast_i2c_xfer cfg env msgs num s).1 = -1 ∧
      (ast_i2c_xfer cfg env msgs num s).2.1 = msgs ∧
      (ast_i2c_xfer cfg env msgs num s).2.2.bus_master_reset_cnt =
        inc16 s.bus_master_reset_cnt) := by
  refine ⟨by simp [ast_i2c_do_msgs_xfer, hs], fun h => (wait_bus_idle cfg env s h).2.1, ?_⟩
  intro hb hr
  obtain ⟨b1, b2, b3⟩ := wait_bus_loop_busy 10 env.polls s hb
  have e : (ast_i2c_wait_bus_not_busy cfg env.polls env.recov s).2 =
      ast_i2c_bus_reset cfg env.recov (wait_bus_loop 10 env.polls s).2 := by
    simp [ast_i2c_wait_bus_not_busy, b1]
  obtain ⟨k, hk⟩ : ∃ k : Nat, (s.retries + 1).toNat = k + 1 := ⟨s.retries.toNat, by omega⟩
  have hso : (ast_i2c_bus_reset cfg env.recov (wait_bus_loop 10 env.polls s).2).slave_operation
      = 1 := by rw [bus_reset_slave_op, b2, hs]
  have hx : ast_i2c_xfer cfg env msgs num s =
      (-1, msgs, ast_i2c_bus_reset cfg env.recov (wait_bus_loop 10 env.polls s).2) := by
    rw [xfer_entry, e, hk, xfer_loop]
    simp +decide [ast_i2c_do_msgs_xfer, hso, EAGAIN]
  rw [hx]
  exact ⟨rfl, rfl, by rw [bus_reset_cnt, b3]⟩

/-- C11 on a 1-byte write with the slave flag set: the submit returns -1 with
the state unchanged; at the entry point with the bus busy the result is -1
and the reset counter is 1. -/
theorem C11_slave_busy_refused_witness :
    ast_i2c_do_msgs_xfer {} {} [write1] 1 { slave_operation := 1 } =
      (-1, [write1], { slave_operation := 1 }) ∧
    (ast_i2c_xfer {} { polls := busy_polls } [write1] 1 { slave_operation := 1 }).1 = -1 ∧
    (ast_i2c_xfer {} { polls := busy_polls } [write1] 1
      { slave_operation := 1 }).2.2.bus_master_reset_cnt = 1 :=
  ⟨(C11_slave_busy_refused {} {} { polls := busy_polls } [write1] 1 { slave_operation := 1 }
      rfl).1,
   ((C11_slave_busy_refused {} {} { polls := busy_polls } [write1] 1 { slave_operation := 1 }
      rfl).2.2 (by decide) (by decide)).1,
   ((C11_slave_busy_refused {} {} { polls := busy_polls } [write1] 1 { slave_operation := 1 }
      rfl).2.2 (by decide) (by decide)).2.2⟩

/-- A NACK interrupt in master role: the completion is signalled, and the NACK
bit is added to `cmd_err` unless the message carries the ignore-NACK flag. -/
theorem handler_nak_master (cfg : Config) (ev : Irq) (s : ast_i2c_dev) (m : i2c_msg)
    (hev : ev.isFor s.bus_id AST_I2CD_INTR_STS_TX_NAK) (hs : s.slave_operation ≠ 1)
    (hm : s.master_msgs = some m) :
    (i2c_ast_handler cfg ev s).2.cmd_complete = s.cmd_complete + 1 ∧
    (i2c_ast_handler cfg ev s).2.cmd_err =
      (if m.flags &&& I2C_M_IGNORE_NAK ≠ 0 then s.cmd_err
        else s.cmd_err ||| AST_I2CD_INTR_STS_TX_NAK) := by
  obtain ⟨e1, e2⟩ := hev
  by_cases hf : m.flags &&& I2C_M_IGNORE_NAK = 0 <;>
    simp +decide [i2c_ast_handler, e1, e2, take_irq, ast_i2c_read, AST_I2CD_INTR_STS_TX_ACK,
      AST_I2CD_INTR_STS_SMBUS_ALT, AST_I2CD_INTR_STS_ABNORMAL, AST_I2CD_INTR_STS_SCL_TO,
      AST_I2CD_INTR_STS_NORMAL_STOP, AST_I2CD_INTR_STS_TX_NAK, handler_switch, hs, clear_sts,
      ast_i2c_write, hm, hf, complete]

/-- The loop passes message `k` when its wait ends with a completion and no
error but a stop. -/
theorem loop_upto_succ (cfg : Config) (env : XferEnv) (msgs : List i2c_msg) (num : Int)
    (s : ast_i2c_dev) (k : Nat)
    (hpre : (loop_upto cfg env msgs num s k).stopped = false)
    (hdone : 0 < (wait_irqs cfg (wait_env env k).irqs
      (armed_msg cfg env msgs num s k)).cmd_complete)
    (herr : (wait_irqs cfg (wait_env env k).irqs (armed_msg cfg env msgs num s k)).cmd_err = 0 ∨
      (wait_irqs cfg (wait_env env k).irqs (armed_msg cfg env msgs num s k)).cmd_err =
        AST_I2CD_INTR_STS_NORMAL_STOP) :
    (loop_upto cfg env msgs num s (k + 1)).stopped = false := by
  have hleft : ¬ (((wait_env env k).left : Int) + 1 = 0) := by omega
  have hne : ¬ ((wait_irqs cfg (wait_env env k).irqs
      (armed_msg cfg env msgs num s k)).cmd_err ≠ 0 ∧
      (wait_irqs cfg (wait_env env k).irqs (armed_msg cfg env msgs num s k)).cmd_err ≠
        AST_I2CD_INTR_STS_NORMAL_STOP) := by
    rintro ⟨h1, h2⟩
    rcases herr with h | h
    · exact h1 h
    · exact h2 h
  simp only [wait_env, armed_msg, loop_upto] at hpre hdone hne hleft ⊢
  rw [msgs_loop_add cfg num 1 k]
  simp only [hpre, Bool.false_eq_true, if_false, zero_add]
  rw [msgs_loop]
  simp only [wait_for_completion_timeout, gt_iff_lt, hdone, if_true, hleft, if_false, hne,
    msgs_loop]


/-- The case TX_NAK of the handler honours the ignore-NACK flag: while message
`k` of a call is waited for with no error recorded, a NACK interrupt with
status TX_NAK in master role. With the ignore-NACK flag `cmd_err` stays 0,
the loop goes on past message `k`, and when `k` is the last message the call
returns the message count; without the flag the NACK bit is recorded and the
call aborts with `-EAGAIN`. -/
theorem tx_nak_ignore_flag (cfg : Config) (env : XferEnv) (msgs : List i2c_msg)
    (num : Int) (s : ast_i2c_dev) (k : Nat) (pre rest : List Irq) (nak : Irq) (m : i2c_msg)
    (hs : s.slave_operation ≠ 1) (hk : (k : Int) < num)
    (hpre : (loop_upto cfg env msgs num s k).stopped = false)
    (hirqs : (wait_env env k).irqs = pre ++ nak :: rest)
    (hwait : (wait_irqs cfg pre (armed_msg cfg env msgs num s k)).cmd_complete = 0)
    (herr : (wait_irqs cfg pre (armed_msg cfg env msgs num s k)).cmd_err = 0)
    (hmaster : (wait_irqs cfg pre (armed_msg cfg env msgs num s k)).slave_operation ≠ 1)
    (hmsg : (wait_irqs cfg pre (armed_msg cfg env msgs num s k)).master_msgs = some m)
    (hnak : nak.isFor (wait_irqs cfg pre (armed_msg cfg env msgs num s k)).bus_id
      AST_I2CD_INTR_STS_TX_NAK) :
    (m.flags &&& I2C_M_IGNORE_NAK ≠ 0 →
      (i2c_ast_handler cfg nak
        (wait_irqs cfg pre (armed_msg cfg env msgs num s k))).2.cmd_err = 0 ∧
      (loop_upto cfg env msgs num s (k + 1)).stopped = false ∧
      ((k : Int) + 1 = num → (ast_i2c_do_msgs_xfer cfg env msgs num s).1 = num)) ∧
    (m.flags &&& I2C_M_IGNORE_NAK = 0 →
      (i2c_ast_handler cfg nak
        (wait_irqs cfg pre (armed_msg cfg env msgs num s k))).2.cmd_err =
          AST_I2CD_INTR_STS_TX_NAK ∧
      (ast_i2c_do_msgs_xfer cfg env msgs num s).1 = -EAGAIN) := by
  set a := wait_irqs cfg pre (armed_msg cfg env msgs num s k) with ha
  obtain ⟨n1, n2⟩ := handler_nak_master cfg nak a m hnak hmaster hmsg
  have hc : (i2c_ast_handler cfg nak a).2.cmd_complete = 1 := by rw [n1, hwait]
  have hw : wait_irqs cfg (wait_env env k).irqs (armed_msg cfg env msgs num s k) =
      (i2c_ast_handler cfg nak a).2 := by
    rw [hirqs, wait_irqs_append cfg pre _ _ hwait]
    have hd : ¬ (a.cmd_complete > 0) := by rw [hwait]; decide
    simp only [← ha, wait_irqs, hd, if_false]
    exact wait_irqs_done cfg rest _ (by rw [hc]; decide)
  constructor
  · intro hf
    have he : (i2c_ast_handler cfg nak a).2.cmd_err = 0 := by rw [n2, if_pos hf, herr]
    have hnext := loop_upto_succ cfg env msgs num s k hpre (by rw [hw, hc]; decide)
      (Or.inl (by rw [hw, he]))
    refine ⟨he, hnext, ?_⟩
    intro hlast
    have hn : num.toNat = k + 1 := by omega
    exact do_msgs_count cfg env msgs num s hs (by omega) (by rw [hn]; exact hnext)
  · intro hf
    have hf' : ¬ (m.flags &&& I2C_M_IGNORE_NAK ≠ 0) := fun h => h hf
    have he : (i2c_ast_handler cfg nak a).2.cmd_err = AST_I2CD_INTR_STS_TX_NAK := by
      rw [n2, if_neg hf', herr, Nat.zero_or]
    exact ⟨he, do_msgs_abort cfg env msgs num s k hs hk hpre (by rw [hw, hc]; decide)
      (by rw [hw, he]; decide) (by rw [hw, he]; decide)⟩

/-- A 1-byte write whose data byte is NACKed with status TX_NAK: with the
ignore-NACK flag the call returns 1, without it the call returns -11. -/
theorem tx_nak_ignore_flag_example :
    (ast_i2c_do_msgs_xfer {} { waits := [{ irqs := [ack_irq, nak_irq] }] }
      [{ addr := 0x50, flags := I2C_M_IGNORE_NAK, len := 1, buf := [7] }] 1 {}).1 = 1 ∧
    (ast_i2c_do_msgs_xfer {} { waits := [{ irqs := [ack_irq, nak_irq] }] }
      [{ addr := 0x50, flags := 0, len := 1, buf := [7] }] 1 {}).1 = -11 :=
  ⟨((tx_nak_ignore_flag {} { waits := [{ irqs := [ack_irq, nak_irq] }] }
      [{ addr := 0x50, flags := I2C_M_IGNORE_NAK, len := 1, buf := [7] }] 1 {} 0
      [ack_irq] [] nak_irq { addr := 0x50, flags := I2C_M_IGNORE_NAK, len := 1, buf := [7] }
      (by decide) (by decide) (by decide) rfl (by decide) (by decide) (by decide) (by decide)
      (by decide)).1 (by decide)).2.2 (by decide),
   ((tx_nak_ignore_flag {} { waits := [{ irqs := [ack_irq, nak_irq] }] }
      [{ addr := 0x50, flags := 0, len := 1, buf := [7] }] 1 {} 0
      [ack_irq] [] nak_irq { addr := 0x50, flags := 0, len := 1, buf := [7] }
      (by decide) (by decide) (by decide) rfl (by decide) (by decide) (by decide) (by decide)
      (by decide)).2 (by decide)).2⟩

/-- C13 as stated fails: a write of length 0 submitted alone in byte mode gets
a command with the START bit (start and transmit of the address byte), then a
stop, and the call returns 1. -/
theorem C13_zero_length_start :
    writes_to I2C_CMD_REG
      (ast_i2c_do_msgs_xfer {} { waits := [{ irqs := [ack_irq] }] }
        [{ addr := 0x50, len := 0 }] 1 {}).2.2.writes =
      [AST_I2CD_M_TX_CMD ||| AST_I2CD_M_START_CMD, AST_I2CD_M_STOP_CMD] ∧
    (AST_I2CD_M_TX_CMD ||| AST_I2CD_M_START_CMD) &&& AST_I2CD_M_START_CMD ≠ 0 ∧
    (ast_i2c_do_msgs_xfer {} { waits := [{ irqs := [ack_irq] }] }
      [{ addr := 0x50, len := 0 }] 1 {}).1 = 1 := by
  decide

/-- An arm routine entered in master role with the counter at 0 for a
message of length 0: no command, the completion is signalled with no error. -/
theorem zero_arm_nostart (cfg : Config) (f : XferFn) (t : ast_i2c_dev) (m : i2c_msg)
    (hs : t.slave_operation ≠ 1) (hm : t.master_msgs = some m) (hlen : m.len = 0)
    (hc : t.master_xfer_cnt = 0) :
    writes_to I2C_CMD_REG (call_xfer cfg f t).writes = writes_to I2C_CMD_REG t.writes ∧
    (call_xfer cfg f t).cmd_complete = t.cmd_complete + 1 ∧
    (call_xfer cfg f t).cmd_err = 0 := by
  cases f
  · simp [call_xfer, ast_i2c_do_byte_xfer, hs, hm, hc, hlen, arm_complete, complete]
  · by_cases hg : cfg.soc = Soc.g4 <;>
      simp [call_xfer, ast_i2c_do_pool_xfer, hg, hs, hm, hc, hlen, arm_complete, complete,
        writes_to_write, ast_i2c_write, writes_to]
  · simp [call_xfer, ast_i2c_do_dec_dma_xfer, hs, hm, hc, hlen, arm_complete, complete]
  · simp [call_xfer, ast_i2c_do_inc_dma_xfer, hs, hm, hc, hlen, arm_complete, complete]

/-- An arm routine entered in master role with the counter at -1: the one
command it writes has the START bit. -/
theorem first_arm_start (cfg : Config) (f : XferFn) (t : ast_i2c_dev) (m : i2c_msg)
    (hs : t.slave_operation ≠ 1) (hm : t.master_msgs = some m)
    (hc : t.master_xfer_cnt = -1) :
    ∃ v, writes_to I2C_CMD_REG (call_xfer cfg f t).writes =
        writes_to I2C_CMD_REG t.writes ++ [v] ∧
      v &&& AST_I2CD_M_START_CMD ≠ 0 := by
  cases f
  · refine ⟨AST_I2CD_M_TX_CMD ||| AST_I2CD_M_START_CMD, ?_, by decide⟩
    by_cases hr : m.flags &&& I2C_M_RD = 0 <;>
      simp [call_xfer, ast_i2c_do_byte_xfer, hs, hm, hc, hr, writes_to_write, intr_ctrl_set]
  · by_cases hr : m.flags &&& I2C_M_RD = 0
    · refine ⟨AST_I2CD_M_START_CMD ||| AST_I2CD_M_TX_CMD ||| AST_I2CD_TX_BUFF_ENABLE, ?_,
        by decide⟩
      by_cases hg : cfg.soc = Soc.g4 <;>
        simp [call_xfer, ast_i2c_do_pool_xfer, hg, hs, hm, hc, hr, writes_to_write,
          intr_ctrl_set, ast_i2c_write, set_page_mem, writes_to]
    · refine ⟨AST_I2CD_M_START_CMD ||| AST_I2CD_M_TX_CMD, ?_, by decide⟩
      by_cases hg : cfg.soc = Soc.g4 <;>
        simp [call_xfer, ast_i2c_do_pool_xfer, hg, hs, hm, hc, hr, writes_to_write,
          intr_ctrl_set, ast_i2c_write, writes_to]
  · by_cases hr : m.flags &&& I2C_M_RD = 0
    · by_cases hl : t.xfer_last = 1
      · refine ⟨AST_I2CD_M_START_CMD ||| AST_I2CD_M_TX_CMD ||| AST_I2CD_TX_DMA_ENABLE |||
          AST_I2CD_M_STOP_CMD, ?_, by decide⟩
        simp [call_xfer, ast_i2c_do_dec_dma_xfer, hs, hm, hc, hr, hl, writes_to_write,
          intr_ctrl_set, intr_ctrl_clear]
      · refine ⟨AST_I2CD_M_START_CMD ||| AST_I2CD_M_TX_CMD ||| AST_I2CD_TX_DMA_ENABLE, ?_,
          by decide⟩
        simp [call_xfer, ast_i2c_do_dec_dma_xfer, hs, hm, hc, hr, hl, writes_to_write,
          intr_ctrl_set, intr_ctrl_clear]
    · refine ⟨AST_I2CD_M_START_CMD ||| AST_I2CD_M_TX_CMD, ?_, by decide⟩
      simp [call_xfer, ast_i2c_do_dec_dma_xfer, hs, hm, hc, hr, writes_to_write,
        intr_ctrl_set]
  · by_cases hr : m.flags &&& I2C_M_RD = 0
    · by_cases hl : t.xfer_last = 1
      · refine ⟨AST_I2CD_M_START_CMD ||| AST_I2CD_M_TX_CMD ||| AST_I2CD_TX_DMA_ENABLE |||
          AST_I2CD_M_STOP_CMD, ?_, by decide⟩
        simp [call_xfer, ast_i2c_do_inc_dma_xfer, hs, hm, hc, hr, hl, writes_to_write,
          intr_ctrl_set, intr_ctrl_clear]
      · refine ⟨AST_I2CD_M_START_CMD ||| AST_I2CD_M_TX_CMD ||| AST_I2CD_TX_DMA_ENABLE, ?_,
          by decide⟩
        simp [call_xfer, ast_i2c_do_inc_dma_xfer, hs, hm, hc, hr, hl, writes_to_write,
          intr_ctrl_set, intr_ctrl_clear]
    · refine ⟨AST_I2CD_M_START_CMD ||| AST_I2CD_M_TX_CMD, ?_, by decide⟩
      simp [call_xfer, ast_i2c_do_inc_dma_xfer, hs, hm, hc, hr, writes_to_write,
        intr_ctrl_set]

/-- C13, amended: a message of length 0 in master role, in each of the four
transfer modes. With the no-start flag the arm is an immediate no-op: no
command is written, the completion is signalled and no error recorded. Without
the flag the arm addresses the device: exactly one command is written and it
has the START bit. -/
theorem C13_zero_length_arm (cfg : Config) (num : Int) (i : Nat) (m : i2c_msg)
    (s : ast_i2c_dev) (hs : s.slave_operation ≠ 1) (hlen : m.len = 0) :
    (m.flags &&& I2C_M_NOSTART ≠ 0 →
      writes_to I2C_CMD_REG (msg_arm cfg num i m s).writes = writes_to I2C_CMD_REG s.writes ∧
      (msg_arm cfg num i m s).cmd_complete = 1 ∧
      (msg_arm cfg num i m s).cmd_err = 0) ∧
    (m.flags &&& I2C_M_NOSTART = 0 →
      ∃ v, writes_to I2C_CMD_REG (msg_arm cfg num i m s).writes =
          writes_to I2C_CMD_REG s.writes ++ [v] ∧
        v &&& AST_I2CD_M_START_CMD ≠ 0) := by
  constructor
  · intro hf
    obtain ⟨z1, z2, z3⟩ := zero_arm_nostart cfg s.do_master_xfer
      { s with blk_r_flag := 0, master_msgs := some m,
               xfer_last := if num = (i : Int) + 1 then 1 else 0,
               cmd_complete := 0, cmd_err := 0, master_xfer_cnt := 0 }
      m hs rfl hlen rfl
    simpa [msg_arm, init_completion, hf] using ⟨z1, z2, z3⟩
  · intro hf
    obtain ⟨v, z1, z2⟩ := first_arm_start cfg s.do_master_xfer
      { s with blk_r_flag := 0, master_msgs := some m,
               xfer_last := if num = (i : Int) + 1 then 1 else 0,
               cmd_complete := 0, cmd_err := 0, master_xfer_cnt := -1 }
      m hs rfl rfl
    exact ⟨v, by simpa [msg_arm, init_completion, hf] using z1, z2⟩

/-- C13 in byte mode: a message of length 0 with the no-start flag is completed
by the arm with nothing written; without the flag the arm writes the start
command. -/
theorem C13_zero_length_arm_witness :
    (msg_arm {} 1 0 { addr := 0x50, flags := I2C_M_NOSTART, len := 0 } {}).writes = [] ∧
    (msg_arm {} 1 0 { addr := 0x50, flags := I2C_M_NOSTART, len := 0 } {}).cmd_complete = 1 ∧
    (∃ v, writes_to I2C_CMD_REG (msg_arm {} 1 0 { addr := 0x50, len := 0 } {}).writes =
        writes_to I2C_CMD_REG ({} : ast_i2c_dev).writes ++ [v] ∧
      v &&& AST_I2CD_M_START_CMD ≠ 0) :=
  ⟨by decide,
   ((C13_zero_length_arm {} 1 0 { addr := 0x50, flags := I2C_M_NOSTART, len := 0 } {}
      (by decide) rfl).1 (by decide)).2.1,
   (C13_zero_length_arm {} 1 0 { addr := 0x50, len := 0 } {} (by decide) rfl).2 (by decide)⟩

/-- Byte mode, read: the completion routine at a received byte. The block-read
extension is applied when the gate is open; then either the counter reaches
the length and the completion is signalled without error and without a new
command, or the next byte is armed with one command. -/
theorem xfer_done_rx_byte (cfg : Config) (env : RecoverEnv) (t : ast_i2c_dev)
    (a f L : Nat) (c : Int) (blk L' blk' : Nat)
    (h : ByteRx a f L c blk t) (hc : 0 ≤ c)
    (hL : L' = if f &&& I2C_M_RECV_LEN ≠ 0 ∧ blk = 0 then
      (L + ((ast_i2c_read t I2C_BYTE_BUF_REG &&& AST_I2CD_RX_BYTE_BUFFER) >>> 8)) % 2 ^ 16
      else L)
    (hb : blk' = if f &&& I2C_M_RECV_LEN ≠ 0 ∧ blk = 0 then 1 else blk) :
    (c + 1 = (L' : Int) →
      (ast_i2c_master_xfer_done cfg env t).cmd_complete = 1 ∧
      (ast_i2c_master_xfer_done cfg env t).cmd_err = 0 ∧
      (∃ b, (ast_i2c_master_xfer_done cfg env t).master_msgs =
        some { addr := a, flags := f, len := L', buf := b }) ∧
      (ast_i2c_master_xfer_done cfg env t).blk_r_flag = blk' ∧
      (ast_i2c_master_xfer_done cfg env t).master_xfer_mode = XferMode.BYTE_XFER ∧
      (ast_i2c_master_xfer_done cfg env t).master_xfer_cnt = (L' : Int) ∧
      writes_to I2C_CMD_REG (ast_i2c_master_xfer_done cfg env t).writes =
        writes_to I2C_CMD_REG t.writes ∧
      (ast_i2c_master_xfer_done cfg env t).bus_id = t.bus_id) ∧
    (c + 1 < (L' : Int) →
      ByteRx a f L' (c + 1) blk' (ast_i2c_master_xfer_done cfg env t) ∧
      (writes_to I2C_CMD_REG (ast_i2c_master_xfer_done cfg env t).writes).length =
        (writes_to I2C_CMD_REG t.writes).length + 1 ∧
      (ast_i2c_master_xfer_done cfg env t).bus_id = t.bus_id) := by
  obtain ⟨p1, ⟨b, p2⟩, p3, p4, p5, p6, p7, p8, p9, p10⟩ := h
  have hc1 : ¬ (c = -1) := by omega
  have hc2 : ¬ (c + 1 = -1) := by omega
  have hc3 : ¬ (c + 1 = 0) := by omega
  constructor
  · intro he
    by_cases hx : f &&& I2C_M_RECV_LEN ≠ 0 ∧ blk = 0
    · rw [if_pos hx] at hL hb
      have hLn : (L + (ast_i2c_read t I2C_BYTE_BUF_REG &&& AST_I2CD_RX_BYTE_BUFFER) >>> 8) %
          65536 = L' := by rw [hL]; norm_num
      have hLi : ((L : Int) +
          (((ast_i2c_read t I2C_BYTE_BUF_REG &&& AST_I2CD_RX_BYTE_BUFFER) >>> 8 : Nat) : Int)) %
          65536 = (L' : Int) := by rw [← hLn]; push_cast; rfl
      simp [ast_i2c_master_xfer_done, p2, master_extract, p3, p7, hc1, p4, recv_len_extend, hx,
        p10, p6, u32, hLn, hLi, he, restore_func_ctrl, complete, ast_i2c_write, writes_to, p8, hb]
    · rw [if_neg hx] at hL hb
      have hLn : L = L' := hL.symm
      have hLi : (L : Int) = (L' : Int) := by rw [hLn]
      simp [ast_i2c_master_xfer_done, p2, master_extract, p3, p7, hc1, p4, recv_len_extend, hx,
        p10, p6, u32, hLn, hLi, he, restore_func_ctrl, complete, ast_i2c_write, writes_to, p8, hb]
  · intro hlt
    have hne : ¬ (c + 1 = (L' : Int)) := by omega
    by_cases hl : t.xfer_last = 1 ∧ c + 1 + 1 = (L' : Int)
    · by_cases hx : f &&& I2C_M_RECV_LEN ≠ 0 ∧ blk = 0
      · rw [if_pos hx] at hL hb
        have hLn : (L + (ast_i2c_read t I2C_BYTE_BUF_REG &&& AST_I2CD_RX_BYTE_BUFFER) >>> 8) %
            65536 = L' := by rw [hL]; norm_num
        have hLi : ((L : Int) +
            (((ast_i2c_read t I2C_BYTE_BUF_REG &&& AST_I2CD_RX_BYTE_BUFFER) >>> 8 : Nat) : Int)) %
            65536 = (L' : Int) := by rw [← hLn]; push_cast; rfl
        simp [ast_i2c_master_xfer_done, p2, master_extract, p3, p7, hc1, p4, recv_len_extend, hx,
          p10, p6, u32, hLn, hLi, hne, call_xfer, p5, ast_i2c_do_byte_xfer, p1, hc2, hlt, hc3, hl,
          ast_i2c_write, writes_to, intr_ctrl_set, intr_ctrl_clear, byteRx_iff, p8, p9, hb]
      · rw [if_neg hx] at hL hb
        have hLn : L = L' := hL.symm
        have hLi : (L : Int) = (L' : Int) := by rw [hLn]
        simp [ast_i2c_master_xfer_done, p2, master_extract, p3, p7, hc1, p4, recv_len_extend, hx,
          p10, p6, u32, hLn, hLi, hne, call_xfer, p5, ast_i2c_do_byte_xfer, p1, hc2, hlt, hc3, hl,
          ast_i2c_write, writes_to, intr_ctrl_set, intr_ctrl_clear, byteRx_iff, p8, p9, hb]
    · by_cases hx : f &&& I2C_M_RECV_LEN ≠ 0 ∧ blk = 0
      · rw [if_pos hx] at hL hb
        have hLn : (L + (ast_i2c_read t I2C_BYTE_BUF_REG &&& AST_I2CD_RX_BYTE_BUFFER) >>> 8) %
            65536 = L' := by rw [hL]; norm_num
        have hLi : ((L : Int) +
            (((ast_i2c_read t I2C_BYTE_BUF_REG &&& AST_I2CD_RX_BYTE_BUFFER) >>> 8 : Nat) : Int)) %
            65536 = (L' : Int) := by rw [← hLn]; push_cast; rfl
        simp [ast_i2c_master_xfer_done, p2, master_extract, p3, p7, hc1, p4, recv_len_extend, hx,
          p10, p6, u32, hLn, hLi, hne, call_xfer, p5, ast_i2c_do_byte_xfer, p1, hc2, hlt, hc3, hl,
          ast_i2c_write, writes_to, intr_ctrl_set, intr_ctrl_clear, byteRx_iff, p8, p9, hb]
      · rw [if_neg hx] at hL hb
        have hLn : L = L' := hL.symm
        have hLi : (L : Int) = (L' : Int) := by rw [hLn]
        simp [ast_i2c_master_xfer_done, p2, master_extract, p3, p7, hc1, p4, recv_len_extend, hx,
          p10, p6, u32, hLn, hLi, hne, call_xfer, p5, ast_i2c_do_byte_xfer, p1, hc2, hlt, hc3, hl,
          ast_i2c_write, writes_to, intr_ctrl_set, intr_ctrl_clear, byteRx_iff, p8, p9, hb]

theorem byteRx_entry (ev : Irq) (s : ast_i2c_dev) (bits : Nat) (a f L : Nat) (c : Int)
    (blk : Nat) (h : ByteRx a f L c blk s) :
    ByteRx a f L c blk (clear_sts (irq_entry ev s) bits) ∧
    ast_i2c_read (clear_sts (irq_entry ev s) bits) I2C_BYTE_BUF_REG = ev.byte_buf ∧
    writes_to I2C_CMD_REG (clear_sts (irq_entry ev s) bits).writes =
      writes_to I2C_CMD_REG s.writes ∧
    (clear_sts (irq_entry ev s) bits).bus_id = s.bus_id := by
  obtain ⟨p1, p2, p3, p4, p5, p6, p7, p8, p9, p10⟩ := h
  refine ⟨⟨p1, p2, p3, p4, p5, p6, p7, p8, p9, p10⟩, ?_, ?_, rfl⟩
  · simp [clear_sts, irq_entry, take_irq, ast_i2c_write, ast_i2c_read, Reg.isStorage]
  · simp [clear_sts, writes_to_write, irq_entry, take_irq]

theorem byteRx_intr_set (s : ast_i2c_dev) (bit : Nat) (a f L : Nat) (c : Int)
    (blk : Nat) (h : ByteRx a f L c blk s) :
    ByteRx a f L c blk (intr_ctrl_set s bit) ∧
    ast_i2c_read (intr_ctrl_set s bit) I2C_BYTE_BUF_REG = ast_i2c_read s I2C_BYTE_BUF_REG ∧
    writes_to I2C_CMD_REG (intr_ctrl_set s bit).writes = writes_to I2C_CMD_REG s.writes ∧
    (intr_ctrl_set s bit).bus_id = s.bus_id := by
  obtain ⟨p1, p2, p3, p4, p5, p6, p7, p8, p9, p10⟩ := h
  refine ⟨⟨p1, p2, p3, p4, p5, p6, p7, p8, p9, p10⟩, ?_, ?_, rfl⟩
  · simp [intr_ctrl_set, ast_i2c_write, ast_i2c_read, Reg.isStorage]
  · simp [intr_ctrl_set, writes_to_write]

/-- Byte mode, read: a receive-done interrupt, alone or with the stop, in the
terms of `xfer_done_rx_byte` with the byte the interrupt presents. -/
theorem byte_rx_step (cfg : Config) (ev : Irq) (s : ast_i2c_dev)
    (a f L : Nat) (c : Int) (blk L' blk' : Nat)
    (hev : ev.isRxFor s.bus_id) (h : ByteRx a f L c blk s) (hc : 0 ≤ c)
    (hL : L' = if f &&& I2C_M_RECV_LEN ≠ 0 ∧ blk = 0 then (L + ev.rxByte) % 2 ^ 16 else L)
    (hb : blk' = if f &&& I2C_M_RECV_LEN ≠ 0 ∧ blk = 0 then 1 else blk) :
    (c + 1 = (L' : Int) →
      (i2c_ast_handler cfg ev s).2.cmd_complete = 1 ∧
      (i2c_ast_handler cfg ev s).2.cmd_err = 0 ∧
      (∃ b, (i2c_ast_handler cfg ev s).2.master_msgs =
        some { addr := a, flags := f, len := L', buf := b }) ∧
      (i2c_ast_handler cfg ev s).2.blk_r_flag = blk' ∧
      (i2c_ast_handler cfg ev s).2.master_xfer_mode = XferMode.BYTE_XFER ∧
      (i2c_ast_handler cfg ev s).2.master_xfer_cnt = (L' : Int) ∧
      writes_to I2C_CMD_REG (i2c_ast_handler cfg ev s).2.writes =
        writes_to I2C_CMD_REG s.writes ∧
      (i2c_ast_handler cfg ev s).2.bus_id = s.bus_id) ∧
    (c + 1 < (L' : Int) →
      ByteRx a f L' (c + 1) blk' (i2c_ast_handler cfg ev s).2 ∧
      (writes_to I2C_CMD_REG (i2c_ast_handler cfg ev s).2.writes).length =
        (writes_to I2C_CMD_REG s.writes).length + 1 ∧
      (i2c_ast_handler cfg ev s).2.bus_id = s.bus_id) := by
  rcases hev with hev | hev
  · rw [handler_rx_master cfg ev s hev (by rw [h.slave]; decide)]
    obtain ⟨e1, e2, e3, e4⟩ := byteRx_entry ev s AST_I2CD_INTR_STS_RX_DOWN a f L c blk h
    have hx := xfer_done_rx_byte cfg ev.recov _ a f L c blk L' blk' e1 hc
      (by rw [e2]; exact hL) hb
    rw [e3, e4] at hx
    exact hx
  · rw [handler_rx_stop_master cfg ev s hev h.slave]
    obtain ⟨e1, e2, e3, e4⟩ := byteRx_entry ev s
      (AST_I2CD_INTR_STS_RX_DOWN ||| AST_I2CD_INTR_STS_NORMAL_STOP) a f L c blk h
    obtain ⟨d1, d2, d3, d4⟩ := byteRx_intr_set _ AST_I2CD_RX_DOWN_INTR_EN a f L c blk e1
    have hx := xfer_done_rx_byte cfg ev.recov _ a f L c blk L' blk' d1 hc
      (by rw [d2, e2]; exact hL) hb
    rw [d3, d4, e3, e4] at hx
    exact hx

/-- Byte mode, read: the acknowledge of the address arms the first byte. -/
theorem byte_rd_ack (cfg : Config) (ev : Irq) (s : ast_i2c_dev) (a f L : Nat) (blk : Nat)
    (hev : ev.isFor s.bus_id AST_I2CD_INTR_STS_TX_ACK) (h : ByteRx a f L (-1) blk s)
    (hL : 1 ≤ L) :
    ByteRx a f L 0 blk (i2c_ast_handler cfg ev s).2 ∧
    (writes_to I2C_CMD_REG (i2c_ast_handler cfg ev s).2.writes).length =
      (writes_to I2C_CMD_REG s.writes).length + 1 ∧
    (i2c_ast_handler cfg ev s).2.bus_id = s.bus_id := by
  rw [handler_ack_master cfg ev s hev (by rw [h.slave]; decide)]
  obtain ⟨p1, ⟨b, p2⟩, p3, p4, p5, p6, p7, p8, p9, p10⟩ := h
  have hne : ¬ ((0 : Int) = (L : Int)) := by omega
  have hlt : (0 : Int) < (L : Int) := by omega
  have h1 : ((1 : Int) = (L : Int)) ↔ L = 1 := by omega
  by_cases hx : f &&& I2C_M_RECV_LEN = 0 <;>
    by_cases hl : s.xfer_last = 1 <;> by_cases hl2 : L = 1 <;>
    simp [h1, ast_i2c_master_xfer_done, clear_sts, irq_entry, take_irq, p2, master_extract, p3, p7,
      p6, u32, hne, call_xfer, p5, ast_i2c_do_byte_xfer, p1, hlt, hx, hl, hl2, ast_i2c_write,
      writes_to, intr_ctrl_set, intr_ctrl_clear, byteRx_iff, p4, p8, p9, p10]

/-- Byte mode: the first arm of a read message. -/
theorem msg_arm_byte_rd (cfg : Config) (num : Int) (i : Nat) (a f L : Nat) (b : List Nat)
    (s : ast_i2c_dev) (hs : s.slave_operation = 0) (hrd : f &&& I2C_M_RD ≠ 0)
    (hst : f &&& I2C_M_NOSTART = 0)
    (hfn : s.do_master_xfer = XferFn.byte) (hmode : s.master_xfer_mode = XferMode.BYTE_XFER)
    (hlen : s.master_xfer_len = 1) :
    ByteRx a f L (-1) 0 (msg_arm cfg num i { addr := a, flags := f, len := L, buf := b } s) ∧
    (writes_to I2C_CMD_REG
      (msg_arm cfg num i { addr := a, flags := f, len := L, buf := b } s).writes).length =
      (writes_to I2C_CMD_REG s.writes).length + 1 ∧
    (msg_arm cfg num i { addr := a, flags := f, len := L, buf := b } s).bus_id = s.bus_id := by
  simp [msg_arm, call_xfer, hfn, ast_i2c_do_byte_xfer, hs, init_completion, hst, hrd,
    intr_ctrl_set, ast_i2c_write, writes_to, byteRx_iff, hmode, hlen]

/-- Byte mode, read with the gate closed: received bytes short of the last
one each arm the next byte and leave the length alone. -/
theorem byte_rx_run (cfg : Config) (a f L : Nat) (rxs : List Irq) :
    ∀ (c : Int) (s : ast_i2c_dev), ByteRx a f L c 1 s → 0 ≤ c → c + rxs.length < L →
    (∀ ev ∈ rxs, ev.isRxFor s.bus_id) →
    ByteRx a f L (c + rxs.length) 1 (wait_irqs cfg rxs s) ∧
    (writes_to I2C_CMD_REG (wait_irqs cfg rxs s).writes).length =
      (writes_to I2C_CMD_REG s.writes).length + rxs.length ∧
    (wait_irqs cfg rxs s).bus_id = s.bus_id := by
  induction rxs with
  | nil =>
    intro c s h _ _ _
    simpa [wait_irqs] using h
  | cons ev rest ih =>
    intro c s h hc hlen hall
    simp only [List.length_cons, Nat.cast_add, Nat.cast_one] at hlen
    have hstep := (byte_rx_step cfg ev s a f L c 1 L 1 (hall ev (List.mem_cons_self _ _)) h hc
      (by simp) (by simp)).2 (by omega)
    obtain ⟨s1, s2, s3⟩ := hstep
    obtain ⟨r1, r2, r3⟩ := ih (c + 1) _ s1 (by omega) (by omega)
      (fun e he => by rw [s3]; exact hall e (List.mem_cons_of_mem _ he))
    have hd : ¬ (s.cmd_complete > 0) := by rw [h.done]; decide
    simp only [wait_irqs, hd, if_false, List.length_cons, Nat.cast_add, Nat.cast_one]
    refine ⟨?_, by rw [r2, s2]; omega, r3.trans s3⟩
    have e : c + ((rest.length : Int) + 1) = c + 1 + rest.length := by ring
    rw [e]
    exact r1

theorem rxByte_lt (ev : Irq) : ev.rxByte < 256 := by
  unfold Irq.rxByte AST_I2CD_RX_BYTE_BUFFER
  have h : ev.byte_buf &&& 0xff <<< 8 ≤ 0xff <<< 8 := Nat.and_le_right
  rw [Nat.shiftRight_eq_div_pow]
  have h2 : (0xff <<< 8 : Nat) = 65280 := by decide
  rw [h2] at h ⊢
  omega

theorem wait_irqs_single (cfg : Config) (ev : Irq) (s : ast_i2c_dev)
    (h : s.cmd_complete = 0) : wait_irqs cfg [ev] s = (i2c_ast_handler cfg ev s).2 := by
  simp [wait_irqs, h]

/-- Byte mode: a block read armed with length 1 whose first received byte is
`v`, followed by `v` further bytes. -/
theorem byte_block_wait (cfg : Config) (a f v : Nat) (s : ast_i2c_dev) (ack rx0 : Irq)
    (rxs : List Irq) (h : ByteRx a f 1 (-1) 0 s) (hrl : f &&& I2C_M_RECV_LEN ≠ 0)
    (hack : ack.isFor s.bus_id AST_I2CD_INTR_STS_TX_ACK) (hrx0 : rx0.isRxFor s.bus_id)
    (hbyte : rx0.rxByte = v) (hlen : rxs.length = v)
    (hrxs : ∀ ev ∈ rxs, ev.isRxFor s.bus_id) :
    (wait_irqs cfg (ack :: rx0 :: rxs) s).cmd_complete = 1 ∧
    (wait_irqs cfg (ack :: rx0 :: rxs) s).cmd_err = 0 ∧
    (∃ b, (wait_irqs cfg (ack :: rx0 :: rxs) s).master_msgs =
      some { addr := a, flags := f, len := 1 + v, buf := b }) ∧
    (wait_irqs cfg (ack :: rx0 :: rxs) s).blk_r_flag = 1 ∧
    (wait_irqs cfg (ack :: rx0 :: rxs) s).master_xfer_mode = XferMode.BYTE_XFER ∧
    (wait_irqs cfg (ack :: rx0 :: rxs) s).master_xfer_cnt = ((1 + v : Nat) : Int) ∧
    (writes_to I2C_CMD_REG (wait_irqs cfg (ack :: rx0 :: rxs) s).writes).length =
      (writes_to I2C_CMD_REG s.writes).length + 1 + v ∧
    (∀ j < v, (wait_irqs cfg (ack :: rx0 :: rxs.take j) s).cmd_complete = 0) := by
  have hv : v < 256 := by rw [← hbyte]; exact rxByte_lt rx0
  obtain ⟨a1, a2, a3⟩ := byte_rd_ack cfg ack s a f 1 0 hack h (le_refl 1)
  have hd0 : ¬ (s.cmd_complete > 0) := by rw [h.done]; decide
  have hd1 : ¬ ((i2c_ast_handler cfg ack s).2.cmd_complete > 0) := by rw [a1.done]; decide
  have hL : 1 + v = if f &&& I2C_M_RECV_LEN ≠ 0 ∧ (0 : Nat) = 0 then (1 + rx0.rxByte) % 2 ^ 16
      else 1 := by
    rw [if_pos ⟨hrl, rfl⟩, hbyte, Nat.mod_eq_of_lt (by omega)]
  have hB : (1 : Nat) = if f &&& I2C_M_RECV_LEN ≠ 0 ∧ (0 : Nat) = 0 then 1 else 0 := by
    rw [if_pos ⟨hrl, rfl⟩]
  have hstep := byte_rx_step cfg rx0 _ a f 1 0 0 (1 + v) 1 (by rw [a3]; exact hrx0) a1
    (le_refl _) hL hB
  have hw2 : ∀ l, wait_irqs cfg (ack :: rx0 :: l) s =
      wait_irqs cfg l (i2c_ast_handler cfg rx0 (i2c_ast_handler cfg ack s).2).2 := by
    intro l
    simp only [wait_irqs, hd0, hd1, if_false]
  by_cases hz : v = 0
  · subst hz
    have hnil : rxs = [] := List.length_eq_zero.1 hlen
    obtain ⟨c1, c2, c3, c4, c5, c6, c7, _⟩ := hstep.1 (by norm_num)
    rw [hw2, hnil]
    simp only [wait_irqs]
    exact ⟨c1, c2, c3, c4, c5, c6, by rw [c7, a2], fun j hj => absurd hj (Nat.not_lt_zero j)⟩
  · obtain ⟨s1, s2, s3⟩ := hstep.2 (by push_cast; omega)
    have hne : rxs ≠ [] := by
      intro h0
      rw [h0] at hlen
      exact hz hlen.symm
    obtain ⟨init, last, hsplit⟩ : ∃ init last, rxs = init ++ [last] :=
      ⟨rxs.dropLast, rxs.getLast hne, (List.dropLast_append_getLast hne).symm⟩
    have hil : init.length + 1 = v := by
      rw [← hlen, hsplit]
      simp
    have hbus : (i2c_ast_handler cfg rx0 (i2c_ast_handler cfg ack s).2).2.bus_id = s.bus_id :=
      s3.trans a3
    have hrun : ∀ l : List Irq, (∀ ev ∈ l, ev.isRxFor s.bus_id) → l.length < v →
        ByteRx a f (1 + v) ((0 : Int) + 1 + l.length) 1 (wait_irqs cfg (ack :: rx0 :: l) s) ∧
        (writes_to I2C_CMD_REG (wait_irqs cfg (ack :: rx0 :: l) s).writes).length =
          (writes_to I2C_CMD_REG s.writes).length + 1 + 1 + l.length ∧
        (wait_irqs cfg (ack :: rx0 :: l) s).bus_id = s.bus_id := by
      intro l hl hlt
      obtain ⟨r1, r2, r3⟩ := byte_rx_run cfg a f (1 + v) l ((0 : Int) + 1) _ s1 (by norm_num)
        (by push_cast; omega) (fun ev hev => by rw [hbus]; exact hl ev hev)
      rw [hw2]
      exact ⟨r1, by rw [r2, s2, a2], r3.trans hbus⟩
    obtain ⟨r1, r2, r3⟩ := hrun init
      (fun ev hev => hrxs ev (by rw [hsplit]; exact List.mem_append_left _ hev)) (by omega)
    have hlast := (byte_rx_step cfg last _ a f (1 + v) ((0 : Int) + 1 + init.length) 1 (1 + v) 1
      (by rw [r3]; exact hrxs last (by rw [hsplit]; simp)) r1 (by omega) (by simp)
      (by simp)).1 (by push_cast; omega)
    have hw3 : wait_irqs cfg (ack :: rx0 :: rxs) s =
        (i2c_ast_handler cfg last (wait_irqs cfg (ack :: rx0 :: init) s)).2 := by
      have e : ack :: rx0 :: rxs = (ack :: rx0 :: init) ++ [last] := by rw [hsplit]; rfl
      rw [e, wait_irqs_append cfg _ _ _ r1.done]
      exact wait_irqs_single cfg last _ r1.done
    obtain ⟨c1, c2, c3, c4, c5, c6, c7, _⟩ := hlast
    rw [hw3]
    refine ⟨c1, c2, c3, c4, c5, c6, by rw [c7, r2]; omega, ?_⟩
    intro j hj
    have htl : (rxs.take j).length = j := by
      rw [List.length_take]
      omega
    exact (hrun (rxs.take j) (fun ev hev => hrxs ev (List.mem_of_mem_take hev))
      (by omega)).1.done

/-- C14: a block-read message of initial length 1, submitted alone in byte
mode, whose first received byte is `v`: the length becomes `1 + v` whatever the
later bytes are, `blk_r_flag` is set, the message completes without error after
exactly `v` further bytes (not before) and the call returns 1; beyond the start
and the first receive command, `v` commands are written, none for `v = 0`. -/
theorem C14_block_read (cfg : Config) (s : ast_i2c_dev) (a f v : Nat) (buf : List Nat)
    (ack rx0 : Irq) (rxs : List Irq) (w : Wait) (page : Option buf_page)
    (hcfg : cfg.master_dma = DmaMode.BYTE_MODE) (hs : s.slave_operation = 0)
    (hrd : f &&& I2C_M_RD ≠ 0) (hrl : f &&& I2C_M_RECV_LEN ≠ 0)
    (hst : f &&& I2C_M_NOSTART = 0)
    (hirqs : w.irqs = ack :: rx0 :: rxs)
    (hack : ack.isFor s.bus_id AST_I2CD_INTR_STS_TX_ACK) (hrx0 : rx0.isRxFor s.bus_id)
    (hbyte : rx0.rxByte = v) (hlen : rxs.length = v)
    (hrxs : ∀ ev ∈ rxs, ev.isRxFor s.bus_id) :
    (ast_i2c_do_msgs_xfer cfg { page := page, waits := [w] }
      [{ addr := a, flags := f, len := 1, buf := buf }] 1 s).1 = 1 ∧
    (∃ b, (ast_i2c_do_msgs_xfer cfg { page := page, waits := [w] }
      [{ addr := a, flags := f, len := 1, buf := buf }] 1 s).2.1 =
        [{ addr := a, flags := f, len := 1 + v, buf := b }]) ∧
    (ast_i2c_do_msgs_xfer cfg { page := page, waits := [w] }
      [{ addr := a, flags := f, len := 1, buf := buf }] 1 s).2.2.blk_r_flag = 1 ∧
    (∀ j < v, (wait_irqs cfg (ack :: rx0 :: rxs.take j)
      (submit_arm cfg page 1 { addr := a, flags := f, len := 1, buf := buf } s)).cmd_complete
        = 0) ∧
    (writes_to I2C_CMD_REG (ast_i2c_do_msgs_xfer cfg { page := page, waits := [w] }
      [{ addr := a, flags := f, len := 1, buf := buf }] 1 s).2.2.writes).length =
      (writes_to I2C_CMD_REG s.writes).length + 2 + v := by
  set s1 : ast_i2c_dev := { select_master_mode cfg page s with master_xfer_first := 0 }
    with hs1
  obtain ⟨a1, a2, a3⟩ := msg_arm_byte_rd cfg 1 0 a f 1 buf s1
    (by simpa [hs1, select_master_mode, hcfg] using hs) hrd hst
    (by simp [hs1, select_master_mode, hcfg]) (by simp [hs1, select_master_mode, hcfg])
    (by simp [hs1, select_master_mode, hcfg])
  have hsub : submit_arm cfg page 1 { addr := a, flags := f, len := 1, buf := buf } s =
      msg_arm cfg 1 0 { addr := a, flags := f, len := 1, buf := buf } s1 := rfl
  rw [← hsub] at a1 a2 a3
  have hbus : (submit_arm cfg page 1 { addr := a, flags := f, len := 1, buf := buf } s).bus_id
      = s.bus_id := by
    rw [a3]; simp [hs1, select_master_mode, hcfg]
  have hw0 : writes_to I2C_CMD_REG s1.writes = writes_to I2C_CMD_REG s.writes := by
    simp [hs1, select_master_mode, hcfg]
  obtain ⟨w1, w2, ⟨b, w3⟩, w4, w5, _, w7, w8⟩ := byte_block_wait cfg a f v _ ack rx0 rxs a1 hrl
    (by rw [hbus]; exact hack) (by rw [hbus]; exact hrx0) hbyte hlen
    (fun ev hev => by rw [hbus]; exact hrxs ev hev)
  have hone := do_msgs_one cfg page w { addr := a, flags := f, len := 1, buf := buf } s _
    (by rw [hs]; decide) (by rw [hirqs]) (by rw [w1]; decide)
  rw [hone]
  refine ⟨by simp [w2], ⟨b, by simp [w2, w3]⟩, by simp [w2, w4, w5, apply_ite], w8, ?_⟩
  simp only [w2, ne_eq, not_true_eq_false, false_and, if_false, w5, reduceCtorEq]
  rw [w7, a2, hw0]

/-- C14 for `v = 2` and for `v = 0`: with a first byte 2 the message ends with
length 3 after two more bytes; with a first byte 0 it ends with length 1 right
after the first byte and only the start and one receive command were
written. -/
theorem C14_block_read_witness :
    (ast_i2c_do_msgs_xfer {}
      { waits := [{ irqs := [ack_irq, rx_byte_irq 2, rx_byte_irq 0xAA, rx_last_irq 0xBB] }] }
      [{ addr := 0x50, flags := I2C_M_RD ||| I2C_M_RECV_LEN, len := 1, buf := [0, 0, 0] }]
      1 {}).1 = 1 ∧
    (∃ b, (ast_i2c_do_msgs_xfer {}
      { waits := [{ irqs := [ack_irq, rx_byte_irq 2, rx_byte_irq 0xAA, rx_last_irq 0xBB] }] }
      [{ addr := 0x50, flags := I2C_M_RD ||| I2C_M_RECV_LEN, len := 1, buf := [0, 0, 0] }]
      1 {}).2.1 = [{ addr := 0x50, flags := I2C_M_RD ||| I2C_M_RECV_LEN, len := 1 + 2,
                     buf := b }]) ∧
    (ast_i2c_do_msgs_xfer {} { waits := [{ irqs := [ack_irq, rx_byte_irq 0] }] }
      [{ addr := 0x50, flags := I2C_M_RD ||| I2C_M_RECV_LEN, len := 1, buf := [0, 0, 0] }]
      1 {}).1 = 1 ∧
    (writes_to I2C_CMD_REG (ast_i2c_do_msgs_xfer {}
      { waits := [{ irqs := [ack_irq, rx_byte_irq 0] }] }
      [{ addr := 0x50, flags := I2C_M_RD ||| I2C_M_RECV_LEN, len := 1, buf := [0, 0, 0] }]
      1 {}).2.2.writes).length = 2 := by
  have h2 := C14_block_read {} {} 0x50 (I2C_M_RD ||| I2C_M_RECV_LEN) 2 [0, 0, 0] ack_irq
    (rx_byte_irq 2) [rx_byte_irq 0xAA, rx_last_irq 0xBB]
    { irqs := [ack_irq, rx_byte_irq 2, rx_byte_irq 0xAA, rx_last_irq 0xBB] } none
    rfl rfl (by decide) (by decide) (by decide) rfl (by decide) (by decide) (by decide)
    rfl (by decide)
  have h0 := C14_block_read {} {} 0x50 (I2C_M_RD ||| I2C_M_RECV_LEN) 0 [0, 0, 0] ack_irq
    (rx_byte_irq 0) [] { irqs := [ack_irq, rx_byte_irq 0] } none
    rfl rfl (by decide) (by decide) (by decide) rfl (by decide) (by decide) (by decide)
    rfl (by decide)
  exact ⟨h2.1, h2.2.1, h0.1, h0.2.2.2.2⟩

/-- Masking the SMBus-alert bit out of the status leaves the abnormal and the
clock-low-timeout bit as they were. -/
theorem alert_mask_keeps (sts : Nat) :
    AST_I2CD_INTR_STS_ABNORMAL &&& (sts &&& not32 AST_I2CD_SMBUS_ALT_INTR_EN) =
      AST_I2CD_INTR_STS_ABNORMAL &&& sts ∧
    AST_I2CD_INTR_STS_SCL_TO &&& (sts &&& not32 AST_I2CD_SMBUS_ALT_INTR_EN) =
      AST_I2CD_INTR_STS_SCL_TO &&& sts := by
  constructor
  · rw [Nat.and_comm sts, ← Nat.and_assoc]
    have : AST_I2CD_INTR_STS_ABNORMAL &&& not32 AST_I2CD_SMBUS_ALT_INTR_EN =
      AST_I2CD_INTR_STS_ABNORMAL := by decide
    rw [this]
  · rw [Nat.and_comm sts, ← Nat.and_assoc]
    have : AST_I2CD_INTR_STS_SCL_TO &&& not32 AST_I2CD_SMBUS_ALT_INTR_EN =
      AST_I2CD_INTR_STS_SCL_TO := by decide
    rw [this]

/-- The handler on a status with the abnormal bit: the error is recorded and
the completion signalled; no bus reset, no dispatch, no command. -/
theorem handler_abnormal (cfg : Config) (ev : Irq) (s : ast_i2c_dev)
    (hbus : ev.isr_sts &&& (1 <<< s.bus_id) ≠ 0)
    (hab : AST_I2CD_INTR_STS_ABNORMAL &&& ev.sts ≠ 0) :
    (i2c_ast_handler cfg ev s).2.cmd_err = s.cmd_err ||| AST_I2CD_INTR_STS_ABNORMAL ∧
    (i2c_ast_handler cfg ev s).2.cmd_complete = s.cmd_complete + 1 ∧
    (i2c_ast_handler cfg ev s).2.bus_master_reset_cnt = s.bus_master_reset_cnt ∧
    (i2c_ast_handler cfg ev s).2.master_xfer_cnt = s.master_xfer_cnt ∧
    (i2c_ast_handler cfg ev s).2.master_msgs = s.master_msgs ∧
    writes_to I2C_CMD_REG (i2c_ast_handler cfg ev s).2.writes =
      writes_to I2C_CMD_REG s.writes := by
  have hm := (alert_mask_keeps ev.sts).1
  by_cases halt : AST_I2CD_INTR_STS_SMBUS_ALT &&& ev.sts = 0
  · by_cases h1 : ev.sts &&& AST_I2CD_INTR_STS_TX_ACK = 0 <;>
    by_cases h2 : ev.sts &&& AST_I2CD_INTR_STS_TX_NAK = 0 <;>
    simp [i2c_ast_handler, hbus, take_irq, ast_i2c_read, halt, hab, clear_sts, complete,
      ast_i2c_write, writes_to, h1, h2]
  · by_cases h1 : ev.sts &&& not32 AST_I2CD_SMBUS_ALT_INTR_EN &&& AST_I2CD_INTR_STS_TX_ACK = 0 <;>
    by_cases h2 : ev.sts &&& not32 AST_I2CD_SMBUS_ALT_INTR_EN &&& AST_I2CD_INTR_STS_TX_NAK = 0 <;>
    simp [i2c_ast_handler, hbus, take_irq, ast_i2c_read, halt, hab, hm, clear_sts, complete,
      intr_ctrl_clear, ast_i2c_write, writes_to, h1, h2]

/-- The handler on a status with the clock-low-timeout bit and without the
abnormal bit: it returns the bus reset of a state in which the error is
recorded and the completion signalled, reached without dispatch and without
command. -/
theorem handler_scl_to (cfg : Config) (ev : Irq) (s : ast_i2c_dev)
    (hbus : ev.isr_sts &&& (1 <<< s.bus_id) ≠ 0)
    (hab : AST_I2CD_INTR_STS_ABNORMAL &&& ev.sts = 0)
    (hto : AST_I2CD_INTR_STS_SCL_TO &&& ev.sts ≠ 0) :
    ∃ t : ast_i2c_dev, (i2c_ast_handler cfg ev s).2 = ast_i2c_bus_reset cfg ev.recov t ∧
      t.cmd_err = s.cmd_err ||| AST_I2CD_INTR_STS_SCL_TO ∧
      t.cmd_complete = s.cmd_complete + 1 ∧
      t.bus_master_reset_cnt = s.bus_master_reset_cnt ∧
      t.master_xfer_cnt = s.master_xfer_cnt ∧
      writes_to I2C_CMD_REG t.writes = writes_to I2C_CMD_REG s.writes ∧
      t.regs I2C_CMD_REG = ev.cmd := by
  obtain ⟨hm1, hm2⟩ := alert_mask_keeps ev.sts
  by_cases halt : AST_I2CD_INTR_STS_SMBUS_ALT &&& ev.sts = 0
  · refine ⟨complete { clear_sts { take_irq ev s with state := (ev.cmd >>> 19) &&& 0xf }
        AST_I2CD_INTR_STS_SCL_TO with
        cmd_err := s.cmd_err ||| AST_I2CD_INTR_STS_SCL_TO }, ?_, ?_⟩
    · simp [i2c_ast_handler, hbus, take_irq, ast_i2c_read, halt, hab, hto, clear_sts,
        ast_i2c_write]
    · simp [clear_sts, complete, ast_i2c_write, writes_to, Reg.isStorage, take_irq]
  · refine ⟨complete { clear_sts (clear_sts (intr_ctrl_clear
        { take_irq ev s with state := (ev.cmd >>> 19) &&& 0xf } AST_I2CD_SMBUS_ALT_INTR_EN)
        AST_I2CD_INTR_STS_SMBUS_ALT) AST_I2CD_INTR_STS_SCL_TO with
        cmd_err := s.cmd_err ||| AST_I2CD_INTR_STS_SCL_TO }, ?_, ?_⟩
    · simp [i2c_ast_handler, hbus, take_irq, ast_i2c_read, halt, hm1, hm2, hab, hto, clear_sts,
        ast_i2c_write, intr_ctrl_clear]
    · simp [clear_sts, complete, ast_i2c_write, writes_to, Reg.isStorage, intr_ctrl_clear,
        ast_i2c_read, take_irq]

/-- A bus reset at which both lines read high leaves the recorded error and
the completion as they are. -/
theorem bus_reset_lines_high (cfg : Config) (env : RecoverEnv) (t : ast_i2c_dev)
    (hsda : t.regs I2C_CMD_REG &&& AST_I2CD_SDA_LINE_STS ≠ 0)
    (hscl : t.regs I2C_CMD_REG &&& AST_I2CD_SCL_LINE_STS ≠ 0) :
    (ast_i2c_bus_reset cfg env t).cmd_err = t.cmd_err ∧
    (ast_i2c_bus_reset cfg env t).cmd_complete = t.cmd_complete := by
  by_cases h : t.regs I2C_FUN_CTRL_REG &&& AST_I2CD_MASTER_EN ≠ 0 ∧
      ¬ (t.regs I2C_FUN_CTRL_REG &&& AST_I2CD_SLAVE_EN ≠ 0) <;>
  simp [ast_i2c_bus_reset, ast_i2c_bus_error_recover, ast_i2c_read, h, hsda, hscl,
    ast_i2c_write]

/-- C15 fails as stated. After initialisation, an interrupt with the abnormal
bit is handled without a bus reset: `bus_master_reset_cnt` keeps its value.
And at a clock-low timeout with SDA high and SCL low the reset that follows
the completion issues a stop and re-initialises both the error accumulator and
the completion, so that at the return of the handler `cmd_err` does not hold
the timeout bit and no completion is pending. -/
theorem C15_abnormal_no_reset :
    AST_I2CD_INTR_STS_ABNORMAL &&& abnormal_irq.sts ≠ 0 ∧
    (i2c_ast_handler {} abnormal_irq (ast_i2c_dev_init {} {})).2.bus_master_reset_cnt =
      (ast_i2c_dev_init {} {}).bus_master_reset_cnt ∧
    AST_I2CD_INTR_STS_SCL_TO &&& scl_to_irq.sts ≠ 0 ∧
    (i2c_ast_handler {} scl_to_irq (ast_i2c_dev_init {} {})).2.cmd_err = 0 ∧
    (i2c_ast_handler {} scl_to_irq (ast_i2c_dev_init {} {})).2.cmd_complete = 0 ∧
    (i2c_ast_handler {} scl_to_irq (ast_i2c_dev_init {} {})).2.bus_master_reset_cnt = 1 := by
  decide

/-- C15 (amended): for an interrupt of this bus, (1) a status with the
abnormal bit makes the handler add that bit to `cmd_err`, signal the
completion and return without dispatch (message progress and command register
untouched) and without a bus reset (`bus_master_reset_cnt` unchanged); (2) a
status with the clock-low-timeout bit and without the abnormal bit makes it
add that bit and signal the completion, then force one bus reset
(`bus_master_reset_cnt` advances by one modulo 2^16) and return without
dispatch, the only commands written being those of the recovery; the recorded
bit and the completion are still there at the return when both lines read
high. -/
theorem C15_abnormal_and_scl_to (cfg : Config) (ev : Irq) (s : ast_i2c_dev)
    (hbus : ev.isr_sts &&& (1 <<< s.bus_id) ≠ 0) :
    (AST_I2CD_INTR_STS_ABNORMAL &&& ev.sts ≠ 0 →
      (i2c_ast_handler cfg ev s).1 = irqreturn.IRQ_HANDLED ∧
      (i2c_ast_handler cfg ev s).2.cmd_err = s.cmd_err ||| AST_I2CD_INTR_STS_ABNORMAL ∧
      (i2c_ast_handler cfg ev s).2.cmd_complete = s.cmd_complete + 1 ∧
      (i2c_ast_handler cfg ev s).2.bus_master_reset_cnt = s.bus_master_reset_cnt ∧
      (i2c_ast_handler cfg ev s).2.master_xfer_cnt = s.master_xfer_cnt ∧
      (i2c_ast_handler cfg ev s).2.master_msgs = s.master_msgs ∧
      writes_to I2C_CMD_REG (i2c_ast_handler cfg ev s).2.writes =
        writes_to I2C_CMD_REG s.writes) ∧
    (AST_I2CD_INTR_STS_ABNORMAL &&& ev.sts = 0 → AST_I2CD_INTR_STS_SCL_TO &&& ev.sts ≠ 0 →
      (∃ t : ast_i2c_dev,
        t.cmd_err = s.cmd_err ||| AST_I2CD_INTR_STS_SCL_TO ∧
        t.cmd_complete = s.cmd_complete + 1 ∧
        writes_to I2C_CMD_REG t.writes = writes_to I2C_CMD_REG s.writes ∧
        (i2c_ast_handler cfg ev s).2 = ast_i2c_bus_reset cfg ev.recov t) ∧
      (i2c_ast_handler cfg ev s).2.bus_master_reset_cnt = inc16 s.bus_master_reset_cnt ∧
      (i2c_ast_handler cfg ev s).2.master_xfer_cnt = s.master_xfer_cnt ∧
      OnlyRecoveryCmds s (i2c_ast_handler cfg ev s).2 ∧
      (ev.cmd &&& AST_I2CD_SDA_LINE_STS ≠ 0 → ev.cmd &&& AST_I2CD_SCL_LINE_STS ≠ 0 →
        (i2c_ast_handler cfg ev s).2.cmd_err = s.cmd_err ||| AST_I2CD_INTR_STS_SCL_TO ∧
        (i2c_ast_handler cfg ev s).2.cmd_complete = s.cmd_complete + 1)) := by
  constructor
  · intro hab
    refine ⟨?_, handler_abnormal cfg ev s hbus hab⟩
    have hm := (alert_mask_keeps ev.sts).1
    by_cases halt : AST_I2CD_INTR_STS_SMBUS_ALT &&& ev.sts = 0 <;>
    simp [i2c_ast_handler, hbus, take_irq, ast_i2c_read, halt, hab, hm]
  · intro hab hto
    obtain ⟨t, e, t1, t2, t3, t4, t5, t6⟩ := handler_scl_to cfg ev s hbus hab hto
    obtain ⟨f1, _, f3⟩ := bus_reset_frame cfg ev.recov t
    refine ⟨⟨t, t1, t2, t5, e⟩, ?_, ?_, ?_, ?_⟩
    · rw [e, bus_reset_cnt, t3]
    · rw [e, f1, t4]
    · rw [e]
      exact onlyRecoveryCmds_trans (onlyRecoveryCmds_of_eq t5) f3
    · intro hsda hscl
      obtain ⟨g1, g2⟩ := bus_reset_lines_high cfg ev.recov t (by rw [t6]; exact hsda)
        (by rw [t6]; exact hscl)
      rw [e, g1, g2, t1, t2]
      exact ⟨rfl, rfl⟩

/-- C15 at an abnormal interrupt and at a clock-low timeout with both lines
high, after initialisation. -/
theorem C15_abnormal_and_scl_to_witness :
    (i2c_ast_handler {} abnormal_irq (ast_i2c_dev_init {} {})).2.cmd_err =
      (ast_i2c_dev_init {} {}).cmd_err ||| AST_I2CD_INTR_STS_ABNORMAL ∧
    (i2c_ast_handler {} abnormal_irq (ast_i2c_dev_init {} {})).2.bus_master_reset_cnt =
      (ast_i2c_dev_init {} {}).bus_master_reset_cnt ∧
    (i2c_ast_handler {}
      { isr_sts := 1, sts := AST_I2CD_INTR_STS_SCL_TO,
        cmd := AST_I2CD_SDA_LINE_STS ||| AST_I2CD_SCL_LINE_STS }
      (ast_i2c_dev_init {} {})).2.bus_master_reset_cnt =
        inc16 (ast_i2c_dev_init {} {}).bus_master_reset_cnt ∧
    (i2c_ast_handler {}
      { isr_sts := 1, sts := AST_I2CD_INTR_STS_SCL_TO,
        cmd := AST_I2CD_SDA_LINE_STS ||| AST_I2CD_SCL_LINE_STS }
      (ast_i2c_dev_init {} {})).2.cmd_err =
        (ast_i2c_dev_init {} {}).cmd_err ||| AST_I2CD_INTR_STS_SCL_TO :=
  ⟨((C15_abnormal_and_scl_to {} abnormal_irq (ast_i2c_dev_init {} {}) (by decide)).1
      (by decide)).2.1,
   ((C15_abnormal_and_scl_to {} abnormal_irq (ast_i2c_dev_init {} {}) (by decide)).1
      (by decide)).2.2.2.1,
   ((C15_abnormal_and_scl_to {}
      { isr_sts := 1, sts := AST_I2CD_INTR_STS_SCL_TO,
        cmd := AST_I2CD_SDA_LINE_STS ||| AST_I2CD_SCL_LINE_STS }
      (ast_i2c_dev_init {} {}) (by decide)).2 (by decide) (by decide)).2.1,
   (((C15_abnormal_and_scl_to {}
      { isr_sts := 1, sts := AST_I2CD_INTR_STS_SCL_TO,
        cmd := AST_I2CD_SDA_LINE_STS ||| AST_I2CD_SCL_LINE_STS }
      (ast_i2c_dev_init {} {}) (by decide)).2 (by decide) (by decide)).2.2.2.2
        (by decide) (by decide)).1⟩

/-- C16, the code at the failing input: a 1-byte write in byte mode whose data
byte is answered by an interrupt with arbitration loss and transmit
acknowledge latched together. The status has the arbitration-loss bit and
neither the abnormal nor the timeout bit; the sweep records the loss and then
dispatches the acknowledge to the master completion routine, which finds the
message finished and stores 0 in `cmd_err`. At the return of the handler
`cmd_err` is 0, and the submit call reports success for the message. -/
theorem C16_arbitration_loss_overwritten :
    AST_I2CD_INTR_STS_ARBIT_LOSS &&& arb_ack_irq.sts ≠ 0 ∧
    AST_I2CD_INTR_STS_ABNORMAL &&& arb_ack_irq.sts = 0 ∧
    AST_I2CD_INTR_STS_SCL_TO &&& arb_ack_irq.sts = 0 ∧
    (wait_irqs {} [ack_irq] (submit_arm {} none 1 write1 {})).cmd_complete = 0 ∧
    (i2c_ast_handler {} arb_ack_irq
      (wait_irqs {} [ack_irq] (submit_arm {} none 1 write1 {}))).2.cmd_err = 0 ∧
    (i2c_ast_handler {} arb_ack_irq
      (wait_irqs {} [ack_irq] (submit_arm {} none 1 write1 {}))).2.cmd_complete = 2 ∧
    (ast_i2c_do_msgs_xfer {} { waits := [{ irqs := [ack_irq, arb_ack_irq] }] }
      [write1] 1 {}).1 = 1 := by
  decide

/-- C17, the code at the failing input: an interrupt with arbitration loss and
normal stop latched together while no slave transaction is active falls to the
bit-by-bit sweep. The values written to the interrupt-status register are the
arbitration-loss bit, the transmit-acknowledge bit (written in the place of
the normal-stop bit) and the empty residue: the normal-stop bit, set in the
status, is in none of them. -/
theorem C17_stop_bit_not_cleared :
    arb_stop_irq.sts &&& AST_I2CD_INTR_STS_NORMAL_STOP ≠ 0 ∧
    (i2c_ast_handler {} arb_stop_irq {}).2 =
      handler_default {} arb_stop_irq arb_stop_irq.sts
        { take_irq arb_stop_irq {} with state := 0 } ∧
    writes_to I2C_INTR_STS_REG (i2c_ast_handler {} arb_stop_irq {}).2.writes =
      [AST_I2CD_INTR_STS_ARBIT_LOSS, AST_I2CD_INTR_STS_TX_ACK, 0] ∧
    (∀ v ∈ writes_to I2C_INTR_STS_REG (i2c_ast_handler {} arb_stop_irq {}).2.writes,
      v &&& AST_I2CD_INTR_STS_NORMAL_STOP = 0) := by
  refine ⟨by decide, ?_, by decide, by decide⟩
  simp +decide [i2c_ast_handler, arb_stop_irq, take_irq, ast_i2c_read, handler_switch,
    AST_I2CD_INTR_STS_SMBUS_ALT, AST_I2CD_INTR_STS_ABNORMAL, AST_I2CD_INTR_STS_SCL_TO,
    AST_I2CD_INTR_STS_NORMAL_STOP, AST_I2CD_INTR_STS_ARBIT_LOSS, AST_I2CD_INTR_STS_TX_ACK,
    AST_I2CD_INTR_STS_TX_NAK, AST_I2CD_INTR_STS_RX_DOWN, AST_I2CD_INTR_STS_SLAVE_MATCH,
    AST_I2CD_INTR_STS_GCALL_ADDR, AST_I2CD_INTR_STS_SMBUS_DEF_ADDR,
    AST_I2CD_INTR_STS_SMBUS_DEV_ALT, AST_I2CD_INTR_STS_SMBUS_ARP_ADDR,
    AST_I2CD_INTR_STS_SDA_DL_TO, AST_I2CD_INTR_STS_BUS_RECOVER]

theorem dev_init_recovery_cnt (cfg : Config) (s : ast_i2c_dev) :
    (ast_i2c_dev_init cfg s).bus_slave_recovery_cnt = s.bus_slave_recovery_cnt := by
  simp only [ast_i2c_dev_init, init_completion, apply_ite ast_i2c_dev.bus_slave_recovery_cnt,
    show ∀ (s : ast_i2c_dev) (v : Nat) (r : Reg),
      (ast_i2c_write s v r).bus_slave_recovery_cnt = s.bus_slave_recovery_cnt
      from fun _ _ _ => rfl, ite_self]

theorem dev_init_bus_status (cfg : Config) (s : ast_i2c_dev) :
    (ast_i2c_dev_init cfg s).bus_status = s.bus_status := by
  simp only [ast_i2c_dev_init, init_completion, apply_ite ast_i2c_dev.bus_status,
    show ∀ (s : ast_i2c_dev) (v : Nat) (r : Reg),
      (ast_i2c_write s v r).bus_status = s.bus_status from fun _ _ _ => rfl, ite_self]

theorem headD_eq_getD_zero (resps : List WaitResp) : resps.headD {} = resps.getD 0 {} := by
  cases resps <;> rfl

theorem tail_getD (resps : List WaitResp) (i : Nat) :
    resps.tail.getD i {} = resps.getD (i + 1) {} := by
  cases resps <;> rfl

/-- One pass of the retry loop of the slave reset: a state `A` is reached by
one recovery command, with the recovery counter advanced by one; then the loop
ends in failure after a command error, ends in success when SDA reads high,
and goes on from `A` otherwise. -/
theorem slave_reset_loop_succ (cfg : Config) (tmp n : Nat) (resps : List WaitResp)
    (s : ast_i2c_dev) :
    ∃ A : ast_i2c_dev,
      writes_to I2C_CMD_REG A.writes =
        writes_to I2C_CMD_REG s.writes ++ [AST_I2CD_BUS_RECOVER_CMD_EN] ∧
      A.bus_slave_recovery_cnt = inc16 s.bus_slave_recovery_cnt ∧
      A.bus_status = s.bus_status ∧
      A.bus_master_reset_cnt = s.bus_master_reset_cnt ∧
      slave_reset_loop cfg tmp (n + 1) resps s =
        if (resps.getD 0 {}).failed then
          (255, { A with func_ctrl_reg := tmp,
                         bus_status := A.bus_status ||| (0x1 <<< SLAVE_DEAD_RECOVER_ERROR) })
        else if (resps.getD 0 {}).sdaHigh then
          (0, { A with func_ctrl_reg := tmp,
                       bus_status := A.bus_status ||| (0x1 <<< SLAVE_DEAD_RECOVER_SUCCESS) })
        else slave_reset_loop cfg tmp n resps.tail A := by
  refine ⟨recover_wait (resps.headD {})
    (ast_i2c_write
      { init_completion { ast_i2c_dev_init cfg s with
          bus_slave_recovery_cnt := inc16 (ast_i2c_dev_init cfg s).bus_slave_recovery_cnt }
        with cmd_err := 0 }
      AST_I2CD_BUS_RECOVER_CMD_EN I2C_CMD_REG), ?_, ?_, ?_, ?_, ?_⟩
  · simp only [recover_wait, writes_to_write, if_true, init_completion]
    rw [dev_init_cmds]
  · simp [recover_wait, ast_i2c_write, init_completion, dev_init_recovery_cnt]
  · simp [recover_wait, ast_i2c_write, init_completion, dev_init_bus_status]
  · simp [recover_wait, ast_i2c_write, init_completion, dev_init_reset_cnt]
  · rw [slave_reset_loop, ← headD_eq_getD_zero]
    simp only [WaitResp.failed, WaitResp.sdaHigh]
    generalize ast_i2c_dev_init cfg s = D
    generalize resps.headD {} = r
    by_cases h1 : r.cmd_err ≠ 0 ∧ r.cmd_err ≠ AST_I2CD_INTR_STS_NORMAL_STOP
    · simp [recover_wait, init_completion, ast_i2c_write, h1]
    · by_cases h2 : r.cmd &&& AST_I2CD_SDA_LINE_STS ≠ 0
      · simp [recover_wait, init_completion, ast_i2c_write, ast_i2c_read, h2, h1]
      · simp [recover_wait, init_completion, ast_i2c_write, ast_i2c_read, h2, h1]

theorem or_bit_other (x k : Nat) (hk : k ≠ UNDEFINED_CASE) :
    (x ||| (0x1 <<< k)).testBit UNDEFINED_CASE = x.testBit UNDEFINED_CASE := by
  rw [Nat.testBit_or, Nat.one_shiftLeft, Nat.testBit_two_pow]
  simp [hk]

/-- The retry loop of the slave reset with `n` attempts left: it issues `j`
recovery commands, `j` between 1 and `n`, and advances the recovery counter
`j` times; it restores the function-control value; it reports success exactly
when some attempt finds SDA high with no command error up to it. -/
theorem slave_reset_loop_run (cfg : Config) (tmp : Nat) :
    ∀ (n : Nat) (resps : List WaitResp) (s : ast_i2c_dev),
    ∃ j, j ≤ n ∧ (0 < n → 0 < j) ∧
      writes_to I2C_CMD_REG (slave_reset_loop cfg tmp n resps s).2.writes =
        writes_to I2C_CMD_REG s.writes ++ List.replicate j AST_I2CD_BUS_RECOVER_CMD_EN ∧
      (slave_reset_loop cfg tmp n resps s).2.bus_slave_recovery_cnt =
        inc16^[j] s.bus_slave_recovery_cnt ∧
      (slave_reset_loop cfg tmp n resps s).2.func_ctrl_reg = tmp ∧
      (slave_reset_loop cfg tmp n resps s).2.bus_master_reset_cnt = s.bus_master_reset_cnt ∧
      (slave_reset_loop cfg tmp n resps s).2.bus_status.testBit UNDEFINED_CASE =
        s.bus_status.testBit UNDEFINED_CASE ∧
      ((slave_reset_loop cfg tmp n resps s).1 = 0 ∨
        (slave_reset_loop cfg tmp n resps s).1 = 255) ∧
      ((slave_reset_loop cfg tmp n resps s).1 = 0 ↔
        ∃ k < n, (∀ i ≤ k, ¬ (resps.getD i {}).failed) ∧ (resps.getD k {}).sdaHigh) ∧
      (StuckLow resps n → j = n ∧ (slave_reset_loop cfg tmp n resps s).1 = 255) ∧
      (∀ k < n, StuckLow resps k → ¬ (resps.getD k {}).failed → (resps.getD k {}).sdaHigh →
        j = k + 1 ∧ (slave_reset_loop cfg tmp n resps s).1 = 0) := by
  intro n
  induction n with
  | zero =>
    intro resps s
    refine ⟨0, le_refl _, fun h => absurd h (by decide), ?_, rfl, rfl, rfl, ?_, Or.inr rfl,
      ?_, fun _ => ⟨rfl, rfl⟩, fun k hk => absurd hk (by omega)⟩
    · simp [slave_reset_loop]
    · exact or_bit_other _ _ (by decide)
    · constructor
      · intro h
        simp [slave_reset_loop] at h
      · rintro ⟨k, hk, _⟩
        omega
  | succ n ih =>
    intro resps s
    obtain ⟨A, a1, a2, a3, a4, e⟩ := slave_reset_loop_succ cfg tmp n resps s
    rw [e]
    by_cases h1 : (resps.getD 0 {}).failed
    · rw [if_pos h1]
      refine ⟨1, by omega, fun _ => by omega, ?_, ?_, rfl, a4, ?_, Or.inr rfl, ?_, ?_, ?_⟩
      · simpa using a1
      · simpa using a2
      · show (A.bus_status ||| _).testBit _ = _
        rw [or_bit_other _ _ (by decide), a3]
      · constructor
        · intro h
          simp at h
        · rintro ⟨k, _, hk, _⟩
          exact absurd h1 (hk 0 (by omega))
      · intro hst
        exact absurd h1 (hst 0 (by omega)).1
      · intro k _ hst hf _
        rcases Nat.eq_zero_or_pos k with hk | hk
        · subst hk
          exact absurd h1 hf
        · exact absurd h1 (hst 0 hk).1
    · by_cases h2 : (resps.getD 0 {}).sdaHigh
      · rw [if_neg h1, if_pos h2]
        refine ⟨1, by omega, fun _ => by omega, ?_, ?_, rfl, a4, ?_, Or.inl rfl, ?_, ?_, ?_⟩
        · simpa using a1
        · simpa using a2
        · show (A.bus_status ||| _).testBit _ = _
          rw [or_bit_other _ _ (by decide), a3]
        · constructor
          · intro _
            refine ⟨0, by omega, ?_, h2⟩
            intro i hi
            have : i = 0 := by omega
            subst this
            exact h1
          · intro _
            rfl
        · intro hst
          exact absurd h2 (hst 0 (by omega)).2
        · intro k _ hst _ _
          rcases Nat.eq_zero_or_pos k with hk | hk
          · subst hk
            exact ⟨rfl, rfl⟩
          · exact absurd h2 (hst 0 hk).2
      · rw [if_neg h1, if_neg h2]
        obtain ⟨j, j1, j2, j3, j4, j5, j6, j7, j8, j9, j10, j11⟩ := ih resps.tail A
        refine ⟨j + 1, by omega, fun _ => by omega, ?_, ?_, j5, ?_, ?_, j8, ?_, ?_, ?_⟩
        · rw [j3, a1, List.append_assoc]
          rfl
        · rw [j4, a2, Function.iterate_succ_apply]
        · rw [j6, a4]
        · rw [j7, a3]
        · rw [j9]
          constructor
          · rintro ⟨k, hk, hf, hh⟩
            refine ⟨k + 1, by omega, ?_, ?_⟩
            · intro i hi
              rcases Nat.eq_zero_or_pos i with h0 | h0
              · subst h0
                exact h1
              · have := hf (i - 1) (by omega)
                rw [tail_getD, Nat.sub_add_cancel h0] at this
                exact this
            · rw [← tail_getD]
              exact hh
          · rintro ⟨k, hk, hf, hh⟩
            rcases Nat.eq_zero_or_pos k with h0 | h0
            · subst h0
              exact absurd hh h2
            · refine ⟨k - 1, by omega, ?_, ?_⟩
              · intro i hi
                rw [tail_getD]
                exact hf (i + 1) (by omega)
              · rw [tail_getD, Nat.sub_add_cancel h0]
                exact hh
        · intro hst
          have hst2 : StuckLow resps.tail n := by
            intro i hi
            rw [tail_getD]
            exact hst (i + 1) (by omega)
          obtain ⟨q1, q2⟩ := j10 hst2
          exact ⟨by omega, q2⟩
        · intro k hk hst hf hh
          rcases Nat.eq_zero_or_pos k with h0 | h0
          · subst h0
            exact absurd hh h2
          · have hst2 : StuckLow resps.tail (k - 1) := by
              intro i hi
              rw [tail_getD]
              exact hst (i + 1) (by omega)
            have hf2 : ¬ (resps.tail.getD (k - 1) {}).failed := by
              rw [tail_getD, Nat.sub_add_cancel h0]
              exact hf
            have hh2 : (resps.tail.getD (k - 1) {}).sdaHigh := by
              rw [tail_getD, Nat.sub_add_cancel h0]
              exact hh
            obtain ⟨q1, q2⟩ := j11 (k - 1) (by omega) hst2 hf2 hh2
            exact ⟨by omega, q2⟩

theorem inc16_iterate (x : Nat) : ∀ j, 0 < j → inc16^[j] x = (x + j) % 2 ^ 16 := by
  intro j
  induction j with
  | zero => intro h; omega
  | succ j ih =>
    intro _
    rw [Function.iterate_succ_apply']
    rcases Nat.eq_zero_or_pos j with h0 | h0
    · subst h0
      rfl
    · rw [ih h0]
      simp only [inc16]
      omega

/-- The recovery with SDA low is the slave reset. -/
theorem bus_error_recover_sda_low (cfg : Config) (env : RecoverEnv) (s : ast_i2c_dev)
    (hsda : ast_i2c_read s I2C_CMD_REG &&& AST_I2CD_SDA_LINE_STS = 0) :
    ast_i2c_bus_error_recover cfg env s = ast_i2c_slave_reset cfg env.slave s := by
  unfold ast_i2c_bus_error_recover
  simp only [hsda, ne_eq, not_true_eq_false, false_and, if_false, not_false_eq_true, if_true]
  split_ifs with h
  · exact Prod.ext h.symm rfl
  · rfl

/-- C18: `ast_i2c_bus_error_recover` takes the path fixed by the SDA and SCL
bits of the command/status register. Both high: it returns 255 and the state
is unchanged. SDA high and SCL low: it writes one STOP command, leaves both
counters alone and classifies the outcome: command error (255, error bit),
timeout (255, timeout bit), success (0, success bit). SDA low: it is the slave
reset, which issues between 1 and 10 recovery commands. In every case the
UNDEFINED_CASE bit of `bus_status` keeps its value. -/
theorem C18_recover_paths (cfg : Config) (env : RecoverEnv) (s : ast_i2c_dev) :
    (ast_i2c_read s I2C_CMD_REG &&& AST_I2CD_SDA_LINE_STS ≠ 0 →
      ast_i2c_read s I2C_CMD_REG &&& AST_I2CD_SCL_LINE_STS ≠ 0 →
      ast_i2c_bus_error_recover cfg env s = (255, s)) ∧
    (ast_i2c_read s I2C_CMD_REG &&& AST_I2CD_SDA_LINE_STS ≠ 0 →
      ast_i2c_read s I2C_CMD_REG &&& AST_I2CD_SCL_LINE_STS = 0 →
      writes_to I2C_CMD_REG (ast_i2c_bus_error_recover cfg env s).2.writes =
        writes_to I2C_CMD_REG s.writes ++ [AST_I2CD_M_STOP_CMD] ∧
      (ast_i2c_bus_error_recover cfg env s).2.bus_slave_recovery_cnt =
        s.bus_slave_recovery_cnt ∧
      (ast_i2c_bus_error_recover cfg env s).2.bus_master_reset_cnt = s.bus_master_reset_cnt ∧
      (env.stop.failed →
        (ast_i2c_bus_error_recover cfg env s).1 = 255 ∧
        (ast_i2c_bus_error_recover cfg env s).2.bus_status =
          s.bus_status ||| (0x1 <<< BUS_LOCK_RECOVER_ERROR)) ∧
      (¬ env.stop.failed → env.stop.ret = 0 →
        (ast_i2c_bus_error_recover cfg env s).1 = 255 ∧
        (ast_i2c_bus_error_recover cfg env s).2.bus_status =
          s.bus_status ||| (0x1 <<< BUS_LOCK_RECOVER_TIMEOUT)) ∧
      (¬ env.stop.failed → env.stop.ret ≠ 0 →
        (ast_i2c_bus_error_recover cfg env s).1 = 0 ∧
        (ast_i2c_bus_error_recover cfg env s).2.bus_status =
          s.bus_status ||| (0x1 <<< BUS_LOCK_RECOVER_SUCCESS))) ∧
    (ast_i2c_read s I2C_CMD_REG &&& AST_I2CD_SDA_LINE_STS = 0 →
      ast_i2c_bus_error_recover cfg env s = ast_i2c_slave_reset cfg env.slave s ∧
      ∃ j, 1 ≤ j ∧ j ≤ 10 ∧
        writes_to I2C_CMD_REG (ast_i2c_bus_error_recover cfg env s).2.writes =
          writes_to I2C_CMD_REG s.writes ++ List.replicate j AST_I2CD_BUS_RECOVER_CMD_EN) ∧
    (ast_i2c_bus_error_recover cfg env s).2.bus_status.testBit UNDEFINED_CASE =
      s.bus_status.testBit UNDEFINED_CASE := by
  have hstop : ast_i2c_read s I2C_CMD_REG &&& AST_I2CD_SDA_LINE_STS ≠ 0 →
      ast_i2c_read s I2C_CMD_REG &&& AST_I2CD_SCL_LINE_STS = 0 →
      ast_i2c_bus_error_recover cfg env s =
        if env.stop.failed then
          (255, { recover_wait env.stop (ast_i2c_write { init_completion s with cmd_err := 0 }
              AST_I2CD_M_STOP_CMD I2C_CMD_REG) with
            bus_status := s.bus_status ||| (0x1 <<< BUS_LOCK_RECOVER_ERROR) })
        else if env.stop.ret = 0 then
          (255, { recover_wait env.stop (ast_i2c_write { init_completion s with cmd_err := 0 }
              AST_I2CD_M_STOP_CMD I2C_CMD_REG) with
            bus_status := s.bus_status ||| (0x1 <<< BUS_LOCK_RECOVER_TIMEOUT) })
        else
          (0, { recover_wait env.stop (ast_i2c_write { init_completion s with cmd_err := 0 }
              AST_I2CD_M_STOP_CMD I2C_CMD_REG) with
            bus_status := s.bus_status ||| (0x1 <<< BUS_LOCK_RECOVER_SUCCESS) }) := by
    intro hsda hscl
    by_cases hf : env.stop.cmd_err ≠ 0 ∧ env.stop.cmd_err ≠ AST_I2CD_INTR_STS_NORMAL_STOP
    · simp [ast_i2c_bus_error_recover, hsda, hscl, WaitResp.failed, hf, recover_wait,
        ast_i2c_write, init_completion]
    · by_cases hr : env.stop.ret = 0 <;>
      simp [ast_i2c_bus_error_recover, hsda, hscl, WaitResp.failed, hf, hr, recover_wait,
        ast_i2c_write, init_completion]
  refine ⟨?_, ?_, ?_, ?_⟩
  · intro hsda hscl
    simp [ast_i2c_bus_error_recover, hsda, hscl]
  · intro hsda hscl
    rw [hstop hsda hscl]
    by_cases hf : env.stop.failed
    · simp [hf, recover_wait, writes_to_write, init_completion, ast_i2c_write, writes_to]
    · by_cases hr : env.stop.ret = 0 <;>
      simp [hf, hr, recover_wait, writes_to_write, init_completion, ast_i2c_write, writes_to]
  · intro hsda
    obtain ⟨j, j1, j2, j3, _⟩ := slave_reset_loop_run cfg s.func_ctrl_reg 10 env.slave s
    rw [bus_error_recover_sda_low cfg env s hsda]
    exact ⟨rfl, j, j2 (by decide), j1, j3⟩
  · by_cases hsda : ast_i2c_read s I2C_CMD_REG &&& AST_I2CD_SDA_LINE_STS = 0
    · obtain ⟨j, _, _, _, _, _, _, j7, _⟩ :=
        slave_reset_loop_run cfg s.func_ctrl_reg 10 env.slave s
      rw [bus_error_recover_sda_low cfg env s hsda]
      exact j7
    · by_cases hscl : ast_i2c_read s I2C_CMD_REG &&& AST_I2CD_SCL_LINE_STS = 0
      · rw [hstop hsda hscl]
        split_ifs
        · exact or_bit_other _ _ (by decide)
        · exact or_bit_other _ _ (by decide)
        · exact or_bit_other _ _ (by decide)
      · simp [ast_i2c_bus_error_recover, hsda, hscl]

/-- C19: `ast_i2c_slave_reset` issues the bus-recovery command at least once
and at most 10 times and nothing else to the command register; it reports
success (0) exactly when some attempt `k` among the 10 finds SDA high with no
command error in the attempts up to and including `k`, and failure (255)
otherwise, in particular when all 10 attempts leave SDA low and when an
attempt reached with SDA still low ends with a command error; on every exit
`func_ctrl_reg` has its value at entry. -/
theorem C19_slave_reset (cfg : Config) (resps : List WaitResp) (s : ast_i2c_dev) :
    (∃ j, 1 ≤ j ∧ j ≤ 10 ∧
      writes_to I2C_CMD_REG (ast_i2c_slave_reset cfg resps s).2.writes =
        writes_to I2C_CMD_REG s.writes ++ List.replicate j AST_I2CD_BUS_RECOVER_CMD_EN) ∧
    ((ast_i2c_slave_reset cfg resps s).1 = 0 ↔
      ∃ k < 10, (∀ i ≤ k, ¬ (resps.getD i {}).failed) ∧ (resps.getD k {}).sdaHigh) ∧
    ((ast_i2c_slave_reset cfg resps s).1 = 0 ∨ (ast_i2c_slave_reset cfg resps s).1 = 255) ∧
    (StuckLow resps 10 → (ast_i2c_slave_reset cfg resps s).1 = 255) ∧
    (∀ k < 10, StuckLow resps k → (resps.getD k {}).failed →
      (ast_i2c_slave_reset cfg resps s).1 = 255) ∧
    (ast_i2c_slave_reset cfg resps s).2.func_ctrl_reg = s.func_ctrl_reg := by
  obtain ⟨j, j1, j2, j3, _, j5, _, _, j8, j9, j10, _⟩ :=
    slave_reset_loop_run cfg s.func_ctrl_reg 10 resps s
  unfold ast_i2c_slave_reset
  refine ⟨⟨j, j2 (by decide), j1, j3⟩, j9, j8, fun h => (j10 h).2, ?_, j5⟩
  intro k _ hst hf
  rcases j8 with h0 | h255
  · obtain ⟨k2, _, q1, q2⟩ := j9.mp h0
    rcases Nat.lt_or_ge k2 k with hlt | hge
    · exact absurd q2 (hst k2 hlt).2
    · exact absurd hf (q1 k hge)
  · exact h255

/-- C20 fails as stated: from a counter of 0, with SDA and SCL low at recovery
time, ten attempts that leave SDA low end in failure with the counter at 10,
and a release of SDA at the third attempt ends in success with the counter at
3. -/
theorem C20_counter_per_retry :
    (ast_i2c_bus_error_recover {} {} {}).1 = 255 ∧
    (ast_i2c_bus_error_recover {} {} {}).2.bus_slave_recovery_cnt = 10 ∧
    (ast_i2c_bus_error_recover {} { slave := freed_at_3 } {}).1 = 0 ∧
    (ast_i2c_bus_error_recover {} { slave := freed_at_3 } {}).2.bus_slave_recovery_cnt = 3 := by
  decide

/-- C20 (amended): in the recovery with SDA low the counter
`bus_slave_recovery_cnt` advances by one per recovery command issued, modulo
2^16: by `j` for the `j` commands written, `j` between 1 and 10; by 10 when
ten attempts leave SDA low (the call reports failure) and by `k + 1` when SDA
reads high after attempt `k + 1` (the call reports success). -/
theorem C20_counter_per_attempt (cfg : Config) (env : RecoverEnv) (s : ast_i2c_dev)
    (hsda : ast_i2c_read s I2C_CMD_REG &&& AST_I2CD_SDA_LINE_STS = 0) :
    (∃ j, 1 ≤ j ∧ j ≤ 10 ∧
      writes_to I2C_CMD_REG (ast_i2c_bus_error_recover cfg env s).2.writes =
        writes_to I2C_CMD_REG s.writes ++ List.replicate j AST_I2CD_BUS_RECOVER_CMD_EN ∧
      (ast_i2c_bus_error_recover cfg env s).2.bus_slave_recovery_cnt =
        (s.bus_slave_recovery_cnt + j) % 2 ^ 16) ∧
    (StuckLow env.slave 10 →
      (ast_i2c_bus_error_recover cfg env s).1 = 255 ∧
      (ast_i2c_bus_error_recover cfg env s).2.bus_slave_recovery_cnt =
        (s.bus_slave_recovery_cnt + 10) % 2 ^ 16) ∧
    (∀ k < 10, StuckLow env.slave k → ¬ (env.slave.getD k {}).failed →
      (env.slave.getD k {}).sdaHigh →
      (ast_i2c_bus_error_recover cfg env s).1 = 0 ∧
      (ast_i2c_bus_error_recover cfg env s).2.bus_slave_recovery_cnt =
        (s.bus_slave_recovery_cnt + (k + 1)) % 2 ^ 16) := by
  obtain ⟨j, j1, j2, j3, j4, _, _, _, _, _, j10, j11⟩ :=
    slave_reset_loop_run cfg s.func_ctrl_reg 10 env.slave s
  rw [bus_error_recover_sda_low cfg env s hsda]
  unfold ast_i2c_slave_reset
  have hj := j2 (by decide)
  refine ⟨⟨j, hj, j1, j3, by rw [j4, inc16_iterate _ _ hj]⟩, ?_, ?_⟩
  · intro hst
    obtain ⟨q1, q2⟩ := j10 hst
    rw [j4, inc16_iterate _ _ hj, q1]
    exact ⟨q2, rfl⟩
  · intro k hk hst hf hh
    obtain ⟨q1, q2⟩ := j11 k hk hst hf hh
    rw [j4, inc16_iterate _ _ hj, q1]
    exact ⟨q2, rfl⟩

/-- C20 at a counter of 0 with SDA released at the third attempt: success,
counter 3. -/
theorem C20_counter_per_attempt_witness :
    (ast_i2c_bus_error_recover {} { slave := freed_at_3 } {}).1 = 0 ∧
    (ast_i2c_bus_error_recover {} { slave := freed_at_3 } {}).2.bus_slave_recovery_cnt =
      (0 + (2 + 1)) % 2 ^ 16 :=
  (C20_counter_per_attempt {} { slave := freed_at_3 } {} (by decide)).2.2 2 (by decide)
    (by decide) (by decide) (by decide)

theorem getD_tail_succ {α : Type} (l : List α) (i : Nat) (d : α) :
    l.tail.getD i d = l.getD (i + 1) d := by
  cases l <;> rfl

theorem headD_eq_getD {α : Type} (l : List α) (d : α) : l.headD d = l.getD 0 d := by
  cases l <;> rfl

/-- The polling loop when poll `k` is the first that finds the bus idle: the
loop stops there with `n - k` left, the slave flag cleared, and nothing but
the status registers touched. -/
theorem wait_bus_loop_idle :
    ∀ (k n : Nat) (polls : List (Nat × Nat)) (s : ast_i2c_dev), k < n →
    (∀ j < k, ¬ PollIdle (polls.getD j (0, 0))) → PollIdle (polls.getD k (0, 0)) →
    (wait_bus_loop n polls s).1 = n - k ∧
    (wait_bus_loop n polls s).2.slave_operation = 0 ∧
    (wait_bus_loop n polls s).2.bus_master_reset_cnt = s.bus_master_reset_cnt ∧
    (wait_bus_loop n polls s).2.writes = s.writes := by
  intro k
  induction k with
  | zero =>
    intro n polls s hn _ hk
    obtain ⟨n, rfl⟩ : ∃ m, n = m + 1 := ⟨n - 1, by omega⟩
    obtain ⟨h1, h2⟩ := hk
    rw [wait_bus_loop, headD_eq_getD]
    generalize polls.getD 0 (0, 0) = p at h1 h2
    simp [ast_i2c_read, h1, h2]
  | succ k ih =>
    intro n polls s hn hpre hk
    obtain ⟨n, rfl⟩ : ∃ m, n = m + 1 := ⟨n - 1, by omega⟩
    have h0 : ¬ PollIdle (polls.getD 0 (0, 0)) := hpre 0 (by omega)
    simp only [PollIdle] at h0
    rw [wait_bus_loop, headD_eq_getD]
    simp only [ast_i2c_read, Function.update_same, ne_eq, reduceCtorEq,
      not_false_eq_true, Function.update_noteq, h0, if_false]
    obtain ⟨i1, i2, i3, i4⟩ := ih n polls.tail
      { s with regs := Function.update (Function.update s.regs I2C_CMD_REG
        (polls.getD 0 (0, 0)).1) I2C_INTR_STS_REG (polls.getD 0 (0, 0)).2 }
      (by omega)
      (fun j hj => by rw [getD_tail_succ]; exact hpre (j + 1) (by omega))
      (by rw [getD_tail_succ]; exact hk)
    exact ⟨by rw [i1]; omega, i2, i3, i4⟩

/-- The polling loop reads at most `n` polls. -/
theorem wait_bus_loop_take :
    ∀ (n : Nat) (polls : List (Nat × Nat)) (s : ast_i2c_dev),
    wait_bus_loop n polls s = wait_bus_loop n (polls.take n) s := by
  intro n
  induction n with
  | zero => intro polls s; rfl
  | succ n ih =>
    intro polls s
    cases polls with
    | nil => rfl
    | cons p ps =>
      rw [wait_bus_loop, wait_bus_loop]
      simp only [List.take_succ_cons, List.headD_cons, List.tail_cons]
      rw [ih ps]

theorem inc16_ne (x : Nat) : inc16 x ≠ x := by
  unfold inc16
  omega

/-- C28: `ast_i2c_wait_bus_not_busy` returns 0 whatever the hardware answers
and reads at most 10 polls. When some poll among the 10 finds the bus idle it
clears the slave flag and forces no reset (reset counter and register writes
unchanged); when all 10 polls find the bus busy it forces one bus reset (the
counter advances once, so it differs from before) and leaves the slave flag as
it was. Hence `ast_i2c_xfer` never takes its "timeout waiting for bus free"
exit: it always enters the retry loop. -/
theorem C28_bus_check_never_fails (cfg : Config) (polls : List (Nat × Nat))
    (env : RecoverEnv) (s : ast_i2c_dev) :
    (ast_i2c_wait_bus_not_busy cfg polls env s).1 = 0 ∧
    ast_i2c_wait_bus_not_busy cfg polls env s =
      ast_i2c_wait_bus_not_busy cfg (polls.take 10) env s ∧
    ((∃ j < 10, PollIdle (polls.getD j (0, 0))) →
      (ast_i2c_wait_bus_not_busy cfg polls env s).2.slave_operation = 0 ∧
      (ast_i2c_wait_bus_not_busy cfg polls env s).2.bus_master_reset_cnt =
        s.bus_master_reset_cnt ∧
      (ast_i2c_wait_bus_not_busy cfg polls env s).2.writes = s.writes) ∧
    ((∀ j < 10, ¬ PollIdle (polls.getD j (0, 0))) →
      (ast_i2c_wait_bus_not_busy cfg polls env s).2.slave_operation = s.slave_operation ∧
      (ast_i2c_wait_bus_not_busy cfg polls env s).2.bus_master_reset_cnt =
        inc16 s.bus_master_reset_cnt ∧
      (ast_i2c_wait_bus_not_busy cfg polls env s).2.bus_master_reset_cnt ≠
        s.bus_master_reset_cnt) ∧
    (∀ (e : EntryEnv) (msgs : List i2c_msg) (num : Int),
      ast_i2c_xfer cfg e msgs num s =
        xfer_loop cfg num (s.retries + 1).toNat s.retries e.attempts msgs
          (ast_i2c_wait_bus_not_busy cfg e.polls e.recov s).2) := by
  refine ⟨?_, ?_, ?_, ?_, fun e msgs num => xfer_entry cfg e msgs num s⟩
  · unfold ast_i2c_wait_bus_not_busy
    simp only []
    split_ifs <;> rfl
  · unfold ast_i2c_wait_bus_not_busy
    rw [wait_bus_loop_take]
  · intro h
    classical
    have hk := Nat.find_spec h
    have hmin := fun j (hj : j < Nat.find h) => Nat.find_min h hj
    obtain ⟨i1, i2, i3, i4⟩ := wait_bus_loop_idle (Nat.find h) 10 polls s hk.1
      (fun j hj hp => hmin j hj ⟨by omega, hp⟩) hk.2
    have hpos : ¬ (wait_bus_loop 10 polls s).1 ≤ 0 := by rw [i1]; omega
    unfold ast_i2c_wait_bus_not_busy
    simp only [hpos, if_false]
    exact ⟨i2, i3, i4⟩
  · intro h
    obtain ⟨i1, i2, i3⟩ := wait_bus_loop_busy 10 polls s h
    unfold ast_i2c_wait_bus_not_busy
    simp only [i1, le_refl, if_true]
    refine ⟨by rw [bus_reset_slave_op, i2], by rw [bus_reset_cnt, i3], ?_⟩
    rw [bus_reset_cnt, i3]
    exact inc16_ne _

/-- The divisor loop from `i` on with `k` iterations left: it returns the
encoding of the first divider `j` in `i .. i + k - 1` that brings the clock
down to the request, and 0 when there is none. -/
theorem spi_div_loop_spec (max_speed_hz hclk : Nat) :
    ∀ (k i : Nat),
    (∀ j, i ≤ j → j < i + k → hclk / j ≤ max_speed_hz → (∀ l, i ≤ l → l < j →
        ¬ hclk / l ≤ max_speed_hz) →
      spi_div_loop max_speed_hz hclk k i = SPI_DIV.getD (j - 1) 0) ∧
    ((∀ j, i ≤ j → j < i + k → ¬ hclk / j ≤ max_speed_hz) →
      spi_div_loop max_speed_hz hclk k i = 0) := by
  intro k
  induction k with
  | zero =>
    intro i
    exact ⟨fun j h1 h2 => absurd h2 (by omega), fun _ => rfl⟩
  | succ k ih =>
    intro i
    obtain ⟨ih1, ih2⟩ := ih (i + 1)
    constructor
    · intro j h1 h2 h3 hmin
      rw [spi_div_loop]
      rcases Nat.eq_or_lt_of_le h1 with e | hlt
      · subst e
        rw [if_pos h3]
      · rw [if_neg (hmin i (le_refl _) hlt)]
        exact ih1 j (by omega) (by omega) h3 (fun l hl1 hl2 => hmin l (by omega) hl2)
    · intro hall
      rw [spi_div_loop, if_neg (hall i (le_refl _) (by omega))]
      exact ih2 (fun j hj1 hj2 => hall j (by omega) (by omega))

/-- C30: `ast_spi_calculate_divisor` returns the encoding `SPI_DIV[i - 1]` of
the least divider `i` in 1..16 with `hclk / i <= max_speed_hz`, and 0 when no
divider in 1..16 satisfies it; the result is below 16; distinct dividers have
distinct encodings. -/
theorem C30_spi_divisor (hclk max_speed_hz : Nat) :
    (∀ i, 1 ≤ i → i ≤ 16 → hclk / i ≤ max_speed_hz →
      (∀ l, 1 ≤ l → l < i → ¬ hclk / l ≤ max_speed_hz) →
      ast_spi_calculate_divisor hclk max_speed_hz = SPI_DIV.getD (i - 1) 0) ∧
    ((∀ i, 1 ≤ i → i ≤ 16 → ¬ hclk / i ≤ max_speed_hz) →
      ast_spi_calculate_divisor hclk max_speed_hz = 0) ∧
    ast_spi_calculate_divisor hclk max_speed_hz < 16 ∧
    (∀ i j, 1 ≤ i → i ≤ 16 → 1 ≤ j → j ≤ 16 →
      SPI_DIV.getD (i - 1) 0 = SPI_DIV.getD (j - 1) 0 → i = j) := by
  obtain ⟨h1, h2⟩ := spi_div_loop_spec max_speed_hz hclk 16 1
  have hinj : ∀ i j, 1 ≤ i → i ≤ 16 → 1 ≤ j → j ≤ 16 →
      SPI_DIV.getD (i - 1) 0 = SPI_DIV.getD (j - 1) 0 → i = j := by
    intro i j hi1 hi2 hj1 hj2
    interval_cases i <;> interval_cases j <;> decide
  have hlt : ∀ i, 1 ≤ i → i ≤ 16 → SPI_DIV.getD (i - 1) 0 < 16 := by
    intro i hi1 hi2
    interval_cases i <;> decide
  refine ⟨fun i hi1 hi2 h hmin => h1 i hi1 (by omega) h hmin,
    fun hall => h2 (fun j hj1 hj2 => hall j hj1 (by omega)), ?_, hinj⟩
  by_cases hex : ∃ i, (1 ≤ i ∧ i ≤ 16) ∧ hclk / i ≤ max_speed_hz
  · classical
    have hs := Nat.find_spec hex
    have hm := fun l (hl : l < Nat.find hex) => Nat.find_min hex hl
    have e := h1 (Nat.find hex) hs.1.1 (by omega) hs.2
      (fun l hl1 hl2 hq => hm l hl2 ⟨⟨hl1, by omega⟩, hq⟩)
    unfold ast_spi_calculate_divisor
    rw [e]
    exact hlt _ hs.1.1 hs.1.2
  · have e := h2 (fun j hj1 hj2 hq => hex ⟨j, ⟨hj1, by omega⟩, hq⟩)
    unfold ast_spi_calculate_divisor
    rw [e]
    decide

/-- Without override the timing word packs `SCL_High`, `SCL_Low` and `div` of
the general formula. -/
theorem select_i2c_clock_general (cfg : Config) (h : cfg.noOverride) :
    select_i2c_clock cfg =
      0x77700300 ||| ((SCL_High (final_ratio cfg) <<< 16) % 2 ^ 32) |||
        ((SCL_Low (final_ratio cfg) <<< 12) % 2 ^ 32) ||| final_div cfg := by
  obtain ⟨h1, h2, h3, h4, h5, h6, h7⟩ := h
  simp only [select_i2c_clock, h1, h2, h3, h4, h5, h6, h7, if_false, SCL_High, SCL_Low,
    final_ratio, final_div]

theorem mod_two_pow_succ_eq_zero (x k : Nat) :
    x % 2 ^ (k + 1) = 0 ↔ x % 2 = 0 ∧ (x / 2) % 2 ^ k = 0 := by
  rw [pow_succ, Nat.mul_comm, Nat.mod_mul]
  constructor
  · intro h
    have h1 : x % 2 < 2 := Nat.mod_lt _ (by decide)
    have : x % 2 = 0 := by omega
    constructor
    · exact this
    · have h2 : 2 * (x / 2 % 2 ^ k) = 0 := by omega
      omega
  · rintro ⟨h1, h2⟩
    rw [h1, h2]

/-- The halving loop with enough iterations allowed: it stops after `k`
halvings, `k` the least count that brings the ratio below 16, and the flag
records whether a 1 bit was shifted out. -/
theorem clock_halving_spec :
    ∀ (fuel x inc div : Nat), x < 2 ^ fuel * 16 → inc ≤ 1 →
    ∃ k, clock_halving fuel x inc div =
        (x >>> k, (if inc = 0 ∧ x % 2 ^ k = 0 then 0 else 1), div + k) ∧
      x >>> k < 16 ∧ (∀ j < k, 16 ≤ x >>> j) := by
  intro fuel
  induction fuel with
  | zero =>
    intro x inc div hx hinc
    refine ⟨0, ?_, by simpa using hx, fun j hj => absurd hj (by omega)⟩
    have : inc = 0 ∨ inc = 1 := by omega
    rcases this with h | h <;> simp [clock_halving, h, Nat.mod_one]
  | succ fuel ih =>
    intro x inc div hx hinc
    by_cases h16 : x ≥ 16
    · have hx1 : x >>> 1 < 2 ^ fuel * 16 := by
        rw [Nat.shiftRight_eq_div_pow]
        rw [pow_succ] at hx
        omega
      have hb : x &&& 1 = x % 2 := Nat.and_one_is_mod x
      have hinc1 : (inc ||| (x &&& 1)) ≤ 1 := by
        rw [hb]
        have : inc = 0 ∨ inc = 1 := by omega
        have h2 : x % 2 = 0 ∨ x % 2 = 1 := by omega
        rcases this with h | h <;> rcases h2 with h' | h' <;> rw [h, h'] <;> try decide
      obtain ⟨k, e, k1, k2⟩ := ih (x >>> 1) (inc ||| (x &&& 1)) (div + 1) hx1 hinc1
      refine ⟨k + 1, ?_, ?_, ?_⟩
      · rw [clock_halving, if_pos h16, e]
        have hs : x >>> 1 >>> k = x >>> (k + 1) := by
          rw [← Nat.shiftRight_add, Nat.add_comm]
        have hd : x >>> 1 = x / 2 := by rw [Nat.shiftRight_eq_div_pow]
        have hz := mod_two_pow_succ_eq_zero x k
        rw [hs, hb, hd]
        have hi : inc = 0 ∨ inc = 1 := by omega
        have h2 : x % 2 = 0 ∨ x % 2 = 1 := by omega
        refine Prod.ext rfl (Prod.ext ?_ (by simp only []; omega))
        simp only []
        rcases hi with h | h <;> rcases h2 with h' | h' <;>
          by_cases hq : (x / 2) % 2 ^ k = 0 <;> simp [h, h', hq, hz]
      · rw [← Nat.shiftRight_add, Nat.add_comm] at k1
        exact k1
      · intro j hj
        rcases Nat.eq_zero_or_pos j with h0 | h0
        · subst h0
          simpa using h16
        · have := k2 (j - 1) (by omega)
          rw [← Nat.shiftRight_add, Nat.add_comm, Nat.sub_add_cancel h0] at this
          exact this
    · refine ⟨0, ?_, by simpa using h16, fun j hj => absurd hj (by omega)⟩
      have : inc = 0 ∨ inc = 1 := by omega
      rcases this with h | h <;> simp [clock_halving, h16, h, Nat.mod_one]

/-- The outcome of the halving loop of `select_i2c_clock` on the ratio `q`:
the loop is left by its condition after `k` halvings, `k` least with
`q >> k < 16`. -/
theorem clock_halving_run (q : Nat) :
    ∃ k, clock_halving q q 0 0 = (q >>> k, (if q % 2 ^ k = 0 then 0 else 1), k) ∧
      q >>> k < 16 ∧ (∀ j < k, 16 ≤ q >>> j) := by
  have hq : q < 2 ^ q * 16 := by
    have := Nat.lt_two_pow q
    omega
  obtain ⟨k, e, k1, k2⟩ := clock_halving_spec q q 0 0 hq (by decide)
  refine ⟨k, ?_, k1, k2⟩
  rw [e]
  simp

theorem ceil_div_two_pow (q k : Nat) :
    q >>> k + (if q % 2 ^ k = 0 then 0 else 1) = (q + 2 ^ k - 1) / 2 ^ k ∧
    q ≤ (q >>> k + (if q % 2 ^ k = 0 then 0 else 1)) * 2 ^ k := by
  have hP : 0 < 2 ^ k := Nat.two_pow_pos k
  rw [Nat.shiftRight_eq_div_pow]
  generalize 2 ^ k = P at hP
  have hdm := Nat.div_add_mod' q P
  have hr := Nat.mod_lt q hP
  by_cases h0 : q % P = 0
  · rw [if_pos h0, Nat.add_zero]
    constructor
    · symm
      apply Nat.div_eq_of_lt_le
      · generalize q / P * P = X at hdm
        omega
      · rw [Nat.succ_mul]
        generalize q / P * P = X at hdm
        omega
    · generalize q / P * P = X at hdm
      omega
  · rw [if_neg h0]
    constructor
    · symm
      apply Nat.div_eq_of_lt_le
      · rw [Nat.add_mul, Nat.one_mul]
        generalize q / P * P = X at hdm
        omega
      · rw [Nat.succ_mul, Nat.add_mul, Nat.one_mul]
        generalize q / P * P = X at hdm
        omega
    · rw [Nat.add_mul, Nat.one_mul]
      generalize q / P * P = X at hdm
      omega

theorem periods_small (d : Nat) (hd : d ≤ 16) :
    d ≤ SCL_Low d + SCL_High d + 2 ∧
    (2 ≤ d → 1 ≤ d >>> 1 ∧ SCL_Low d = (d >>> 1) - 1 ∧ SCL_Low d + 2 ≤ d ∧
      SCL_High d = d - SCL_Low d - 2 ∧ SCL_Low d + SCL_High d + 2 = d) := by
  interval_cases d <;> decide

/-- C23: without override and with `bus_clk > 0`, the halving loop of
`select_i2c_clock` ends by its own condition; the halving count `div` it packs
is the least `k` with `(clk / bus_clk) >> k < 16`; the ratio from which the
periods are derived is the shifted ratio plus 1 exactly when a 1 bit was
shifted out, that is the quotient `clk / bus_clk` divided by `2^div` rounded
up; it is at most 16 and `(SCL_Low + SCL_High + 2) * 2^div` is at least
`clk / bus_clk`. -/
theorem C23_halving (cfg : Config) (h : cfg.noOverride) (_hb : 0 < cfg.bus_clk) :
    (clock_halving (cfg.clk / cfg.bus_clk) (cfg.clk / cfg.bus_clk) 0 0).1 < 16 ∧
    (clock_halving (cfg.clk / cfg.bus_clk) (cfg.clk / cfg.bus_clk) 0 0).1 =
      (cfg.clk / cfg.bus_clk) >>> final_div cfg ∧
    (cfg.clk / cfg.bus_clk) >>> final_div cfg < 16 ∧
    (∀ j < final_div cfg, 16 ≤ (cfg.clk / cfg.bus_clk) >>> j) ∧
    final_ratio cfg = (cfg.clk / cfg.bus_clk) >>> final_div cfg +
      (if (cfg.clk / cfg.bus_clk) % 2 ^ final_div cfg = 0 then 0 else 1) ∧
    final_ratio cfg = (cfg.clk / cfg.bus_clk + 2 ^ final_div cfg - 1) / 2 ^ final_div cfg ∧
    final_ratio cfg ≤ 16 ∧
    cfg.clk / cfg.bus_clk ≤
      (SCL_Low (final_ratio cfg) + SCL_High (final_ratio cfg) + 2) * 2 ^ final_div cfg ∧
    select_i2c_clock cfg =
      0x77700300 ||| ((SCL_High (final_ratio cfg) <<< 16) % 2 ^ 32) |||
        ((SCL_Low (final_ratio cfg) <<< 12) % 2 ^ 32) ||| final_div cfg := by
  obtain ⟨k, e, k1, k2⟩ := clock_halving_run (cfg.clk / cfg.bus_clk)
  obtain ⟨c1, c2⟩ := ceil_div_two_pow (cfg.clk / cfg.bus_clk) k
  have hdiv : final_div cfg = k := by simp only [final_div, e]
  have hrat : final_ratio cfg = (cfg.clk / cfg.bus_clk) >>> k +
      (if (cfg.clk / cfg.bus_clk) % 2 ^ k = 0 then 0 else 1) := by
    simp only [final_ratio, e]
  have h16 : final_ratio cfg ≤ 16 := by
    rw [hrat]
    split_ifs <;> omega
  refine ⟨by rw [e]; exact k1, by rw [e, hdiv], by rw [hdiv]; exact k1,
    by rw [hdiv]; exact k2, by rw [hdiv]; exact hrat, by rw [hdiv, hrat]; exact c1, h16, ?_,
    select_i2c_clock_general cfg h⟩
  rw [hdiv]
  have hge := (periods_small (final_ratio cfg) h16).1
  rw [← hrat] at c2
  exact le_trans c2 (Nat.mul_le_mul_right _ hge)

/-- C23 for the default platform data (24 MHz input clock, 100 kHz bus): the
quotient is 240, halved four times to 15 with no 1 bit shifted out. -/
theorem C23_halving_witness :
    final_div {} = 4 ∧ final_ratio {} = 15 ∧
    ({} : Config).clk / ({} : Config).bus_clk ≤
      (SCL_Low (final_ratio {}) + SCL_High (final_ratio {}) + 2) * 2 ^ final_div {} :=
  ⟨by decide, by decide, (C23_halving {} (by decide) (by decide)).2.2.2.2.2.2.2.1⟩

/-- C22 fails as stated: with an input clock of 150 kHz and a bus frequency of
100 kHz (no override, `bus_clk > 0`) the ratio is 1, the subtraction
`(1 >> 1) - 1` wraps to `0xFFFFFFFF`, and `SCL_Low + SCL_High + 2` is not the
ratio. -/
theorem C22_small_ratio_wraps :
    slow_clock.noOverride ∧ 0 < slow_clock.bus_clk ∧
    final_ratio slow_clock = 1 ∧
    final_ratio slow_clock >>> 1 = 0 ∧
    SCL_Low (final_ratio slow_clock) = 0xFFFFFFFF ∧
    SCL_Low (final_ratio slow_clock) + SCL_High (final_ratio slow_clock) + 2 = 2 ^ 32 + 1 := by
  decide

/-- C22 (amended): without override, for an input clock of at least twice the
bus frequency (`clk / bus_clk >= 2`, `bus_clk > 0`), neither subtraction of the
general formula wraps: `divider_ratio >> 1` is at least 1 and
`SCL_Low + 2 <= divider_ratio`, so `SCL_Low = (divider_ratio >> 1) - 1` and
`SCL_High = divider_ratio - SCL_Low - 2` as natural numbers, and
`SCL_Low + SCL_High + 2` is the halved ratio from which they were derived. -/
theorem C22_periods_no_wrap (cfg : Config) (h : cfg.noOverride)
    (hq : 2 ≤ cfg.clk / cfg.bus_clk) :
    0 < cfg.bus_clk ∧
    1 ≤ final_ratio cfg >>> 1 ∧
    SCL_Low (final_ratio cfg) = (final_ratio cfg >>> 1) - 1 ∧
    SCL_Low (final_ratio cfg) + 2 ≤ final_ratio cfg ∧
    SCL_High (final_ratio cfg) = final_ratio cfg - SCL_Low (final_ratio cfg) - 2 ∧
    SCL_Low (final_ratio cfg) + SCL_High (final_ratio cfg) + 2 = final_ratio cfg ∧
    select_i2c_clock cfg =
      0x77700300 ||| ((SCL_High (final_ratio cfg) <<< 16) % 2 ^ 32) |||
        ((SCL_Low (final_ratio cfg) <<< 12) % 2 ^ 32) ||| final_div cfg := by
  have hb : 0 < cfg.bus_clk := by
    rcases Nat.eq_zero_or_pos cfg.bus_clk with h0 | h0
    · rw [h0, Nat.div_zero] at hq
      omega
    · exact h0
  obtain ⟨k, e, k1, k2⟩ := clock_halving_run (cfg.clk / cfg.bus_clk)
  have hrat : final_ratio cfg = (cfg.clk / cfg.bus_clk) >>> k +
      (if (cfg.clk / cfg.bus_clk) % 2 ^ k = 0 then 0 else 1) := by
    simp only [final_ratio, e]
  have h16 : final_ratio cfg ≤ 16 := by
    rw [hrat]
    split_ifs <;> omega
  have h2 : 2 ≤ final_ratio cfg := by
    rw [hrat]
    rcases Nat.eq_zero_or_pos k with h0 | h0
    · subst h0
      simp only [Nat.shiftRight_zero, pow_zero, Nat.mod_one, if_true]
      omega
    · have := k2 (k - 1) (by omega)
      have hs : (cfg.clk / cfg.bus_clk) >>> k = ((cfg.clk / cfg.bus_clk) >>> (k - 1)) / 2 := by
        have hk : k = (k - 1) + 1 := by omega
        rw [hk, Nat.shiftRight_succ]
        simp
      rw [hs]
      omega
  obtain ⟨p1, p2, p3, p4, p5⟩ := (periods_small (final_ratio cfg) h16).2 h2
  exact ⟨hb, p1, p2, p3, p4, p5, select_i2c_clock_general cfg h⟩

/-- C22 for the default platform data: ratio 15, low period 6, high period
7. -/
theorem C22_periods_no_wrap_witness :
    SCL_Low (final_ratio {}) + SCL_High (final_ratio {}) + 2 = final_ratio {} ∧
    SCL_Low 15 = 6 ∧ SCL_High 15 = 7 :=
  ⟨(C22_periods_no_wrap {} (by decide) (by decide)).2.2.2.2.2.1, by decide, by decide⟩

theorem dev_init_bus_id (cfg : Config) (s : ast_i2c_dev) :
    (ast_i2c_dev_init cfg s).bus_id = s.bus_id := by
  simp only [ast_i2c_dev_init, init_completion, apply_ite ast_i2c_dev.bus_id,
    show ∀ (s : ast_i2c_dev) (v : Nat) (r : Reg),
      (ast_i2c_write s v r).bus_id = s.bus_id from fun _ _ _ => rfl, ite_self]

/-- The values `ast_i2c_dev_init` leaves in the function-control and timing
registers depend on the platform data and the bus number only. -/
theorem dev_init_regs_congr (cfg : Config) (s t : ast_i2c_dev) (hb : s.bus_id = t.bus_id) :
    (ast_i2c_dev_init cfg s).regs I2C_FUN_CTRL_REG =
      (ast_i2c_dev_init cfg t).regs I2C_FUN_CTRL_REG ∧
    (ast_i2c_dev_init cfg s).regs I2C_AC_TIMING_REG1 =
      (ast_i2c_dev_init cfg t).regs I2C_AC_TIMING_REG1 ∧
    (ast_i2c_dev_init cfg s).regs I2C_AC_TIMING_REG2 =
      (ast_i2c_dev_init cfg t).regs I2C_AC_TIMING_REG2 := by
  by_cases h1 : cfg.arch_ast2400 = true <;>
  by_cases h2 : cfg.board = Board.yosemite <;>
  by_cases h3 : cfg.board = Board.fby2 <;>
  by_cases h5 : cfg.board = Board.fbttn <;>
  by_cases h4 : 400 < cfg.bus_clk / 1000 <;>
  by_cases h6 : t.bus_id = 12 <;>
  simp [ast_i2c_dev_init, ast_i2c_write, ast_i2c_read, Reg.isStorage, init_completion,
    h1, h2, h3, h4, h5, h6, hb, Function.update]

/-- One pass of the retry loop of the slave reset, seen from the registers:
the state `A` from which the loop goes on has the bus number of `s` and, in
the function-control and timing registers, the values the initialisation
programs. -/
theorem slave_reset_loop_pass (cfg : Config) (tmp n : Nat) (resps : List WaitResp)
    (s : ast_i2c_dev) :
    ∃ A : ast_i2c_dev,
      A.bus_id = s.bus_id ∧
      A.regs I2C_AC_TIMING_REG1 = (ast_i2c_dev_init cfg s).regs I2C_AC_TIMING_REG1 ∧
      A.regs I2C_AC_TIMING_REG2 = (ast_i2c_dev_init cfg s).regs I2C_AC_TIMING_REG2 ∧
      slave_reset_loop cfg tmp (n + 1) resps s =
        if (resps.getD 0 {}).failed then
          (255, { A with func_ctrl_reg := tmp,
                         bus_status := A.bus_status ||| (0x1 <<< SLAVE_DEAD_RECOVER_ERROR) })
        else if (resps.getD 0 {}).sdaHigh then
          (0, { A with func_ctrl_reg := tmp,
                       bus_status := A.bus_status ||| (0x1 <<< SLAVE_DEAD_RECOVER_SUCCESS) })
        else slave_reset_loop cfg tmp n resps.tail A := by
  refine ⟨recover_wait (resps.headD {})
    (ast_i2c_write
      { init_completion { ast_i2c_dev_init cfg s with
          bus_slave_recovery_cnt := inc16 (ast_i2c_dev_init cfg s).bus_slave_recovery_cnt }
        with cmd_err := 0 }
      AST_I2CD_BUS_RECOVER_CMD_EN I2C_CMD_REG), ?_, ?_, ?_, ?_⟩
  · simp [recover_wait, ast_i2c_write, init_completion, dev_init_bus_id]
  · simp [recover_wait, ast_i2c_write, init_completion, Reg.isStorage]
  · simp [recover_wait, ast_i2c_write, init_completion, Reg.isStorage]
  · rw [slave_reset_loop, ← headD_eq_getD_zero]
    simp only [WaitResp.failed, WaitResp.sdaHigh]
    generalize ast_i2c_dev_init cfg s = D
    generalize resps.headD {} = r
    by_cases h1 : r.cmd_err ≠ 0 ∧ r.cmd_err ≠ AST_I2CD_INTR_STS_NORMAL_STOP
    · simp [recover_wait, init_completion, ast_i2c_write, h1]
    · by_cases h2 : r.cmd &&& AST_I2CD_SDA_LINE_STS ≠ 0
      · simp [recover_wait, init_completion, ast_i2c_write, ast_i2c_read, h2, h1]
      · simp [recover_wait, init_completion, ast_i2c_write, ast_i2c_read, h2, h1]

/-- The slave reset leaves in the timing registers the values the
initialisation programs, whatever the number of attempts. -/
theorem slave_reset_loop_timing (cfg : Config) (tmp : Nat) :
    ∀ (n : Nat) (resps : List WaitResp) (s : ast_i2c_dev),
    (slave_reset_loop cfg tmp (n + 1) resps s).2.regs I2C_AC_TIMING_REG1 =
      (ast_i2c_dev_init cfg s).regs I2C_AC_TIMING_REG1 ∧
    (slave_reset_loop cfg tmp (n + 1) resps s).2.regs I2C_AC_TIMING_REG2 =
      (ast_i2c_dev_init cfg s).regs I2C_AC_TIMING_REG2 := by
  intro n
  induction n with
  | zero =>
    intro resps s
    obtain ⟨A, a1, a2, a3, e⟩ := slave_reset_loop_pass cfg tmp 0 resps s
    rw [e]
    split_ifs
    · exact ⟨a2, a3⟩
    · exact ⟨a2, a3⟩
    · exact ⟨a2, a3⟩
  | succ n ih =>
    intro resps s
    obtain ⟨A, a1, a2, a3, e⟩ := slave_reset_loop_pass cfg tmp (n + 1) resps s
    rw [e]
    split_ifs
    · exact ⟨a2, a3⟩
    · exact ⟨a2, a3⟩
    · obtain ⟨i1, i2⟩ := ih resps.tail A
      obtain ⟨_, c2, c3⟩ := dev_init_regs_congr cfg A s a1
      exact ⟨i1.trans c2, i2.trans c3⟩

theorem slave_reset_loop_bus_id (cfg : Config) (tmp : Nat) :
    ∀ (n : Nat) (resps : List WaitResp) (s : ast_i2c_dev),
    (slave_reset_loop cfg tmp n resps s).2.bus_id = s.bus_id := by
  intro n
  induction n with
  | zero => intro resps s; rfl
  | succ n ih =>
    intro resps s
    obtain ⟨A, a1, _, _, e⟩ := slave_reset_loop_pass cfg tmp n resps s
    rw [e]
    split_ifs
    · exact a1
    · exact a1
    · exact (ih resps.tail A).trans a1

theorem bus_error_recover_bus_id (cfg : Config) (env : RecoverEnv) (s : ast_i2c_dev) :
    (ast_i2c_bus_error_recover cfg env s).2.bus_id = s.bus_id := by
  simp only [ast_i2c_bus_error_recover, apply_ite Prod.snd, apply_ite ast_i2c_dev.bus_id,
    recover_wait, init_completion,
    show ∀ (s : ast_i2c_dev) (v : Nat) (r : Reg),
      (ast_i2c_write s v r).bus_id = s.bus_id from fun _ _ _ => rfl,
    ast_i2c_slave_reset, slave_reset_loop_bus_id, ite_self]

theorem bus_reset_bus_id (cfg : Config) (env : RecoverEnv) (s : ast_i2c_dev) :
    (ast_i2c_bus_reset cfg env s).bus_id = s.bus_id := by
  simp only [ast_i2c_bus_reset, apply_ite ast_i2c_dev.bus_id,
    show ∀ (s : ast_i2c_dev) (v : Nat) (r : Reg),
      (ast_i2c_write s v r).bus_id = s.bus_id from fun _ _ _ => rfl,
    bus_error_recover_bus_id, ite_self]

/-- The recovery seen from the registers: the captured function-control value
and the bus number are kept; with SDA low the timing registers end with the
values the initialisation programs, with SDA high they are not touched. -/
theorem bus_error_recover_regs (cfg : Config) (env : RecoverEnv) (s : ast_i2c_dev) :
    (ast_i2c_bus_error_recover cfg env s).2.func_ctrl_reg = s.func_ctrl_reg ∧
    (s.regs I2C_CMD_REG &&& AST_I2CD_SDA_LINE_STS = 0 →
      (ast_i2c_bus_error_recover cfg env s).2.regs I2C_AC_TIMING_REG1 =
        (ast_i2c_dev_init cfg s).regs I2C_AC_TIMING_REG1 ∧
      (ast_i2c_bus_error_recover cfg env s).2.regs I2C_AC_TIMING_REG2 =
        (ast_i2c_dev_init cfg s).regs I2C_AC_TIMING_REG2) ∧
    (s.regs I2C_CMD_REG &&& AST_I2CD_SDA_LINE_STS ≠ 0 →
      (ast_i2c_bus_error_recover cfg env s).2.regs I2C_AC_TIMING_REG1 =
        s.regs I2C_AC_TIMING_REG1 ∧
      (ast_i2c_bus_error_recover cfg env s).2.regs I2C_AC_TIMING_REG2 =
        s.regs I2C_AC_TIMING_REG2) := by
  by_cases hsda : s.regs I2C_CMD_REG &&& AST_I2CD_SDA_LINE_STS = 0
  · have e := bus_error_recover_sda_low cfg env s hsda
    obtain ⟨j, _, _, _, _, j5, _⟩ := slave_reset_loop_run cfg s.func_ctrl_reg 10 env.slave s
    obtain ⟨t1, t2⟩ := slave_reset_loop_timing cfg s.func_ctrl_reg 9 env.slave s
    rw [e]
    unfold ast_i2c_slave_reset
    exact ⟨j5, fun _ => ⟨t1, t2⟩, fun h => absurd hsda h⟩
  · refine ⟨?_, fun h => absurd h hsda, fun _ => ?_⟩
    · by_cases hscl : s.regs I2C_CMD_REG &&& AST_I2CD_SCL_LINE_STS = 0 <;>
      by_cases hf : env.stop.cmd_err ≠ 0 ∧ env.stop.cmd_err ≠ AST_I2CD_INTR_STS_NORMAL_STOP <;>
      by_cases hr : env.stop.ret = 0 <;>
      simp [ast_i2c_bus_error_recover, ast_i2c_read, hsda, hscl, hf, hr, recover_wait,
        ast_i2c_write, init_completion]
    · by_cases hscl : s.regs I2C_CMD_REG &&& AST_I2CD_SCL_LINE_STS = 0 <;>
      by_cases hf : env.stop.cmd_err ≠ 0 ∧ env.stop.cmd_err ≠ AST_I2CD_INTR_STS_NORMAL_STOP <;>
      by_cases hr : env.stop.ret = 0 <;>
      simp [ast_i2c_bus_error_recover, ast_i2c_read, hsda, hscl, hf, hr, recover_wait,
        ast_i2c_write, init_completion, Reg.isStorage]

/-- The bus reset seen from the registers. -/
theorem bus_reset_regs (cfg : Config) (env : RecoverEnv) (s : ast_i2c_dev) :
    (ast_i2c_bus_reset cfg env s).regs I2C_FUN_CTRL_REG = s.func_ctrl_reg ∧
    (ast_i2c_bus_reset cfg env s).func_ctrl_reg = s.func_ctrl_reg ∧
    (MasterOnly (s.regs I2C_FUN_CTRL_REG) ∧
        s.regs I2C_CMD_REG &&& AST_I2CD_SDA_LINE_STS = 0 →
      (ast_i2c_bus_reset cfg env s).regs I2C_AC_TIMING_REG1 =
        (ast_i2c_dev_init cfg s).regs I2C_AC_TIMING_REG1 ∧
      (ast_i2c_bus_reset cfg env s).regs I2C_AC_TIMING_REG2 =
        (ast_i2c_dev_init cfg s).regs I2C_AC_TIMING_REG2) ∧
    (¬ (MasterOnly (s.regs I2C_FUN_CTRL_REG) ∧
        s.regs I2C_CMD_REG &&& AST_I2CD_SDA_LINE_STS = 0) →
      (ast_i2c_bus_reset cfg env s).regs I2C_AC_TIMING_REG1 = s.regs I2C_AC_TIMING_REG1 ∧
      (ast_i2c_bus_reset cfg env s).regs I2C_AC_TIMING_REG2 = s.regs I2C_AC_TIMING_REG2) := by
  obtain ⟨r1, r2, r3⟩ := bus_error_recover_regs cfg env
    { s with bus_master_reset_cnt := inc16 s.bus_master_reset_cnt }
  obtain ⟨_, c2, c3⟩ := dev_init_regs_congr cfg
    { s with bus_master_reset_cnt := inc16 s.bus_master_reset_cnt } s rfl
  by_cases hm : s.regs I2C_FUN_CTRL_REG &&& AST_I2CD_MASTER_EN ≠ 0 ∧
      ¬ (s.regs I2C_FUN_CTRL_REG &&& AST_I2CD_SLAVE_EN ≠ 0)
  · have e : ast_i2c_bus_reset cfg env s =
        ast_i2c_write (ast_i2c_write (ast_i2c_bus_error_recover cfg env
            { s with bus_master_reset_cnt := inc16 s.bus_master_reset_cnt }).2
          ((ast_i2c_bus_error_recover cfg env
            { s with bus_master_reset_cnt := inc16 s.bus_master_reset_cnt }).2.func_ctrl_reg &&&
            not32 (AST_I2CD_SLAVE_EN ||| AST_I2CD_MASTER_EN)) I2C_FUN_CTRL_REG)
          (ast_i2c_bus_error_recover cfg env
            { s with bus_master_reset_cnt := inc16 s.bus_master_reset_cnt }).2.func_ctrl_reg
          I2C_FUN_CTRL_REG := by
      simp only [ast_i2c_bus_reset, ast_i2c_read]
      rw [if_pos hm]
      rfl
    rw [e]
    generalize ast_i2c_bus_error_recover cfg env
      { s with bus_master_reset_cnt := inc16 s.bus_master_reset_cnt } = q at r1 r2 r3
    refine ⟨?_, ?_, ?_, ?_⟩
    · simp [ast_i2c_write, Reg.isStorage, r1]
    · simp [ast_i2c_write, r1]
    · rintro ⟨_, hsda⟩
      obtain ⟨q1, q2⟩ := r2 hsda
      simp [ast_i2c_write, Reg.isStorage, q1, q2, c2, c3]
    · intro hn
      have hsda : s.regs I2C_CMD_REG &&& AST_I2CD_SDA_LINE_STS ≠ 0 :=
        fun h0 => hn ⟨hm, h0⟩
      obtain ⟨q1, q2⟩ := r3 hsda
      simp [ast_i2c_write, Reg.isStorage, q1, q2]
  · have e : ast_i2c_bus_reset cfg env s =
        ast_i2c_write (ast_i2c_write
            { s with bus_master_reset_cnt := inc16 s.bus_master_reset_cnt }
          (s.func_ctrl_reg &&& not32 (AST_I2CD_SLAVE_EN ||| AST_I2CD_MASTER_EN))
          I2C_FUN_CTRL_REG) s.func_ctrl_reg I2C_FUN_CTRL_REG := by
      simp only [ast_i2c_bus_reset, ast_i2c_read]
      rw [if_neg hm]
      rfl
    rw [e]
    refine ⟨?_, ?_, ?_, ?_⟩
    · simp [ast_i2c_write, Reg.isStorage]
    · simp [ast_i2c_write]
    · rintro ⟨hmo, _⟩
      exact absurd hmo hm
    · intro _
      simp [ast_i2c_write, Reg.isStorage]

/-- The initialisation establishes `TimingProgrammed`. -/
theorem dev_init_timing_programmed (cfg : Config) (s : ast_i2c_dev) :
    TimingProgrammed cfg (ast_i2c_dev_init cfg s) := by
  obtain ⟨_, c2, c3⟩ := dev_init_regs_congr cfg (ast_i2c_dev_init cfg s) s
    (dev_init_bus_id cfg s)
  exact ⟨c2.symm, c3.symm⟩

/-- A bus reset keeps the timing registers programmed. -/
theorem bus_reset_timing_programmed (cfg : Config) (env : RecoverEnv) (s : ast_i2c_dev)
    (hp : TimingProgrammed cfg s) : TimingProgrammed cfg (ast_i2c_bus_reset cfg env s) := by
  obtain ⟨_, _, a3, a4⟩ := bus_reset_regs cfg env s
  obtain ⟨_, e2, e3⟩ := dev_init_regs_congr cfg (ast_i2c_bus_reset cfg env s) s
    (bus_reset_bus_id cfg env s)
  by_cases hc : MasterOnly (s.regs I2C_FUN_CTRL_REG) ∧
      s.regs I2C_CMD_REG &&& AST_I2CD_SDA_LINE_STS = 0
  · obtain ⟨w1, w2⟩ := a3 hc
    exact ⟨w1.trans e2.symm, w2.trans e3.symm⟩
  · obtain ⟨q1, q2⟩ := a4 hc
    exact ⟨(q1.trans hp.1).trans e2.symm, (q2.trans hp.2).trans e3.symm⟩

/-- Any number of bus resets keeps the timing registers programmed. -/
theorem resets_timing_programmed (cfg : Config) (envs : List RecoverEnv) :
    ∀ s : ast_i2c_dev, TimingProgrammed cfg s →
      TimingProgrammed cfg (envs.foldl (fun t e => ast_i2c_bus_reset cfg e t) s) := by
  induction envs with
  | nil => exact fun _ h => h
  | cons e rest ih =>
    intro s h
    exact ih _ (bus_reset_timing_programmed cfg e s h)

/-- C21: two bus resets in succession with the same line levels and hardware
answers, from a state of an initialised controller: the timing registers hold
what `ast_i2c_dev_init` programs, as they do in every state from the probe on
(the probe runs the initialisation before any reset can be called, and the
initialisation is the only writer of these registers), or the
function-control register is in master-only mode whenever the captured
`func_ctrl_reg` is. After each reset
the function-control register equals the captured `func_ctrl_reg`, which the
reset leaves unchanged; the function-control register and both timing
registers have the same values after the second reset as after the first;
a reset keeps the timing registers programmed; and they are programmed in the
state the initialisation leaves and after any number of resets from there. -/
theorem C21_reset_idempotent (cfg : Config) (env : RecoverEnv) (s : ast_i2c_dev)
    (h : TimingProgrammed cfg s ∨
      (MasterOnly s.func_ctrl_reg → MasterOnly (s.regs I2C_FUN_CTRL_REG))) :
    (ast_i2c_bus_reset cfg env s).func_ctrl_reg = s.func_ctrl_reg ∧
    (ast_i2c_bus_reset cfg env s).regs I2C_FUN_CTRL_REG = s.func_ctrl_reg ∧
    (second_reset cfg env s).func_ctrl_reg = s.func_ctrl_reg ∧
    (second_reset cfg env s).regs I2C_FUN_CTRL_REG =
      (ast_i2c_bus_reset cfg env s).regs I2C_FUN_CTRL_REG ∧
    (second_reset cfg env s).regs I2C_AC_TIMING_REG1 =
      (ast_i2c_bus_reset cfg env s).regs I2C_AC_TIMING_REG1 ∧
    (second_reset cfg env s).regs I2C_AC_TIMING_REG2 =
      (ast_i2c_bus_reset cfg env s).regs I2C_AC_TIMING_REG2 ∧
    (TimingProgrammed cfg s → TimingProgrammed cfg (ast_i2c_bus_reset cfg env s)) ∧
    (∀ (s0 : ast_i2c_dev) (envs : List RecoverEnv),
      TimingProgrammed cfg
        (envs.foldl (fun t e => ast_i2c_bus_reset cfg e t) (ast_i2c_dev_init cfg s0))) := by
  obtain ⟨a1, a2, a3, a4⟩ := bus_reset_regs cfg env s
  have hid := bus_reset_bus_id cfg env s
  have hkeep : TimingProgrammed cfg s →
      (ast_i2c_bus_reset cfg env s).regs I2C_AC_TIMING_REG1 =
        (ast_i2c_dev_init cfg s).regs I2C_AC_TIMING_REG1 ∧
      (ast_i2c_bus_reset cfg env s).regs I2C_AC_TIMING_REG2 =
        (ast_i2c_dev_init cfg s).regs I2C_AC_TIMING_REG2 := by
    rintro ⟨p1, p2⟩
    by_cases hc : MasterOnly (s.regs I2C_FUN_CTRL_REG) ∧
        s.regs I2C_CMD_REG &&& AST_I2CD_SDA_LINE_STS = 0
    · exact a3 hc
    · obtain ⟨q1, q2⟩ := a4 hc
      exact ⟨q1.trans p1, q2.trans p2⟩
  obtain ⟨t0, ht0⟩ : ∃ t0 : ast_i2c_dev, t0 =
      { ast_i2c_bus_reset cfg env s with
        regs := Function.update (ast_i2c_bus_reset cfg env s).regs I2C_CMD_REG
          (s.regs I2C_CMD_REG) } := ⟨_, rfl⟩
  have hsecond : second_reset cfg env s = ast_i2c_bus_reset cfg env t0 := by
    rw [ht0]
    rfl
  have hfun : t0.regs I2C_FUN_CTRL_REG = s.func_ctrl_reg := by
    rw [ht0]
    simpa using a1
  have hcmd : t0.regs I2C_CMD_REG = s.regs I2C_CMD_REG := by
    rw [ht0]
    simp
  have ht1 : t0.regs I2C_AC_TIMING_REG1 =
      (ast_i2c_bus_reset cfg env s).regs I2C_AC_TIMING_REG1 := by
    rw [ht0]
    simp
  have ht2 : t0.regs I2C_AC_TIMING_REG2 =
      (ast_i2c_bus_reset cfg env s).regs I2C_AC_TIMING_REG2 := by
    rw [ht0]
    simp
  have hfc : t0.func_ctrl_reg = s.func_ctrl_reg := by
    rw [ht0]
    exact a2
  have hbid : t0.bus_id = s.bus_id := by
    rw [ht0]
    exact hid
  obtain ⟨b1, b2, b3, b4⟩ := bus_reset_regs cfg env t0
  obtain ⟨_, d2, d3⟩ := dev_init_regs_congr cfg t0 s hbid
  rw [hfun, hcmd] at b3 b4
  rw [hsecond]
  have hac : (ast_i2c_bus_reset cfg env t0).regs I2C_AC_TIMING_REG1 =
        (ast_i2c_bus_reset cfg env s).regs I2C_AC_TIMING_REG1 ∧
      (ast_i2c_bus_reset cfg env t0).regs I2C_AC_TIMING_REG2 =
        (ast_i2c_bus_reset cfg env s).regs I2C_AC_TIMING_REG2 := by
    by_cases hc2 : MasterOnly s.func_ctrl_reg ∧
        s.regs I2C_CMD_REG &&& AST_I2CD_SDA_LINE_STS = 0
    · obtain ⟨q1, q2⟩ := b3 hc2
      have g1 := q1.trans d2
      have g2 := q2.trans d3
      by_cases hc1 : MasterOnly (s.regs I2C_FUN_CTRL_REG) ∧
          s.regs I2C_CMD_REG &&& AST_I2CD_SDA_LINE_STS = 0
      · obtain ⟨w1, w2⟩ := a3 hc1
        exact ⟨g1.trans w1.symm, g2.trans w2.symm⟩
      · rcases h with h | h
        · obtain ⟨w1, w2⟩ := hkeep h
          exact ⟨g1.trans w1.symm, g2.trans w2.symm⟩
        · exact absurd ⟨h hc2.1, hc2.2⟩ hc1
    · obtain ⟨q1, q2⟩ := b4 hc2
      exact ⟨q1.trans ht1, q2.trans ht2⟩
  refine ⟨a2, a1, b2.trans hfc, (b1.trans hfc).trans a1.symm, hac.1, hac.2,
    bus_reset_timing_programmed cfg env s,
    fun s0 envs => resets_timing_programmed cfg envs _ (dev_init_timing_programmed cfg s0)⟩

/-- C21 after the initialisation, with SDA and SCL low (slave reset at both
resets). -/
theorem C21_reset_idempotent_witness :
    (second_reset {} {} (ast_i2c_dev_init {} {})).regs I2C_AC_TIMING_REG1 =
      (ast_i2c_bus_reset {} {} (ast_i2c_dev_init {} {})).regs I2C_AC_TIMING_REG1 ∧
    (second_reset {} {} (ast_i2c_dev_init {} {})).regs I2C_FUN_CTRL_REG =
      (ast_i2c_bus_reset {} {} (ast_i2c_dev_init {} {})).regs I2C_FUN_CTRL_REG :=
  ⟨(C21_reset_idempotent {} {} (ast_i2c_dev_init {} {})
      (Or.inl (dev_init_timing_programmed {} {}))).2.2.2.2.1,
   (C21_reset_idempotent {} {} (ast_i2c_dev_init {} {})
      (Or.inl (dev_init_timing_programmed {} {}))).2.2.2.1⟩

theorem getD_set_msg (l : List i2c_msg) (i j : Nat) (m : i2c_msg) (hi : i < l.length) :
    (l.set i m).getD j {} = if j = i then m else l.getD j {} := by
  simp only [List.getD_eq_getElem?_getD, List.getElem?_set]
  by_cases h : i = j
  · subst h
    simp [hi]
  · have h' : ¬ j = i := fun e => h e.symm
    simp [h, h']

/-- The ring after `ast_i2c_slave_buff_init` satisfies the invariant when the
transmit message is not marked as being written (the device structure is
zeroed at allocation). -/
theorem buff_init_inv (s : ast_i2c_dev) (htx : s.slave_tx_msg.addr ≠ BUFF_ONGOING) :
    RingInv (ast_i2c_slave_buff_init s) := by
  have hslot : ∀ i < 21, slot (ast_i2c_slave_buff_init s) i =
      { addr := (0xFFFF ^^^ BUFF_ONGOING), flags := 0, len := I2C_S_BUF_SIZE,
        buf := List.replicate I2C_S_BUF_SIZE 0 } := by
    intro i hi
    simp only [slot, ast_i2c_slave_buff_init]
    rw [List.getD_eq_getElem?_getD, List.getElem?_replicate]
    simp [I2C_S_RX_BUF_NUM, hi]
  refine ⟨by simp [ast_i2c_slave_buff_init], by simp [ast_i2c_slave_buff_init, I2C_S_RX_BUF_NUM],
    by simp [ast_i2c_slave_buff_init, I2C_S_RX_BUF_NUM],
    by simp [ast_i2c_slave_buff_init],
    by simp [ast_i2c_slave_buff_init, I2C_S_RX_BUF_NUM], ?_, ?_, ?_, htx⟩
  · intro i hi
    rw [hslot i hi]
    simp [ast_i2c_slave_buff_init, BUFF_FULL]
  · intro i hi
    rw [hslot i hi]
    exact Or.inl rfl
  · intro i hi
    rw [hslot i hi]
    intro h
    exact absurd h (by decide)

theorem full_flag_facts : BUFF_FULL ≠ 0 ∧ BUFF_FULL &&& I2C_M_RD = 0 ∧
    (0 : Nat) &&& I2C_M_RD = 0 ∧ BUFF_ONGOING ≠ 0 := by decide

/-- Under the invariant, the slot at `slave_rx_in` is marked full exactly when
the ring is full, and then both cursors coincide. -/
theorem ring_full_at_in (s : ast_i2c_dev) (h : RingInv s) :
    ((slot s s.slave_rx_in).flags = BUFF_FULL ↔ s.data_ready = I2C_S_RX_BUF_NUM) ∧
    (s.data_ready = I2C_S_RX_BUF_NUM → s.slave_rx_in = s.slave_rx_out) ∧
    ((slot s s.slave_rx_out).flags = BUFF_FULL ↔ 0 < s.data_ready) := by
  obtain ⟨h1, h2, h3, h4, h5, h6, h7, h8, h9⟩ := h
  have f1 := h6 s.slave_rx_in (by omega)
  have f2 := h6 s.slave_rx_out (by omega)
  simp only [I2C_S_RX_BUF_NUM] at *
  refine ⟨?_, ?_, ?_⟩
  · rw [f1]
    omega
  · omega
  · rw [f2]
    omega

/-- A start-of-write event keeps the invariant; on a full ring it evicts the
oldest message. -/
theorem rdwr_start_write_inv (s : ast_i2c_dev) (h : RingInv s) :
    RingInv (ast_i2c_slave_rdwr_xfer { s with slave_event := SlaveEvent.START_WRITE }) := by
  obtain ⟨r1, r2, r3⟩ := ring_full_at_in s h
  obtain ⟨h1, h2, h3, h4, h5, h6, h7, h8, h9⟩ := h
  have hfl := h7 s.slave_rx_in (by omega)
  have hlen : s.slave_rx_in < s.slave_rx_msg.length := by omega
  by_cases hfull : (slot s s.slave_rx_in).flags = BUFF_FULL
  · have hd := r1.mp hfull
    have hio := r2 hd
    have hne : (s.slave_rx_msg.getD s.slave_rx_in {}).flags ≠ 0 := by
      have := hfull
      simp only [slot] at this
      rw [this]
      exact full_flag_facts.1
    have hpos : s.data_ready > 0 := by rw [hd]; decide
    simp only [I2C_S_RX_BUF_NUM] at *
    constructor
    all_goals simp only [ast_i2c_slave_rdwr_xfer, hne, ne_eq, not_false_eq_true, if_true, hpos,
      slot, getD_set_msg, List.length_set, hlen, I2C_S_RX_BUF_NUM]
    · exact h1
    · exact h2
    · omega
    · omega
    · omega
    · intro i hi
      by_cases hi2 : i = s.slave_rx_in
      · simp only [hi2, if_true]
        have : ¬ ((0 : Nat) = BUFF_FULL) := by decide
        simp only [this, false_iff]
        omega
      · simp only [hi2, if_false]
        have := h6 i hi
        simp only [slot] at this
        rw [this]
        omega
    · intro i hi
      by_cases hi2 : i = s.slave_rx_in
      · simp only [hi2, if_true]
        exact Or.inl trivial
      · simp only [hi2, if_false]
        exact h7 i hi
    · intro i hi
      by_cases hi2 : i = s.slave_rx_in
      · simp only [hi2, if_true]
        intro _
        exact ⟨trivial, trivial⟩
      · simp only [hi2, if_false]
        intro ha
        exact absurd (h8 i hi ha).1 hi2
    · exact h9
  · have he : (s.slave_rx_msg.getD s.slave_rx_in {}).flags = 0 := by
      rcases hfl with h0 | h0
      · exact h0
      · exact absurd h0 hfull
    simp only [I2C_S_RX_BUF_NUM] at *
    constructor
    all_goals simp only [ast_i2c_slave_rdwr_xfer, he, ne_eq, not_true_eq_false, if_false,
      slot, getD_set_msg, List.length_set, hlen, I2C_S_RX_BUF_NUM]
    · exact h1
    · exact h2
    · exact h3
    · exact h4
    · exact h5
    · intro i hi
      by_cases hi2 : i = s.slave_rx_in
      · simp only [hi2, if_true]
        have := h6 s.slave_rx_in (by omega)
        simp only [slot] at this
        rw [he] at this
        exact this
      · simp only [hi2, if_false]
        exact h6 i hi
    · intro i hi
      by_cases hi2 : i = s.slave_rx_in
      · simp only [hi2, if_true]
        exact Or.inl trivial
      · simp only [hi2, if_false]
        exact h7 i hi
    · intro i hi
      by_cases hi2 : i = s.slave_rx_in
      · simp only [hi2, if_true]
        intro _
        exact ⟨trivial, trivial⟩
      · simp only [hi2, if_false]
        intro ha
        exact absurd (h8 i hi ha).1 hi2
    · exact h9

/-- An event other than start-of-write and stop only redirects the
`slave_msgs` pointer to the transmit message. -/
theorem rdwr_other_inv (s : ast_i2c_dev) (e : SlaveEvent) (h : RingInv s)
    (h1 : e ≠ SlaveEvent.START_WRITE) (h2 : e ≠ SlaveEvent.STOP) :
    RingInv (ast_i2c_slave_rdwr_xfer { s with slave_event := e }) := by
  obtain ⟨a1, a2, a3, a4, a5, a6, a7, a8, a9⟩ := h
  cases e with
  | START_WRITE => exact absurd rfl h1
  | STOP => exact absurd rfl h2
  | START_READ => exact ⟨a1, a2, a3, a4, a5, a6, a7, a8, a9⟩
  | READ => exact ⟨a1, a2, a3, a4, a5, a6, a7, a8, a9⟩
  | WRITE => exact ⟨a1, a2, a3, a4, a5, a6, a7, a8, a9⟩
  | NACK => exact ⟨a1, a2, a3, a4, a5, a6, a7, a8, a9⟩

/-- A stop event keeps the invariant; it finalises the slot at `slave_rx_in`
when that slot is being written through the `slave_msgs` pointer. -/
theorem rdwr_stop_inv (s : ast_i2c_dev) (h : RingInv s) :
    RingInv (ast_i2c_slave_rdwr_xfer { s with slave_event := SlaveEvent.STOP }) := by
  obtain ⟨r1, r2, r3⟩ := ring_full_at_in s h
  obtain ⟨h1, h2, h3, h4, h5, h6, h7, h8, h9⟩ := h
  cases hp : s.slave_msgs with
  | tx =>
    have hc : ¬ (s.slave_tx_msg.flags &&& I2C_M_RD = 0 ∧ s.slave_tx_msg.addr = BUFF_ONGOING) :=
      fun hh => h9 hh.2
    constructor
    all_goals simp only [ast_i2c_slave_rdwr_xfer, slave_msg, hp, hc, if_false]
    all_goals first
      | exact h1 | exact h2 | exact h3 | exact h4 | exact h5 | exact h6 | exact h7
      | exact h8 | exact h9
  | rx i =>
    by_cases hc : (s.slave_rx_msg.getD i {}).flags &&& I2C_M_RD = 0 ∧
        (s.slave_rx_msg.getD i {}).addr = BUFF_ONGOING
    · have hi : i < I2C_S_RX_BUF_NUM + 1 := by
        by_contra hge
        have hd : s.slave_rx_msg.getD i {} = {} :=
          List.getD_eq_default _ _ (by omega)
        rw [hd] at hc
        exact absurd hc.2 (by decide)
      obtain ⟨hin, hfl⟩ := h8 i hi hc.2
      subst hin
      have hnf : ¬ (slot s s.slave_rx_in).flags = BUFF_FULL := by
        rw [hfl]
        exact fun e => full_flag_facts.1 e.symm
      have hd : s.data_ready < I2C_S_RX_BUF_NUM := by
        have := fun e => hnf (r1.mpr e)
        omega
      have hlen : s.slave_rx_in < s.slave_rx_msg.length := by omega
      have hrun := h6 s.slave_rx_in hi
      rw [hfl] at hrun
      simp only [I2C_S_RX_BUF_NUM] at *
      have hrun2 : ¬ (s.slave_rx_in + 20 - s.slave_rx_out) % 20 < s.data_ready := by
        intro hh
        exact full_flag_facts.1 (hrun.mpr ⟨h2, hh⟩).symm
      constructor
      all_goals simp only [ast_i2c_slave_rdwr_xfer, slave_msg, set_slave_msg, hp, hc, and_self,
        if_true, hd, slot, getD_set_msg, List.length_set, hlen, I2C_S_RX_BUF_NUM]
      · exact h1
      · omega
      · exact h3
      · omega
      · omega
      · intro j hj
        by_cases hj2 : j = s.slave_rx_in
        · simp only [hj2, if_true, true_iff]
          omega
        · simp only [hj2, if_false]
          have := h6 j hj
          simp only [slot] at this
          rw [this]
          omega
      · intro j hj
        by_cases hj2 : j = s.slave_rx_in
        · simp only [hj2, if_true]
          exact Or.inr trivial
        · simp only [hj2, if_false]
          exact h7 j hj
      · intro j hj
        by_cases hj2 : j = s.slave_rx_in
        · simp only [hj2, if_true]
          intro ha
          exact absurd ha (by decide)
        · simp only [hj2, if_false]
          intro ha
          exact absurd (h8 j hj ha).1 hj2
      · exact h9
    · constructor
      all_goals simp only [ast_i2c_slave_rdwr_xfer, slave_msg, hp, hc, if_false]
      all_goals first
        | exact h1 | exact h2 | exact h3 | exact h4 | exact h5 | exact h6 | exact h7
        | exact h8 | exact h9

/-- A store of bytes and count through the `slave_msgs` pointer keeps the
invariant: no mark and no cursor changes. -/
theorem store_inv (s : ast_i2c_dev) (buf : List Nat) (len : Nat) (h : RingInv s) :
    RingInv (set_slave_msg s { slave_msg s with buf := buf, len := len }) := by
  obtain ⟨h1, h2, h3, h4, h5, h6, h7, h8, h9⟩ := h
  cases hp : s.slave_msgs with
  | tx =>
    constructor
    all_goals simp only [set_slave_msg, slave_msg, hp]
    all_goals first
      | exact h1 | exact h2 | exact h3 | exact h4 | exact h5 | exact h6 | exact h7
      | exact h8 | exact h9
  | rx i =>
    by_cases hi : i < s.slave_rx_msg.length
    · have hsl : ∀ j, slot (set_slave_msg s { slave_msg s with buf := buf, len := len }) j =
          if j = i then { slot s i with buf := buf, len := len } else slot s j := by
        intro j
        simp only [set_slave_msg, slave_msg, hp, slot, getD_set_msg _ _ _ _ hi]
      constructor
      · simp only [set_slave_msg, hp, List.length_set]
        exact h1
      · simp only [set_slave_msg, hp]; exact h2
      · simp only [set_slave_msg, hp]; exact h3
      · simp only [set_slave_msg, hp]; exact h4
      · simp only [set_slave_msg, hp]; exact h5
      · intro j hj
        rw [hsl j]
        have e1 : (set_slave_msg s { slave_msg s with buf := buf, len := len }).slave_rx_out =
          s.slave_rx_out := by simp only [set_slave_msg, hp]
        have e2 : (set_slave_msg s { slave_msg s with buf := buf, len := len }).data_ready =
          s.data_ready := by simp only [set_slave_msg, hp]
        rw [e1, e2]
        by_cases hj2 : j = i
        · subst hj2
          simp only [if_true]
          exact h6 j hj
        · simp only [hj2, if_false]
          exact h6 j hj
      · intro j hj
        rw [hsl j]
        by_cases hj2 : j = i
        · subst hj2
          simp only [if_true]
          exact h7 j hj
        · simp only [hj2, if_false]
          exact h7 j hj
      · intro j hj
        rw [hsl j]
        have e1 : (set_slave_msg s { slave_msg s with buf := buf, len := len }).slave_rx_in =
          s.slave_rx_in := by simp only [set_slave_msg, hp]
        rw [e1]
        by_cases hj2 : j = i
        · subst hj2
          simp only [if_true]
          exact h8 j hj
        · simp only [hj2, if_false]
          exact h8 j hj
      · simp only [set_slave_msg, hp]
        exact h9
    · have e : set_slave_msg s { slave_msg s with buf := buf, len := len } = s := by
        simp only [set_slave_msg, hp, List.set_eq_of_length_le (Nat.le_of_not_lt hi)]
        rw [← hp]
      rw [e]
      exact ⟨h1, h2, h3, h4, h5, h6, h7, h8, h9⟩

/-- A read of the consumer keeps the invariant. -/
theorem read_inv (s : ast_i2c_dev) (msgs : i2c_msg) (h : RingInv s) :
    RingInv (ast_i2c_slave_xfer { msgs with flags := 0 } s).2.2 := by
  obtain ⟨r1, r2, r3⟩ := ring_full_at_in s h
  obtain ⟨h1, h2, h3, h4, h5, h6, h7, h8, h9⟩ := h
  by_cases hf : (s.slave_rx_msg.getD s.slave_rx_out {}).flags = BUFF_FULL
  · have hpos : s.data_ready > 0 := r3.mp hf
    have hlen : s.slave_rx_out < s.slave_rx_msg.length := by omega
    simp only [I2C_S_RX_BUF_NUM] at *
    constructor
    all_goals simp only [ast_i2c_slave_xfer, hf, if_true, hpos, slot, getD_set_msg,
      List.length_set, hlen, I2C_S_RX_BUF_NUM]
    · exact h1
    · exact h2
    · omega
    · omega
    · omega
    · intro j hj
      by_cases hj2 : j = s.slave_rx_out
      · simp only [hj2, if_true]
        have : ¬ ((0 : Nat) = BUFF_FULL) := by decide
        simp only [this, false_iff]
        omega
      · simp only [hj2, if_false]
        have := h6 j hj
        simp only [slot] at this
        rw [this]
        omega
    · intro j hj
      by_cases hj2 : j = s.slave_rx_out
      · simp only [hj2, if_true]
        exact Or.inl trivial
      · simp only [hj2, if_false]
        exact h7 j hj
    · intro j hj
      by_cases hj2 : j = s.slave_rx_out
      · simp only [hj2, if_true]
        intro ha
        have := (h8 s.slave_rx_out (by omega) ha).2
        simp only [slot] at this
        rw [hf] at this
        exact absurd this (by decide)
      · simp only [hj2, if_false]
        intro ha
        exact ⟨(h8 j hj ha).1, (h8 j hj ha).2⟩
    · exact h9
  · have e : (ast_i2c_slave_xfer { msgs with flags := 0 } s).2.2 = s := by
      simp only [ast_i2c_slave_xfer, hf, if_true, if_false]
    rw [e]
    exact ⟨h1, h2, h3, h4, h5, h6, h7, h8, h9⟩

/-- Every operation at the ring keeps the invariant. -/
theorem ring_step_inv (s : ast_i2c_dev) (op : RingOp) (h : RingInv s) :
    RingInv (ring_step s op) := by
  cases op with
  | event e =>
    by_cases h1 : e = SlaveEvent.START_WRITE
    · subst h1
      exact rdwr_start_write_inv s h
    · by_cases h2 : e = SlaveEvent.STOP
      · subst h2
        exact rdwr_stop_inv s h
      · exact rdwr_other_inv s e h h1 h2
  | store buf len => exact store_inv s buf len h
  | read msgs => exact read_inv s msgs h

theorem ring_run_inv (ops : List RingOp) : ∀ (s : ast_i2c_dev), RingInv s →
    RingInv (ring_run ops s) := by
  induction ops with
  | nil => intro s h; exact h
  | cons op ops ih =>
    intro s h
    exact ih (ring_step s op) (ring_step_inv s op h)

theorem countP_eq_range (p : i2c_msg → Bool) :
    ∀ (l : List i2c_msg),
    l.countP p = ((List.range l.length).filter (fun i => p (l.getD i {}))).length := by
  intro l
  induction l with
  | nil => rfl
  | cons a l ih =>
    have e : (fun i => p ((a :: l).getD i {})) ∘ Nat.succ = fun i => p (l.getD i {}) := by
      funext i
      rfl
    have h0 : (a :: l).getD 0 {} = a := rfl
    rw [List.length_cons, List.range_succ_eq_map, List.filter_cons, List.countP_cons,
      List.filter_map, e, h0, ih]
    by_cases hp : p a = true
    · rw [if_pos hp, if_pos hp, List.length_cons, List.length_map]
    · rw [if_neg hp, if_neg hp, List.length_map]
      rfl

theorem run_count : ∀ o < 20, ∀ d ≤ 20,
    ((List.range 21).filter
      (fun i => decide (i < 20 ∧ (i + 20 - o) % 20 < d))).length = d := by
  decide

/-- Under the invariant the number of slots marked full is the data-ready
counter. -/
theorem full_count_eq (s : ast_i2c_dev) (h : RingInv s) : full_count s = s.data_ready := by
  obtain ⟨h1, h2, h3, h4, h5, h6, h7, h8, h9⟩ := h
  simp only [I2C_S_RX_BUF_NUM] at *
  rw [full_count, countP_eq_range, h1]
  rw [← run_count s.slave_rx_out h3 s.data_ready h4]
  congr 1
  apply List.filter_congr
  intro i hi
  have hi' : i < 21 := List.mem_range.mp hi
  have := h6 i hi'
  simp only [slot] at this
  simp only [this]

/-- C29: from the ring as `ast_i2c_slave_buff_init` leaves it in the zeroed
device structure (the transmit message is not marked as being written), after
any sequence of events passed to `ast_i2c_slave_rdwr_xfer`, stores through the
`slave_msgs` pointer and reads through `ast_i2c_slave_xfer`: both cursors are
below 20; the data-ready counter is at most 20 and is the number of slots
marked full; the slots marked full are exactly the cyclic run of `data_ready`
slots that starts at `slave_rx_out`, and that run ends at `slave_rx_in`. -/
theorem C29_ring_invariant (ops : List RingOp) (s0 : ast_i2c_dev)
    (htx : s0.slave_tx_msg.addr ≠ BUFF_ONGOING) :
    (ring_run ops (ast_i2c_slave_buff_init s0)).slave_rx_in < I2C_S_RX_BUF_NUM ∧
    (ring_run ops (ast_i2c_slave_buff_init s0)).slave_rx_out < I2C_S_RX_BUF_NUM ∧
    (ring_run ops (ast_i2c_slave_buff_init s0)).data_ready ≤ I2C_S_RX_BUF_NUM ∧
    full_count (ring_run ops (ast_i2c_slave_buff_init s0)) =
      (ring_run ops (ast_i2c_slave_buff_init s0)).data_ready ∧
    (∀ i < I2C_S_RX_BUF_NUM + 1,
      (slot (ring_run ops (ast_i2c_slave_buff_init s0)) i).flags = BUFF_FULL ↔
      (i < I2C_S_RX_BUF_NUM ∧
        (i + I2C_S_RX_BUF_NUM - (ring_run ops (ast_i2c_slave_buff_init s0)).slave_rx_out) %
          I2C_S_RX_BUF_NUM < (ring_run ops (ast_i2c_slave_buff_init s0)).data_ready)) ∧
    ((ring_run ops (ast_i2c_slave_buff_init s0)).slave_rx_out +
      (ring_run ops (ast_i2c_slave_buff_init s0)).data_ready) % I2C_S_RX_BUF_NUM =
      (ring_run ops (ast_i2c_slave_buff_init s0)).slave_rx_in := by
  have h := ring_run_inv ops _ (buff_init_inv s0 htx)
  exact ⟨h.rin, h.rout, h.ready, full_count_eq _ h, h.full, h.run⟩

/-- C29 after two finalised writes, an aborted write and one read. -/
theorem C29_ring_invariant_witness :
    full_count (ring_run
      [RingOp.event SlaveEvent.START_WRITE, RingOp.store [1, 2] 2,
       RingOp.event SlaveEvent.STOP, RingOp.event SlaveEvent.START_WRITE,
       RingOp.event SlaveEvent.STOP, RingOp.event SlaveEvent.START_WRITE,
       RingOp.event SlaveEvent.NACK, RingOp.read {}]
      (ast_i2c_slave_buff_init {})) =
    (ring_run
      [RingOp.event SlaveEvent.START_WRITE, RingOp.store [1, 2] 2,
       RingOp.event SlaveEvent.STOP, RingOp.event SlaveEvent.START_WRITE,
       RingOp.event SlaveEvent.STOP, RingOp.event SlaveEvent.START_WRITE,
       RingOp.event SlaveEvent.NACK, RingOp.read {}]
      (ast_i2c_slave_buff_init {})).data_ready :=
  (C29_ring_invariant _ {} (by decide)).2.2.2.1

theorem range_map_tail (f : Nat → List Nat × Nat) (d : Nat) :
    ((List.range (d + 1)).map f).tail = (List.range d).map (fun k => f (k + 1)) := by
  rw [List.range_succ_eq_map, List.map_cons, List.tail_cons, List.map_map]
  rfl

/-- The fields of the ring after a start-of-write event. -/
theorem start_write_fields (s : ast_i2c_dev) (h : RingInv s) :
    (ast_i2c_slave_rdwr_xfer { s with slave_event := SlaveEvent.START_WRITE }).slave_rx_in =
      s.slave_rx_in ∧
    (ast_i2c_slave_rdwr_xfer { s with slave_event := SlaveEvent.START_WRITE }).slave_msgs =
      SlaveRef.rx s.slave_rx_in ∧
    (slot (ast_i2c_slave_rdwr_xfer { s with slave_event := SlaveEvent.START_WRITE })
      s.slave_rx_in).addr = BUFF_ONGOING ∧
    (∀ j, (slot (ast_i2c_slave_rdwr_xfer { s with slave_event := SlaveEvent.START_WRITE })
        j).buf = (slot s j).buf ∧
      (slot (ast_i2c_slave_rdwr_xfer { s with slave_event := SlaveEvent.START_WRITE })
        j).len = (slot s j).len) ∧
    (s.data_ready = 20 →
      (ast_i2c_slave_rdwr_xfer { s with slave_event := SlaveEvent.START_WRITE }).slave_rx_out =
        (s.slave_rx_out + 1) % 20 ∧
      (ast_i2c_slave_rdwr_xfer { s with slave_event := SlaveEvent.START_WRITE }).data_ready =
        19) ∧
    (s.data_ready ≠ 20 →
      (ast_i2c_slave_rdwr_xfer { s with slave_event := SlaveEvent.START_WRITE }).slave_rx_out =
        s.slave_rx_out ∧
      (ast_i2c_slave_rdwr_xfer { s with slave_event := SlaveEvent.START_WRITE }).data_ready =
        s.data_ready) := by
  obtain ⟨r1, r2, r3⟩ := ring_full_at_in s h
  obtain ⟨h1, h2, h3, h4, h5, h6, h7, h8, h9⟩ := h
  have hfl := h7 s.slave_rx_in (by omega)
  have hlen : s.slave_rx_in < s.slave_rx_msg.length := by omega
  by_cases hfull : (slot s s.slave_rx_in).flags = BUFF_FULL
  · have hd := r1.mp hfull
    have hio := r2 hd
    have hne : (s.slave_rx_msg.getD s.slave_rx_in {}).flags ≠ 0 := by
      have := hfull
      simp only [slot] at this
      rw [this]
      exact full_flag_facts.1
    have hpos : s.data_ready > 0 := by rw [hd]; decide
    simp only [I2C_S_RX_BUF_NUM] at hd
    refine ⟨?_, ?_, ?_, ?_, ?_, fun hn => absurd hd hn⟩
    · simp only [ast_i2c_slave_rdwr_xfer, hne, ne_eq, not_false_eq_true, if_true, hpos]
    · simp only [ast_i2c_slave_rdwr_xfer, hne, ne_eq, not_false_eq_true, if_true, hpos]
    · simp only [ast_i2c_slave_rdwr_xfer, hne, ne_eq, not_false_eq_true, if_true, hpos,
        slot, getD_set_msg, List.length_set, hlen]
    · intro j
      by_cases hj : j = s.slave_rx_in
      · simp only [ast_i2c_slave_rdwr_xfer, hne, ne_eq, not_false_eq_true, if_true, hpos,
          slot, getD_set_msg, List.length_set, hlen, hj, and_self]
      · simp only [ast_i2c_slave_rdwr_xfer, hne, ne_eq, not_false_eq_true, if_true, hpos,
          slot, getD_set_msg, List.length_set, hlen, hj, if_false, and_self]
    · intro _
      simp only [ast_i2c_slave_rdwr_xfer, hne, ne_eq, not_false_eq_true, if_true, hpos,
        I2C_S_RX_BUF_NUM]
      constructor <;> omega
  · have he : (s.slave_rx_msg.getD s.slave_rx_in {}).flags = 0 := by
      rcases hfl with h0 | h0
      · exact h0
      · exact absurd h0 hfull
    have hd : ¬ s.data_ready = 20 := fun e => hfull (r1.mpr e)
    refine ⟨?_, ?_, ?_, ?_, fun hn => absurd hn hd, ?_⟩
    · simp only [ast_i2c_slave_rdwr_xfer, he, ne_eq, not_true_eq_false, if_false]
    · simp only [ast_i2c_slave_rdwr_xfer, he, ne_eq, not_true_eq_false, if_false]
    · simp only [ast_i2c_slave_rdwr_xfer, he, ne_eq, not_true_eq_false, if_false,
        slot, getD_set_msg, List.length_set, hlen, if_true]
    · intro j
      by_cases hj : j = s.slave_rx_in
      · simp only [ast_i2c_slave_rdwr_xfer, he, ne_eq, not_true_eq_false, if_false,
          slot, getD_set_msg, List.length_set, hlen, hj, if_true, and_self]
      · simp only [ast_i2c_slave_rdwr_xfer, he, ne_eq, not_true_eq_false, if_false,
          slot, getD_set_msg, List.length_set, hlen, hj, and_self]
    · intro _
      simp only [ast_i2c_slave_rdwr_xfer, he, ne_eq, not_true_eq_false, if_false, and_self]

/-- A start-of-write event opens a write at `slave_rx_in`; the queue loses its
oldest message when 20 are waiting and is unchanged otherwise. -/
theorem start_write_sim (s : ast_i2c_dev) (h : RingInv s) :
    WriteOpen (ast_i2c_slave_rdwr_xfer { s with slave_event := SlaveEvent.START_WRITE }) ∧
    ring_queue (ast_i2c_slave_rdwr_xfer { s with slave_event := SlaveEvent.START_WRITE }) =
      (if s.data_ready = 20 then (ring_queue s).tail else ring_queue s) ∧
    (ast_i2c_slave_rdwr_xfer { s with slave_event := SlaveEvent.START_WRITE }).data_ready =
      (if s.data_ready = 20 then 19 else s.data_ready) := by
  obtain ⟨f1, f2, f3, f4, f5, f6⟩ := start_write_fields s h
  generalize ast_i2c_slave_rdwr_xfer { s with slave_event := SlaveEvent.START_WRITE } = s'
    at f1 f2 f3 f4 f5 f6 ⊢
  refine ⟨⟨by rw [f1]; exact f2, by rw [f1]; exact f3⟩, ?_, ?_⟩
  · by_cases hd : s.data_ready = 20
    · obtain ⟨g1, g2⟩ := f5 hd
      rw [if_pos hd]
      have ht := range_map_tail (fun k => ((slot s ((s.slave_rx_out + k) % 20)).buf,
        (slot s ((s.slave_rx_out + k) % 20)).len)) 19
      simp only [ring_queue, g1, g2, hd, I2C_S_RX_BUF_NUM]
      rw [ht]
      apply List.map_congr_left
      intro k hk
      have hk' : k < 19 := List.mem_range.mp hk
      have e1 : ((s.slave_rx_out + 1) % 20 + k) % 20 = (s.slave_rx_out + (k + 1)) % 20 := by
        omega
      rw [e1, (f4 _).1, (f4 _).2]
    · obtain ⟨g1, g2⟩ := f6 hd
      rw [if_neg hd]
      simp only [ring_queue, g1, g2]
      apply List.map_congr_left
      intro k _
      rw [(f4 _).1, (f4 _).2]
  · by_cases hd : s.data_ready = 20
    · rw [if_pos hd]
      exact (f5 hd).2
    · rw [if_neg hd]
      exact (f6 hd).2

/-- The slot of an open write lies outside the run of full slots. -/
theorem open_slot_outside (s : ast_i2c_dev) (h : RingInv s) (hw : WriteOpen s) :
    s.data_ready < 20 ∧ (s.slave_rx_out + s.data_ready) % 20 = s.slave_rx_in ∧
    (slot s s.slave_rx_in).flags = 0 ∧
    ∀ k < s.data_ready, ¬ (s.slave_rx_out + k) % 20 = s.slave_rx_in := by
  obtain ⟨r1, r2, r3⟩ := ring_full_at_in s h
  obtain ⟨h1, h2, h3, h4, h5, h6, h7, h8, h9⟩ := h
  obtain ⟨_, w2⟩ := hw
  have hfl := (h8 s.slave_rx_in (by omega) w2).2
  have hnf : ¬ (slot s s.slave_rx_in).flags = BUFF_FULL := by
    rw [hfl]
    exact fun e => full_flag_facts.1 e.symm
  have hrun := h6 s.slave_rx_in (by omega)
  simp only [I2C_S_RX_BUF_NUM] at *
  have hd : s.data_ready < 20 := by
    have := fun e => hnf (r1.mpr e)
    omega
  have hrun2 : ¬ (s.slave_rx_in + 20 - s.slave_rx_out) % 20 < s.data_ready :=
    fun hh => hnf (hrun.mpr ⟨h2, hh⟩)
  refine ⟨hd, h5, hfl, ?_⟩
  intro k hk
  omega

/-- A store during an open write: the write stays open, the slot at
`slave_rx_in` holds the stored bytes and count, the queue is unchanged. -/
theorem store_sim (s : ast_i2c_dev) (buf : List Nat) (len : Nat) (h : RingInv s)
    (hw : WriteOpen s) :
    WriteOpen (set_slave_msg s { slave_msg s with buf := buf, len := len }) ∧
    ring_queue (set_slave_msg s { slave_msg s with buf := buf, len := len }) = ring_queue s ∧
    (set_slave_msg s { slave_msg s with buf := buf, len := len }).slave_rx_in =
      s.slave_rx_in ∧
    (slot (set_slave_msg s { slave_msg s with buf := buf, len := len }) s.slave_rx_in).buf =
      buf ∧
    (slot (set_slave_msg s { slave_msg s with buf := buf, len := len }) s.slave_rx_in).len =
      len := by
  obtain ⟨o1, o2, o3, o4⟩ := open_slot_outside s h hw
  obtain ⟨h1, h2, h3, h4, h5, h6, h7, h8, h9⟩ := h
  obtain ⟨w1, w2⟩ := hw
  have hlen : s.slave_rx_in < s.slave_rx_msg.length := by
    simp only [I2C_S_RX_BUF_NUM] at *
    omega
  have hsl : ∀ j, slot (set_slave_msg s { slave_msg s with buf := buf, len := len }) j =
      if j = s.slave_rx_in then { slot s s.slave_rx_in with buf := buf, len := len }
      else slot s j := by
    intro j
    simp only [set_slave_msg, slave_msg, w1, slot, getD_set_msg _ _ _ _ hlen]
  have e1 : (set_slave_msg s { slave_msg s with buf := buf, len := len }).slave_rx_in =
      s.slave_rx_in := by simp only [set_slave_msg, w1]
  have e2 : (set_slave_msg s { slave_msg s with buf := buf, len := len }).slave_rx_out =
      s.slave_rx_out := by simp only [set_slave_msg, w1]
  have e3 : (set_slave_msg s { slave_msg s with buf := buf, len := len }).data_ready =
      s.data_ready := by simp only [set_slave_msg, w1]
  have e4 : (set_slave_msg s { slave_msg s with buf := buf, len := len }).slave_msgs =
      s.slave_msgs := by simp only [set_slave_msg, w1]
  generalize set_slave_msg s { slave_msg s with buf := buf, len := len } = s'
    at hsl e1 e2 e3 e4 ⊢
  refine ⟨⟨by rw [e4, e1]; exact w1, ?_⟩, ?_, e1, ?_, ?_⟩
  · rw [e1, hsl, if_pos rfl]
    exact w2
  · simp only [ring_queue, e2, e3, I2C_S_RX_BUF_NUM]
    apply List.map_congr_left
    intro k hk
    have hk' : k < s.data_ready := List.mem_range.mp hk
    rw [hsl, if_neg (o4 k hk')]
  · rw [hsl, if_pos rfl]
  · rw [hsl, if_pos rfl]

/-- A stop event during an open write finalises the slot at `slave_rx_in`: its
bytes and count are appended to the queue. -/
theorem stop_sim (s : ast_i2c_dev) (h : RingInv s) (hw : WriteOpen s) :
    ring_queue (ast_i2c_slave_rdwr_xfer { s with slave_event := SlaveEvent.STOP }) =
      ring_queue s ++ [((slot s s.slave_rx_in).buf, (slot s s.slave_rx_in).len)] ∧
    (ast_i2c_slave_rdwr_xfer { s with slave_event := SlaveEvent.STOP }).data_ready =
      s.data_ready + 1 := by
  obtain ⟨o1, o2, o3, o4⟩ := open_slot_outside s h hw
  obtain ⟨h1, h2, h3, h4, h5, h6, h7, h8, h9⟩ := h
  obtain ⟨w1, w2⟩ := hw
  have hlen : s.slave_rx_in < s.slave_rx_msg.length := by
    simp only [I2C_S_RX_BUF_NUM] at *
    omega
  have hc : (s.slave_rx_msg.getD s.slave_rx_in {}).flags &&& I2C_M_RD = 0 ∧
      (s.slave_rx_msg.getD s.slave_rx_in {}).addr = BUFF_ONGOING := by
    simp only [slot] at o3 w2
    rw [o3]
    exact ⟨full_flag_facts.2.2.1, w2⟩
  have hd : s.data_ready < I2C_S_RX_BUF_NUM := o1
  have e2 : (ast_i2c_slave_rdwr_xfer { s with slave_event := SlaveEvent.STOP }).slave_rx_out =
      s.slave_rx_out := by
    simp only [ast_i2c_slave_rdwr_xfer, slave_msg, set_slave_msg, w1, hc, and_self, if_true, hd]
  have e3 : (ast_i2c_slave_rdwr_xfer { s with slave_event := SlaveEvent.STOP }).data_ready =
      s.data_ready + 1 := by
    simp only [ast_i2c_slave_rdwr_xfer, slave_msg, set_slave_msg, w1, hc, and_self, if_true, hd]
  have hsl : ∀ j, (slot (ast_i2c_slave_rdwr_xfer { s with slave_event := SlaveEvent.STOP })
        j).buf = (slot s j).buf ∧
      (slot (ast_i2c_slave_rdwr_xfer { s with slave_event := SlaveEvent.STOP }) j).len =
        (slot s j).len := by
    intro j
    by_cases hj : j = s.slave_rx_in
    · simp only [ast_i2c_slave_rdwr_xfer, slave_msg, set_slave_msg, w1, hc, and_self, if_true,
        hd, slot, getD_set_msg, hlen, hj]
    · simp only [ast_i2c_slave_rdwr_xfer, slave_msg, set_slave_msg, w1, hc, and_self, if_true,
        hd, slot, getD_set_msg, hlen, hj, if_false]
  generalize ast_i2c_slave_rdwr_xfer { s with slave_event := SlaveEvent.STOP } = s'
    at hsl e2 e3 ⊢
  refine ⟨?_, e3⟩
  simp only [ring_queue, e2, e3, I2C_S_RX_BUF_NUM, List.range_succ, List.map_append,
    List.map_cons, List.map_nil, o2]
  congr 1
  · apply List.map_congr_left
    intro k _
    rw [(hsl _).1, (hsl _).2]
  · rw [(hsl _).1, (hsl _).2]

/-- A read of the consumer: with a message waiting it returns 0, copies the
bytes of the oldest message into the caller's buffer, reports its count and
removes it from the queue; with none it returns -1 with count 0 and leaves the
state as it is. -/
theorem read_sim (s : ast_i2c_dev) (msgs : i2c_msg) (h : RingInv s) :
    (0 < s.data_ready →
      (ast_i2c_slave_xfer { msgs with flags := 0 } s).1 = 0 ∧
      (ast_i2c_slave_xfer { msgs with flags := 0 } s).2.1 =
        { msgs with flags := 0,
                    buf := memcpy msgs.buf (slot s s.slave_rx_out).buf
                      (slot s s.slave_rx_out).len,
                    len := (slot s s.slave_rx_out).len } ∧
      ring_queue (ast_i2c_slave_xfer { msgs with flags := 0 } s).2.2 = (ring_queue s).tail ∧
      (ast_i2c_slave_xfer { msgs with flags := 0 } s).2.2.data_ready = s.data_ready - 1) ∧
    (s.data_ready = 0 →
      ast_i2c_slave_xfer { msgs with flags := 0 } s =
        (-1, { msgs with flags := 0, len := 0 }, s)) := by
  obtain ⟨r1, r2, r3⟩ := ring_full_at_in s h
  obtain ⟨h1, h2, h3, h4, h5, h6, h7, h8, h9⟩ := h
  constructor
  · intro hpos
    have hf : (s.slave_rx_msg.getD s.slave_rx_out {}).flags = BUFF_FULL := r3.mpr hpos
    have hlen : s.slave_rx_out < s.slave_rx_msg.length := by
      simp only [I2C_S_RX_BUF_NUM] at *
      omega
    have hgt : s.data_ready > 0 := hpos
    have e2 : (ast_i2c_slave_xfer { msgs with flags := 0 } s).2.2.slave_rx_out =
        (s.slave_rx_out + 1) % 20 := by
      simp only [ast_i2c_slave_xfer, hf, if_true, hgt, I2C_S_RX_BUF_NUM]
    have e3 : (ast_i2c_slave_xfer { msgs with flags := 0 } s).2.2.data_ready =
        s.data_ready - 1 := by
      simp only [ast_i2c_slave_xfer, hf, if_true, hgt]
    have hsl : ∀ j, ¬ j = s.slave_rx_out →
        slot (ast_i2c_slave_xfer { msgs with flags := 0 } s).2.2 j = slot s j := by
      intro j hj
      simp only [ast_i2c_slave_xfer, hf, if_true, hgt, slot, getD_set_msg, hlen, hj, if_false]
    refine ⟨?_, ?_, ?_, e3⟩
    · simp only [ast_i2c_slave_xfer, hf, if_true]
    · simp only [ast_i2c_slave_xfer, hf, if_true, slot]
    · generalize (ast_i2c_slave_xfer { msgs with flags := 0 } s).2.2 = s' at hsl e2 e3 ⊢
      obtain ⟨d, hd⟩ : ∃ d, s.data_ready = d + 1 := ⟨s.data_ready - 1, by omega⟩
      have ht := range_map_tail (fun k => ((slot s ((s.slave_rx_out + k) % 20)).buf,
        (slot s ((s.slave_rx_out + k) % 20)).len)) d
      simp only [I2C_S_RX_BUF_NUM] at *
      simp only [ring_queue, e2, e3, hd, I2C_S_RX_BUF_NUM, Nat.add_sub_cancel]
      rw [ht]
      apply List.map_congr_left
      intro k hk
      have hk' : k < d := List.mem_range.mp hk
      have e1 : ((s.slave_rx_out + 1) % 20 + k) % 20 = (s.slave_rx_out + (k + 1)) % 20 := by
        omega
      have e4 : ¬ (s.slave_rx_out + (k + 1)) % 20 = s.slave_rx_out := by omega
      rw [e1, hsl _ e4]
  · intro h0
    have hf : ¬ (s.slave_rx_msg.getD s.slave_rx_out {}).flags = BUFF_FULL := by
      intro hh
      have := r3.mp hh
      omega
    simp only [ast_i2c_slave_xfer, hf, if_true, if_false]

theorem ring_queue_length (s : ast_i2c_dev) : (ring_queue s).length = s.data_ready := by
  simp only [ring_queue, List.length_map, List.length_range]

/-- A whole write transaction appends its message to the queue, after the
oldest message has been dropped when 20 were waiting. -/
theorem write_sim (s : ast_i2c_dev) (buf : List Nat) (len : Nat) (h : RingInv s) :
    ring_queue (ring_run (RingTx.write buf len).ops s) =
      (if (ring_queue s).length = 20 then (ring_queue s).tail else ring_queue s) ++
        [(buf, len)] := by
  obtain ⟨a1, a2, _⟩ := start_write_sim s h
  have i1 := rdwr_start_write_inv s h
  have f1 := (start_write_fields s h).1
  rw [ring_queue_length]
  simp only [RingTx.ops, ring_run, List.foldl_cons, List.foldl_nil, ring_step]
  generalize ast_i2c_slave_rdwr_xfer { s with slave_event := SlaveEvent.START_WRITE } = s1
    at a1 a2 i1 f1 ⊢
  obtain ⟨b1, b2, b3, b4, b5⟩ := store_sim s1 buf len i1 a1
  have i2 := store_inv s1 buf len i1
  generalize set_slave_msg s1 { slave_msg s1 with buf := buf, len := len } = s2
    at b1 b2 b3 b4 b5 i2 ⊢
  obtain ⟨c1, _⟩ := stop_sim s2 i2 b1
  rw [c1, b2, a2, b3, b4, b5]

theorem ring_after_cons (tx : RingTx) (rest : List RingTx) (s : ast_i2c_dev) :
    ring_after (tx :: rest) s = ring_after rest (ring_run tx.ops s) := by
  simp only [ring_after, ring_run, List.map_cons, List.flatten_cons, List.foldl_append]

/-- The ring simulates the queue of the specification. -/
theorem ring_fifo_sim (txs : List RingTx) : ∀ (s : ast_i2c_dev), RingInv s →
    ring_reads txs s = fifo_reads_spec txs (ring_queue s) ∧
    ring_queue (ring_after txs s) = fifo_queue_spec txs (ring_queue s) := by
  induction txs with
  | nil =>
    intro s _
    exact ⟨rfl, rfl⟩
  | cons tx rest ih =>
    intro s h
    cases tx with
    | write buf len =>
      have hi := ring_run_inv (RingTx.write buf len).ops s h
      obtain ⟨i1, i2⟩ := ih _ hi
      rw [ring_after_cons, ring_reads, fifo_reads_spec, fifo_queue_spec, i1, i2,
        write_sim s buf len h]
      exact ⟨rfl, rfl⟩
    | read msgs =>
      have hi := read_inv s msgs h
      obtain ⟨i1, i2⟩ := ih _ hi
      obtain ⟨r1, r2⟩ := read_sim s msgs h
      have hstep : ring_run (RingTx.read msgs).ops s =
          (ast_i2c_slave_xfer { msgs with flags := 0 } s).2.2 := rfl
      rw [ring_after_cons, hstep, ring_reads, fifo_queue_spec, i1, i2]
      by_cases hd : s.data_ready = 0
      · have e := r2 hd
        have hq : ring_queue s = [] := by
          simp only [ring_queue, hd, List.range_zero, List.map_nil]
        rw [e, hq]
        exact ⟨rfl, rfl⟩
      · obtain ⟨e1, e2, e3, _⟩ := r1 (by omega)
        rw [e1, e2, e3]
        obtain ⟨d, hd'⟩ : ∃ d, s.data_ready = d + 1 := ⟨s.data_ready - 1, by omega⟩
        have hq : ring_queue s = ((slot s s.slave_rx_out).buf, (slot s s.slave_rx_out).len) ::
            (ring_queue s).tail := by
          simp only [ring_queue, hd', List.range_succ_eq_map, List.map_cons, List.tail_cons,
            Nat.add_zero, I2C_S_RX_BUF_NUM, Nat.mod_eq_of_lt (show s.slave_rx_out < 20 from h.rout)]
        refine ⟨?_, rfl⟩
        generalize (ring_queue s).tail = q at hq ⊢
        rw [hq]
        rfl

/-- C24: the receive ring is a first-in first-out queue of at most 20
messages. From the initialised ring of a device whose transmit message is not
marked as being written, for every sequence of write transactions (start of
write, store of the bytes and count, STOP) and consumer reads with flags 0:
the reads return what the queue of the specification returns (0 with the bytes
and count of the oldest waiting message, -1 with count 0 when none waits), and
the waiting messages are the queue of the specification; a read when no slot
is marked full returns -1 with count 0 and leaves the state as it is; a start
of write when 20 slots are marked full drops exactly the oldest waiting
message and takes the data-ready counter to 19. -/
theorem C24_ring_fifo (txs : List RingTx) (s0 : ast_i2c_dev)
    (htx : s0.slave_tx_msg.addr ≠ BUFF_ONGOING) :
    ring_reads txs (ast_i2c_slave_buff_init s0) = fifo_reads_spec txs [] ∧
    ring_queue (ring_after txs (ast_i2c_slave_buff_init s0)) = fifo_queue_spec txs [] ∧
    (∀ msgs : i2c_msg,
      (∀ i < I2C_S_RX_BUF_NUM,
        (slot (ring_after txs (ast_i2c_slave_buff_init s0)) i).flags ≠ BUFF_FULL) →
      ast_i2c_slave_xfer { msgs with flags := 0 } (ring_after txs (ast_i2c_slave_buff_init s0)) =
        (-1, { msgs with flags := 0, len := 0 },
          ring_after txs (ast_i2c_slave_buff_init s0))) ∧
    ((∀ i < I2C_S_RX_BUF_NUM,
        (slot (ring_after txs (ast_i2c_slave_buff_init s0)) i).flags = BUFF_FULL) →
      (ring_after txs (ast_i2c_slave_buff_init s0)).data_ready = 20 ∧
      (ast_i2c_slave_rdwr_xfer
        { ring_after txs (ast_i2c_slave_buff_init s0) with
          slave_event := SlaveEvent.START_WRITE }).data_ready = 19 ∧
      ring_queue (ast_i2c_slave_rdwr_xfer
        { ring_after txs (ast_i2c_slave_buff_init s0) with
          slave_event := SlaveEvent.START_WRITE }) =
        (ring_queue (ring_after txs (ast_i2c_slave_buff_init s0))).tail) := by
  have h0 := buff_init_inv s0 htx
  have hq0 : ring_queue (ast_i2c_slave_buff_init s0) = [] := by
    simp only [ring_queue, ast_i2c_slave_buff_init, List.range_zero, List.map_nil]
  obtain ⟨a1, a2⟩ := ring_fifo_sim txs _ h0
  rw [hq0] at a1 a2
  have hi : RingInv (ring_after txs (ast_i2c_slave_buff_init s0)) := ring_run_inv _ _ h0
  generalize ring_after txs (ast_i2c_slave_buff_init s0) = s at a2 hi ⊢
  obtain ⟨r1, r2, r3⟩ := ring_full_at_in s hi
  refine ⟨a1, a2, ?_, ?_⟩
  · intro msgs hno
    have hd : s.data_ready = 0 := by
      have := hno s.slave_rx_out hi.rout
      have := fun hh => this (r3.mpr hh)
      omega
    exact (read_sim s msgs hi).2 hd
  · intro hall
    have hd : s.data_ready = 20 := r1.mp (hall s.slave_rx_in hi.rin)
    obtain ⟨_, b2, b3⟩ := start_write_sim s hi
    rw [if_pos hd] at b2 b3
    exact ⟨hd, b3, b2⟩

/-- C24 on two writes followed by three reads: the reads return the first
message, then the second, then report that nothing waits. -/
theorem C24_ring_fifo_witness :
    ({} : ast_i2c_dev).slave_tx_msg.addr ≠ BUFF_ONGOING ∧
    ring_reads [RingTx.write [1, 2] 2, RingTx.write [3] 1, RingTx.read {}, RingTx.read {},
        RingTx.read {}] (ast_i2c_slave_buff_init {}) =
      [(0, { flags := 0, buf := [1, 2], len := 2 }), (0, { flags := 0, buf := [3], len := 1 }),
       (-1, { flags := 0, len := 0 })] :=
  ⟨by decide, (C24_ring_fifo _ {} (by decide)).1⟩

theorem handler_match_slave (cfg : Config) (ev : Irq) (s : ast_i2c_dev)
    (hev : ev.isFor s.bus_id (AST_I2CD_INTR_STS_RX_DOWN ||| AST_I2CD_INTR_STS_SLAVE_MATCH)) :
    (i2c_ast_handler cfg ev s).2 =
      clear_sts (ast_i2c_slave_addr_match cfg ev.page (irq_entry ev s))
        (AST_I2CD_INTR_STS_RX_DOWN ||| AST_I2CD_INTR_STS_SLAVE_MATCH) := by
  obtain ⟨e1, e2⟩ := hev
  simp +decide [i2c_ast_handler, e1, e2, take_irq, ast_i2c_read, AST_I2CD_INTR_STS_TX_ACK,
    AST_I2CD_INTR_STS_SMBUS_ALT, AST_I2CD_INTR_STS_ABNORMAL, AST_I2CD_INTR_STS_SCL_TO,
    AST_I2CD_INTR_STS_NORMAL_STOP, AST_I2CD_INTR_STS_RX_DOWN, AST_I2CD_INTR_STS_TX_NAK,
    AST_I2CD_INTR_STS_SLAVE_MATCH, handler_switch, irq_entry]

/-- A write of the bits `b` to the interrupt-status register leaves none of
them set. -/
theorem and_not32_self (x b : Nat) (hb : b ≠ 0) (h32 : b < 2 ^ 32) :
    (x &&& not32 b) &&& b ≠ b := by
  intro h
  apply hb
  have e : (x &&& not32 b) &&& b = 0 := by
    apply Nat.eq_of_testBit_eq
    intro i
    simp only [Nat.testBit_and, not32, Nat.testBit_xor, Nat.zero_testBit]
    by_cases hi : b.testBit i
    · have h1 : i < 32 := by
        by_contra hc
        have : b < 2 ^ i := lt_of_lt_of_le h32 (Nat.pow_le_pow_right (by decide) (by omega))
        rw [Nat.testBit_lt_two_pow this] at hi
        exact absurd hi (by decide)
      have h2 : Nat.testBit 0xFFFFFFFF i = true := by
        have : (0xFFFFFFFF : Nat) = 2 ^ 32 - 1 := by decide
        rw [this, Nat.testBit_two_pow_sub_one]
        simpa using h1
      simp [hi, h2]
    · simp [hi]
  rw [e] at h
  exact h.symm

/-- Right after the handler has cleared the bits `b` in the interrupt-status
register, `ast_i2c_bus_recovery` reads them as clear and does not reset. -/
theorem bus_recovery_cleared (cfg : Config) (env : RecoverEnv) (s : ast_i2c_dev) (b : Nat)
    (hb : b ≠ 0) (h32 : b < 2 ^ 32) :
    ast_i2c_bus_recovery cfg env b (clear_sts s b) = clear_sts s b := by
  have h := and_not32_self (s.regs I2C_INTR_STS_REG) b hb h32
  simp [ast_i2c_bus_recovery, clear_sts, ast_i2c_write, ast_i2c_read, Reg.isStorage, h]

theorem handler_rx_slave (cfg : Config) (ev : Irq) (s : ast_i2c_dev)
    (hev : ev.isFor s.bus_id AST_I2CD_INTR_STS_RX_DOWN) (hs : s.slave_operation = 1) :
    (i2c_ast_handler cfg ev s).2 =
      clear_sts (ast_i2c_slave_xfer_done cfg ev.recov
        { irq_entry ev s with slave_event := SlaveEvent.WRITE }) AST_I2CD_INTR_STS_RX_DOWN := by
  obtain ⟨e1, e2⟩ := hev
  have hr := bus_recovery_cleared cfg ev.recov (ast_i2c_slave_xfer_done cfg ev.recov
    { irq_entry ev s with slave_event := SlaveEvent.WRITE }) AST_I2CD_INTR_STS_RX_DOWN
    (by decide) (by decide)
  by_cases hb : cfg.board = Board.fbttn
  · rw [← hr]
    simp +decide [i2c_ast_handler, e1, e2, take_irq, ast_i2c_read, AST_I2CD_INTR_STS_TX_ACK,
      AST_I2CD_INTR_STS_SMBUS_ALT, AST_I2CD_INTR_STS_ABNORMAL, AST_I2CD_INTR_STS_SCL_TO,
      AST_I2CD_INTR_STS_NORMAL_STOP, AST_I2CD_INTR_STS_RX_DOWN, AST_I2CD_INTR_STS_TX_NAK,
      AST_I2CD_INTR_STS_SLAVE_MATCH, handler_switch, hs, hb, irq_entry]
  · simp +decide [i2c_ast_handler, e1, e2, take_irq, ast_i2c_read, AST_I2CD_INTR_STS_TX_ACK,
      AST_I2CD_INTR_STS_SMBUS_ALT, AST_I2CD_INTR_STS_ABNORMAL, AST_I2CD_INTR_STS_SCL_TO,
      AST_I2CD_INTR_STS_NORMAL_STOP, AST_I2CD_INTR_STS_RX_DOWN, AST_I2CD_INTR_STS_TX_NAK,
      AST_I2CD_INTR_STS_SLAVE_MATCH, handler_switch, hs, hb, irq_entry]

theorem handler_stop_slave (cfg : Config) (ev : Irq) (s : ast_i2c_dev)
    (hev : ev.isFor s.bus_id AST_I2CD_INTR_STS_NORMAL_STOP) (hs : s.slave_operation = 1) :
    (i2c_ast_handler cfg ev s).2 =
      clear_sts (ast_i2c_slave_xfer_done cfg ev.recov
        { irq_entry ev s with slave_event := SlaveEvent.STOP }) AST_I2CD_INTR_STS_NORMAL_STOP := by
  obtain ⟨e1, e2⟩ := hev
  simp +decide [i2c_ast_handler, e1, e2, take_irq, ast_i2c_read, AST_I2CD_INTR_STS_TX_ACK,
    AST_I2CD_INTR_STS_SMBUS_ALT, AST_I2CD_INTR_STS_ABNORMAL, AST_I2CD_INTR_STS_SCL_TO,
    AST_I2CD_INTR_STS_NORMAL_STOP, AST_I2CD_INTR_STS_RX_DOWN, AST_I2CD_INTR_STS_TX_NAK,
    AST_I2CD_INTR_STS_SLAVE_MATCH, handler_switch, hs, irq_entry]

/-- A receive-done completion of an open slave write in byte mode: the byte is
stored at the byte counter, the counter advances by 1. -/
theorem slave_xfer_done_write (cfg : Config) (env : RecoverEnv) (t : ast_i2c_dev)
    (hp : t.slave_msgs = SlaveRef.rx t.slave_rx_in)
    (hfl : (t.slave_rx_msg.getD t.slave_rx_in {}).flags = 0)
    (hl0 : (t.slave_rx_msg.getD t.slave_rx_in {}).len = 0)
    (hin : t.slave_rx_in < t.slave_rx_msg.length)
    (hmode : t.slave_xfer_mode = XferMode.BYTE_XFER) (hfn : t.do_slave_xfer = XferFn.byte)
    (hxl : t.slave_xfer_len = 1) (hop : t.slave_operation = 1)
    (hev : t.slave_event = SlaveEvent.WRITE)
    (hc0 : 0 < t.slave_xfer_cnt) (hc1 : t.slave_xfer_cnt + 1 < (I2C_S_BUF_SIZE : Int))
    (hst : (t.regs I2C_CMD_REG >>> 19) &&& 0xf ≠ AST_I2CD_IDLE) :
    ast_i2c_slave_xfer_done cfg env t =
      { t with
        slave_rx_msg := t.slave_rx_msg.set t.slave_rx_in
          { (t.slave_rx_msg.getD t.slave_rx_in {}) with
            buf := setByte (t.slave_rx_msg.getD t.slave_rx_in {}).buf t.slave_xfer_cnt
              ((t.regs I2C_BYTE_BUF_REG >>> 8) % 256) }
        slave_xfer_cnt := t.slave_xfer_cnt + 1
        state := (t.regs I2C_CMD_REG >>> 19) &&& 0xf } := by
  have hne : ¬ t.slave_xfer_cnt + 1 = 0 := by omega
  have hge : ¬ t.slave_xfer_cnt + 1 ≥ (I2C_S_BUF_SIZE : Int) := by omega
  have hst' : ¬ AST_I2CD_IDLE = (t.regs I2C_CMD_REG >>> 19) &&& 0xf := fun e => hst e.symm
  have hg : t.slave_rx_msg.getD t.slave_rx_in {} = t.slave_rx_msg[t.slave_rx_in] := by
    simp [hin]
  rw [hg] at hfl hl0 ⊢
  simp +decide [ast_i2c_slave_xfer_done, slave_extract, slave_msg, set_slave_msg, hp, hfl, hl0,
    hmode, hfn, hxl, hop, hev, call_xfer, ast_i2c_do_byte_xfer, getD_set_msg, hin, u32,
    ast_i2c_read, hne, hge, hst', I2C_M_RD]

/-- A stop completion of an open slave write in byte mode: a zero byte is
stored at the byte counter, the counter becomes the count of the message, the
slot is marked full and the ring advances. -/
theorem slave_xfer_done_stop (cfg : Config) (env : RecoverEnv) (t : ast_i2c_dev)
    (hp : t.slave_msgs = SlaveRef.rx t.slave_rx_in)
    (hfl : (t.slave_rx_msg.getD t.slave_rx_in {}).flags = 0)
    (had : (t.slave_rx_msg.getD t.slave_rx_in {}).addr = BUFF_ONGOING)
    (hin : t.slave_rx_in < t.slave_rx_msg.length)
    (hmode : t.slave_xfer_mode = XferMode.BYTE_XFER)
    (hxl : t.slave_xfer_len = 1)
    (hev : t.slave_event = SlaveEvent.STOP)
    (hd : t.data_ready < I2C_S_RX_BUF_NUM) :
    ast_i2c_slave_xfer_done cfg env t =
      { t with
        slave_rx_msg := t.slave_rx_msg.set t.slave_rx_in
          { addr := 0, flags := BUFF_FULL,
            len := (t.slave_xfer_cnt % 2 ^ 16).toNat,
            buf := setByte (t.slave_rx_msg.getD t.slave_rx_in {}).buf t.slave_xfer_cnt 0 }
        slave_rx_in := (t.slave_rx_in + 1) % I2C_S_RX_BUF_NUM
        data_ready := t.data_ready + 1
        slave_msgs := SlaveRef.tx
        slave_xfer_cnt := 0
        state := (t.regs I2C_CMD_REG >>> 19) &&& 0xf
        slave_operation := 0 } := by
  have hg : t.slave_rx_msg.getD t.slave_rx_in {} = t.slave_rx_msg[t.slave_rx_in] := by
    simp [hin]
  rw [hg] at hfl had ⊢
  by_cases hst : AST_I2CD_IDLE = (t.regs I2C_CMD_REG >>> 19) &&& 0xf
  · simp +decide [ast_i2c_slave_xfer_done, slave_extract, slave_msg, set_slave_msg, hp, hfl, had,
      hmode, hxl, hev, ast_i2c_slave_rdwr_xfer, hin, u32, hd,
      ast_i2c_read, I2C_M_RD, I2C_S_BUF_SIZE, ← hst]
  · simp +decide [ast_i2c_slave_xfer_done, slave_extract, slave_msg, set_slave_msg, hp, hfl, had,
      hmode, hxl, hev, ast_i2c_slave_rdwr_xfer, hin, u32, hd,
      ast_i2c_read, hst, I2C_M_RD, I2C_S_BUF_SIZE]

theorem take_set_succ (b : List Nat) (v : Nat) : ∀ n, n < b.length →
    (b.set n v).take (n + 1) = b.take n ++ [v] := by
  induction b with
  | nil => intro n h; simp at h
  | cons a b ih =>
    intro n h
    cases n with
    | zero => simp
    | succ n =>
      simp only [List.length_cons, Nat.add_lt_add_iff_right] at h
      simp only [List.set_cons_succ, List.take_succ_cons, List.cons_append, ih n h]

theorem take_set_self (b : List Nat) (v : Nat) : ∀ n, (b.set n v).take n = b.take n := by
  induction b with
  | nil => intro n; simp
  | cons a b ih =>
    intro n
    cases n with
    | zero => simp
    | succ n => simp only [List.set_cons_succ, List.take_succ_cons, ih n]

/-- A receive-done interrupt during an open slave write in byte mode appends
the delivered byte. -/
theorem rx_step (cfg : Config) (ev : Irq) (s : ast_i2c_dev) (b : Nat) (bytes : List Nat)
    (h : SlaveRx b bytes s) (hev : ev.isFor b AST_I2CD_INTR_STS_RX_DOWN)
    (hst : (ev.cmd >>> 19) &&& 0xf ≠ AST_I2CD_IDLE)
    (hn : bytes.length + 1 < I2C_S_BUF_SIZE) :
    SlaveRx b (bytes ++ [ev.slaveByte]) (i2c_ast_handler cfg ev s).2 := by
  obtain ⟨h1, h2, h3, h4, h5, h6, h7, h8, h9, h10, h11, h12, h13, h14, h15, h16⟩ := h
  rw [← h13] at hev
  rw [handler_rx_slave cfg ev s hev h8]
  have hc1 : s.slave_xfer_cnt + 1 < (I2C_S_BUF_SIZE : Int) := by
    rw [h12]
    exact_mod_cast hn
  have hc0 : 0 < s.slave_xfer_cnt := by
    rw [h12]
    exact_mod_cast h16
  rw [slave_xfer_done_write cfg ev.recov { irq_entry ev s with slave_event := SlaveEvent.WRITE }
    h1 h6 h7 h2 h9 h10 h11 h8 rfl hc0 hc1 hst]
  have hlt : bytes.length < (slot s s.slave_rx_in).buf.length := by
    simp only [I2C_S_BUF_SIZE] at *
    omega
  simp only [slot] at h5 h6 h7 h14 h15 hlt
  rw [slaveRx_iff]
  simp only [slot, clear_sts, ast_i2c_write, irq_entry, take_irq, getD_set_msg _ _ _ _ h2,
    if_true, List.length_set, List.length_append, List.length_singleton, h1, h2, h3, h4, h5, h6,
    h7, h8, h9, h10, h11, h12, h13, setByte, Int.toNat_ofNat, take_set_succ _ _ _ hlt, h14,
    Irq.slaveByte, Nat.cast_add, Nat.cast_one, true_and, and_true, Nat.succ_pos]
  exact h15

theorem RingInv.congr (s t : ast_i2c_dev) (h : RingInv s)
    (e1 : t.slave_rx_msg = s.slave_rx_msg) (e2 : t.slave_rx_in = s.slave_rx_in)
    (e3 : t.slave_rx_out = s.slave_rx_out) (e4 : t.data_ready = s.data_ready)
    (e5 : t.slave_tx_msg = s.slave_tx_msg) : RingInv t := by
  rw [ringInv_iff] at h ⊢
  simp only [slot, e1, e2, e3, e4, e5]
  exact h

/-- The cancellation of a pending master transfer at the head of
`ast_i2c_slave_addr_match` leaves a state on which the routine does the same
and which differs in no field of the slave. -/
theorem addr_match_first (cfg : Config) (page : Option buf_page) (t : ast_i2c_dev)
    (hf : t.master_xfer_first = 1) :
    ∃ P, ast_i2c_slave_addr_match cfg page t = ast_i2c_slave_addr_match cfg page P ∧
      P.master_xfer_first ≠ 1 ∧ P.slave_rx_msg = t.slave_rx_msg ∧
      P.slave_rx_in = t.slave_rx_in ∧ P.slave_rx_out = t.slave_rx_out ∧
      P.data_ready = t.data_ready ∧ P.slave_tx_msg = t.slave_tx_msg ∧
      P.regs I2C_BYTE_BUF_REG = t.regs I2C_BYTE_BUF_REG ∧ P.bus_id = t.bus_id := by
  by_cases hc : ast_i2c_read t I2C_CMD_REG &&& 0x03 ≠ 0
  · refine ⟨ast_i2c_write (complete
        { ast_i2c_write t (ast_i2c_read t I2C_CMD_REG &&& not32 0x143) I2C_CMD_REG with
          cmd_err := t.cmd_err ||| AST_I2CD_INTR_STS_ARBIT_LOSS, master_xfer_first := 0 })
        t.func_ctrl_reg I2C_FUN_CTRL_REG, ?_, (show (0 : Nat) ≠ 1 by decide), rfl, rfl, rfl, rfl, rfl, rfl, rfl⟩
    have hP : ¬ (0 : Nat) = 1 := by decide
    simp only [ast_i2c_slave_addr_match, hf, if_pos hc, if_true, ast_i2c_write, complete, hP,
      if_false]
  · refine ⟨ast_i2c_write (complete
        { t with
          cmd_err := t.cmd_err ||| AST_I2CD_INTR_STS_ARBIT_LOSS, master_xfer_first := 0 })
        t.func_ctrl_reg I2C_FUN_CTRL_REG, ?_, (show (0 : Nat) ≠ 1 by decide), rfl, rfl, rfl, rfl, rfl, rfl, rfl⟩
    have hP : ¬ (0 : Nat) = 1 := by decide
    simp only [ast_i2c_slave_addr_match, hf, if_neg hc, if_true, ast_i2c_write, complete, hP,
      if_false]

/-- The routine `ast_i2c_slave_addr_match` with a write address at an empty
ring, no master transfer pending: a slave write is open and holds the address
byte. -/
theorem addr_match_open0 (cfg : Config) (page : Option buf_page) (t : ast_i2c_dev)
    (hf : t.master_xfer_first ≠ 1)
    (hmode : cfg.slave_dma = DmaMode.BYTE_MODE) (hinv : RingInv t) (hd : t.data_ready = 0)
    (hbuf : I2C_S_BUF_SIZE ≤ (slot t t.slave_rx_in).buf.length)
    (hdir : ((t.regs I2C_BYTE_BUF_REG >>> 8) % 256) &&& 1 = 0) :
    SlaveRx t.bus_id [(t.regs I2C_BYTE_BUF_REG >>> 8) % 256]
      (ast_i2c_slave_addr_match cfg page t) := by
  obtain ⟨r1, r2, r3⟩ := ring_full_at_in t hinv
  obtain ⟨h1, h2, h3, h4, h5, h6, h7, h8, h9⟩ := hinv
  have hin : t.slave_rx_in < t.slave_rx_msg.length := by omega
  have hout : t.slave_rx_out = t.slave_rx_in := by
    rw [hd] at h5
    simp only [I2C_S_RX_BUF_NUM] at *
    omega
  have hfl : (slot t t.slave_rx_in).flags = 0 := by
    rcases h7 t.slave_rx_in (by omega) with e | e
    · exact e
    · have := r1.mp e
      simp only [I2C_S_RX_BUF_NUM] at *
      omega
  have hg : t.slave_rx_msg.getD t.slave_rx_in {} = t.slave_rx_msg[t.slave_rx_in] := by
    simp [hin]
  have hpos : 0 < (slot t t.slave_rx_in).buf.length := by
    simp only [I2C_S_BUF_SIZE] at *
    omega
  simp only [slot] at hfl hbuf hpos
  rw [hg] at hfl hbuf hpos
  have htk : ∀ l : List Nat, 0 < l.length → ∀ v : Nat, List.take 1 (l.set 0 v) = [v] := by
    intro l hl v
    have := take_set_succ l v 0 hl
    simpa using this
  clear r1 r2 r3 h1 h2 h3 h4 h5 h6 h7 h8 h9
  rw [slaveRx_iff]
  cases hp : t.slave_msgs with
  | tx =>
    simp +decide [ast_i2c_slave_addr_match, hf, hmode, slot, ast_i2c_read, slave_msg,
      set_slave_msg, hp, ast_i2c_slave_rdwr_xfer, hdir, call_xfer, ast_i2c_do_byte_xfer, hin,
      hfl, hout, hd, I2C_M_RD, setByte]
    exact ⟨htk _ hpos _, hbuf⟩
  | rx j =>
    by_cases hj : j = t.slave_rx_in
    · rw [hj] at hp
      simp +decide [ast_i2c_slave_addr_match, hf, hmode, slot, ast_i2c_read, slave_msg,
        set_slave_msg, hp, ast_i2c_slave_rdwr_xfer, hdir, call_xfer, ast_i2c_do_byte_xfer, hin,
        hfl, hout, hd, I2C_M_RD, setByte]
      exact ⟨htk _ hpos _, hbuf⟩
    · have hj' : ¬ t.slave_rx_in = j := fun e => hj e.symm
      simp +decide [ast_i2c_slave_addr_match, hf, hmode, slot, ast_i2c_read, slave_msg,
        set_slave_msg, hp, ast_i2c_slave_rdwr_xfer, hdir, call_xfer, ast_i2c_do_byte_xfer, hin,
        hfl, hout, hd, I2C_M_RD, setByte, hj, hj']
      exact ⟨htk _ hpos _, hbuf⟩

/-- The routine `ast_i2c_slave_addr_match` with a write address at an empty
ring: a slave write is open and holds the address byte. -/
theorem addr_match_open (cfg : Config) (page : Option buf_page) (t : ast_i2c_dev)
    (hmode : cfg.slave_dma = DmaMode.BYTE_MODE) (hinv : RingInv t) (hd : t.data_ready = 0)
    (hbuf : I2C_S_BUF_SIZE ≤ (slot t t.slave_rx_in).buf.length)
    (hdir : ((t.regs I2C_BYTE_BUF_REG >>> 8) % 256) &&& 1 = 0) :
    SlaveRx t.bus_id [(t.regs I2C_BYTE_BUF_REG >>> 8) % 256]
      (ast_i2c_slave_addr_match cfg page t) := by
  by_cases hf : t.master_xfer_first = 1
  · obtain ⟨P, e, p1, p2, p3, p4, p5, p6, p7, p8⟩ := addr_match_first cfg page t hf
    have hP := RingInv.congr t P hinv p2 p3 p4 p5 p6
    rw [e, ← p7, ← p8]
    refine addr_match_open0 cfg page P p1 hmode hP (by rw [p5]; exact hd) ?_ (by rw [p7]; exact hdir)
    simp only [slot, p2, p3]
    exact hbuf
  · exact addr_match_open0 cfg page t hf hmode hinv hd hbuf hdir

/-- An address-match interrupt with a write address at an empty ring opens a
slave write that holds the address byte. -/
theorem match_step (cfg : Config) (ev : Irq) (s : ast_i2c_dev)
    (hmode : cfg.slave_dma = DmaMode.BYTE_MODE) (hinv : RingInv s) (hd : s.data_ready = 0)
    (hbuf : I2C_S_BUF_SIZE ≤ (slot s s.slave_rx_in).buf.length)
    (hev : ev.isFor s.bus_id (AST_I2CD_INTR_STS_RX_DOWN ||| AST_I2CD_INTR_STS_SLAVE_MATCH))
    (hdir : ev.slaveByte &&& 1 = 0) :
    SlaveRx s.bus_id [ev.slaveByte] (i2c_ast_handler cfg ev s).2 := by
  rw [handler_match_slave cfg ev s hev]
  have h := addr_match_open cfg ev.page (irq_entry ev s) hmode
    (RingInv.congr s (irq_entry ev s) hinv rfl rfl rfl rfl rfl) hd hbuf hdir
  rw [slaveRx_iff] at h ⊢
  exact h

/-- Receive-done interrupts during an open slave write in byte mode append
the bytes they deliver. -/
theorem rx_run (cfg : Config) (b : Nat) :
    ∀ (evs : List Irq) (bytes : List Nat) (s : ast_i2c_dev), SlaveRx b bytes s →
      (∀ ev ∈ evs, ev.isFor b AST_I2CD_INTR_STS_RX_DOWN ∧
        (ev.cmd >>> 19) &&& 0xf ≠ AST_I2CD_IDLE) →
      bytes.length + evs.length < I2C_S_BUF_SIZE →
      SlaveRx b (bytes ++ evs.map Irq.slaveByte) (handle_irqs cfg evs s) := by
  intro evs
  induction evs with
  | nil =>
    intro bytes s h _ _
    simpa [handle_irqs] using h
  | cons ev evs ih =>
    intro bytes s h hev hn
    have h1 := hev ev (List.mem_cons_self _ _)
    simp only [List.length_cons] at hn
    have h2 := rx_step cfg ev s b bytes h h1.1 h1.2 (by omega)
    have h3 := ih (bytes ++ [ev.slaveByte]) _ h2
      (fun e he => hev e (List.mem_cons_of_mem _ he))
      (by simp only [List.length_append, List.length_singleton]; omega)
    simpa [handle_irqs] using h3

/-- A stop interrupt finalises the open slave write, and the next read of the
consumer returns its bytes and their number. -/
theorem stop_read (cfg : Config) (ev : Irq) (s : ast_i2c_dev) (b : Nat) (bytes : List Nat)
    (msgs : i2c_msg) (h : SlaveRx b bytes s) (hev : ev.isFor b AST_I2CD_INTR_STS_NORMAL_STOP)
    (hn : bytes.length < I2C_S_BUF_SIZE) :
    (ast_i2c_slave_xfer { msgs with flags := 0 } (i2c_ast_handler cfg ev s).2).1 = 0 ∧
    (ast_i2c_slave_xfer { msgs with flags := 0 } (i2c_ast_handler cfg ev s).2).2.1.len =
      bytes.length ∧
    (ast_i2c_slave_xfer { msgs with flags := 0 } (i2c_ast_handler cfg ev s).2).2.1.buf.take
      bytes.length = bytes := by
  obtain ⟨h1, h2, h3, h4, h5, h6, h7, h8, h9, h10, h11, h12, h13, h14, h15, h16⟩ := h
  rw [← h13] at hev
  rw [handler_stop_slave cfg ev s hev h8]
  rw [slave_xfer_done_stop cfg ev.recov { irq_entry ev s with slave_event := SlaveEvent.STOP }
    h1 h6 h5 h2 h9 h11 rfl (show s.data_ready < I2C_S_RX_BUF_NUM by rw [h4]; decide)]
  have hlen : ((bytes.length : Int) % 2 ^ 16).toNat = bytes.length := by
    simp only [I2C_S_BUF_SIZE] at hn
    omega
  simp only [slot] at h5 h6 h7 h14 h15
  simp +decide only [ast_i2c_slave_xfer, clear_sts, ast_i2c_write, irq_entry, take_irq,
    getD_set_msg _ _ _ _ h2, h3, if_true, h12, hlen, memcpy, setByte, Int.toNat_ofNat,
    take_set_self, h14, List.take_append_of_le_length, List.length_take, List.length_set]
  exact ⟨trivial, trivial, by simp⟩

/-- The slot at `slave_rx_in` of the initialised ring has a buffer of
`I2C_S_BUF_SIZE` bytes. -/
theorem buff_init_slot_len (s : ast_i2c_dev) :
    I2C_S_BUF_SIZE ≤
      (slot (ast_i2c_slave_buff_init s) (ast_i2c_slave_buff_init s).slave_rx_in).buf.length := by
  simp only [slot, ast_i2c_slave_buff_init]
  rw [List.getD_eq_getElem?_getD, List.getElem?_replicate]
  simp [I2C_S_RX_BUF_NUM]

/-- C27: round trip of the slave receive path in byte mode, at an empty ring.
On every board, with the ring empty and the slot at `slave_rx_in` of full
size: after an address-match interrupt with the write address byte `m`,
`n` receive-done interrupts at which the controller is not idle, delivering
`d1..dn` with `n + 1 < 4096`, and a stop interrupt, the next read of the
consumer through `ast_i2c_slave_xfer` returns 0, the count `n + 1` and the bytes
`[m, d1, ..., dn]`. -/
theorem C27_slave_receive_round_trip (cfg : Config) (s : ast_i2c_dev) (ev0 : Irq)
    (evs : List Irq) (ev1 : Irq) (msgs : i2c_msg)
    (hmode : cfg.slave_dma = DmaMode.BYTE_MODE)
    (hinv : RingInv s) (hempty : s.data_ready = 0)
    (hbuf : I2C_S_BUF_SIZE ≤ (slot s s.slave_rx_in).buf.length)
    (h0 : ev0.isFor s.bus_id (AST_I2CD_INTR_STS_RX_DOWN ||| AST_I2CD_INTR_STS_SLAVE_MATCH))
    (hdir : ev0.slaveByte &&& 1 = 0)
    (hevs : ∀ ev ∈ evs, ev.isFor s.bus_id AST_I2CD_INTR_STS_RX_DOWN ∧
      (ev.cmd >>> 19) &&& 0xf ≠ AST_I2CD_IDLE)
    (h1 : ev1.isFor s.bus_id AST_I2CD_INTR_STS_NORMAL_STOP)
    (hn : evs.length + 1 < I2C_S_BUF_SIZE) :
    (ast_i2c_slave_xfer { msgs with flags := 0 }
      (handle_irqs cfg (ev0 :: evs ++ [ev1]) s)).1 = 0 ∧
    (ast_i2c_slave_xfer { msgs with flags := 0 }
      (handle_irqs cfg (ev0 :: evs ++ [ev1]) s)).2.1.len = evs.length + 1 ∧
    (ast_i2c_slave_xfer { msgs with flags := 0 }
      (handle_irqs cfg (ev0 :: evs ++ [ev1]) s)).2.1.buf.take (evs.length + 1) =
      ev0.slaveByte :: evs.map Irq.slaveByte := by
  have a := match_step cfg ev0 s hmode hinv hempty hbuf h0 hdir
  have b := rx_run cfg s.bus_id evs [ev0.slaveByte] _ a hevs
    (by simp only [List.length_singleton]; omega)
  have c := stop_read cfg ev1 _ s.bus_id _ msgs b h1
    (by simp only [List.length_append, List.length_singleton, List.length_map]; omega)
  have e : handle_irqs cfg (ev0 :: evs ++ [ev1]) s =
      (i2c_ast_handler cfg ev1 (handle_irqs cfg evs (i2c_ast_handler cfg ev0 s).2)).2 := by
    simp only [handle_irqs, List.cons_append, List.foldl_cons, List.foldl_append, List.foldl_nil]
  have l : ([ev0.slaveByte] ++ evs.map Irq.slaveByte).length = evs.length + 1 := by
    simp only [List.length_append, List.length_singleton, List.length_map]
    omega
  rw [e]
  rw [l] at c
  exact c

/-- C27 on a slave write of the bytes 5 and 7 to the initialised ring, on the
FBTTN board. -/
theorem C27_slave_receive_round_trip_witness :
    (ast_i2c_slave_xfer { flags := 0 }
      (handle_irqs { board := Board.fbttn } (slave_write_irqs [5, 7])
        (ast_i2c_slave_buff_init {}))).1 = 0 ∧
    (ast_i2c_slave_xfer { flags := 0 }
      (handle_irqs { board := Board.fbttn } (slave_write_irqs [5, 7])
        (ast_i2c_slave_buff_init {}))).2.1.len = 3 ∧
    (ast_i2c_slave_xfer { flags := 0 }
      (handle_irqs { board := Board.fbttn } (slave_write_irqs [5, 7])
        (ast_i2c_slave_buff_init {}))).2.1.buf.take 3 = [0x20, 5, 7] :=
  C27_slave_receive_round_trip { board := Board.fbttn } (ast_i2c_slave_buff_init {})
    { slave_match_irq with page := none } [slave_rx_irq 5, slave_rx_irq 7] stop_irq {}
    rfl (buff_init_inv {} (by decide)) rfl
    (buff_init_slot_len {})
    (by decide) (by decide) (by decide) (by decide) (by decide)

/-- C27 fails in two situations it does not exclude. With a message waiting in
a ring that is not full: after a first slave write of the byte 5 (one message
waits, 20 slots), a second slave write of the byte 7 is received, and the next
read of the consumer returns the bytes of the first write. With a receive-done
interrupt at which the controller reads idle: `ast_i2c_slave_xfer_done` clears
`slave_operation`, so the stop interrupt does not hand the message over; no
message is ready and the read of the consumer returns -1 and no byte. -/
theorem C27_round_trip_fails :
    ((handle_irqs {} (slave_write_irqs [5]) (ast_i2c_slave_buff_init {})).data_ready = 1 ∧
     (ast_i2c_slave_xfer { flags := 0 }
       (handle_irqs {} (slave_write_irqs [7])
         (handle_irqs {} (slave_write_irqs [5]) (ast_i2c_slave_buff_init {})))).2.1.len = 2 ∧
     (ast_i2c_slave_xfer { flags := 0 }
       (handle_irqs {} (slave_write_irqs [7])
         (handle_irqs {} (slave_write_irqs [5])
           (ast_i2c_slave_buff_init {})))).2.1.buf.take 2 = [0x20, 5] ∧
     [0x20, 5] ≠ [0x20, 7]) ∧
    ((handle_irqs {} [{ slave_match_irq with page := none }, idle_rx_irq 5, stop_irq]
       (ast_i2c_slave_buff_init {})).data_ready = 0 ∧
     (ast_i2c_slave_xfer { flags := 0 }
       (handle_irqs {} [{ slave_match_irq with page := none }, idle_rx_irq 5, stop_irq]
         (ast_i2c_slave_buff_init {}))).1 = -1 ∧
     (ast_i2c_slave_xfer { flags := 0 }
       (handle_irqs {} [{ slave_match_irq with page := none }, idle_rx_irq 5, stop_irq]
         (ast_i2c_slave_buff_init {}))).2.1.len = 0) := by
  decide

theorem drop_writes (l : List (Reg × Nat)) (l2 : List (Reg × Nat)) :
    (l ++ l2).drop l.length = l2 := by
  simp

theorem byte_cmd_rule (s : ast_i2c_dev) (m : i2c_msg)
    (hs : s.slave_operation ≠ 1) (hm : s.master_msgs = some m) :
    CmdRule s m (new_writes I2C_CMD_REG s (ast_i2c_do_byte_xfer s)) := by
  obtain ⟨l, hl⟩ : ∃ l, l = new_writes I2C_CMD_REG s (ast_i2c_do_byte_xfer s) := ⟨_, rfl⟩
  rw [← hl]
  unfold new_writes at hl
  simp only [ast_i2c_do_byte_xfer, if_neg hs, hm] at hl
  split_ifs at hl <;>
    simp only [writes_to_write, intr_ctrl_set, intr_ctrl_clear, arm_complete, complete,
      set_page_mem, reduceCtorEq, if_true, if_false, List.append_nil, List.append_assoc,
      List.drop_left] at hl <;>
    subst hl <;>
    simp +decide [CmdRule, *]

theorem pool_cmd_rule0 (cfg : Config) (s : ast_i2c_dev) (m : i2c_msg)
    (hg : ¬ cfg.soc = Soc.g4)
    (hs : s.slave_operation ≠ 1) (hm : s.master_msgs = some m) :
    CmdRule s m (new_writes I2C_CMD_REG s (ast_i2c_do_pool_xfer cfg s)) := by
  obtain ⟨l, hl⟩ : ∃ l, l = new_writes I2C_CMD_REG s (ast_i2c_do_pool_xfer cfg s) := ⟨_, rfl⟩
  rw [← hl]
  unfold new_writes at hl
  simp only [ast_i2c_do_pool_xfer, hg, if_false, if_neg hs, hm] at hl
  split_ifs at hl <;>
    simp only [writes_to_write, intr_ctrl_set, intr_ctrl_clear, arm_complete, complete,
      set_page_mem, reduceCtorEq, if_true, if_false, List.append_nil, List.append_assoc,
      List.drop_left] at hl <;>
    subst hl <;>
    simp +decide [CmdRule, *]

/-- On an AST2400 the pool arm routine first selects the page in the
function-control register and then does what it does on the other chips. -/
theorem pool_xfer_g4 (cfg : Config) (s : ast_i2c_dev) (hg : cfg.soc = Soc.g4) :
    ast_i2c_do_pool_xfer cfg s =
      ast_i2c_do_pool_xfer { cfg with soc := Soc.other }
        (ast_i2c_write s
          ((ast_i2c_read s I2C_FUN_CTRL_REG &&& not32 AST_I2CD_BUFF_SEL_MASK) |||
            AST_I2CD_BUFF_SEL s.req_page.page_no) I2C_FUN_CTRL_REG) := by
  simp only [ast_i2c_do_pool_xfer, hg, if_true, reduceCtorEq, if_false]

theorem pool_cmd_rule (cfg : Config) (s : ast_i2c_dev) (m : i2c_msg)
    (hs : s.slave_operation ≠ 1) (hm : s.master_msgs = some m) :
    CmdRule s m (new_writes I2C_CMD_REG s (ast_i2c_do_pool_xfer cfg s)) := by
  by_cases hg : cfg.soc = Soc.g4
  · rw [pool_xfer_g4 cfg s hg]
    have h := pool_cmd_rule0 { cfg with soc := Soc.other }
      (ast_i2c_write s
        ((ast_i2c_read s I2C_FUN_CTRL_REG &&& not32 AST_I2CD_BUFF_SEL_MASK) |||
          AST_I2CD_BUFF_SEL s.req_page.page_no) I2C_FUN_CTRL_REG) m
      (show ¬ Soc.other = Soc.g4 by decide) hs hm
    unfold CmdRule new_writes at h ⊢
    rw [writes_to_write] at h
    simpa using h
  · exact pool_cmd_rule0 cfg s m hg hs hm

theorem dec_dma_cmd_rule (cfg : Config) (s : ast_i2c_dev) (m : i2c_msg)
    (hs : s.slave_operation ≠ 1) (hm : s.master_msgs = some m) :
    CmdRule s m (new_writes I2C_CMD_REG s (ast_i2c_do_dec_dma_xfer cfg s)) := by
  obtain ⟨l, hl⟩ : ∃ l, l = new_writes I2C_CMD_REG s (ast_i2c_do_dec_dma_xfer cfg s) := ⟨_, rfl⟩
  rw [← hl]
  unfold new_writes at hl
  simp only [ast_i2c_do_dec_dma_xfer, if_neg hs, hm] at hl
  split_ifs at hl <;>
    simp only [writes_to_write, intr_ctrl_set, intr_ctrl_clear, arm_complete, complete,
      set_page_mem, reduceCtorEq, if_true, if_false, List.append_nil, List.append_assoc,
      List.drop_left] at hl <;>
    subst hl <;>
    simp +decide [CmdRule, *]

theorem inc_dma_cmd_rule (cfg : Config) (s : ast_i2c_dev) (m : i2c_msg)
    (hs : s.slave_operation ≠ 1) (hm : s.master_msgs = some m) :
    CmdRule s m (new_writes I2C_CMD_REG s (ast_i2c_do_inc_dma_xfer cfg s)) := by
  obtain ⟨l, hl⟩ : ∃ l, l = new_writes I2C_CMD_REG s (ast_i2c_do_inc_dma_xfer cfg s) := ⟨_, rfl⟩
  rw [← hl]
  unfold new_writes at hl
  simp only [ast_i2c_do_inc_dma_xfer, if_neg hs, hm] at hl
  split_ifs at hl <;>
    simp only [writes_to_write, intr_ctrl_set, intr_ctrl_clear, arm_complete, complete,
      set_page_mem, reduceCtorEq, if_true, if_false, List.append_nil, List.append_assoc,
      List.drop_left] at hl <;>
    subst hl <;>
    simp +decide [CmdRule, *]

/-- With the counter off -1 the byte arm routine writes to the byte-buffer
register nothing but the byte of a write message at the counter. -/
theorem byte_buf_rule (s : ast_i2c_dev) (m : i2c_msg)
    (hs : s.slave_operation ≠ 1) (hm : s.master_msgs = some m) (hc : s.master_xfer_cnt ≠ -1) :
    ∀ v ∈ new_writes I2C_BYTE_BUF_REG s (ast_i2c_do_byte_xfer s),
      v = byteAt m.buf s.master_xfer_cnt ∧ m.flags &&& I2C_M_RD = 0 := by
  obtain ⟨l, hl⟩ : ∃ l, l = new_writes I2C_BYTE_BUF_REG s (ast_i2c_do_byte_xfer s) := ⟨_, rfl⟩
  rw [← hl]
  unfold new_writes at hl
  simp only [ast_i2c_do_byte_xfer, if_neg hs, hm, if_neg hc] at hl
  split_ifs at hl <;>
    simp only [writes_to_write, intr_ctrl_set, intr_ctrl_clear, arm_complete, complete,
      reduceCtorEq, if_true, if_false, List.append_nil, List.append_assoc,
      List.drop_left] at hl <;>
    subst hl <;>
    simp +decide [*]
  all_goals simp_all

theorem pool_buf_rule0 (cfg : Config) (s : ast_i2c_dev) (m : i2c_msg)
    (hg : ¬ cfg.soc = Soc.g4)
    (hs : s.slave_operation ≠ 1) (hm : s.master_msgs = some m) (hc : s.master_xfer_cnt ≠ -1) :
    ∀ v ∈ new_writes I2C_BYTE_BUF_REG s (ast_i2c_do_pool_xfer cfg s), False := by
  obtain ⟨l, hl⟩ : ∃ l, l = new_writes I2C_BYTE_BUF_REG s (ast_i2c_do_pool_xfer cfg s) := ⟨_, rfl⟩
  rw [← hl]
  unfold new_writes at hl
  simp only [ast_i2c_do_pool_xfer, hg, if_false, if_neg hs, hm, if_neg hc] at hl
  split_ifs at hl <;>
    simp only [writes_to_write, intr_ctrl_set, intr_ctrl_clear, arm_complete, complete,
      set_page_mem, reduceCtorEq, if_true, if_false, List.append_nil, List.append_assoc,
      List.drop_left] at hl <;>
    subst hl <;>
    simp +decide [*]

theorem pool_buf_rule (cfg : Config) (s : ast_i2c_dev) (m : i2c_msg)
    (hs : s.slave_operation ≠ 1) (hm : s.master_msgs = some m) (hc : s.master_xfer_cnt ≠ -1) :
    ∀ v ∈ new_writes I2C_BYTE_BUF_REG s (ast_i2c_do_pool_xfer cfg s), False := by
  by_cases hg : cfg.soc = Soc.g4
  · rw [pool_xfer_g4 cfg s hg]
    have h := pool_buf_rule0 { cfg with soc := Soc.other }
      (ast_i2c_write s
        ((ast_i2c_read s I2C_FUN_CTRL_REG &&& not32 AST_I2CD_BUFF_SEL_MASK) |||
          AST_I2CD_BUFF_SEL s.req_page.page_no) I2C_FUN_CTRL_REG) m
      (show ¬ Soc.other = Soc.g4 by decide) hs hm hc
    unfold new_writes at h ⊢
    rw [writes_to_write] at h
    simpa using h
  · exact pool_buf_rule0 cfg s m hg hs hm hc

theorem dec_dma_buf_rule (cfg : Config) (s : ast_i2c_dev) (m : i2c_msg)
    (hs : s.slave_operation ≠ 1) (hm : s.master_msgs = some m) (hc : s.master_xfer_cnt ≠ -1) :
    ∀ v ∈ new_writes I2C_BYTE_BUF_REG s (ast_i2c_do_dec_dma_xfer cfg s), False := by
  obtain ⟨l, hl⟩ : ∃ l, l = new_writes I2C_BYTE_BUF_REG s (ast_i2c_do_dec_dma_xfer cfg s) := ⟨_, rfl⟩
  rw [← hl]
  unfold new_writes at hl
  simp only [ast_i2c_do_dec_dma_xfer, if_neg hs, hm, if_neg hc] at hl
  split_ifs at hl <;>
    simp only [writes_to_write, intr_ctrl_set, intr_ctrl_clear, arm_complete, complete,
      set_page_mem, reduceCtorEq, if_true, if_false, List.append_nil, List.append_assoc,
      List.drop_left] at hl <;>
    subst hl <;>
    simp +decide [*]

theorem inc_dma_buf_rule (cfg : Config) (s : ast_i2c_dev) (m : i2c_msg)
    (hs : s.slave_operation ≠ 1) (hm : s.master_msgs = some m) (hc : s.master_xfer_cnt ≠ -1) :
    ∀ v ∈ new_writes I2C_BYTE_BUF_REG s (ast_i2c_do_inc_dma_xfer cfg s), False := by
  obtain ⟨l, hl⟩ : ∃ l, l = new_writes I2C_BYTE_BUF_REG s (ast_i2c_do_inc_dma_xfer cfg s) := ⟨_, rfl⟩
  rw [← hl]
  unfold new_writes at hl
  simp only [ast_i2c_do_inc_dma_xfer, if_neg hs, hm, if_neg hc] at hl
  split_ifs at hl <;>
    simp only [writes_to_write, intr_ctrl_set, intr_ctrl_clear, arm_complete, complete,
      set_page_mem, reduceCtorEq, if_true, if_false, List.append_nil, List.append_assoc,
      List.drop_left] at hl <;>
    subst hl <;>
    simp +decide [*]

theorem write_cnt (s : ast_i2c_dev) (v : Nat) (r : Reg) :
    (ast_i2c_write s v r).master_xfer_cnt = s.master_xfer_cnt := rfl

theorem intr_set_cnt (s : ast_i2c_dev) (b : Nat) :
    (intr_ctrl_set s b).master_xfer_cnt = s.master_xfer_cnt := rfl

theorem intr_clear_cnt (s : ast_i2c_dev) (b : Nat) :
    (intr_ctrl_clear s b).master_xfer_cnt = s.master_xfer_cnt := rfl

theorem arm_complete_cnt (s : ast_i2c_dev) :
    (arm_complete s).master_xfer_cnt = s.master_xfer_cnt := rfl

theorem pool_xfer_cnt0 (cfg : Config) (s : ast_i2c_dev) (m : i2c_msg)
    (hg : ¬ cfg.soc = Soc.g4) (hs : s.slave_operation ≠ 1) (hm : s.master_msgs = some m) :
    (ast_i2c_do_pool_xfer cfg s).master_xfer_cnt = s.master_xfer_cnt := by
  simp only [ast_i2c_do_pool_xfer, hg, if_false, if_neg hs, hm]
  split_ifs <;>
    simp only [ast_i2c_write, intr_ctrl_set, intr_ctrl_clear, set_page_mem, arm_complete,
      complete]

/-- No arm routine changes the byte counter of the master. -/
theorem call_xfer_cnt (cfg : Config) (f : XferFn) (s : ast_i2c_dev) (m : i2c_msg)
    (hs : s.slave_operation ≠ 1) (hm : s.master_msgs = some m) :
    (call_xfer cfg f s).master_xfer_cnt = s.master_xfer_cnt := by
  cases f
  · simp only [call_xfer, ast_i2c_do_byte_xfer, if_neg hs, hm]
    split_ifs <;> rfl
  · by_cases hg : cfg.soc = Soc.g4
    · simp only [call_xfer, pool_xfer_g4 cfg s hg]
      exact pool_xfer_cnt0 { cfg with soc := Soc.other } _ m
        (show ¬ Soc.other = Soc.g4 by decide) hs hm
    · exact pool_xfer_cnt0 cfg s m hg hs hm
  · simp only [call_xfer, ast_i2c_do_dec_dma_xfer, if_neg hs, hm]
    split_ifs <;> simp only [write_cnt, intr_set_cnt, intr_clear_cnt, arm_complete_cnt]
  · by_cases h1 : s.master_xfer_cnt = -1
    · by_cases h2 : m.flags &&& I2C_M_RD ≠ 0
      · simp only [call_xfer, ast_i2c_do_inc_dma_xfer, if_neg hs, hm, if_pos h1, if_pos h2]
        rfl
      · by_cases h3 : s.xfer_last = 1
        · simp only [call_xfer, ast_i2c_do_inc_dma_xfer, if_neg hs, hm, if_pos h1, if_neg h2,
            if_pos h3]
          rfl
        · simp only [call_xfer, ast_i2c_do_inc_dma_xfer, if_neg hs, hm, if_pos h1, if_neg h2,
            if_neg h3]
          rfl
    · simp only [call_xfer, ast_i2c_do_inc_dma_xfer, if_neg hs, hm, if_neg h1]
      split_ifs <;> simp only [write_cnt, intr_set_cnt, intr_clear_cnt, arm_complete_cnt]

/-- C25: START and STOP bits of the commands of a master message. In master
role, whichever of the four arm routines is called for the message `m`: a
command it writes has the START bit exactly when the byte counter
`master_xfer_cnt` is -1 and has the STOP bit only when `xfer_last` is 1, and it
writes exactly one command when the counter is -1 or below the length of the
message. When the submit loop arms a message with the no-start flag, the
counter is 0, no command written has the START bit, and a value is written to
the byte-buffer register only in byte mode for a write message, and then it is
byte 0 of the message, not an address byte. -/
theorem C25_start_stop_bits (cfg : Config) (f : XferFn) (s : ast_i2c_dev) (m : i2c_msg)
    (num : Int) (i : Nat) (hs : s.slave_operation ≠ 1) :
    (s.master_msgs = some m → CmdRule s m (new_writes I2C_CMD_REG s (call_xfer cfg f s))) ∧
    (m.flags &&& I2C_M_NOSTART ≠ 0 →
      (msg_arm cfg num i m s).master_xfer_cnt = 0 ∧
      (∀ cmd ∈ new_writes I2C_CMD_REG s (msg_arm cfg num i m s),
        cmd &&& AST_I2CD_M_START_CMD = 0) ∧
      (∀ v ∈ new_writes I2C_BYTE_BUF_REG s (msg_arm cfg num i m s),
        s.do_master_xfer = XferFn.byte ∧ m.flags &&& I2C_M_RD = 0 ∧ v = byteAt m.buf 0)) := by
  have rule : ∀ (g : XferFn) (t : ast_i2c_dev), t.slave_operation ≠ 1 →
      t.master_msgs = some m → CmdRule t m (new_writes I2C_CMD_REG t (call_xfer cfg g t)) := by
    intro g t ht hm
    cases g
    · exact byte_cmd_rule t m ht hm
    · exact pool_cmd_rule cfg t m ht hm
    · exact dec_dma_cmd_rule cfg t m ht hm
    · exact inc_dma_cmd_rule cfg t m ht hm
  refine ⟨rule f s hs, ?_⟩
  intro hn
  obtain ⟨S, hS⟩ : ∃ S : ast_i2c_dev, S =
      { s with blk_r_flag := 0, master_msgs := some m,
               xfer_last := if num = (i : Int) + 1 then 1 else 0,
               cmd_complete := 0, cmd_err := 0, master_xfer_cnt := 0 } := ⟨_, rfl⟩
  have e : msg_arm cfg num i m s =
      { call_xfer cfg S.do_master_xfer S with master_xfer_first := 1 } := by
    rw [hS]
    simp only [msg_arm, init_completion, if_pos hn]
  have hSs : S.slave_operation ≠ 1 := by rw [hS]; exact hs
  have hSm : S.master_msgs = some m := by rw [hS]
  have hSc : S.master_xfer_cnt = 0 := by rw [hS]
  have hSw : S.writes = s.writes := by rw [hS]
  have hSf : S.do_master_xfer = s.do_master_xfer := by rw [hS]
  have hne : S.master_xfer_cnt ≠ -1 := by rw [hSc]; decide
  have r := rule S.do_master_xfer S hSs hSm
  have c := call_xfer_cnt cfg S.do_master_xfer S m hSs hSm
  rw [e]
  unfold new_writes
  rw [← hSw]
  refine ⟨by rw [← hSc, ← c], ?_, ?_⟩
  · intro cmd hcmd
    have := (r.1 cmd hcmd).1
    rw [hSc] at this
    by_contra hh
    exact absurd (this.mp hh) (by decide)
  · intro v hv
    rw [← hSf]
    cases hf : S.do_master_xfer with
    | byte =>
      rw [hf] at hv
      have := byte_buf_rule S m hSs hSm hne v hv
      rw [hSc] at this
      exact ⟨rfl, this.2, this.1⟩
    | pool =>
      rw [hf] at hv
      exact (pool_buf_rule cfg S m hSs hSm hne v hv).elim
    | dec_dma =>
      rw [hf] at hv
      exact (dec_dma_buf_rule cfg S m hSs hSm hne v hv).elim
    | inc_dma =>
      rw [hf] at hv
      exact (inc_dma_buf_rule cfg S m hSs hSm hne v hv).elim

/-- C25 on a one-byte write message with the no-start flag, submitted alone in
byte mode. -/
theorem C25_start_stop_bits_witness :
    ({} : ast_i2c_dev).slave_operation ≠ 1 ∧
    (msg_arm {} 1 0 nostart1 {}).master_xfer_cnt = 0 ∧
    (∀ cmd ∈ new_writes I2C_CMD_REG {} (msg_arm {} 1 0 nostart1 {}),
      cmd &&& AST_I2CD_M_START_CMD = 0) ∧
    (∀ v ∈ new_writes I2C_BYTE_BUF_REG {} (msg_arm {} 1 0 nostart1 {}),
      ({} : ast_i2c_dev).do_master_xfer = XferFn.byte ∧ nostart1.flags &&& I2C_M_RD = 0 ∧
        v = byteAt nostart1.buf 0) :=
  ⟨by decide, (C25_start_stop_bits {} XferFn.byte {} nostart1 1 0 (by decide)).2 (by decide)⟩

theorem byte_arm_chunk (cfg : Config) (t : ast_i2c_dev) (m : i2c_msg)
    (hs : t.slave_operation ≠ 1) (hm : t.master_msgs = some m)
    (hf : t.do_master_xfer = XferFn.byte) (hc : -1 ≤ t.master_xfer_cnt)
    (hlt : t.master_xfer_cnt = -1 ∨ t.master_xfer_cnt < m.len)
    (hp : t.master_xfer_len = 1) :
    ArmPost cfg m t (ast_i2c_do_byte_xfer t) := by
  obtain ⟨u, hu⟩ : ∃ u, u = ast_i2c_do_byte_xfer t := ⟨_, rfl⟩
  rw [← hu]
  simp only [ast_i2c_do_byte_xfer, if_neg hs, hm, set_page_mem] at hu
  unfold ArmPost ChunkInv chunk_max
  split_ifs at hu
  all_goals first
    | (exfalso; omega)
    | (subst hu
       simp only [ast_i2c_write, intr_ctrl_set, intr_ctrl_clear, hf, hm]
       refine ⟨⟨hs, ?_, ?_, ?_, ?_, ?_⟩, ?_, ?_, ?_, ?_⟩ <;> first | rfl | trivial | omega)

theorem pool_arm_chunk0 (cfg : Config) (t : ast_i2c_dev) (m : i2c_msg)
    (hg : ¬ cfg.soc = Soc.g4)
    (hs : t.slave_operation ≠ 1) (hm : t.master_msgs = some m)
    (hf : t.do_master_xfer = XferFn.pool) (hc : -1 ≤ t.master_xfer_cnt)
    (hlt : t.master_xfer_cnt = -1 ∨ t.master_xfer_cnt < m.len)
    (hp : 1 ≤ t.req_page.page_size) :
    ArmPost cfg m t (ast_i2c_do_pool_xfer cfg t) := by
  obtain ⟨u, hu⟩ : ∃ u, u = ast_i2c_do_pool_xfer cfg t := ⟨_, rfl⟩
  rw [← hu]
  simp only [ast_i2c_do_pool_xfer, hg, if_false, if_neg hs, hm, set_page_mem] at hu
  unfold ArmPost ChunkInv chunk_max
  split_ifs at hu
  all_goals first
    | (exfalso; omega)
    | (subst hu
       simp only [ast_i2c_write, intr_ctrl_set, intr_ctrl_clear, hf, hm]
       refine ⟨⟨hs, ?_, ?_, ?_, ?_, ?_⟩, ?_, ?_, ?_, ?_⟩ <;> first | rfl | trivial | omega)

theorem pool_arm_chunk (cfg : Config) (t : ast_i2c_dev) (m : i2c_msg)
    (hs : t.slave_operation ≠ 1) (hm : t.master_msgs = some m)
    (hf : t.do_master_xfer = XferFn.pool) (hc : -1 ≤ t.master_xfer_cnt)
    (hlt : t.master_xfer_cnt = -1 ∨ t.master_xfer_cnt < m.len)
    (hp : 1 ≤ t.req_page.page_size) :
    ArmPost cfg m t (ast_i2c_do_pool_xfer cfg t) := by
  by_cases hg : cfg.soc = Soc.g4
  · rw [pool_xfer_g4 cfg t hg]
    have h := pool_arm_chunk0 { cfg with soc := Soc.other }
      (ast_i2c_write t
        ((ast_i2c_read t I2C_FUN_CTRL_REG &&& not32 AST_I2CD_BUFF_SEL_MASK) |||
          AST_I2CD_BUFF_SEL t.req_page.page_no) I2C_FUN_CTRL_REG) m
      (show ¬ Soc.other = Soc.g4 by decide) hs hm hf hc hlt hp
    unfold ArmPost ChunkInv chunk_max at h ⊢
    obtain ⟨⟨a1, a2, a3, a4, a5, a6⟩, b1, b2, b3, b4⟩ := h
    have b4' := b4.trans hf
    rw [b4'] at a5 ⊢
    exact ⟨⟨a1, a2, a3, a4, a5, a6⟩, b1, b2, b3, hf.symm⟩
  · exact pool_arm_chunk0 cfg t m hg hs hm hf hc hlt hp

set_option maxHeartbeats 1600000 in
theorem dec_dma_arm_chunk (cfg : Config) (t : ast_i2c_dev) (m : i2c_msg)
    (hs : t.slave_operation ≠ 1) (hm : t.master_msgs = some m)
    (hf : t.do_master_xfer = XferFn.dec_dma) (hc : -1 ≤ t.master_xfer_cnt)
    (hlt : t.master_xfer_cnt = -1 ∨ t.master_xfer_cnt < m.len)
    (hp : 1 ≤ cfg.AST_I2C_DMA_SIZE) :
    ArmPost cfg m t (ast_i2c_do_dec_dma_xfer cfg t) := by
  obtain ⟨u, hu⟩ : ∃ u, u = ast_i2c_do_dec_dma_xfer cfg t := ⟨_, rfl⟩
  rw [← hu]
  simp only [ast_i2c_do_dec_dma_xfer, if_neg hs, hm, set_page_mem] at hu
  unfold ArmPost ChunkInv chunk_max
  split_ifs at hu
  all_goals first
    | (exfalso; omega)
    | (subst hu
       simp only [ast_i2c_write, intr_ctrl_set, intr_ctrl_clear, hf, hm]
       refine ⟨⟨hs, ?_, ?_, ?_, ?_, ?_⟩, ?_, ?_, ?_, ?_⟩ <;> first | rfl | trivial | omega)

set_option maxHeartbeats 1600000 in
theorem inc_dma_arm_chunk (cfg : Config) (t : ast_i2c_dev) (m : i2c_msg)
    (hs : t.slave_operation ≠ 1) (hm : t.master_msgs = some m)
    (hf : t.do_master_xfer = XferFn.inc_dma) (hc : -1 ≤ t.master_xfer_cnt)
    (hlt : t.master_xfer_cnt = -1 ∨ t.master_xfer_cnt < m.len)
    (hp : 1 ≤ cfg.AST_I2C_DMA_SIZE) :
    ArmPost cfg m t (ast_i2c_do_inc_dma_xfer cfg t) := by
  obtain ⟨u, hu⟩ : ∃ u, u = ast_i2c_do_inc_dma_xfer cfg t := ⟨_, rfl⟩
  rw [← hu]
  simp only [ast_i2c_do_inc_dma_xfer, if_neg hs, hm, set_page_mem] at hu
  unfold ArmPost ChunkInv chunk_max
  split_ifs at hu
  all_goals first
    | (exfalso; omega)
    | (subst hu
       simp only [ast_i2c_write, intr_ctrl_set, intr_ctrl_clear, hf, hm]
       refine ⟨⟨hs, ?_, ?_, ?_, ?_, ?_⟩, ?_, ?_, ?_, ?_⟩ <;> first | rfl | trivial | omega)

/-- The first part of `ast_i2c_master_xfer_done` leaves the progress fields
alone, and the message pointer refers to the message after the extraction. -/
theorem master_extract_progress (cfg : Config) (m : i2c_msg) (t : ast_i2c_dev)
    (hm : t.master_msgs = some m) :
    (master_extract cfg m t).2.master_xfer_len = t.master_xfer_len ∧
    (master_extract cfg m t).2.master_xfer_cnt = t.master_xfer_cnt ∧
    (master_extract cfg m t).2.do_master_xfer = t.do_master_xfer ∧
    (master_extract cfg m t).2.slave_operation = t.slave_operation ∧
    (master_extract cfg m t).2.req_page = t.req_page ∧
    (master_extract cfg m t).2.cmd_complete = t.cmd_complete ∧
    (master_extract cfg m t).2.master_msgs = some (msg_after cfg m t) := by
  unfold msg_after master_extract
  split_ifs
  · exact ⟨rfl, rfl, rfl, rfl, rfl, rfl, by simp only [hm, Option.getD_some]⟩
  · cases t.master_xfer_mode <;> exact ⟨rfl, rfl, rfl, rfl, rfl, rfl, rfl⟩
  · cases t.master_xfer_mode <;>
      exact ⟨rfl, rfl, rfl, rfl, rfl, rfl, by simp only [hm, Option.getD_some]⟩

/-- Whichever arm routine `do_master_xfer` points to, called for a message in
progress it arms a chunk within the bounds. -/
theorem call_arm_chunk (cfg : Config) (t : ast_i2c_dev) (m : i2c_msg)
    (hs : t.slave_operation ≠ 1) (hm : t.master_msgs = some m)
    (hc : -1 ≤ t.master_xfer_cnt)
    (hlt : t.master_xfer_cnt = -1 ∨ t.master_xfer_cnt < m.len)
    (hp : 1 ≤ chunk_max cfg t) (hb : t.do_master_xfer = XferFn.byte → t.master_xfer_len = 1) :
    ArmPost cfg m t (call_xfer cfg t.do_master_xfer t) := by
  unfold chunk_max at hp
  cases hf : t.do_master_xfer with
  | byte => exact byte_arm_chunk cfg t m hs hm hf hc hlt (hb hf)
  | pool =>
    simp only [hf] at hp
    exact pool_arm_chunk cfg t m hs hm hf hc hlt (by exact_mod_cast hp)
  | dec_dma =>
    simp only [hf] at hp
    exact dec_dma_arm_chunk cfg t m hs hm hf hc hlt (by exact_mod_cast hp)
  | inc_dma =>
    simp only [hf] at hp
    exact inc_dma_arm_chunk cfg t m hs hm hf hc hlt (by exact_mod_cast hp)

/-- C26: progress of a master message across one invocation of
`ast_i2c_master_xfer_done`. With a chunk of the message `m` armed (counter at
least -1, chunk length at least 1, at most the maximum of the mode and at most
the bytes outstanding) and a length field that does not wrap when a block read
extends it: the counter does not decrease and stays between -1 and the length of
the message; the completion is signalled with no error exactly when the
updated counter equals the length; when the extracted chunk length is the armed
one and the counter has not reached the length, the counter has advanced by the
chunk, no completion is signalled and the next chunk is armed within the same
bounds; when the extracted length differs, the counter is kept and the error
accumulator is 1. -/
theorem C26_counter_and_chunks (cfg : Config) (env : RecoverEnv) (s : ast_i2c_dev)
    (m : i2c_msg) (h : ChunkInv cfg m s) (hov : m.len ≤ (msg_after cfg m s).len) :
    s.master_xfer_cnt ≤ (ast_i2c_master_xfer_done cfg env s).master_xfer_cnt ∧
    -1 ≤ (ast_i2c_master_xfer_done cfg env s).master_xfer_cnt ∧
    (ast_i2c_master_xfer_done cfg env s).master_xfer_cnt ≤ ((msg_after cfg m s).len : Int) ∧
    (((ast_i2c_master_xfer_done cfg env s).cmd_complete = s.cmd_complete + 1 ∧
        (ast_i2c_master_xfer_done cfg env s).cmd_err = 0) ↔
      (ast_i2c_master_xfer_done cfg env s).master_xfer_cnt = ((msg_after cfg m s).len : Int)) ∧
    ((master_extract cfg m s).1 = u32 s.master_xfer_len →
      (ast_i2c_master_xfer_done cfg env s).master_xfer_cnt =
        s.master_xfer_cnt + s.master_xfer_len ∧
      (s.master_xfer_cnt + s.master_xfer_len ≠ ((msg_after cfg m s).len : Int) →
        (ast_i2c_master_xfer_done cfg env s).cmd_complete = s.cmd_complete ∧
        ChunkInv cfg (msg_after cfg m s) (ast_i2c_master_xfer_done cfg env s))) ∧
    ((master_extract cfg m s).1 ≠ u32 s.master_xfer_len →
      (ast_i2c_master_xfer_done cfg env s).master_xfer_cnt = s.master_xfer_cnt ∧
      (ast_i2c_master_xfer_done cfg env s).cmd_err = 1) ∧
    (∀ (num : Int) (i : Nat) (s0 : ast_i2c_dev) (m0 : i2c_msg), s0.slave_operation ≠ 1 →
      1 ≤ chunk_max cfg s0 → (s0.do_master_xfer = XferFn.byte → s0.master_xfer_len = 1) →
      (m0.flags &&& I2C_M_NOSTART = 0 ∨ 0 < m0.len) →
      ChunkInv cfg m0 (msg_arm cfg num i m0 s0)) := by
  have hfirst : ∀ (num : Int) (i : Nat) (s0 : ast_i2c_dev) (m0 : i2c_msg),
      s0.slave_operation ≠ 1 → 1 ≤ chunk_max cfg s0 →
      (s0.do_master_xfer = XferFn.byte → s0.master_xfer_len = 1) →
      (m0.flags &&& I2C_M_NOSTART = 0 ∨ 0 < m0.len) →
      ChunkInv cfg m0 (msg_arm cfg num i m0 s0) := by
    intro num i s0 m0 hs0 hp0 hb0 hst
    obtain ⟨S, hS⟩ : ∃ S : ast_i2c_dev, S =
        { s0 with blk_r_flag := 0, master_msgs := some m0,
                  xfer_last := if num = (i : Int) + 1 then 1 else 0,
                  cmd_complete := 0, cmd_err := 0,
                  master_xfer_cnt := if m0.flags &&& I2C_M_NOSTART ≠ 0 then 0 else -1 } :=
      ⟨_, rfl⟩
    have e : msg_arm cfg num i m0 s0 =
        { call_xfer cfg S.do_master_xfer S with master_xfer_first := 1 } := by
      rw [hS]
      rfl
    have g1 : S.slave_operation ≠ 1 := by rw [hS]; exact hs0
    have g2 : S.master_msgs = some m0 := by rw [hS]
    have g3 : S.master_xfer_cnt = if m0.flags &&& I2C_M_NOSTART ≠ 0 then 0 else -1 := by
      rw [hS]
    have g4 : chunk_max cfg S = chunk_max cfg s0 := by rw [hS]; rfl
    have g5 : S.do_master_xfer = s0.do_master_xfer := by rw [hS]
    have g6 : S.master_xfer_len = s0.master_xfer_len := by rw [hS]
    have g7 : -1 ≤ S.master_xfer_cnt ∧ (S.master_xfer_cnt = -1 ∨ S.master_xfer_cnt < m0.len) := by
      rw [g3]
      by_cases hn : m0.flags &&& I2C_M_NOSTART ≠ 0
      · rw [if_pos hn]
        rcases hst with h0 | h0
        · exact absurd h0 hn
        · exact ⟨by decide, Or.inr (by exact_mod_cast h0)⟩
      · rw [if_neg hn]
        exact ⟨le_refl _, Or.inl rfl⟩
    obtain ⟨a, _⟩ := call_arm_chunk cfg S m0 g1 g2 g7.1 g7.2 (by rw [g4]; exact hp0)
      (by rw [g5, g6]; exact hb0)
    rw [e]
    exact a
  obtain ⟨hs, hm, hc, h1, hmax, hout⟩ := h
  obtain ⟨x1, x2, x3, x4, x5, x6, x7⟩ := master_extract_progress cfg m s hm
  have hov' : (m.len : Int) ≤ ((msg_after cfg m s).len : Int) := by exact_mod_cast hov
  by_cases hmis : (master_extract cfg m s).1 = u32 s.master_xfer_len
  · have hmis' : ¬ (master_extract cfg m s).1 ≠ u32 (master_extract cfg m s).2.master_xfer_len := by
      rw [x1]
      exact not_not.mpr hmis
    by_cases hl : s.master_xfer_cnt + s.master_xfer_len = ((msg_after cfg m s).len : Int)
    · have hl' : ¬ ((master_extract cfg m s).2.master_xfer_cnt +
          (master_extract cfg m s).2.master_xfer_len ≠
          (((master_extract cfg m s).2.master_msgs.getD m).len : Int)) := by
        rw [x1, x2]
        exact not_not.mpr hl
      have key : (ast_i2c_master_xfer_done cfg env s).master_xfer_cnt =
            s.master_xfer_cnt + s.master_xfer_len ∧
          (ast_i2c_master_xfer_done cfg env s).cmd_complete = s.cmd_complete + 1 ∧
          (ast_i2c_master_xfer_done cfg env s).cmd_err = 0 := by
        simp only [ast_i2c_master_xfer_done, hm]
        rw [if_neg hmis']
        rw [if_neg hl']
        simp only [restore_func_ctrl, complete, ast_i2c_write]
        split_ifs <;> simp only [x1, x2, x6, and_self]
      obtain ⟨k1, k2, k3⟩ := key
      rw [k1, k2, k3]
      refine ⟨by omega, by omega, by omega, ?_, fun _ => ⟨rfl, fun hh => absurd hl hh⟩,
        fun hh => absurd hmis hh, hfirst⟩
      exact ⟨fun _ => hl, fun _ => ⟨rfl, rfl⟩⟩
    · have hl' : (master_extract cfg m s).2.master_xfer_cnt +
          (master_extract cfg m s).2.master_xfer_len ≠
          (((master_extract cfg m s).2.master_msgs.getD m).len : Int) := by
        rw [x1, x2]
        exact hl
      obtain ⟨t2, ht2⟩ : ∃ t2 : ast_i2c_dev, t2 =
          { (master_extract cfg m s).2 with
            master_xfer_cnt := (master_extract cfg m s).2.master_xfer_cnt +
              (master_extract cfg m s).2.master_xfer_len,
            master_xfer_first := 0 } := ⟨_, rfl⟩
      have e : ast_i2c_master_xfer_done cfg env s = call_xfer cfg t2.do_master_xfer t2 := by
        rw [ht2]
        simp only [ast_i2c_master_xfer_done, hm]
        rw [if_neg hmis', if_pos hl']
      have f1 : t2.slave_operation = s.slave_operation := by rw [ht2]; exact x4
      have f2 : t2.master_msgs = some (msg_after cfg m s) := by rw [ht2]; exact x7
      have f3 : t2.master_xfer_cnt = s.master_xfer_cnt + s.master_xfer_len := by
        rw [ht2, ← x1, ← x2]
      have f4 : t2.master_xfer_len = s.master_xfer_len := by rw [ht2]; exact x1
      have f5 : t2.do_master_xfer = s.do_master_xfer := by rw [ht2]; exact x3
      have f6 : t2.req_page = s.req_page := by rw [ht2]; exact x5
      have f7 : t2.cmd_complete = s.cmd_complete := by rw [ht2]; exact x6
      have f8 : chunk_max cfg t2 = chunk_max cfg s := by
        unfold chunk_max
        rw [f5, f6]
      have hb : t2.do_master_xfer = XferFn.byte → t2.master_xfer_len = 1 := by
        intro hh
        rw [f5] at hh
        simp only [chunk_max, hh] at hmax
        rw [f4]
        omega
      obtain ⟨a, b1, b2, _, _⟩ := call_arm_chunk cfg t2 (msg_after cfg m s) (by rw [f1]; exact hs)
        f2 (by rw [f3]; omega) (Or.inr (by rw [f3]; omega)) (by rw [f8]; omega) hb
      rw [e, b1, b2, f3, f7]
      refine ⟨by omega, by omega, by omega, ?_, fun _ => ⟨rfl, fun _ => ⟨rfl, a⟩⟩,
        fun hh => absurd hmis hh, hfirst⟩
      constructor
      · intro hh
        omega
      · intro hh
        exact absurd hh hl
  · have hmis' : (master_extract cfg m s).1 ≠ u32 (master_extract cfg m s).2.master_xfer_len := by
      rw [x1]
      exact hmis
    obtain ⟨_, e1, e2, _, _⟩ := xfer_done_mismatch cfg env s m hm hmis'
    rw [e1, e2]
    refine ⟨le_refl _, hc, by omega, ?_, fun hh => absurd hh hmis, fun _ => ⟨rfl, rfl⟩, hfirst⟩
    constructor
    · intro hh
      exact absurd hh.2 (by decide)
    · intro hh
      omega

/-- C26 on the acknowledge of the address byte of a one-byte write message in
byte mode. -/
theorem C26_counter_and_chunks_witness :
    ChunkInv {} write1 chunk_armed ∧
    write1.len ≤ (msg_after {} write1 chunk_armed).len ∧
    chunk_armed.master_xfer_cnt ≤ (ast_i2c_master_xfer_done {} {} chunk_armed).master_xfer_cnt ∧
    -1 ≤ (ast_i2c_master_xfer_done {} {} chunk_armed).master_xfer_cnt ∧
    (ast_i2c_master_xfer_done {} {} chunk_armed).master_xfer_cnt ≤
      ((msg_after {} write1 chunk_armed).len : Int) :=
  ⟨by decide, by decide,
    (C26_counter_and_chunks {} {} chunk_armed write1 (by decide) (by decide)).1,
    (C26_counter_and_chunks {} {} chunk_armed write1 (by decide) (by decide)).2.1,
    (C26_counter_and_chunks {} {} chunk_armed write1 (by decide) (by decide)).2.2.1⟩

theorem frame_write (s : ast_i2c_dev) (v : Nat) (r : Reg) : Frame s (ast_i2c_write s v r) :=
  ⟨rfl, rfl, rfl, rfl, rfl, rfl⟩

/-- The role, the message pointer and the error accumulator across an arm
routine: the accumulator is kept or cleared. -/
theorem byte_xfer_inv (s : ast_i2c_dev) :
    (ast_i2c_do_byte_xfer s).slave_operation = s.slave_operation ∧
    (ast_i2c_do_byte_xfer s).master_msgs = s.master_msgs ∧
    ((ast_i2c_do_byte_xfer s).cmd_err = s.cmd_err ∨ (ast_i2c_do_byte_xfer s).cmd_err = 0) := by
  obtain ⟨u, hu⟩ : ∃ u, u = ast_i2c_do_byte_xfer s := ⟨_, rfl⟩
  rw [← hu]
  simp only [ast_i2c_do_byte_xfer] at hu
  split_ifs at hu <;> first
    | (subst hu; exact ⟨rfl, rfl, Or.inl rfl⟩)
    | (split at hu <;> (try split_ifs at hu) <;> subst hu <;>
        first | exact ⟨rfl, rfl, Or.inl rfl⟩ | exact ⟨rfl, rfl, Or.inr rfl⟩)

theorem pool_xfer_inv0 (cfg : Config) (s : ast_i2c_dev) (hg : ¬ cfg.soc = Soc.g4) :
    (ast_i2c_do_pool_xfer cfg s).slave_operation = s.slave_operation ∧
    (ast_i2c_do_pool_xfer cfg s).master_msgs = s.master_msgs ∧
    ((ast_i2c_do_pool_xfer cfg s).cmd_err = s.cmd_err ∨
      (ast_i2c_do_pool_xfer cfg s).cmd_err = 0) := by
  obtain ⟨u, hu⟩ : ∃ u, u = ast_i2c_do_pool_xfer cfg s := ⟨_, rfl⟩
  rw [← hu]
  simp only [ast_i2c_do_pool_xfer, hg, if_false] at hu
  split_ifs at hu <;> first
    | (subst hu; exact ⟨rfl, rfl, Or.inl rfl⟩)
    | (split at hu <;> (try split_ifs at hu) <;> subst hu <;>
        first | exact ⟨rfl, rfl, Or.inl rfl⟩ | exact ⟨rfl, rfl, Or.inr rfl⟩)

theorem pool_xfer_inv (cfg : Config) (s : ast_i2c_dev) :
    (ast_i2c_do_pool_xfer cfg s).slave_operation = s.slave_operation ∧
    (ast_i2c_do_pool_xfer cfg s).master_msgs = s.master_msgs ∧
    ((ast_i2c_do_pool_xfer cfg s).cmd_err = s.cmd_err ∨
      (ast_i2c_do_pool_xfer cfg s).cmd_err = 0) := by
  by_cases hg : cfg.soc = Soc.g4
  · rw [pool_xfer_g4 cfg s hg]
    exact pool_xfer_inv0 { cfg with soc := Soc.other } _ (show ¬ Soc.other = Soc.g4 by decide)
  · exact pool_xfer_inv0 cfg s hg

set_option maxHeartbeats 1600000 in
theorem dec_dma_xfer_inv (cfg : Config) (s : ast_i2c_dev) :
    (ast_i2c_do_dec_dma_xfer cfg s).slave_operation = s.slave_operation ∧
    (ast_i2c_do_dec_dma_xfer cfg s).master_msgs = s.master_msgs ∧
    ((ast_i2c_do_dec_dma_xfer cfg s).cmd_err = s.cmd_err ∨
      (ast_i2c_do_dec_dma_xfer cfg s).cmd_err = 0) := by
  obtain ⟨u, hu⟩ : ∃ u, u = ast_i2c_do_dec_dma_xfer cfg s := ⟨_, rfl⟩
  rw [← hu]
  by_cases hs : s.slave_operation = 1
  · simp only [ast_i2c_do_dec_dma_xfer, if_pos hs] at hu
    split_ifs at hu <;> subst hu <;> exact ⟨rfl, rfl, Or.inl rfl⟩
  · cases hm : s.master_msgs with
    | none =>
      simp only [ast_i2c_do_dec_dma_xfer, if_neg hs, hm] at hu
      subst hu
      exact ⟨rfl, rfl, Or.inl rfl⟩
    | some m =>
      simp only [ast_i2c_do_dec_dma_xfer, if_neg hs, hm] at hu
      split_ifs at hu <;> subst hu <;>
        first | exact ⟨rfl, rfl, Or.inl rfl⟩ | exact ⟨rfl, rfl, Or.inr rfl⟩

set_option maxHeartbeats 1600000 in
theorem inc_dma_xfer_inv (cfg : Config) (s : ast_i2c_dev) :
    (ast_i2c_do_inc_dma_xfer cfg s).slave_operation = s.slave_operation ∧
    (ast_i2c_do_inc_dma_xfer cfg s).master_msgs = s.master_msgs ∧
    ((ast_i2c_do_inc_dma_xfer cfg s).cmd_err = s.cmd_err ∨
      (ast_i2c_do_inc_dma_xfer cfg s).cmd_err = 0) := by
  obtain ⟨u, hu⟩ : ∃ u, u = ast_i2c_do_inc_dma_xfer cfg s := ⟨_, rfl⟩
  rw [← hu]
  by_cases hs : s.slave_operation = 1
  · simp only [ast_i2c_do_inc_dma_xfer, if_pos hs] at hu
    split_ifs at hu <;> subst hu <;> exact ⟨rfl, rfl, Or.inl rfl⟩
  · cases hm : s.master_msgs with
    | none =>
      simp only [ast_i2c_do_inc_dma_xfer, if_neg hs, hm] at hu
      subst hu
      exact ⟨rfl, rfl, Or.inl rfl⟩
    | some m =>
      simp only [ast_i2c_do_inc_dma_xfer, if_neg hs, hm] at hu
      split_ifs at hu <;> subst hu <;>
        first | exact ⟨rfl, rfl, Or.inl rfl⟩ | exact ⟨rfl, rfl, Or.inr rfl⟩

/-- Whichever arm routine is called, in either role: the role flag and the
message pointer are kept, and the error accumulator is kept or cleared. -/
theorem call_xfer_inv (cfg : Config) (f : XferFn) (s : ast_i2c_dev) :
    (call_xfer cfg f s).slave_operation = s.slave_operation ∧
    (call_xfer cfg f s).master_msgs = s.master_msgs ∧
    ((call_xfer cfg f s).cmd_err = s.cmd_err ∨ (call_xfer cfg f s).cmd_err = 0) := by
  cases f
  · exact byte_xfer_inv s
  · exact pool_xfer_inv cfg s
  · exact dec_dma_xfer_inv cfg s
  · exact inc_dma_xfer_inv cfg s
theorem byte_xfer_frame (s : ast_i2c_dev) : Frame s (ast_i2c_do_byte_xfer s) := by
  obtain ⟨u, hu⟩ : ∃ u, u = ast_i2c_do_byte_xfer s := ⟨_, rfl⟩
  rw [← hu]
  simp only [ast_i2c_do_byte_xfer] at hu
  split_ifs at hu <;> first
    | (subst hu; exact ⟨rfl, rfl, rfl, rfl, rfl, rfl⟩)
    | (split at hu <;> (try split_ifs at hu) <;> subst hu <;> exact ⟨rfl, rfl, rfl, rfl, rfl, rfl⟩)

theorem pool_xfer_frame0 (cfg : Config) (s : ast_i2c_dev) (hg : ¬ cfg.soc = Soc.g4) :
    Frame s (ast_i2c_do_pool_xfer cfg s) := by
  obtain ⟨u, hu⟩ : ∃ u, u = ast_i2c_do_pool_xfer cfg s := ⟨_, rfl⟩
  rw [← hu]
  simp only [ast_i2c_do_pool_xfer, hg, if_false] at hu
  split_ifs at hu <;> first
    | (subst hu; exact ⟨rfl, rfl, rfl, rfl, rfl, rfl⟩)
    | (split at hu <;> (try split_ifs at hu) <;> subst hu <;> exact ⟨rfl, rfl, rfl, rfl, rfl, rfl⟩)

theorem pool_xfer_frame (cfg : Config) (s : ast_i2c_dev) :
    Frame s (ast_i2c_do_pool_xfer cfg s) := by
  by_cases hg : cfg.soc = Soc.g4
  · rw [pool_xfer_g4 cfg s hg]
    exact (frame_write s _ _).trans
      (pool_xfer_frame0 { cfg with soc := Soc.other } _ (show ¬ Soc.other = Soc.g4 by decide))
  · exact pool_xfer_frame0 cfg s hg

set_option maxHeartbeats 1600000 in
theorem dec_dma_xfer_frame (cfg : Config) (s : ast_i2c_dev) :
    Frame s (ast_i2c_do_dec_dma_xfer cfg s) := by
  obtain ⟨u, hu⟩ : ∃ u, u = ast_i2c_do_dec_dma_xfer cfg s := ⟨_, rfl⟩
  rw [← hu]
  by_cases hs : s.slave_operation = 1
  · simp only [ast_i2c_do_dec_dma_xfer, if_pos hs] at hu
    split_ifs at hu <;> subst hu <;> exact ⟨rfl, rfl, rfl, rfl, rfl, rfl⟩
  · cases hm : s.master_msgs with
    | none =>
      simp only [ast_i2c_do_dec_dma_xfer, if_neg hs, hm] at hu
      subst hu
      exact ⟨rfl, rfl, rfl, rfl, rfl, rfl⟩
    | some m =>
      simp only [ast_i2c_do_dec_dma_xfer, if_neg hs, hm] at hu
      split_ifs at hu <;> subst hu <;> exact ⟨rfl, rfl, rfl, rfl, rfl, rfl⟩

set_option maxHeartbeats 1600000 in
theorem inc_dma_xfer_frame (cfg : Config) (s : ast_i2c_dev) :
    Frame s (ast_i2c_do_inc_dma_xfer cfg s) := by
  obtain ⟨u, hu⟩ : ∃ u, u = ast_i2c_do_inc_dma_xfer cfg s := ⟨_, rfl⟩
  rw [← hu]
  by_cases hs : s.slave_operation = 1
  · simp only [ast_i2c_do_inc_dma_xfer, if_pos hs] at hu
    split_ifs at hu <;> subst hu <;> exact ⟨rfl, rfl, rfl, rfl, rfl, rfl⟩
  · cases hm : s.master_msgs with
    | none =>
      simp only [ast_i2c_do_inc_dma_xfer, if_neg hs, hm] at hu
      subst hu
      exact ⟨rfl, rfl, rfl, rfl, rfl, rfl⟩
    | some m =>
      simp only [ast_i2c_do_inc_dma_xfer, if_neg hs, hm] at hu
      split_ifs at hu <;> subst hu <;> exact ⟨rfl, rfl, rfl, rfl, rfl, rfl⟩

/-- No arm routine, in either role, changes the bus number, the recovery
counters, the page log, `xfer_last` or the retry count. -/
theorem call_xfer_frame (cfg : Config) (f : XferFn) (s : ast_i2c_dev) :
    Frame s (call_xfer cfg f s) := by
  cases f
  · exact byte_xfer_frame s
  · exact pool_xfer_frame cfg s
  · exact dec_dma_xfer_frame cfg s
  · exact inc_dma_xfer_frame cfg s

/-- The length the completion routine extracts depends on the transfer mode,
the counter, the armed length and the two length registers only. -/
theorem master_extract_fst_congr (cfg : Config) (m : i2c_msg) (a b : ast_i2c_dev)
    (h1 : a.master_xfer_cnt = b.master_xfer_cnt) (h2 : a.master_xfer_mode = b.master_xfer_mode)
    (h3 : a.master_xfer_len = b.master_xfer_len)
    (h4 : a.regs I2C_BUF_CTRL_REG = b.regs I2C_BUF_CTRL_REG)
    (h5 : a.regs I2C_DMA_LEN_REG = b.regs I2C_DMA_LEN_REG) :
    (master_extract cfg m a).1 = (master_extract cfg m b).1 := by
  unfold master_extract
  cases hb : b.master_xfer_mode <;>
    simp only [h2.trans hb, ast_i2c_read, h1, h3, h4, h5] <;>
    split_ifs <;> rfl

/-- For a write message the first part of the completion routine changes
nothing. -/
theorem master_extract_write (cfg : Config) (m : i2c_msg) (t : ast_i2c_dev)
    (hwr : m.flags &&& I2C_M_RD = 0) : (master_extract cfg m t).2 = t := by
  simp only [master_extract, hwr, ne_eq, not_true_eq_false, if_false]
  cases t.master_xfer_mode <;> rfl

/-- The completion routine entered in master role for a write message whose
armed chunk is reported as transferred, with no error recorded: the role and
the message pointer are kept, no error is recorded, and no reset is forced. -/
theorem xfer_done_match_inv (cfg : Config) (env : RecoverEnv) (d : ast_i2c_dev) (m : i2c_msg)
    (hm : d.master_msgs = some m) (hwr : m.flags &&& I2C_M_RD = 0)
    (hx : (master_extract cfg m d).1 = u32 d.master_xfer_len) (he : d.cmd_err = 0) :
    (ast_i2c_master_xfer_done cfg env d).slave_operation = d.slave_operation ∧
    (ast_i2c_master_xfer_done cfg env d).master_msgs = some m ∧
    (ast_i2c_master_xfer_done cfg env d).cmd_err = 0 ∧
    Frame d (ast_i2c_master_xfer_done cfg env d) := by
  by_cases hne : d.master_xfer_cnt + d.master_xfer_len = (m.len : Int)
  · have hs := master_extract_write cfg m d hwr
    simp only [ast_i2c_master_xfer_done, hm, hs, hx, ne_eq, not_true_eq_false, if_false,
      Option.getD_some, hne, hwr, not_false_eq_true, and_true]
    by_cases hmode : d.master_xfer_mode = XferMode.BYTE_XFER ∨
        d.master_xfer_mode = XferMode.BUFF_XFER <;> by_cases hl : d.xfer_last = 1 <;>
      simp [hmode, hl, restore_func_ctrl, complete, ast_i2c_write, frame_iff, hm]
  · rw [xfer_done_tx_next cfg env d m hm hwr hx hne]
    obtain ⟨a1, a2, a3⟩ := call_xfer_inv cfg d.do_master_xfer
      { d with master_xfer_cnt := d.master_xfer_cnt + d.master_xfer_len, master_xfer_first := 0 }
    have a4 := call_xfer_frame cfg d.do_master_xfer
      { d with master_xfer_cnt := d.master_xfer_cnt + d.master_xfer_len, master_xfer_first := 0 }
    refine ⟨a1, a2.trans hm, ?_, (frame_cnt d _).trans a4⟩
    rcases a3 with h | h
    · exact h.trans he
    · exact h

/-- An acknowledge interrupt in master role at a write message whose armed
chunk is reported as transferred, with no error recorded: the role and the
message pointer are kept, no error is recorded, and no reset is forced. -/
theorem ack_step_inv (cfg : Config) (ev : Irq) (s : ast_i2c_dev) (m : i2c_msg)
    (hev : ev.acksTx s) (hrep : ev.reportsChunk cfg s) (hs : s.slave_operation ≠ 1)
    (hm : s.master_msgs = some m) (hwr : m.flags &&& I2C_M_RD = 0) (he : s.cmd_err = 0) :
    (i2c_ast_handler cfg ev s).2.slave_operation = s.slave_operation ∧
    (i2c_ast_handler cfg ev s).2.master_msgs = some m ∧
    (i2c_ast_handler cfg ev s).2.cmd_err = 0 ∧
    Frame s (i2c_ast_handler cfg ev s).2 := by
  simp only [Irq.reportsChunk, hm] at hrep
  rcases hev with hev | ⟨hl, hs0, hev⟩
  · rw [handler_ack_master cfg ev s hev hs]
    have hx : (master_extract cfg m (clear_sts (irq_entry ev s) AST_I2CD_INTR_STS_TX_ACK)).1 =
        u32 (clear_sts (irq_entry ev s) AST_I2CD_INTR_STS_TX_ACK).master_xfer_len := by
      exact (master_extract_fst_congr cfg m
        (clear_sts (irq_entry ev s) AST_I2CD_INTR_STS_TX_ACK) (irq_entry ev s) rfl rfl rfl
        (by simp [clear_sts, ast_i2c_write, Reg.isStorage])
        (by simp [clear_sts, ast_i2c_write, Reg.isStorage])).trans hrep
    obtain ⟨x1, x2, x3, x4⟩ := xfer_done_match_inv cfg ev.recov
      (clear_sts (irq_entry ev s) AST_I2CD_INTR_STS_TX_ACK) m hm hwr hx he
    exact ⟨x1, x2, x3, (frame_entry ev s _).trans x4⟩
  · rw [handler_ack_stop_master cfg ev s hev hl hs0]
    have hx : (master_extract cfg m (intr_ctrl_set (clear_sts (irq_entry ev s)
          (AST_I2CD_INTR_STS_TX_ACK ||| AST_I2CD_INTR_STS_NORMAL_STOP))
          AST_I2CD_TX_ACK_INTR_EN)).1 =
        u32 (intr_ctrl_set (clear_sts (irq_entry ev s)
          (AST_I2CD_INTR_STS_TX_ACK ||| AST_I2CD_INTR_STS_NORMAL_STOP))
          AST_I2CD_TX_ACK_INTR_EN).master_xfer_len := by
      exact (master_extract_fst_congr cfg m
        (intr_ctrl_set (clear_sts (irq_entry ev s)
          (AST_I2CD_INTR_STS_TX_ACK ||| AST_I2CD_INTR_STS_NORMAL_STOP))
          AST_I2CD_TX_ACK_INTR_EN) (irq_entry ev s) rfl rfl rfl
        (by simp [intr_ctrl_set, clear_sts, ast_i2c_write, Reg.isStorage])
        (by simp [intr_ctrl_set, clear_sts, ast_i2c_write, Reg.isStorage])).trans hrep
    obtain ⟨x1, x2, x3, x4⟩ := xfer_done_match_inv cfg ev.recov
      (intr_ctrl_set (clear_sts (irq_entry ev s)
        (AST_I2CD_INTR_STS_TX_ACK ||| AST_I2CD_INTR_STS_NORMAL_STOP)) AST_I2CD_TX_ACK_INTR_EN)
      m hm hwr hx he
    exact ⟨x1, x2, x3, (frame_entry_set ev s _ _).trans x4⟩

/-- A NACK interrupt in master role at a message without the ignore-NACK flag,
with no completion pending and no error recorded: the completion is signalled
once, the NACK bit is recorded (with the stop bit when the status carries it),
the lock-up bit is not set, and no reset is forced. -/
theorem nak_step_inv (cfg : Config) (ev : Irq) (s : ast_i2c_dev) (m : i2c_msg)
    (hev : ev.naks s) (hs : s.slave_operation ≠ 1) (hm : s.master_msgs = some m)
    (hign : m.flags &&& I2C_M_IGNORE_NAK = 0) (he : s.cmd_err = 0) (hc : s.cmd_complete = 0) :
    (i2c_ast_handler cfg ev s).2.cmd_complete = 1 ∧
    ((i2c_ast_handler cfg ev s).2.cmd_err = AST_I2CD_INTR_STS_TX_NAK ∨
      (i2c_ast_handler cfg ev s).2.cmd_err =
        AST_I2CD_INTR_STS_TX_NAK ||| AST_I2CD_INTR_STS_NORMAL_STOP) ∧
    (i2c_ast_handler cfg ev s).2.slave_operation = s.slave_operation ∧
    (i2c_ast_handler cfg ev s).2.master_msgs = some m ∧
    Frame s (i2c_ast_handler cfg ev s).2 := by
  rcases hev with ⟨e1, e2⟩ | ⟨e1, e2⟩
  · simp +decide [i2c_ast_handler, e1, e2, take_irq, ast_i2c_read, AST_I2CD_INTR_STS_TX_ACK,
      AST_I2CD_INTR_STS_SMBUS_ALT, AST_I2CD_INTR_STS_ABNORMAL, AST_I2CD_INTR_STS_SCL_TO,
      AST_I2CD_INTR_STS_NORMAL_STOP, AST_I2CD_INTR_STS_TX_NAK, handler_switch, hs, clear_sts,
      ast_i2c_write, hm, hign, complete, he, hc, frame_iff]
  · simp +decide [i2c_ast_handler, e1, e2, take_irq, ast_i2c_read, AST_I2CD_INTR_STS_TX_ACK,
      AST_I2CD_INTR_STS_SMBUS_ALT, AST_I2CD_INTR_STS_ABNORMAL, AST_I2CD_INTR_STS_SCL_TO,
      AST_I2CD_INTR_STS_NORMAL_STOP, AST_I2CD_INTR_STS_TX_NAK, handler_switch, hs, clear_sts,
      ast_i2c_write, hm, hign, complete, he, hc, frame_iff]

/-- A wait during which the remote device NACKs a write message without the
ignore-NACK flag: it ends with the completion signalled and the NACK recorded,
and forces no reset. -/
theorem nak_run (cfg : Config) (m : i2c_msg) (hwr : m.flags &&& I2C_M_RD = 0)
    (hign : m.flags &&& I2C_M_IGNORE_NAK = 0) (irqs : List Irq) :
    ∀ s : ast_i2c_dev, NackedRun cfg irqs s → s.slave_operation ≠ 1 →
      s.master_msgs = some m → s.cmd_err = 0 →
      (wait_irqs cfg irqs s).cmd_complete = 1 ∧
      ((wait_irqs cfg irqs s).cmd_err = AST_I2CD_INTR_STS_TX_NAK ∨
        (wait_irqs cfg irqs s).cmd_err =
          AST_I2CD_INTR_STS_TX_NAK ||| AST_I2CD_INTR_STS_NORMAL_STOP) ∧
      (wait_irqs cfg irqs s).slave_operation = s.slave_operation ∧
      (wait_irqs cfg irqs s).master_msgs = some m ∧
      Frame s (wait_irqs cfg irqs s) := by
  induction irqs with
  | nil =>
    intro s h
    exact absurd h (by simp [NackedRun])
  | cons ev rest ih =>
    intro s h hs hm he
    simp only [NackedRun] at h
    obtain ⟨hc, h⟩ := h
    have hd : ¬ (s.cmd_complete > 0) := by rw [hc]; decide
    simp only [wait_irqs, hd, if_false]
    rcases h with hn | ⟨ha, hrep, hrest⟩
    · obtain ⟨n1, n2, n3, n4, n5⟩ := nak_step_inv cfg ev s m hn hs hm hign he hc
      rw [wait_irqs_done cfg rest _ (by rw [n1]; decide)]
      exact ⟨n1, n2, n3, n4, n5⟩
    · obtain ⟨a1, a2, a3, a4⟩ := ack_step_inv cfg ev s m ha hrep hs hm hwr he
      obtain ⟨i1, i2, i3, i4, i5⟩ := ih _ hrest (by rw [a1]; exact hs) a2 a3
      exact ⟨i1, i2, i3.trans a1, i4, a4.trans i5⟩

/-- The state in which the first wait of a call starts: the role and the
recovery counters are those of the submit, the message is installed and no
error is recorded. -/
theorem submit_arm_inv (cfg : Config) (page : Option buf_page) (num : Int) (m : i2c_msg)
    (s : ast_i2c_dev) :
    (submit_arm cfg page num m s).slave_operation = s.slave_operation ∧
    (submit_arm cfg page num m s).master_msgs = some m ∧
    (submit_arm cfg page num m s).cmd_err = 0 ∧
    (submit_arm cfg page num m s).bus_id = s.bus_id ∧
    (submit_arm cfg page num m s).bus_master_reset_cnt = s.bus_master_reset_cnt ∧
    (submit_arm cfg page num m s).bus_slave_recovery_cnt = s.bus_slave_recovery_cnt := by
  obtain ⟨S, hS⟩ : ∃ S : ast_i2c_dev, S =
      { select_master_mode cfg page s with
        master_xfer_first := 0, blk_r_flag := 0, master_msgs := some m,
        xfer_last := if num = ((0 : Nat) : Int) + 1 then 1 else 0,
        cmd_complete := 0, cmd_err := 0,
        master_xfer_cnt := if m.flags &&& I2C_M_NOSTART ≠ 0 then 0 else -1 } := ⟨_, rfl⟩
  have e : submit_arm cfg page num m s =
      { call_xfer cfg S.do_master_xfer S with master_xfer_first := 1 } := by
    rw [hS]
    rfl
  have hsel : (select_master_mode cfg page s).slave_operation = s.slave_operation ∧
      (select_master_mode cfg page s).bus_id = s.bus_id ∧
      (select_master_mode cfg page s).bus_master_reset_cnt = s.bus_master_reset_cnt ∧
      (select_master_mode cfg page s).bus_slave_recovery_cnt = s.bus_slave_recovery_cnt := by
    unfold select_master_mode
    cases cfg.master_dma <;> cases page <;> exact ⟨rfl, rfl, rfl, rfl⟩
  obtain ⟨s1, s2, s3, s4⟩ := hsel
  obtain ⟨a1, a2, a3⟩ := call_xfer_inv cfg S.do_master_xfer S
  obtain ⟨f1, f2, f3, _, _, _⟩ := call_xfer_frame cfg S.do_master_xfer S
  have g1 : S.slave_operation = s.slave_operation := by rw [hS]; exact s1
  have g2 : S.master_msgs = some m := by rw [hS]
  have g3 : S.cmd_err = 0 := by rw [hS]
  have g4 : S.bus_id = s.bus_id := by rw [hS]; exact s2
  have g5 : S.bus_master_reset_cnt = s.bus_master_reset_cnt := by rw [hS]; exact s3
  have g6 : S.bus_slave_recovery_cnt = s.bus_slave_recovery_cnt := by rw [hS]; exact s4
  rw [e]
  refine ⟨a1.trans g1, a2.trans g2, ?_, f1.trans g4, f2.trans g5, f3.trans g6⟩
  rcases a3 with h | h
  · exact h.trans g3
  · exact h

/-- A call with a single message whose wait ends with the completion signalled
and an error other than a lock-up recorded: the call returns `-EAGAIN` without
a reset, and the state is the one the wait left, but for the consumed
completion, the cleared message pointer and the freed page. -/
theorem do_msgs_error_exit (cfg : Config) (env : XferEnv) (m : i2c_msg) (s a : ast_i2c_dev)
    (hs : s.slave_operation ≠ 1)
    (ha : wait_irqs cfg (env.waits.headD {}).irqs (submit_arm cfg env.page 1 m s) = a)
    (hdone : 0 < a.cmd_complete)
    (herr : a.cmd_err ≠ 0 ∧ a.cmd_err ≠ AST_I2CD_INTR_STS_NORMAL_STOP)
    (hlock : a.cmd_err &&& AST_LOCKUP_DETECTED = 0) :
    (ast_i2c_do_msgs_xfer cfg env [m] 1 s).1 = -EAGAIN ∧
    (ast_i2c_do_msgs_xfer cfg env [m] 1 s).2.1 = [a.master_msgs.getD m] ∧
    (ast_i2c_do_msgs_xfer cfg env [m] 1 s).2.2.slave_operation = a.slave_operation ∧
    (ast_i2c_do_msgs_xfer cfg env [m] 1 s).2.2.bus_id = a.bus_id ∧
    (ast_i2c_do_msgs_xfer cfg env [m] 1 s).2.2.bus_master_reset_cnt = a.bus_master_reset_cnt ∧
    (ast_i2c_do_msgs_xfer cfg env [m] 1 s).2.2.bus_slave_recovery_cnt =
      a.bus_slave_recovery_cnt := by
  have e : msg_arm cfg 1 0 m { select_master_mode cfg env.page s with master_xfer_first := 0 } =
      submit_arm cfg env.page 1 m s := rfl
  have hleft : ¬ (((env.waits.headD {}).left : Int) + 1 = 0) := by omega
  have hl : ¬ (a.cmd_err &&& AST_LOCKUP_DETECTED ≠ 0) := fun h => h hlock
  simp only [ast_i2c_do_msgs_xfer, hs, if_false, Int.toNat_one, msgs_loop, List.getD_cons_zero,
    e, wait_for_completion_timeout, ha, gt_iff_lt, hdone, if_true, hleft, herr, hl,
    ne_eq, not_false_eq_true, and_self]
  cases hm : a.master_msgs <;> split_ifs <;> simp [free_pool_buff_page]

/-- An attempt at a single write message without the ignore-NACK flag that the
remote device NACKs: it returns `-EAGAIN`, leaves the message as it was and
forces no reset. -/
theorem nak_attempt (cfg : Config) (m : i2c_msg) (s : ast_i2c_dev) (e : XferEnv)
    (hs : s.slave_operation ≠ 1) (hwr : m.flags &&& I2C_M_RD = 0)
    (hign : m.flags &&& I2C_M_IGNORE_NAK = 0)
    (hn : NackedRun cfg (e.waits.headD {}).irqs (submit_arm cfg e.page 1 m s)) :
    (ast_i2c_do_msgs_xfer cfg e [m] 1 s).1 = -EAGAIN ∧
    (ast_i2c_do_msgs_xfer cfg e [m] 1 s).2.1 = [m] ∧
    (ast_i2c_do_msgs_xfer cfg e [m] 1 s).2.2.slave_operation ≠ 1 ∧
    (ast_i2c_do_msgs_xfer cfg e [m] 1 s).2.2.bus_id = s.bus_id ∧
    (ast_i2c_do_msgs_xfer cfg e [m] 1 s).2.2.bus_master_reset_cnt = s.bus_master_reset_cnt ∧
    (ast_i2c_do_msgs_xfer cfg e [m] 1 s).2.2.bus_slave_recovery_cnt =
      s.bus_slave_recovery_cnt := by
  obtain ⟨a1, a2, a3, a4, a5, a6⟩ := submit_arm_inv cfg e.page 1 m s
  obtain ⟨r1, r2, r3, r4, r5⟩ := nak_run cfg m hwr hign _ _ hn (by rw [a1]; exact hs) a2 a3
  obtain ⟨x1, x2, x3, x4, x5, x6⟩ := do_msgs_error_exit cfg e m s _ hs rfl
    (by rw [r1]; decide)
    (by rcases r2 with h | h <;> rw [h] <;> decide)
    (by rcases r2 with h | h <;> rw [h] <;> decide)
  refine ⟨x1, ?_, ?_, ?_, ?_, ?_⟩
  · rw [x2, r4]
    rfl
  · rw [x3, r3, a1]
    exact hs
  · rw [x4, r5.bus_id, a4]
  · rw [x5, r5.reset, a5]
  · rw [x6, r5.recov, a6]

/-- The retry loop of the entry point over attempts that are all NACKed. -/
theorem nak_retry_loop (cfg : Config) (m : i2c_msg)
    (hwr : m.flags &&& I2C_M_RD = 0) (hign : m.flags &&& I2C_M_IGNORE_NAK = 0) :
    ∀ (k : Nat) (i : Int) (envs : List XferEnv) (s : ast_i2c_dev),
    i = (k : Int) → s.slave_operation ≠ 1 → AllNacked cfg m (k + 1) envs s →
    (xfer_loop cfg 1 (k + 1) i envs [m] s).1 = -EAGAIN ∧
    (xfer_loop cfg 1 (k + 1) i envs [m] s).2.2.bus_master_reset_cnt =
      s.bus_master_reset_cnt ∧
    (xfer_loop cfg 1 (k + 1) i envs [m] s).2.2.bus_slave_recovery_cnt =
      s.bus_slave_recovery_cnt := by
  intro k
  induction k with
  | zero =>
    intro i envs s hi hs hall
    simp only [AllNacked] at hall
    obtain ⟨b1, _, _, _, b5, b6⟩ := nak_attempt cfg m s (envs.headD {}) hs hwr hign hall.1
    have h0 : i ≤ 0 := by simp [hi]
    simp only [xfer_loop, h0, true_or, if_true]
    exact ⟨b1, b5, b6⟩
  | succ k ih =>
    intro i envs s hi hs hall
    rw [AllNacked] at hall
    obtain ⟨b1, b2, b3, b4, b5, b6⟩ := nak_attempt cfg m s (envs.headD {}) hs hwr hign hall.1
    have h0 : ¬ (i ≤ 0 ∨ (ast_i2c_do_msgs_xfer cfg (envs.headD {}) [m] 1 s).1 ≠ -EAGAIN) := by
      rw [b1]
      simp only [ne_eq, not_true_eq_false, or_false, not_le]
      rw [hi]
      exact_mod_cast Nat.succ_pos k
    rw [xfer_loop]
    simp only [h0, if_false, b2]
    obtain ⟨c1, c2, c3⟩ := ih (i - 1) envs.tail _ (by rw [hi]; push_cast; ring) b3 hall.2
    exact ⟨c1, c2.trans b5, c3.trans b6⟩

/-- The polling loop of the busy check leaves with time left when one of its
polls finds the bus idle; it clears the slave flag and forces no reset. -/
theorem wait_bus_loop_free :
    ∀ (n : Nat) (polls : List (Nat × Nat)) (s : ast_i2c_dev),
    (∃ j < n, PollIdle (polls.getD j (0, 0))) →
    0 < (wait_bus_loop n polls s).1 ∧ (wait_bus_loop n polls s).2.slave_operation = 0 ∧
    Frame s (wait_bus_loop n polls s).2 := by
  intro n
  induction n with
  | zero =>
    rintro polls s ⟨j, hj, _⟩
    omega
  | succ n ih =>
    rintro polls s ⟨j, hj, hp⟩
    rw [wait_bus_loop, headD_eq_getD]
    by_cases hc : PollIdle (polls.getD 0 (0, 0))
    · obtain ⟨h1, h2⟩ := hc
      generalize polls.getD 0 (0, 0) = p at h1 h2
      simp [ast_i2c_read, h1, h2, frame_iff]
    · have hj0 : j ≠ 0 := by
        rintro rfl
        exact hc hp
      obtain ⟨i, rfl⟩ : ∃ i, j = i + 1 := ⟨j - 1, by omega⟩
      obtain ⟨r1, r2, r3⟩ := ih polls.tail
        { s with regs := Function.update (Function.update s.regs I2C_CMD_REG
            (polls.getD 0 (0, 0)).1) I2C_INTR_STS_REG (polls.getD 0 (0, 0)).2 }
        ⟨i, by omega, by rw [getD_tail_succ]; exact hp⟩
      simp only [PollIdle] at hc
      simp only [ast_i2c_read, Function.update_same, ne_eq, reduceCtorEq, not_false_eq_true,
        Function.update_noteq, hc, if_false]
      exact ⟨r1, r2, ⟨r3.1, r3.2, r3.3, r3.4, r3.5, r3.6⟩⟩

/-- The busy check of the entry point when one of the polls finds the bus
idle: no reset is forced and the slave flag is cleared. -/
theorem wait_bus_in_time (cfg : Config) (env : EntryEnv) (s : ast_i2c_dev)
    (h : ∃ j < 10, PollIdle (env.polls.getD j (0, 0))) :
    (ast_i2c_wait_bus_not_busy cfg env.polls env.recov s).1 = 0 ∧
    (ast_i2c_wait_bus_not_busy cfg env.polls env.recov s).2.slave_operation = 0 ∧
    Frame s (ast_i2c_wait_bus_not_busy cfg env.polls env.recov s).2 := by
  obtain ⟨r1, r2, r3⟩ := wait_bus_loop_free 10 env.polls s h
  have hn : ¬ ((wait_bus_loop 10 env.polls s).1 ≤ 0) := by omega
  simp only [ast_i2c_wait_bus_not_busy, hn, if_false]
  exact ⟨trivial, r2, r3⟩

/-- C4 fails as stated in two situations it does not exclude. The entry point
retries a NACKed attempt: a 4-byte write whose second byte is NACKed in the
first attempt and whose bytes are all acknowledged in the second returns 1,
the message count, not the NACK code. And with the bus busy at all 10 polls of
the busy check the entry point forces a bus reset before the first attempt:
`bus_master_reset_cnt` goes from 0 to 1 although every attempt is NACKed. -/
theorem C4_retry_succeeds_or_busy_resets :
    (ast_i2c_do_msgs_xfer {} nacked_attempt [write4] 1 {}).1 = -11 ∧
    (ast_i2c_xfer {} { attempts := [nacked_attempt, acked_attempt] } [write4] 1 {}).1 = 1 ∧
    (ast_i2c_xfer {}
      { polls := List.replicate 10 (AST_I2CD_BUS_BUSY_STS, 0),
        attempts := List.replicate 4 nacked_attempt } [write4] 1 {}).1 = -11 ∧
    (ast_i2c_xfer {}
      { polls := List.replicate 10 (AST_I2CD_BUS_BUSY_STS, 0),
        attempts := List.replicate 4 nacked_attempt } [write4] 1
      {}).2.2.bus_master_reset_cnt = 1 := by
  decide

/-- C4 (amended): a write message without the ignore-NACK flag, in any
transfer mode, submitted alone with the bus found idle at one of the 10 polls
of the busy check, that
the remote device NACKs in every attempt the entry point makes (at least one,
`retries` being non-negative): the entry point returns the NACK code
`-EAGAIN`, a negative value, and neither `bus_master_reset_cnt` nor
`bus_slave_recovery_cnt` changes. -/
theorem C4_nack_every_attempt (cfg : Config) (env : EntryEnv) (m : i2c_msg) (s : ast_i2c_dev)
    (hwr : m.flags &&& I2C_M_RD = 0) (hign : m.flags &&& I2C_M_IGNORE_NAK = 0)
    (hr : 0 ≤ s.retries) (hidle : ∃ j < 10, PollIdle (env.polls.getD j (0, 0)))
    (hall : AllNacked cfg m (s.retries + 1).toNat env.attempts
      (ast_i2c_wait_bus_not_busy cfg env.polls env.recov s).2) :
    (ast_i2c_xfer cfg env [m] 1 s).1 = -EAGAIN ∧
    (ast_i2c_xfer cfg env [m] 1 s).1 < 0 ∧
    (ast_i2c_xfer cfg env [m] 1 s).2.2.bus_master_reset_cnt = s.bus_master_reset_cnt ∧
    (ast_i2c_xfer cfg env [m] 1 s).2.2.bus_slave_recovery_cnt = s.bus_slave_recovery_cnt := by
  obtain ⟨w1, w2, w3⟩ := wait_bus_in_time cfg env s hidle
  obtain ⟨k, hk⟩ : ∃ k : Nat, s.retries = (k : Int) := ⟨s.retries.toNat, by omega⟩
  have hk1 : (s.retries + 1).toNat = k + 1 := by omega
  rw [hk1] at hall
  obtain ⟨l1, l2, l3⟩ := nak_retry_loop cfg m hwr hign k s.retries env.attempts
    (ast_i2c_wait_bus_not_busy cfg env.polls env.recov s).2 hk (by rw [w2]; decide) hall
  have e : ast_i2c_xfer cfg env [m] 1 s =
      xfer_loop cfg 1 (k + 1) s.retries env.attempts [m]
        (ast_i2c_wait_bus_not_busy cfg env.polls env.recov s).2 := by
    simp only [ast_i2c_xfer, w1, ne_eq, not_true_eq_false, if_false, hk1]
  rw [e]
  refine ⟨l1, ?_, l2.trans w3.reset, l3.trans w3.recov⟩
  rw [l1]
  decide

/-- C4 for a 4-byte write to address 0x50 in byte mode with the default 3
retries: the address and the first byte are acknowledged and the second byte is
NACKed in each of the 4 attempts; the entry point returns -11 and the counters
stay 0. -/
theorem C4_nack_every_attempt_witness :
    (ast_i2c_xfer {} { attempts := List.replicate 4 nacked_attempt } [write4] 1 {}).1 = -11 ∧
    (ast_i2c_xfer {} { attempts := List.replicate 4 nacked_attempt } [write4] 1
      {}).2.2.bus_master_reset_cnt = 0 ∧
    (ast_i2c_xfer {} { attempts := List.replicate 4 nacked_attempt } [write4] 1
      {}).2.2.bus_slave_recovery_cnt = 0 := by
  have h := C4_nack_every_attempt {} { attempts := List.replicate 4 nacked_attempt } write4 {}
    (by decide) (by decide) (by decide) ⟨0, by decide, by decide⟩ (by decide)
  exact ⟨h.1, h.2.2.1, h.2.2.2⟩

/-- C12, the failing input: a 3-byte write with the ignore-NACK flag, submitted
alone in pool mode with a page of 2 bytes. The chunk of the address and the
first byte is acknowledged; the chunk of the other 2 bytes, armed with the stop
command since it ends the last message, is NACKed and the interrupt status
reads TX_NAK | NORMAL_STOP. That case of the handler does not test the flag:
it adds both bits to `cmd_err` (0x12) and the call aborts with -11. When the
same NACK is reported as TX_NAK alone the flag is honoured: `cmd_err` stays 0
and the call returns 1. -/
theorem C12_nak_with_stop_ignores_flag :
    ignore_nak3.flags &&& I2C_M_IGNORE_NAK ≠ 0 ∧
    writes_to I2C_CMD_REG
      (wait_irqs { master_dma := DmaMode.BUFF_MODE } [ack_tx_irq 1]
        (submit_arm { master_dma := DmaMode.BUFF_MODE } (some page2) 1 ignore_nak3
          {})).writes =
      [AST_I2CD_M_START_CMD ||| AST_I2CD_M_TX_CMD ||| AST_I2CD_TX_BUFF_ENABLE,
        AST_I2CD_M_TX_CMD ||| AST_I2CD_TX_BUFF_ENABLE ||| AST_I2CD_M_STOP_CMD] ∧
    (i2c_ast_handler { master_dma := DmaMode.BUFF_MODE } nak_stop_irq
      (wait_irqs { master_dma := DmaMode.BUFF_MODE } [ack_tx_irq 1]
        (submit_arm { master_dma := DmaMode.BUFF_MODE } (some page2) 1 ignore_nak3
          {}))).2.cmd_err = AST_I2CD_INTR_STS_TX_NAK ||| AST_I2CD_INTR_STS_NORMAL_STOP ∧
    (ast_i2c_do_msgs_xfer { master_dma := DmaMode.BUFF_MODE }
      { page := some page2, waits := [{ irqs := [ack_tx_irq 1, nak_stop_irq] }] }
      [ignore_nak3] 1 {}).1 = -11 ∧
    (i2c_ast_handler { master_dma := DmaMode.BUFF_MODE } nak_irq
      (wait_irqs { master_dma := DmaMode.BUFF_MODE } [ack_tx_irq 1]
        (submit_arm { master_dma := DmaMode.BUFF_MODE } (some page2) 1 ignore_nak3
          {}))).2.cmd_err = 0 ∧
    (ast_i2c_do_msgs_xfer { master_dma := DmaMode.BUFF_MODE }
      { page := some page2, waits := [{ irqs := [ack_tx_irq 1, nak_irq] }] }
      [ignore_nak3] 1 {}).1 = 1 := by
  decide

/-- With neither the abnormal nor the clock-timeout bit set and no stop of a
slave transaction to handle first, the handler goes to its switch. -/
theorem handler_at_switch (cfg : Config) (ev : Irq) (s : ast_i2c_dev)
    (hbus : ev.isr_sts &&& (1 <<< s.bus_id) ≠ 0) (hs : ¬ ev.stopsSlave s)
    (hab : AST_I2CD_INTR_STS_ABNORMAL &&& switch_sts ev = 0)
    (hscl : AST_I2CD_INTR_STS_SCL_TO &&& switch_sts ev = 0) :
    (i2c_ast_handler cfg ev s).2 = handler_switch cfg ev (switch_sts ev) (switch_entry ev s) := by
  unfold Irq.stopsSlave at hs
  unfold switch_sts at hab hscl hs
  unfold switch_sts switch_entry
  by_cases halt : AST_I2CD_INTR_STS_SMBUS_ALT &&& ev.sts ≠ 0
  · rw [if_pos halt] at hab hscl hs
    rw [if_pos halt, if_pos halt]
    simp [i2c_ast_handler, hbus, take_irq, ast_i2c_read, halt, hab, hscl, irq_entry, hs,
      intr_ctrl_clear, clear_sts, ast_i2c_write]
  · rw [if_neg halt] at hab hscl hs
    rw [if_neg halt, if_neg halt]
    simp [i2c_ast_handler, hbus, take_irq, ast_i2c_read, halt, hab, hscl, irq_entry, hs]

/-- With neither the abnormal nor the clock-timeout bit set, at the stop of a
slave transaction with other bits in the status: the handler runs the slave
completion routine, clears NORMAL_STOP and switches on the other bits. -/
theorem handler_slave_stop_first (cfg : Config) (ev : Irq) (s : ast_i2c_dev)
    (hbus : ev.isr_sts &&& (1 <<< s.bus_id) ≠ 0) (hs : ev.stopsSlave s)
    (hab : AST_I2CD_INTR_STS_ABNORMAL &&& switch_sts ev = 0)
    (hscl : AST_I2CD_INTR_STS_SCL_TO &&& switch_sts ev = 0)
    (hne : switch_sts ev &&& not32 AST_I2CD_INTR_STS_NORMAL_STOP ≠ 0) :
    (i2c_ast_handler cfg ev s).2 =
      handler_switch cfg ev (switch_sts ev &&& not32 AST_I2CD_INTR_STS_NORMAL_STOP)
        (clear_sts (ast_i2c_slave_xfer_done cfg ev.recov
          { switch_entry ev s with slave_event := SlaveEvent.STOP })
          AST_I2CD_INTR_STS_NORMAL_STOP) := by
  unfold Irq.stopsSlave at hs
  unfold switch_sts at hab hscl hs hne
  unfold switch_sts switch_entry
  by_cases halt : AST_I2CD_INTR_STS_SMBUS_ALT &&& ev.sts ≠ 0
  · rw [if_pos halt] at hab hscl hs hne
    rw [if_pos halt, if_pos halt]
    simp [i2c_ast_handler, hbus, take_irq, ast_i2c_read, halt, hab, hscl, irq_entry, hs.1, hs.2,
      hne, intr_ctrl_clear, clear_sts, ast_i2c_write]
  · rw [if_neg halt] at hab hscl hs hne
    rw [if_neg halt, if_neg halt]
    simp [i2c_ast_handler, hbus, take_irq, ast_i2c_read, halt, hab, hscl, irq_entry, hs.1, hs.2,
      hne, clear_sts]

theorem switch_tx_ack (cfg : Config) (ev : Irq) (t : ast_i2c_dev) (hs : t.slave_operation ≠ 1) :
    handler_switch cfg ev AST_I2CD_INTR_STS_TX_ACK t =
      ast_i2c_master_xfer_done cfg ev.recov (clear_sts t AST_I2CD_INTR_STS_TX_ACK) := by
  simp +decide [handler_switch, hs]

theorem switch_rx_down (cfg : Config) (ev : Irq) (t : ast_i2c_dev) (hs : t.slave_operation ≠ 1) :
    handler_switch cfg ev AST_I2CD_INTR_STS_RX_DOWN t =
      ast_i2c_master_xfer_done cfg ev.recov (clear_sts t AST_I2CD_INTR_STS_RX_DOWN) := by
  simp +decide [handler_switch, hs, AST_I2CD_INTR_STS_TX_ACK, AST_I2CD_INTR_STS_RX_DOWN,
    AST_I2CD_INTR_STS_NORMAL_STOP, AST_I2CD_INTR_STS_TX_NAK, AST_I2CD_INTR_STS_SLAVE_MATCH]

theorem switch_ack_stop (cfg : Config) (ev : Irq) (t : ast_i2c_dev) (hl : t.xfer_last = 1)
    (hs : t.slave_operation = 0) :
    handler_switch cfg ev (AST_I2CD_INTR_STS_TX_ACK ||| AST_I2CD_INTR_STS_NORMAL_STOP) t =
      ast_i2c_master_xfer_done cfg ev.recov
        (intr_ctrl_set (clear_sts t (AST_I2CD_INTR_STS_TX_ACK ||| AST_I2CD_INTR_STS_NORMAL_STOP))
          AST_I2CD_TX_ACK_INTR_EN) := by
  simp +decide [handler_switch, hs, hl, AST_I2CD_INTR_STS_TX_ACK, AST_I2CD_INTR_STS_RX_DOWN,
    AST_I2CD_INTR_STS_NORMAL_STOP, AST_I2CD_INTR_STS_TX_NAK, AST_I2CD_INTR_STS_SLAVE_MATCH]

theorem switch_rx_stop (cfg : Config) (ev : Irq) (t : ast_i2c_dev) (hs : t.slave_operation = 0) :
    handler_switch cfg ev (AST_I2CD_INTR_STS_RX_DOWN ||| AST_I2CD_INTR_STS_NORMAL_STOP) t =
      ast_i2c_master_xfer_done cfg ev.recov
        (intr_ctrl_set (clear_sts t (AST_I2CD_INTR_STS_RX_DOWN ||| AST_I2CD_INTR_STS_NORMAL_STOP))
          AST_I2CD_RX_DOWN_INTR_EN) := by
  simp +decide [handler_switch, hs, AST_I2CD_INTR_STS_TX_ACK, AST_I2CD_INTR_STS_RX_DOWN,
    AST_I2CD_INTR_STS_NORMAL_STOP, AST_I2CD_INTR_STS_TX_NAK, AST_I2CD_INTR_STS_SLAVE_MATCH]

/-- A status with the TX_ACK bit other than TX_ACK and TX_ACK | NORMAL_STOP is
no case label of the switch: the handler takes the default label. -/
theorem switch_default (cfg : Config) (ev : Irq) (sts : Nat) (t : ast_i2c_dev)
    (hack : sts &&& AST_I2CD_INTR_STS_TX_ACK ≠ 0) (h1 : sts ≠ AST_I2CD_INTR_STS_TX_ACK)
    (h2 : sts ≠ AST_I2CD_INTR_STS_TX_ACK ||| AST_I2CD_INTR_STS_NORMAL_STOP) :
    handler_switch cfg ev sts t = handler_default cfg ev sts t := by
  have hne : ∀ L : Nat, L &&& AST_I2CD_INTR_STS_TX_ACK = 0 → sts ≠ L := by
    intro L hL h
    exact hack (h ▸ hL)
  have c1 := hne AST_I2CD_INTR_STS_TX_NAK (by decide)
  have c2 := hne (AST_I2CD_INTR_STS_TX_NAK ||| AST_I2CD_INTR_STS_NORMAL_STOP) (by decide)
  have c3 := hne (AST_I2CD_INTR_STS_RX_DOWN ||| AST_I2CD_INTR_STS_SLAVE_MATCH) (by decide)
  have c4 := hne AST_I2CD_INTR_STS_RX_DOWN (by decide)
  have c5 := hne AST_I2CD_INTR_STS_NORMAL_STOP (by decide)
  have c6 := hne (AST_I2CD_INTR_STS_NORMAL_STOP ||| AST_I2CD_INTR_STS_SLAVE_MATCH) (by decide)
  have c7 := hne (AST_I2CD_INTR_STS_NORMAL_STOP ||| AST_I2CD_INTR_STS_RX_DOWN |||
    AST_I2CD_INTR_STS_SLAVE_MATCH) (by decide)
  have c8 := hne (AST_I2CD_INTR_STS_RX_DOWN ||| AST_I2CD_INTR_STS_NORMAL_STOP) (by decide)
  have c9 := hne AST_I2CD_INTR_STS_ARBIT_LOSS (by decide)
  have c10 := hne (AST_I2CD_INTR_STS_ARBIT_LOSS ||| AST_I2CD_INTR_STS_SLAVE_MATCH) (by decide)
  have c11 := hne (AST_I2CD_INTR_STS_ARBIT_LOSS ||| AST_I2CD_INTR_STS_RX_DOWN |||
    AST_I2CD_INTR_STS_SLAVE_MATCH) (by decide)
  have c12 := hne AST_I2CD_INTR_STS_GCALL_ADDR (by decide)
  have c13 := hne AST_I2CD_INTR_STS_SMBUS_DEF_ADDR (by decide)
  have c14 := hne AST_I2CD_INTR_STS_SMBUS_DEV_ALT (by decide)
  have c15 := hne AST_I2CD_INTR_STS_SMBUS_ARP_ADDR (by decide)
  have c16 := hne AST_I2CD_INTR_STS_SDA_DL_TO (by decide)
  have c17 := hne AST_I2CD_INTR_STS_BUS_RECOVER (by decide)
  simp only [handler_switch, h1, h2, c1, c2, c3, c4, c5, c6, c7, c8, c9, c10, c11, c12, c13,
    c14, c15, c16, c17, if_false, or_self]

theorem noTransferCmd_of_eq {s t : ast_i2c_dev}
    (h : writes_to I2C_CMD_REG t.writes = writes_to I2C_CMD_REG s.writes) :
    NoTransferCmd s t :=
  ⟨[], by simp [h], by simp⟩

theorem noTransferCmd_trans {s t u : ast_i2c_dev} (a : NoTransferCmd s t)
    (b : NoTransferCmd t u) : NoTransferCmd s u := by
  obtain ⟨l1, e1, h1⟩ := a
  obtain ⟨l2, e2, h2⟩ := b
  refine ⟨l1 ++ l2, by rw [e2, e1, List.append_assoc], ?_⟩
  intro v hv
  rcases List.mem_append.1 hv with h | h
  · exact h1 v h
  · exact h2 v h

/-- The commands of the bus recovery are no transfer commands. -/
theorem noTransferCmd_of_recovery {s t : ast_i2c_dev} (h : OnlyRecoveryCmds s t) :
    NoTransferCmd s t := by
  obtain ⟨l, e, hl⟩ := h
  refine ⟨l, e, ?_⟩
  intro v hv
  rcases hl v hv with h | h <;> rw [h] <;> decide

theorem MasterKept.kept_refl (s : ast_i2c_dev) : MasterKept s s :=
  ⟨rfl, rfl, rfl, rfl, noTransferCmd_of_eq rfl⟩

theorem MasterKept.kept_trans {s t u : ast_i2c_dev} (a : MasterKept s t) (b : MasterKept t u) :
    MasterKept s u :=
  ⟨b.1.trans a.1, b.2.trans a.2, b.3.trans a.3, b.4.trans a.4, noTransferCmd_trans a.5 b.5⟩

theorem set_slave_msg_kept (s : ast_i2c_dev) (m : i2c_msg) :
    MasterKept s (set_slave_msg s m) ∧ (set_slave_msg s m).slave_operation = s.slave_operation := by
  unfold set_slave_msg
  split <;> exact ⟨⟨rfl, rfl, rfl, rfl, noTransferCmd_of_eq rfl⟩, rfl⟩

theorem slave_rdwr_xfer_kept (s : ast_i2c_dev) :
    MasterKept s (ast_i2c_slave_rdwr_xfer s) ∧
    (ast_i2c_slave_rdwr_xfer s).slave_operation = s.slave_operation := by
  obtain ⟨u, hu⟩ : ∃ u, u = ast_i2c_slave_rdwr_xfer s := ⟨_, rfl⟩
  rw [← hu]
  unfold ast_i2c_slave_rdwr_xfer at hu
  split at hu <;> (try simp only [set_slave_msg] at hu)
  all_goals (repeat' (split at hu))
  all_goals (subst hu; exact ⟨⟨rfl, rfl, rfl, rfl, noTransferCmd_of_eq rfl⟩, rfl⟩)

theorem write_kept (s : ast_i2c_dev) (v : Nat) (r : Reg) (hr : r ≠ I2C_CMD_REG) :
    MasterKept s (ast_i2c_write s v r) :=
  ⟨rfl, rfl, rfl, rfl, noTransferCmd_of_eq (by rw [writes_to_write, if_neg hr, List.append_nil])⟩

theorem byte_xfer_slave_kept (t : ast_i2c_dev) (hs : t.slave_operation = 1) :
    MasterKept t (ast_i2c_do_byte_xfer t) := by
  obtain ⟨u, hu⟩ : ∃ u, u = ast_i2c_do_byte_xfer t := ⟨_, rfl⟩
  rw [← hu]
  simp only [ast_i2c_do_byte_xfer, if_pos hs] at hu
  split_ifs at hu <;> subst hu <;> first
    | exact MasterKept.kept_refl _
    | (refine ⟨rfl, rfl, rfl, rfl, ⟨[AST_I2CD_S_TX_CMD], ?_, by decide⟩⟩
       simp only [writes_to_write, set_page_mem, reduceCtorEq, if_false, if_true,
         List.append_nil])

theorem pool_xfer_slave_kept0 (cfg : Config) (t : ast_i2c_dev) (hg : ¬ cfg.soc = Soc.g4)
    (hs : t.slave_operation = 1) : MasterKept t (ast_i2c_do_pool_xfer cfg t) := by
  obtain ⟨u, hu⟩ : ∃ u, u = ast_i2c_do_pool_xfer cfg t := ⟨_, rfl⟩
  rw [← hu]
  simp only [ast_i2c_do_pool_xfer, hg, if_false, if_pos hs] at hu
  split_ifs at hu <;> subst hu <;> first
    | (refine ⟨rfl, rfl, rfl, rfl, ⟨[AST_I2CD_TX_BUFF_ENABLE ||| AST_I2CD_S_TX_CMD], ?_, by decide⟩⟩
       simp only [writes_to_write, set_page_mem, reduceCtorEq, if_false, if_true,
         List.append_nil]
       done)
    | (refine ⟨rfl, rfl, rfl, rfl, ⟨[AST_I2CD_RX_BUFF_ENABLE], ?_, by decide⟩⟩
       simp only [writes_to_write, set_page_mem, reduceCtorEq, if_false, if_true,
         List.append_nil])

theorem pool_xfer_slave_kept (cfg : Config) (t : ast_i2c_dev) (hs : t.slave_operation = 1) :
    MasterKept t (ast_i2c_do_pool_xfer cfg t) := by
  by_cases hg : cfg.soc = Soc.g4
  · rw [pool_xfer_g4 cfg t hg]
    exact (write_kept t _ _ (by decide)).kept_trans
      (pool_xfer_slave_kept0 { cfg with soc := Soc.other } _
        (show ¬ Soc.other = Soc.g4 by decide) hs)
  · exact pool_xfer_slave_kept0 cfg t hg hs

theorem dec_dma_xfer_slave_kept (cfg : Config) (t : ast_i2c_dev) (hs : t.slave_operation = 1) :
    MasterKept t (ast_i2c_do_dec_dma_xfer cfg t) := by
  obtain ⟨u, hu⟩ : ∃ u, u = ast_i2c_do_dec_dma_xfer cfg t := ⟨_, rfl⟩
  rw [← hu]
  simp only [ast_i2c_do_dec_dma_xfer, if_pos hs] at hu
  split_ifs at hu <;> subst hu <;> first
    | (refine ⟨rfl, rfl, rfl, rfl, ⟨[AST_I2CD_TX_DMA_ENABLE ||| AST_I2CD_S_TX_CMD], ?_, by decide⟩⟩
       simp only [writes_to_write, set_page_mem, reduceCtorEq, if_false, if_true,
         List.append_nil]
       done)
    | (refine ⟨rfl, rfl, rfl, rfl, ⟨[AST_I2CD_RX_DMA_ENABLE], ?_, by decide⟩⟩
       simp only [writes_to_write, set_page_mem, reduceCtorEq, if_false, if_true,
         List.append_nil])

theorem inc_dma_xfer_slave_kept (cfg : Config) (t : ast_i2c_dev) (hs : t.slave_operation = 1) :
    MasterKept t (ast_i2c_do_inc_dma_xfer cfg t) := by
  obtain ⟨u, hu⟩ : ∃ u, u = ast_i2c_do_inc_dma_xfer cfg t := ⟨_, rfl⟩
  rw [← hu]
  simp only [ast_i2c_do_inc_dma_xfer, if_pos hs] at hu
  split_ifs at hu <;> subst hu <;> first
    | (refine ⟨rfl, rfl, rfl, rfl, ⟨[AST_I2CD_TX_DMA_ENABLE ||| AST_I2CD_S_TX_CMD], ?_, by decide⟩⟩
       simp only [writes_to_write, set_page_mem, reduceCtorEq, if_false, if_true,
         List.append_nil]
       done)
    | (refine ⟨rfl, rfl, rfl, rfl, ⟨[AST_I2CD_RX_DMA_ENABLE], ?_, by decide⟩⟩
       simp only [writes_to_write, set_page_mem, reduceCtorEq, if_false, if_true,
         List.append_nil])

/-- An arm routine called in slave role leaves the master side alone and
writes no transfer command of the master. -/
theorem call_xfer_slave_kept (cfg : Config) (f : XferFn) (t : ast_i2c_dev)
    (hs : t.slave_operation = 1) : MasterKept t (call_xfer cfg f t) := by
  cases f
  · exact byte_xfer_slave_kept t hs
  · exact pool_xfer_slave_kept cfg t hs
  · exact dec_dma_xfer_slave_kept cfg t hs
  · exact inc_dma_xfer_slave_kept cfg t hs

theorem set_slave_msg_fields (s : ast_i2c_dev) (m : i2c_msg) :
    (set_slave_msg s m).bus_master_reset_cnt = s.bus_master_reset_cnt ∧
    (set_slave_msg s m).master_xfer_cnt = s.master_xfer_cnt ∧
    (set_slave_msg s m).cmd_complete = s.cmd_complete ∧
    (set_slave_msg s m).cmd_err = s.cmd_err ∧
    (set_slave_msg s m).writes = s.writes ∧
    (set_slave_msg s m).slave_operation = s.slave_operation := by
  unfold set_slave_msg
  split <;> exact ⟨rfl, rfl, rfl, rfl, rfl, rfl⟩

theorem slave_rdwr_xfer_fields (s : ast_i2c_dev) :
    (ast_i2c_slave_rdwr_xfer s).bus_master_reset_cnt = s.bus_master_reset_cnt ∧
    (ast_i2c_slave_rdwr_xfer s).master_xfer_cnt = s.master_xfer_cnt ∧
    (ast_i2c_slave_rdwr_xfer s).cmd_complete = s.cmd_complete ∧
    (ast_i2c_slave_rdwr_xfer s).cmd_err = s.cmd_err ∧
    (ast_i2c_slave_rdwr_xfer s).writes = s.writes ∧
    (ast_i2c_slave_rdwr_xfer s).slave_operation = s.slave_operation := by
  obtain ⟨u, hu⟩ : ∃ u, u = ast_i2c_slave_rdwr_xfer s := ⟨_, rfl⟩
  rw [← hu]
  unfold ast_i2c_slave_rdwr_xfer at hu
  split at hu <;> (try simp only [set_slave_msg] at hu)
  all_goals (repeat' (split at hu))
  all_goals (subst hu; exact ⟨rfl, rfl, rfl, rfl, rfl, rfl⟩)

/-- The stores of `ast_i2c_slave_addr_match` through the slave message
pointer, whatever is stored: the slave flag is set and the master side is left
alone. -/
theorem addr_store_fields (t : ast_i2c_dev) (m1 m2 m3 : i2c_msg) (e : SlaveEvent) :
    (set_slave_msg { set_slave_msg (ast_i2c_slave_rdwr_xfer
      { set_slave_msg { t with slave_operation := 1, slave_xfer_cnt := 0 } m1 with
        slave_event := e }) m2 with slave_xfer_cnt := 1 } m3).slave_operation = 1 ∧
    (set_slave_msg { set_slave_msg (ast_i2c_slave_rdwr_xfer
      { set_slave_msg { t with slave_operation := 1, slave_xfer_cnt := 0 } m1 with
        slave_event := e }) m2 with slave_xfer_cnt := 1 } m3).bus_master_reset_cnt =
      t.bus_master_reset_cnt ∧
    (set_slave_msg { set_slave_msg (ast_i2c_slave_rdwr_xfer
      { set_slave_msg { t with slave_operation := 1, slave_xfer_cnt := 0 } m1 with
        slave_event := e }) m2 with slave_xfer_cnt := 1 } m3).master_xfer_cnt =
      t.master_xfer_cnt ∧
    (set_slave_msg { set_slave_msg (ast_i2c_slave_rdwr_xfer
      { set_slave_msg { t with slave_operation := 1, slave_xfer_cnt := 0 } m1 with
        slave_event := e }) m2 with slave_xfer_cnt := 1 } m3).cmd_complete = t.cmd_complete ∧
    (set_slave_msg { set_slave_msg (ast_i2c_slave_rdwr_xfer
      { set_slave_msg { t with slave_operation := 1, slave_xfer_cnt := 0 } m1 with
        slave_event := e }) m2 with slave_xfer_cnt := 1 } m3).cmd_err = t.cmd_err ∧
    (set_slave_msg { set_slave_msg (ast_i2c_slave_rdwr_xfer
      { set_slave_msg { t with slave_operation := 1, slave_xfer_cnt := 0 } m1 with
        slave_event := e }) m2 with slave_xfer_cnt := 1 } m3).writes = t.writes := by
  simp only [set_slave_msg_fields, slave_rdwr_xfer_fields, and_self]

/-- The selection of the slave arm routine changes neither the slave flag nor
the master side. -/
theorem slave_select_fields (cfg : Config) (page : Option buf_page) (s : ast_i2c_dev) :
    let u : ast_i2c_dev :=
      match cfg.slave_dma with
      | DmaMode.BYTE_MODE =>
        { s with do_slave_xfer := XferFn.byte, slave_xfer_mode := XferMode.BYTE_XFER,
                 slave_xfer_len := 1 }
      | DmaMode.DEC_DMA_MODE =>
        { s with do_slave_xfer := XferFn.dec_dma, slave_xfer_mode := XferMode.DEC_DMA_XFER }
      | DmaMode.INC_DMA_MODE =>
        { s with do_slave_xfer := XferFn.inc_dma, slave_xfer_mode := XferMode.INC_DMA_XFER }
      | DmaMode.BUFF_MODE =>
        match page with
        | some _ =>
          let s := request_pool_buff_page page s
          { s with do_slave_xfer := XferFn.pool, slave_xfer_mode := XferMode.BUFF_XFER }
        | none =>
          { s with do_slave_xfer := XferFn.byte, slave_xfer_mode := XferMode.BYTE_XFER,
                   slave_xfer_len := 1 }
    u.slave_operation = s.slave_operation ∧
    u.bus_master_reset_cnt = s.bus_master_reset_cnt ∧
    u.master_xfer_cnt = s.master_xfer_cnt ∧ u.cmd_complete = s.cmd_complete ∧
    u.cmd_err = s.cmd_err ∧ u.writes = s.writes := by
  cases cfg.slave_dma <;> (try cases page) <;> exact ⟨rfl, rfl, rfl, rfl, rfl, rfl⟩

/-- An address match taken when no master transfer has just been started
leaves the master side alone and writes no transfer command of the master. -/
theorem addr_match_kept (cfg : Config) (page : Option buf_page) (t : ast_i2c_dev)
    (hf : t.master_xfer_first ≠ 1) :
    MasterKept t (ast_i2c_slave_addr_match cfg page t) := by
  have e : ∃ S : ast_i2c_dev,
      ast_i2c_slave_addr_match cfg page t = call_xfer cfg S.do_slave_xfer S ∧
      S.slave_operation = 1 ∧ S.bus_master_reset_cnt = t.bus_master_reset_cnt ∧
      S.master_xfer_cnt = t.master_xfer_cnt ∧ S.cmd_complete = t.cmd_complete ∧
      S.cmd_err = t.cmd_err ∧ S.writes = t.writes := by
    unfold ast_i2c_slave_addr_match
    rw [if_neg hf]
    refine ⟨_, rfl, ?_, ?_, ?_, ?_, ?_, ?_⟩
    · exact (slave_select_fields cfg page _).1.trans (addr_store_fields t _ _ _ _).1
    · exact (slave_select_fields cfg page _).2.1.trans (addr_store_fields t _ _ _ _).2.1
    · exact (slave_select_fields cfg page _).2.2.1.trans (addr_store_fields t _ _ _ _).2.2.1
    · exact (slave_select_fields cfg page _).2.2.2.1.trans
        (addr_store_fields t _ _ _ _).2.2.2.1
    · exact (slave_select_fields cfg page _).2.2.2.2.1.trans
        (addr_store_fields t _ _ _ _).2.2.2.2.1
    · exact (slave_select_fields cfg page _).2.2.2.2.2.trans
        (addr_store_fields t _ _ _ _).2.2.2.2.2
  obtain ⟨S, e1, e2, e3, e4, e5, e6, e7⟩ := e
  rw [e1]
  exact MasterKept.kept_trans ⟨e3, e4, e5, e6, noTransferCmd_of_eq (by rw [e7])⟩
    (call_xfer_slave_kept cfg _ S e2)

theorem and_not32_and (x a b : Nat) (h : not32 a &&& b = b) : (x &&& not32 a) &&& b = x &&& b := by
  rw [Nat.and_assoc, h]

/-- The default label of the switch at a status with the TX_ACK bit: after the
arbitration-loss step, if any, the completion routine runs; then the
normal-stop step and the address-match step, if any, and the final clearing
writes. -/
theorem handler_default_ack (cfg : Config) (ev : Irq) (sts : Nat) (t : ast_i2c_dev)
    (hack : sts &&& AST_I2CD_INTR_STS_TX_ACK ≠ 0) :
    ∃ (d F1 F2 : ast_i2c_dev) (r : Nat),
      (d = clear_sts t AST_I2CD_INTR_STS_TX_ACK ∨
        d = clear_sts (complete
          { clear_sts t AST_I2CD_INTR_STS_ARBIT_LOSS with
            cmd_err := t.cmd_err ||| AST_I2CD_INTR_STS_ARBIT_LOSS })
          AST_I2CD_INTR_STS_TX_ACK) ∧
      (F1 = ast_i2c_master_xfer_done cfg ev.recov d ∨
        F1 = complete
          { clear_sts (ast_i2c_master_xfer_done cfg ev.recov d) AST_I2CD_INTR_STS_TX_ACK with
            cmd_err := (ast_i2c_master_xfer_done cfg ev.recov d).cmd_err |||
              AST_I2CD_INTR_STS_NORMAL_STOP }) ∧
      (F2 = F1 ∨
        F2 = clear_sts (ast_i2c_slave_addr_match cfg ev.page F1)
          AST_I2CD_INTR_STS_SLAVE_MATCH) ∧
      handler_default cfg ev sts t =
        ast_i2c_write (clear_sts F2 r) F2.func_ctrl_reg I2C_FUN_CTRL_REG := by
  obtain ⟨F, hF⟩ : ∃ F, F = handler_default cfg ev sts t := ⟨_, rfl⟩
  rw [← hF]
  have hack2 : (sts &&& not32 AST_I2CD_INTR_STS_ARBIT_LOSS) &&& AST_I2CD_INTR_STS_TX_ACK ≠ 0 := by
    rw [and_not32_and _ _ _ (by decide)]
    exact hack
  by_cases hA : sts &&& AST_I2CD_INTR_STS_ARBIT_LOSS ≠ 0
  · simp only [handler_default, hA, if_true, hack2] at hF
    split_ifs at hF <;> subst hF
    · exact ⟨_, _, _, _, Or.inr rfl, Or.inr rfl, Or.inr rfl, rfl⟩
    · exact ⟨_, _, _, _, Or.inr rfl, Or.inr rfl, Or.inl rfl, rfl⟩
    · exact ⟨_, _, _, _, Or.inr rfl, Or.inl rfl, Or.inr rfl, rfl⟩
    · exact ⟨_, _, _, _, Or.inr rfl, Or.inl rfl, Or.inl rfl, rfl⟩
  · simp only [handler_default, hA, if_false, hack, if_true] at hF
    split_ifs at hF <;> subst hF
    · exact ⟨_, _, _, _, Or.inl rfl, Or.inr rfl, Or.inr rfl, rfl⟩
    · exact ⟨_, _, _, _, Or.inl rfl, Or.inr rfl, Or.inl rfl, rfl⟩
    · exact ⟨_, _, _, _, Or.inl rfl, Or.inl rfl, Or.inr rfl, rfl⟩
    · exact ⟨_, _, _, _, Or.inl rfl, Or.inl rfl, Or.inl rfl, rfl⟩

theorem SameXfer.same_refl (s : ast_i2c_dev) : SameXfer s s :=
  ⟨rfl, rfl, rfl, rfl, rfl, rfl, rfl, rfl, le_refl _⟩

theorem SameXfer.same_trans {s t u : ast_i2c_dev} (a : SameXfer s t) (b : SameXfer t u) :
    SameXfer s u :=
  ⟨b.1.trans a.1, b.2.trans a.2, b.3.trans a.3, b.4.trans a.4, b.5.trans a.5, b.6.trans a.6,
    b.7.trans a.7, b.8.trans a.8, le_trans a.9 b.9⟩

theorem same_clear_sts (s : ast_i2c_dev) (b : Nat) : SameXfer s (clear_sts s b) := by
  refine ⟨rfl, rfl, rfl, rfl, ?_, ?_, rfl, ?_, le_refl _⟩
  · simp [clear_sts, ast_i2c_write, Reg.isStorage]
  · simp [clear_sts, ast_i2c_write, Reg.isStorage]
  · simp [clear_sts, writes_to_write]

theorem same_intr_set (s : ast_i2c_dev) (b : Nat) : SameXfer s (intr_ctrl_set s b) := by
  refine ⟨rfl, rfl, rfl, rfl, ?_, ?_, rfl, ?_, le_refl _⟩
  · simp [intr_ctrl_set, ast_i2c_write, Reg.isStorage]
  · simp [intr_ctrl_set, ast_i2c_write, Reg.isStorage]
  · simp [intr_ctrl_set, writes_to_write]

theorem same_intr_clear (s : ast_i2c_dev) (b : Nat) : SameXfer s (intr_ctrl_clear s b) := by
  refine ⟨rfl, rfl, rfl, rfl, ?_, ?_, rfl, ?_, le_refl _⟩
  · simp [intr_ctrl_clear, ast_i2c_write, Reg.isStorage]
  · simp [intr_ctrl_clear, ast_i2c_write, Reg.isStorage]
  · simp [intr_ctrl_clear, writes_to_write]

theorem same_switch_entry (ev : Irq) (s : ast_i2c_dev) :
    SameXfer (irq_entry ev s) (switch_entry ev s) ∧
    (switch_entry ev s).cmd_complete = s.cmd_complete ∧
    (switch_entry ev s).slave_operation = s.slave_operation ∧
    (switch_entry ev s).xfer_last = s.xfer_last := by
  unfold switch_entry
  split_ifs
  · exact ⟨(same_intr_clear _ _).same_trans (same_clear_sts _ _), rfl, rfl, rfl⟩
  · exact ⟨SameXfer.same_refl _, rfl, rfl, rfl⟩

theorem same_irq_entry (ev : Irq) (s : ast_i2c_dev) :
    (irq_entry ev s).master_msgs = s.master_msgs ∧
    (irq_entry ev s).master_xfer_cnt = s.master_xfer_cnt ∧
    (irq_entry ev s).master_xfer_len = s.master_xfer_len ∧
    (irq_entry ev s).bus_master_reset_cnt = s.bus_master_reset_cnt ∧
    writes_to I2C_CMD_REG (irq_entry ev s).writes = writes_to I2C_CMD_REG s.writes ∧
    (irq_entry ev s).cmd_complete = s.cmd_complete :=
  ⟨rfl, rfl, rfl, rfl, rfl, rfl⟩

/-- The completion routine entered with an extracted chunk length that differs
from the armed length, whatever the state: one bus reset, the error accumulator
set to 1, the byte counter kept, the completion signalled, no command written
but those of the recovery, and `master_xfer_first` cleared. -/
theorem done_mismatch (cfg : Config) (env : RecoverEnv) (d : ast_i2c_dev) (m : i2c_msg)
    (h2 : d.master_msgs = some m)
    (hmis : (master_extract cfg m d).1 ≠ u32 d.master_xfer_len) :
    (ast_i2c_master_xfer_done cfg env d).bus_master_reset_cnt =
      inc16 d.bus_master_reset_cnt ∧
    (ast_i2c_master_xfer_done cfg env d).cmd_err = 1 ∧
    (ast_i2c_master_xfer_done cfg env d).master_xfer_cnt = d.master_xfer_cnt ∧
    0 < (ast_i2c_master_xfer_done cfg env d).cmd_complete ∧
    (d.cmd_complete = 0 → (ast_i2c_master_xfer_done cfg env d).cmd_complete = 1) ∧
    OnlyRecoveryCmds d (ast_i2c_master_xfer_done cfg env d) ∧
    (ast_i2c_master_xfer_done cfg env d).master_xfer_first = 0 := by
  have hlen : (master_extract cfg m d).2.master_xfer_len = d.master_xfer_len :=
    (master_extract_progress cfg m d h2).1
  have hmis' : (master_extract cfg m d).1 ≠ u32 (master_extract cfg m d).2.master_xfer_len := by
    rw [hlen]
    exact hmis
  obtain ⟨m1, m2, m3, m4, m5⟩ := xfer_done_mismatch cfg env d m h2 hmis'
  have e : ast_i2c_master_xfer_done cfg env d =
      restore_func_ctrl (complete
        { ast_i2c_bus_reset cfg env (master_extract cfg m d).2 with
          cmd_err := 1, master_xfer_first := 0 }) := by
    simp only [ast_i2c_master_xfer_done, h2, hmis', ne_eq, not_false_eq_true, if_true]
  refine ⟨m1, m2, m3, ?_, m4, m5, ?_⟩
  · rw [e]
    exact Nat.succ_pos _
  · rw [e]
    rfl

/-- The steps of the default label after the completion routine leave the
master side alone, but that the normal-stop step adds its bit to the error
accumulator and signals the completion once more. -/
theorem sweep_tail_kept (cfg : Config) (page : Option buf_page) (X F1 F2 : ast_i2c_dev)
    (r : Nat) (hf : X.master_xfer_first = 0)
    (h1 : F1 = X ∨ F1 = complete
      { clear_sts X AST_I2CD_INTR_STS_TX_ACK with
        cmd_err := X.cmd_err ||| AST_I2CD_INTR_STS_NORMAL_STOP })
    (h2 : F2 = F1 ∨ F2 = clear_sts (ast_i2c_slave_addr_match cfg page F1)
      AST_I2CD_INTR_STS_SLAVE_MATCH) :
    (ast_i2c_write (clear_sts F2 r) F2.func_ctrl_reg I2C_FUN_CTRL_REG).bus_master_reset_cnt =
      X.bus_master_reset_cnt ∧
    (ast_i2c_write (clear_sts F2 r) F2.func_ctrl_reg I2C_FUN_CTRL_REG).master_xfer_cnt =
      X.master_xfer_cnt ∧
    X.cmd_complete ≤
      (ast_i2c_write (clear_sts F2 r) F2.func_ctrl_reg I2C_FUN_CTRL_REG).cmd_complete ∧
    ((ast_i2c_write (clear_sts F2 r) F2.func_ctrl_reg I2C_FUN_CTRL_REG).cmd_err = X.cmd_err ∨
      (ast_i2c_write (clear_sts F2 r) F2.func_ctrl_reg I2C_FUN_CTRL_REG).cmd_err =
        X.cmd_err ||| AST_I2CD_INTR_STS_NORMAL_STOP) ∧
    NoTransferCmd X (ast_i2c_write (clear_sts F2 r) F2.func_ctrl_reg I2C_FUN_CTRL_REG) := by
  have a1 : F1.bus_master_reset_cnt = X.bus_master_reset_cnt ∧
      F1.master_xfer_cnt = X.master_xfer_cnt ∧ X.cmd_complete ≤ F1.cmd_complete ∧
      (F1.cmd_err = X.cmd_err ∨ F1.cmd_err = X.cmd_err ||| AST_I2CD_INTR_STS_NORMAL_STOP) ∧
      NoTransferCmd X F1 ∧ F1.master_xfer_first = 0 := by
    rcases h1 with h | h <;> subst h
    · exact ⟨rfl, rfl, le_refl _, Or.inl rfl, noTransferCmd_of_eq rfl, hf⟩
    · exact ⟨rfl, rfl, Nat.le_succ _, Or.inr rfl,
        noTransferCmd_of_eq (by simp [complete, clear_sts, writes_to_write]), hf⟩
  obtain ⟨b1, b2, b3, b4, b5, b6⟩ := a1
  have a2 : MasterKept F1 F2 := by
    rcases h2 with h | h <;> subst h
    · exact MasterKept.kept_refl _
    · exact (addr_match_kept cfg page F1 (by rw [b6]; decide)).kept_trans
        (write_kept _ _ _ (by decide))
  have a3 : MasterKept F2 (ast_i2c_write (clear_sts F2 r) F2.func_ctrl_reg I2C_FUN_CTRL_REG) :=
    (write_kept F2 r I2C_INTR_STS_REG (by decide)).kept_trans (write_kept _ _ _ (by decide))
  obtain ⟨c1, c2, c3, c4, c5⟩ := a2.kept_trans a3
  refine ⟨c1.trans b1, c2.trans b2, by rw [c3]; exact b3, ?_, noTransferCmd_trans b5 c5⟩
  rw [c4]
  exact b4

theorem MasterSame.ms_refl (t : ast_i2c_dev) : MasterSame t t :=
  ⟨rfl, rfl, rfl, rfl, rfl, rfl, rfl, rfl, rfl, rfl, rfl⟩

theorem MasterSame.ms_trans {s t u : ast_i2c_dev} (a : MasterSame s t) (b : MasterSame t u) :
    MasterSame s u :=
  ⟨b.1.trans a.1, b.2.trans a.2, b.3.trans a.3, b.4.trans a.4, b.5.trans a.5, b.6.trans a.6,
    b.7.trans a.7, b.8.trans a.8, b.9.trans a.9, b.10.trans a.10, b.11.trans a.11⟩

theorem set_slave_msg_same (s : ast_i2c_dev) (m : i2c_msg) : MasterSame s (set_slave_msg s m) := by
  unfold set_slave_msg
  split <;> exact ⟨rfl, rfl, rfl, rfl, rfl, rfl, rfl, rfl, rfl, rfl, rfl⟩

theorem slave_rdwr_xfer_same (s : ast_i2c_dev) : MasterSame s (ast_i2c_slave_rdwr_xfer s) := by
  obtain ⟨u, hu⟩ : ∃ u, u = ast_i2c_slave_rdwr_xfer s := ⟨_, rfl⟩
  rw [← hu]
  unfold ast_i2c_slave_rdwr_xfer at hu
  split at hu <;> (try simp only [set_slave_msg] at hu)
  all_goals (repeat' (split at hu))
  all_goals (subst hu; exact ⟨rfl, rfl, rfl, rfl, rfl, rfl, rfl, rfl, rfl, rfl, rfl⟩)

theorem slave_extract_same (cfg : Config) (s : ast_i2c_dev) :
    MasterSame s (slave_extract cfg s).2 := by
  unfold slave_extract
  simp only []
  repeat' split
  all_goals dsimp only
  all_goals first
    | exact MasterSame.ms_refl _
    | exact set_slave_msg_same _ _
    | (refine MasterSame.ms_trans ?_ (set_slave_msg_same _ _)
       exact ⟨rfl, rfl, rfl, rfl, rfl, rfl, rfl, rfl, rfl, rfl, rfl⟩)

/-- The slave completion routine at a STOP: the master side is left alone and
the slave flag is cleared. -/
theorem slave_xfer_done_stop_same (cfg : Config) (env : RecoverEnv) (t : ast_i2c_dev)
    (hev : t.slave_event = SlaveEvent.STOP) :
    MasterSame t (ast_i2c_slave_xfer_done cfg env t) ∧
    (ast_i2c_slave_xfer_done cfg env t).slave_operation = 0 := by
  obtain ⟨e, he⟩ : ∃ e, e = slave_extract cfg t := ⟨_, rfl⟩
  have h1 : MasterSame t e.2 := by rw [he]; exact slave_extract_same cfg t
  have hev1 : e.2.slave_event = SlaveEvent.STOP := h1.event.trans hev
  obtain ⟨u, hu⟩ : ∃ u, u = ast_i2c_slave_xfer_done cfg env t := ⟨_, rfl⟩
  rw [← hu]
  unfold ast_i2c_slave_xfer_done at hu
  rw [← he] at hu
  have h4096 : ¬ ((I2C_S_BUF_SIZE : Int) ≤ 0) := by decide
  by_cases hc : e.1 = u32 e.2.slave_xfer_len
  · have h2 : MasterSame e.2
        { e.2 with slave_xfer_cnt := e.2.slave_xfer_cnt + e.2.slave_xfer_len } :=
      ⟨rfl, rfl, rfl, rfl, rfl, rfl, rfl, rfl, rfl, rfl, rfl⟩
    have h3 := (h1.ms_trans h2).ms_trans (slave_rdwr_xfer_same
      { e.2 with slave_xfer_cnt := e.2.slave_xfer_cnt + e.2.slave_xfer_len })
    have hev3 := h3.event.trans hev
    simp only [hev1] at h3 hev3
    simp only [ne_eq, hc, not_true_eq_false, not_false_eq_true, if_true, if_false, hev1, or_true,
      ge_iff_le, ast_i2c_read, free_pool_buff_page] at hu
    generalize ast_i2c_slave_rdwr_xfer _ = r at hu h3 hev3
    simp only [apply_ite ast_i2c_dev.slave_xfer_cnt, ite_self, hev3, if_true, h4096,
      if_false] at hu
    split_ifs at hu <;> subst hu <;>
      exact ⟨h3.ms_trans ⟨rfl, rfl, rfl, rfl, rfl, rfl, rfl, rfl, rfl, rfl, hev3.symm⟩, rfl⟩
  · have h3 := h1.ms_trans (slave_rdwr_xfer_same e.2)
    have hev3 := h3.event.trans hev
    simp only [ne_eq, hc, not_true_eq_false, not_false_eq_true, if_true, if_false, hev1, or_true,
      ge_iff_le, ast_i2c_read, free_pool_buff_page] at hu
    generalize ast_i2c_slave_rdwr_xfer _ = r at hu h3 hev3
    simp only [apply_ite ast_i2c_dev.slave_xfer_cnt, ite_self, hev3, if_true, h4096,
      if_false] at hu
    split_ifs at hu <;> subst hu <;>
      exact ⟨h3.ms_trans ⟨rfl, rfl, rfl, rfl, rfl, rfl, rfl, rfl, rfl, rfl, hev3.symm⟩, rfl⟩

theorem switch_rx_stop_slave (cfg : Config) (ev : Irq) (t : ast_i2c_dev)
    (hs : t.slave_operation ≠ 0) :
    handler_switch cfg ev (AST_I2CD_INTR_STS_RX_DOWN ||| AST_I2CD_INTR_STS_NORMAL_STOP) t =
      ast_i2c_master_xfer_done cfg ev.recov
        (intr_ctrl_set (clear_sts (ast_i2c_slave_xfer_done cfg ev.recov
          { t with slave_event := SlaveEvent.STOP })
          (AST_I2CD_INTR_STS_RX_DOWN ||| AST_I2CD_INTR_STS_NORMAL_STOP))
          AST_I2CD_RX_DOWN_INTR_EN) := by
  simp +decide [handler_switch, hs, AST_I2CD_INTR_STS_TX_ACK, AST_I2CD_INTR_STS_RX_DOWN,
    AST_I2CD_INTR_STS_NORMAL_STOP, AST_I2CD_INTR_STS_TX_NAK, AST_I2CD_INTR_STS_SLAVE_MATCH]

theorem MasterSame.same_xfer {t u : ast_i2c_dev} (h : MasterSame t u) : SameXfer t u :=
  ⟨h.msgs, h.cnt, h.mode, h.len, by rw [h.regs], by rw [h.regs], h.reset, by rw [h.writes],
    le_of_eq h.done.symm⟩

/-- The slave completion routine run at a STOP from state `t`, before the
completion routine of the master: the master side is as in `t` and the slave
flag is cleared. -/
theorem slave_stop_step (cfg : Config) (env : RecoverEnv) (t : ast_i2c_dev) :
    SameXfer t (ast_i2c_slave_xfer_done cfg env { t with slave_event := SlaveEvent.STOP }) ∧
    (ast_i2c_slave_xfer_done cfg env
      { t with slave_event := SlaveEvent.STOP }).cmd_complete = t.cmd_complete ∧
    (ast_i2c_slave_xfer_done cfg env
      { t with slave_event := SlaveEvent.STOP }).slave_operation = 0 := by
  obtain ⟨h, h0⟩ := slave_xfer_done_stop_same cfg env { t with slave_event := SlaveEvent.STOP } rfl
  have hx : SameXfer t { t with slave_event := SlaveEvent.STOP } :=
    ⟨rfl, rfl, rfl, rfl, rfl, rfl, rfl, rfl, le_refl _⟩
  exact ⟨hx.same_trans h.same_xfer, h.done, h0⟩

/-- At an interrupt at which the handler runs the completion routine: the
routine runs on a state that agrees with the latched one as far as the
extraction goes, and the handler returns the state the routine leaves, or, from
the default label, that state after the normal-stop step, the address-match
step and the final clearing writes. -/
theorem handler_runs_done (cfg : Config) (ev : Irq) (a : ast_i2c_dev) (hev : ev.runsDone a) :
    ∃ (d F1 F2 : ast_i2c_dev) (r : Nat),
      SameXfer (irq_entry ev a) d ∧
      (F1 = ast_i2c_master_xfer_done cfg ev.recov d ∨
        F1 = complete
          { clear_sts (ast_i2c_master_xfer_done cfg ev.recov d) AST_I2CD_INTR_STS_TX_ACK with
            cmd_err := (ast_i2c_master_xfer_done cfg ev.recov d).cmd_err |||
              AST_I2CD_INTR_STS_NORMAL_STOP }) ∧
      (F2 = F1 ∨
        F2 = clear_sts (ast_i2c_slave_addr_match cfg ev.page F1)
          AST_I2CD_INTR_STS_SLAVE_MATCH) ∧
      ((i2c_ast_handler cfg ev a).2 =
          ast_i2c_write (clear_sts F2 r) F2.func_ctrl_reg I2C_FUN_CTRL_REG ∨
        ((i2c_ast_handler cfg ev a).2 = ast_i2c_master_xfer_done cfg ev.recov d ∧
          d.cmd_complete = a.cmd_complete)) ∧
      ((switch_sts ev = AST_I2CD_INTR_STS_TX_ACK ∨ switch_sts ev = AST_I2CD_INTR_STS_RX_DOWN ∨
          switch_sts ev = AST_I2CD_INTR_STS_TX_ACK ||| AST_I2CD_INTR_STS_NORMAL_STOP ∨
          switch_sts ev = AST_I2CD_INTR_STS_RX_DOWN ||| AST_I2CD_INTR_STS_NORMAL_STOP) →
        (i2c_ast_handler cfg ev a).2 = ast_i2c_master_xfer_done cfg ev.recov d ∧
          d.cmd_complete = a.cmd_complete) := by
  obtain ⟨hbus, hab, hscl, hcase⟩ := hev
  obtain ⟨w1, w2, w3, w4⟩ := same_switch_entry ev a
  have exact_case : ∀ d : ast_i2c_dev, SameXfer (irq_entry ev a) d →
      d.cmd_complete = a.cmd_complete →
      (i2c_ast_handler cfg ev a).2 = ast_i2c_master_xfer_done cfg ev.recov d →
      ∃ (d F1 F2 : ast_i2c_dev) (r : Nat),
        SameXfer (irq_entry ev a) d ∧
        (F1 = ast_i2c_master_xfer_done cfg ev.recov d ∨
          F1 = complete
            { clear_sts (ast_i2c_master_xfer_done cfg ev.recov d) AST_I2CD_INTR_STS_TX_ACK with
              cmd_err := (ast_i2c_master_xfer_done cfg ev.recov d).cmd_err |||
                AST_I2CD_INTR_STS_NORMAL_STOP }) ∧
        (F2 = F1 ∨
          F2 = clear_sts (ast_i2c_slave_addr_match cfg ev.page F1)
            AST_I2CD_INTR_STS_SLAVE_MATCH) ∧
        ((i2c_ast_handler cfg ev a).2 =
            ast_i2c_write (clear_sts F2 r) F2.func_ctrl_reg I2C_FUN_CTRL_REG ∨
          ((i2c_ast_handler cfg ev a).2 = ast_i2c_master_xfer_done cfg ev.recov d ∧
            d.cmd_complete = a.cmd_complete)) ∧
        ((switch_sts ev = AST_I2CD_INTR_STS_TX_ACK ∨
            switch_sts ev = AST_I2CD_INTR_STS_RX_DOWN ∨
            switch_sts ev = AST_I2CD_INTR_STS_TX_ACK ||| AST_I2CD_INTR_STS_NORMAL_STOP ∨
            switch_sts ev = AST_I2CD_INTR_STS_RX_DOWN ||| AST_I2CD_INTR_STS_NORMAL_STOP) →
          (i2c_ast_handler cfg ev a).2 = ast_i2c_master_xfer_done cfg ev.recov d ∧
            d.cmd_complete = a.cmd_complete) :=
    fun d hd hc he => ⟨d, _, _, 0, hd, Or.inl rfl, Or.inl rfl, Or.inr ⟨he, hc⟩,
      fun _ => ⟨he, hc⟩⟩
  have sweep : ∀ (sts : Nat) (t : ast_i2c_dev), SameXfer (irq_entry ev a) t →
      sts &&& AST_I2CD_INTR_STS_TX_ACK ≠ 0 →
      (i2c_ast_handler cfg ev a).2 = handler_default cfg ev sts t →
      ¬ (switch_sts ev = AST_I2CD_INTR_STS_TX_ACK ∨
        switch_sts ev = AST_I2CD_INTR_STS_RX_DOWN ∨
        switch_sts ev = AST_I2CD_INTR_STS_TX_ACK ||| AST_I2CD_INTR_STS_NORMAL_STOP ∨
        switch_sts ev = AST_I2CD_INTR_STS_RX_DOWN ||| AST_I2CD_INTR_STS_NORMAL_STOP) →
      ∃ (d F1 F2 : ast_i2c_dev) (r : Nat),
        SameXfer (irq_entry ev a) d ∧
        (F1 = ast_i2c_master_xfer_done cfg ev.recov d ∨
          F1 = complete
            { clear_sts (ast_i2c_master_xfer_done cfg ev.recov d) AST_I2CD_INTR_STS_TX_ACK with
              cmd_err := (ast_i2c_master_xfer_done cfg ev.recov d).cmd_err |||
                AST_I2CD_INTR_STS_NORMAL_STOP }) ∧
        (F2 = F1 ∨
          F2 = clear_sts (ast_i2c_slave_addr_match cfg ev.page F1)
            AST_I2CD_INTR_STS_SLAVE_MATCH) ∧
        ((i2c_ast_handler cfg ev a).2 =
            ast_i2c_write (clear_sts F2 r) F2.func_ctrl_reg I2C_FUN_CTRL_REG ∨
          ((i2c_ast_handler cfg ev a).2 = ast_i2c_master_xfer_done cfg ev.recov d ∧
            d.cmd_complete = a.cmd_complete)) ∧
        ((switch_sts ev = AST_I2CD_INTR_STS_TX_ACK ∨
            switch_sts ev = AST_I2CD_INTR_STS_RX_DOWN ∨
            switch_sts ev = AST_I2CD_INTR_STS_TX_ACK ||| AST_I2CD_INTR_STS_NORMAL_STOP ∨
            switch_sts ev = AST_I2CD_INTR_STS_RX_DOWN ||| AST_I2CD_INTR_STS_NORMAL_STOP) →
          (i2c_ast_handler cfg ev a).2 = ast_i2c_master_xfer_done cfg ev.recov d ∧
            d.cmd_complete = a.cmd_complete) := by
    intro sts t ht hack hF0 hnone
    obtain ⟨d, F1, F2, r, hd, hF1, hF2, hF⟩ := handler_default_ack cfg ev sts t hack
    refine ⟨d, F1, F2, r, ?_, hF1, hF2, Or.inl (hF0.trans hF), fun hx => absurd hx hnone⟩
    rcases hd with hd | hd <;> subst hd
    · exact ht.same_trans (same_clear_sts _ _)
    · refine ht.same_trans (SameXfer.same_trans ?_ (same_clear_sts _ _))
      obtain ⟨c1, c2, c3, c4, c5, c6, c7, c8, c9⟩ :=
        same_clear_sts t AST_I2CD_INTR_STS_ARBIT_LOSS
      exact ⟨c1, c2, c3, c4, c5, c6, c7, c8, Nat.le_succ_of_le c9⟩
  rcases hcase with ⟨hst, hleft⟩ | ⟨hns, hcase⟩
  · -- the stop of a slave transaction is handled first
    obtain ⟨p1, p2, p3⟩ := slave_stop_step cfg ev.recov (switch_entry ev a)
    have q1 : SameXfer (irq_entry ev a)
        (clear_sts (ast_i2c_slave_xfer_done cfg ev.recov
          { switch_entry ev a with slave_event := SlaveEvent.STOP })
          AST_I2CD_INTR_STS_NORMAL_STOP) :=
      w1.same_trans (p1.same_trans (same_clear_sts _ _))
    have q2 : (clear_sts (ast_i2c_slave_xfer_done cfg ev.recov
          { switch_entry ev a with slave_event := SlaveEvent.STOP })
          AST_I2CD_INTR_STS_NORMAL_STOP).cmd_complete = a.cmd_complete := p2.trans w2
    have q3 : (clear_sts (ast_i2c_slave_xfer_done cfg ev.recov
          { switch_entry ev a with slave_event := SlaveEvent.STOP })
          AST_I2CD_INTR_STS_NORMAL_STOP).slave_operation ≠ 1 := by
      show (ast_i2c_slave_xfer_done cfg ev.recov
          { switch_entry ev a with slave_event := SlaveEvent.STOP }).slave_operation ≠ 1
      rw [p3]
      decide
    have hne : switch_sts ev &&& not32 AST_I2CD_INTR_STS_NORMAL_STOP ≠ 0 := by
      rcases hleft with h | h
      · rw [h]
        decide
      · intro h0
        rw [h0] at h
        exact h (by decide)
    have hsw := handler_slave_stop_first cfg ev a hbus hst hab hscl hne
    rcases hleft with h | hack
    · refine exact_case _ (q1.same_trans (same_clear_sts _ AST_I2CD_INTR_STS_RX_DOWN)) q2 ?_
      rw [hsw, h]
      exact switch_rx_down cfg ev _ q3
    · by_cases h1 : switch_sts ev &&& not32 AST_I2CD_INTR_STS_NORMAL_STOP =
          AST_I2CD_INTR_STS_TX_ACK
      · refine exact_case _ (q1.same_trans (same_clear_sts _ AST_I2CD_INTR_STS_TX_ACK)) q2 ?_
        rw [hsw, h1]
        exact switch_tx_ack cfg ev _ q3
      · have h2 : switch_sts ev &&& not32 AST_I2CD_INTR_STS_NORMAL_STOP ≠
            AST_I2CD_INTR_STS_TX_ACK ||| AST_I2CD_INTR_STS_NORMAL_STOP := by
          intro h
          have hb := and_not32_self (switch_sts ev) AST_I2CD_INTR_STS_NORMAL_STOP (by decide)
            (by decide)
          rw [h] at hb
          exact hb (by decide)
        refine sweep _ _ q1 hack ?_ ?_
        · rw [hsw, switch_default cfg ev _ _ hack h1 h2]
        · rintro (hx | hx | hx | hx)
          · exact hst.1 (by rw [hx]; decide)
          · exact hst.1 (by rw [hx]; decide)
          · exact h1 (by rw [hx]; decide)
          · exact hack (by rw [hx]; decide)
  · -- the handler goes to the switch with the latched status
    have hsw := handler_at_switch cfg ev a hbus hns hab hscl
    rcases hcase with ⟨h, hrole⟩ | h | ⟨hack, hrole, hstop⟩
    · refine exact_case (clear_sts (switch_entry ev a) AST_I2CD_INTR_STS_RX_DOWN)
        (w1.same_trans (same_clear_sts _ _)) w2 ?_
      rw [hsw, h]
      exact switch_rx_down cfg ev _ (by rw [w3]; exact hrole)
    · by_cases h0 : a.slave_operation = 0
      · refine exact_case (intr_ctrl_set (clear_sts (switch_entry ev a)
            (AST_I2CD_INTR_STS_RX_DOWN ||| AST_I2CD_INTR_STS_NORMAL_STOP))
            AST_I2CD_RX_DOWN_INTR_EN)
          (w1.same_trans ((same_clear_sts _ _).same_trans (same_intr_set _ _))) w2 ?_
        rw [hsw, h]
        exact switch_rx_stop cfg ev _ (by rw [w3]; exact h0)
      · obtain ⟨p1, p2, p3⟩ := slave_stop_step cfg ev.recov (switch_entry ev a)
        refine exact_case _
          (w1.same_trans (p1.same_trans ((same_clear_sts _
            (AST_I2CD_INTR_STS_RX_DOWN ||| AST_I2CD_INTR_STS_NORMAL_STOP)).same_trans
            (same_intr_set _ AST_I2CD_RX_DOWN_INTR_EN)))) (p2.trans w2) ?_
        rw [hsw, h]
        exact switch_rx_stop_slave cfg ev _ (by rw [w3]; exact h0)
    · by_cases h1 : switch_sts ev = AST_I2CD_INTR_STS_TX_ACK
      · refine exact_case (clear_sts (switch_entry ev a) AST_I2CD_INTR_STS_TX_ACK)
          (w1.same_trans (same_clear_sts _ _)) w2 ?_
        rw [hsw, h1]
        exact switch_tx_ack cfg ev _ (by rw [w3]; exact hrole h1)
      · by_cases h2 : switch_sts ev =
            AST_I2CD_INTR_STS_TX_ACK ||| AST_I2CD_INTR_STS_NORMAL_STOP
        · obtain ⟨hl, h0⟩ := hstop h2
          refine exact_case (intr_ctrl_set (clear_sts (switch_entry ev a)
              (AST_I2CD_INTR_STS_TX_ACK ||| AST_I2CD_INTR_STS_NORMAL_STOP))
              AST_I2CD_TX_ACK_INTR_EN)
            (w1.same_trans ((same_clear_sts _ _).same_trans (same_intr_set _ _))) w2 ?_
          rw [hsw, h2]
          exact switch_ack_stop cfg ev _ (by rw [w4]; exact hl) (by rw [w3]; exact h0)
        · refine sweep _ _ w1 hack ?_ ?_
          · rw [hsw, switch_default cfg ev _ _ hack h1 h2]
          · have hne : ∀ L : Nat, L &&& AST_I2CD_INTR_STS_TX_ACK = 0 → switch_sts ev ≠ L := by
              intro L hL h
              exact hack (h ▸ hL)
            rintro (hx | hx | hx | hx)
            · exact h1 hx
            · exact hne _ (by decide) hx
            · exact h2 hx
            · exact hne _ (by decide) hx

/-- C7: while message `k` of a call is waited for, an interrupt at which the
handler runs `ast_i2c_master_xfer_done` (`Irq.runsDone`: the cases TX_ACK and
RX_DOWN outside a slave transaction, TX_ACK | NORMAL_STOP on the last message,
RX_DOWN | NORMAL_STOP, every status with TX_ACK that falls to the default
label, and the same after the stop of a slave transaction has been handled
first) and at which the chunk length the routine extracts differs from the
armed `master_xfer_len`. The handler forces one bus reset, sets the error
accumulator (to 1; the normal-stop step of the default label may add its bit),
keeps `master_xfer_cnt`, signals the completion and writes no transfer command
(no further chunk is armed), and the call returns the negative code
`-EAGAIN`. When the status on which the handler switches is one of the four
enumerated ones, `cmd_err` is 1, the completion is signalled once and the only
commands written are those of the recovery. And whenever the routine itself is
entered with such a mismatch, from any state, it does the same. -/
theorem C7_length_mismatch_fault (cfg : Config) (env : XferEnv) (msgs : List i2c_msg)
    (num : Int) (s : ast_i2c_dev) (k : Nat) (pre rest : List Irq) (ev : Irq) (m : i2c_msg)
    (hs : s.slave_operation ≠ 1) (hk : (k : Int) < num)
    (hpre : (loop_upto cfg env msgs num s k).stopped = false)
    (hirqs : (wait_env env k).irqs = pre ++ ev :: rest)
    (hwait : (wait_irqs cfg pre (armed_msg cfg env msgs num s k)).cmd_complete = 0)
    (hmsg : (wait_irqs cfg pre (armed_msg cfg env msgs num s k)).master_msgs = some m)
    (hev : ev.runsDone (wait_irqs cfg pre (armed_msg cfg env msgs num s k)))
    (hmis : (master_extract cfg m
        (irq_entry ev (wait_irqs cfg pre (armed_msg cfg env msgs num s k)))).1 ≠
      u32 (wait_irqs cfg pre (armed_msg cfg env msgs num s k)).master_xfer_len) :
    (i2c_ast_handler cfg ev
      (wait_irqs cfg pre (armed_msg cfg env msgs num s k))).2.bus_master_reset_cnt =
      inc16 (wait_irqs cfg pre (armed_msg cfg env msgs num s k)).bus_master_reset_cnt ∧
    ((i2c_ast_handler cfg ev
      (wait_irqs cfg pre (armed_msg cfg env msgs num s k))).2.cmd_err = 1 ∨
      (i2c_ast_handler cfg ev
      (wait_irqs cfg pre (armed_msg cfg env msgs num s k))).2.cmd_err =
        1 ||| AST_I2CD_INTR_STS_NORMAL_STOP) ∧
    (i2c_ast_handler cfg ev
      (wait_irqs cfg pre (armed_msg cfg env msgs num s k))).2.master_xfer_cnt =
      (wait_irqs cfg pre (armed_msg cfg env msgs num s k)).master_xfer_cnt ∧
    0 < (i2c_ast_handler cfg ev
      (wait_irqs cfg pre (armed_msg cfg env msgs num s k))).2.cmd_complete ∧
    NoTransferCmd (wait_irqs cfg pre (armed_msg cfg env msgs num s k))
      (i2c_ast_handler cfg ev
      (wait_irqs cfg pre (armed_msg cfg env msgs num s k))).2 ∧
    ((switch_sts ev = AST_I2CD_INTR_STS_TX_ACK ∨ switch_sts ev = AST_I2CD_INTR_STS_RX_DOWN ∨
        switch_sts ev = AST_I2CD_INTR_STS_TX_ACK ||| AST_I2CD_INTR_STS_NORMAL_STOP ∨
        switch_sts ev = AST_I2CD_INTR_STS_RX_DOWN ||| AST_I2CD_INTR_STS_NORMAL_STOP) →
      (i2c_ast_handler cfg ev
      (wait_irqs cfg pre (armed_msg cfg env msgs num s k))).2.cmd_err = 1 ∧
      (i2c_ast_handler cfg ev
      (wait_irqs cfg pre (armed_msg cfg env msgs num s k))).2.cmd_complete = 1 ∧
      OnlyRecoveryCmds (wait_irqs cfg pre (armed_msg cfg env msgs num s k))
        (i2c_ast_handler cfg ev
      (wait_irqs cfg pre (armed_msg cfg env msgs num s k))).2) ∧
    (ast_i2c_do_msgs_xfer cfg env msgs num s).1 = -EAGAIN ∧
    (ast_i2c_do_msgs_xfer cfg env msgs num s).1 < 0 ∧
    (∀ (renv : RecoverEnv) (t : ast_i2c_dev) (m0 : i2c_msg), t.master_msgs = some m0 →
      (master_extract cfg m0 t).1 ≠ u32 t.master_xfer_len →
      (ast_i2c_master_xfer_done cfg renv t).bus_master_reset_cnt =
        inc16 t.bus_master_reset_cnt ∧
      (ast_i2c_master_xfer_done cfg renv t).cmd_err = 1 ∧
      (ast_i2c_master_xfer_done cfg renv t).master_xfer_cnt = t.master_xfer_cnt ∧
      0 < (ast_i2c_master_xfer_done cfg renv t).cmd_complete ∧
      OnlyRecoveryCmds t (ast_i2c_master_xfer_done cfg renv t)) := by
  set a := wait_irqs cfg pre (armed_msg cfg env msgs num s k) with ha
  obtain ⟨d, F1, F2, r, hd, hF1, hF2, hF, hexact⟩ := handler_runs_done cfg ev a hev
  obtain ⟨i1, i2, i3, i4, i5, i6⟩ := same_irq_entry ev a
  have hdm : d.master_msgs = some m := by rw [hd.msgs, i1]; exact hmsg
  have hdmis : (master_extract cfg m d).1 ≠ u32 d.master_xfer_len := by
    rw [master_extract_fst_congr cfg m d (irq_entry ev a) hd.cnt hd.mode hd.len hd.buf_ctrl
      hd.dma_len, hd.len, i3]
    exact hmis
  obtain ⟨m1, m2, m3, m4, m5, m6, m7⟩ := done_mismatch cfg ev.recov d m hdm hdmis
  have hreset : d.bus_master_reset_cnt = a.bus_master_reset_cnt := hd.reset.trans i4
  have hcnt : d.master_xfer_cnt = a.master_xfer_cnt := hd.cnt.trans i2
  have hcmds : writes_to I2C_CMD_REG d.writes = writes_to I2C_CMD_REG a.writes :=
    hd.cmds.trans i5
  have hrec : OnlyRecoveryCmds a (ast_i2c_master_xfer_done cfg ev.recov d) := by
    obtain ⟨l, el, hl⟩ := m6
    exact ⟨l, by rw [el, hcmds], hl⟩
  have hgen : (i2c_ast_handler cfg ev a).2.bus_master_reset_cnt =
        inc16 a.bus_master_reset_cnt ∧
      ((i2c_ast_handler cfg ev a).2.cmd_err = 1 ∨
        (i2c_ast_handler cfg ev a).2.cmd_err = 1 ||| AST_I2CD_INTR_STS_NORMAL_STOP) ∧
      (i2c_ast_handler cfg ev a).2.master_xfer_cnt = a.master_xfer_cnt ∧
      0 < (i2c_ast_handler cfg ev a).2.cmd_complete ∧
      NoTransferCmd a (i2c_ast_handler cfg ev a).2 := by
    rcases hF with hF | ⟨hF, _⟩
    · obtain ⟨t1, t2, t3, t4, t5⟩ := sweep_tail_kept cfg ev.page _ F1 F2 r m7 hF1 hF2
      rw [hF]
      refine ⟨by rw [t1, m1, hreset], ?_, by rw [t2, m3, hcnt], lt_of_lt_of_le m4 t3,
        noTransferCmd_trans (noTransferCmd_of_recovery hrec) t5⟩
      rw [m2] at t4
      exact t4
    · rw [hF]
      exact ⟨by rw [m1, hreset], Or.inl m2, by rw [m3, hcnt], m4,
        noTransferCmd_of_recovery hrec⟩
  obtain ⟨g1, g2, g3, g4, g5⟩ := hgen
  have hw : wait_irqs cfg (wait_env env k).irqs (armed_msg cfg env msgs num s k) =
      (i2c_ast_handler cfg ev a).2 := by
    rw [hirqs, wait_irqs_append cfg pre _ _ hwait]
    have hd0 : ¬ (a.cmd_complete > 0) := by rw [hwait]; decide
    simp only [← ha, wait_irqs, hd0, if_false]
    exact wait_irqs_done cfg rest _ g4
  have hret := do_msgs_abort cfg env msgs num s k hs hk hpre (by rw [hw]; exact g4)
    (by rw [hw]; rcases g2 with h | h <;> rw [h] <;> decide)
    (by rw [hw]; rcases g2 with h | h <;> rw [h] <;> decide)
  refine ⟨g1, g2, g3, g4, g5, ?_, hret, by rw [hret]; decide, ?_⟩
  · intro hx
    obtain ⟨e1, e2⟩ := hexact hx
    rw [e1]
    exact ⟨m2, m5 (e2.trans hwait), hrec⟩
  · intro renv t m0 ht hm0
    obtain ⟨n1, n2, n3, n4, _, n6, _⟩ := done_mismatch cfg renv t m0 ht hm0
    exact ⟨n1, n2, n3, n4, n6⟩

/-- C7 in pool mode with a page of 2 bytes, on the last chunk of the only
message: the address and the first byte of a 3-byte write are acknowledged,
then the chunk of the other 2 bytes, armed with the stop command, ends with
TX_ACK | NORMAL_STOP reporting 1 byte sent instead of 2; the reset counter goes
to 1, `cmd_err` is 1, the counter stays at 1 and the call returns -11. -/
theorem C7_length_mismatch_fault_witness :
    (i2c_ast_handler { master_dma := DmaMode.BUFF_MODE } (ack_stop_tx_irq 0)
      (wait_irqs { master_dma := DmaMode.BUFF_MODE } [ack_tx_irq 1]
        (submit_arm { master_dma := DmaMode.BUFF_MODE } (some page2) 1
          { addr := 0x50, len := 3, buf := [1, 2, 3] } {}))).2.bus_master_reset_cnt = 1 ∧
    (i2c_ast_handler { master_dma := DmaMode.BUFF_MODE } (ack_stop_tx_irq 0)
      (wait_irqs { master_dma := DmaMode.BUFF_MODE } [ack_tx_irq 1]
        (submit_arm { master_dma := DmaMode.BUFF_MODE } (some page2) 1
          { addr := 0x50, len := 3, buf := [1, 2, 3] } {}))).2.cmd_err = 1 ∧
    (i2c_ast_handler { master_dma := DmaMode.BUFF_MODE } (ack_stop_tx_irq 0)
      (wait_irqs { master_dma := DmaMode.BUFF_MODE } [ack_tx_irq 1]
        (submit_arm { master_dma := DmaMode.BUFF_MODE } (some page2) 1
          { addr := 0x50, len := 3, buf := [1, 2, 3] } {}))).2.master_xfer_cnt = 1 ∧
    (ast_i2c_do_msgs_xfer { master_dma := DmaMode.BUFF_MODE }
      { page := some page2, waits := [{ irqs := [ack_tx_irq 1, ack_stop_tx_irq 0] }] }
      [{ addr := 0x50, len := 3, buf := [1, 2, 3] }] 1 {}).1 = -11 := by
  have h := C7_length_mismatch_fault { master_dma := DmaMode.BUFF_MODE }
    { page := some page2, waits := [{ irqs := [ack_tx_irq 1, ack_stop_tx_irq 0] }] }
    [{ addr := 0x50, len := 3, buf := [1, 2, 3] }] 1 {} 0 [ack_tx_irq 1] []
    (ack_stop_tx_irq 0) { addr := 0x50, len := 3, buf := [1, 2, 3] }
    (by decide) (by decide) (by decide) rfl (by decide) (by decide) (by decide)
    (by decide)
  exact ⟨h.1, (h.2.2.2.2.2.1 (Or.inr (Or.inr (Or.inl (by decide))))).1, h.2.2.1,
    h.2.2.2.2.2.2.1⟩

end AstI2c
